import Mathlib

/-!
# Reduce-exchange subsystem: connection state machine, framing and dispatcher

A shallow embedding of `src/backend/reduce/rdc_comm.c` and
`src/bin/adb_reduce/rdc_handler.c`.

Conventions of the embedding

* A `StringInfo` is represented by the list of its `len` valid bytes, its
  `cursor` and its `maxlen`; `len` is the length of the list.  Bytes are
  natural numbers read modulo 256.
* `char` is the signed 8-bit type of the x86-64 ABI the program is built
  for: storing the `int` returned by `rdc_getbyte` in a `char` narrows it.
* Wire integers are handled as unsigned bit patterns (`uint32`, 64-bit
  port ids); every comparison the code makes on them is an equality test.
* System calls are scripted: a port carries the list of outcomes its next
  `recv` and `send` calls will have, and an address entry carries the
  outcomes of the calls made while it is tried.  The bytes accepted by
  `send` are logged in `wire`.
* `ereport(ERROR, ...)` leaves the running function by a non-local jump
  and is the outcome `Res.raised`; `Res.stuck` is an execution that does
  not return or has no defined result (script or fuel exhausted, null
  dereference, read of freed memory).
* `Assert`/`AssertArg` are compiled out, and log output (`elog(LOG)`,
  `ereport(COMMERROR)`) and the `DEBUG_ADB` fields have no effect on state.
-/

namespace Rdc

/-! ## The even/odd dial rule of `rdc_parse_group` -/

/-- Embedding of `IdxIsEven(idx)`, that is `((idx) % 2 == 0)` on a C `int`. -/
def IdxIsEven (idx : Int) : Bool := Int.tmod idx 2 == 0

/-- Embedding of `IdxIsOdd(idx)`, that is `((idx) % 2 == 1)` on a C `int`. -/
def IdxIsOdd (idx : Int) : Bool := Int.tmod idx 2 == 1

/-- The condition under which `rdc_parse_group` opens a connection from the
reducer at index `self_rdc_idx` to the one at index `othr_rdc_idx`. -/
def dial (self_rdc_idx othr_rdc_idx : Int) : Bool :=
  (IdxIsEven self_rdc_idx && IdxIsEven othr_rdc_idx && decide (othr_rdc_idx > self_rdc_idx)) ||
  (IdxIsEven self_rdc_idx && IdxIsOdd othr_rdc_idx && decide (othr_rdc_idx < self_rdc_idx)) ||
  (IdxIsOdd self_rdc_idx && IdxIsOdd othr_rdc_idx && decide (othr_rdc_idx > self_rdc_idx)) ||
  (IdxIsOdd self_rdc_idx && IdxIsEven othr_rdc_idx && decide (othr_rdc_idx < self_rdc_idx))

/-! ## Byte buffers -/

/-- The C constant `EOF`. -/
def EOF : Int := -1

/-- Embedding of `RDC_BUFFER_SIZE`. -/
def RDC_BUFFER_SIZE : Nat := 8192

/-- A `StringInfoData`: `data` holds the `len` valid bytes. -/
structure StringInfo where
  data : List Nat
  cursor : Nat
  maxlen : Nat
deriving DecidableEq, Repr

/-- The field `len`. -/
def StringInfo.len (b : StringInfo) : Nat := b.data.length

/-- The bytes at and after the cursor. -/
def StringInfo.unread (b : StringInfo) : List Nat := b.data.drop b.cursor

/-- Modelled from the spec: `initStringInfoExtend` (stringinfo.c) is not among the
sources; per §4.1 a buffer starts empty with the given initial capacity. -/
def initStringInfoExtend (size : Nat) : StringInfo := { data := [], cursor := 0, maxlen := size }

/-- Modelled from the spec: `resetStringInfo` (stringinfo.c) is not among the
sources; per §4.1 `reset()` empties the buffer and rewinds the cursor. -/
def resetStringInfo (b : StringInfo) : StringInfo := { b with data := [], cursor := 0 }

/-- Conversion of an `int` to a (signed) `char`. -/
def toChar (v : Int) : Int := (v + 128) % 256 - 128

/-- Big-endian value of a byte string. -/
def beDecode (bs : List Nat) : Nat := bs.foldl (fun acc b => acc * 256 + b % 256) 0

/-- Big-endian encoding of `v` on `n` bytes. -/
def beEncode : Nat → Nat → List Nat
  | 0, _ => []
  | n + 1, v => beEncode n (v / 256) ++ [v % 256]

/-- Modelled from the spec: `rdc_getmsgbytes` (rdc_msg.c) is not among the sources;
it hands out the next `datalen` payload bytes and advances the cursor.  A
request the buffered bytes cannot satisfy is `none` (the callers turn it
into an error). -/
def rdc_getmsgbytes (msg : StringInfo) (datalen : Int) : Option (List Nat × StringInfo) :=
  if datalen < 0 ∨ datalen > (msg.len : Int) - (msg.cursor : Int) then none
  else some (msg.unread.take datalen.toNat, { msg with cursor := msg.cursor + datalen.toNat })

/-- Modelled from the spec: `rdc_getmsgbyte` (rdc_msg.c) is not among the sources;
per §4.2 it reads the one-byte field at the cursor. -/
def rdc_getmsgbyte (msg : StringInfo) : Option (Nat × StringInfo) :=
  match rdc_getmsgbytes msg 1 with
  | some (bs, msg1) => some (beDecode bs, msg1)
  | none => none

/-- Modelled from the spec: `rdc_getmsgint` (rdc_msg.c) is not among the sources;
per §4.2 integers in the payload are fixed-width big-endian. -/
def rdc_getmsgint (msg : StringInfo) (b : Nat) : Option (Nat × StringInfo) :=
  match rdc_getmsgbytes msg b with
  | some (bs, msg1) => some (beDecode bs, msg1)
  | none => none

/-- Modelled from the spec: `rdc_getmsgRdcPortID` (rdc_msg.c) is not among the
sources; per §4.2 a `PortId` is 8 bytes, big-endian. -/
def rdc_getmsgRdcPortID (msg : StringInfo) : Option (Nat × StringInfo) :=
  rdc_getmsgint msg 8

/-- Modelled from the spec: `rdc_getmsgstring` (rdc_msg.c) is not among the
sources; per §4.2 strings are null-terminated.  The result is the bytes
before the terminator; a string without terminator is `none`. -/
def rdc_getmsgstring (msg : StringInfo) : Option (List Nat × StringInfo) :=
  let str := msg.unread.takeWhile (fun b => b % 256 != 0)
  if str.length < msg.unread.length then
    some (str, { msg with cursor := msg.cursor + str.length + 1 })
  else none

/-- The doubling loop of a buffer enlargement: `while (needed > newlen) newlen = 2 * newlen`. -/
def doubleUntil : Nat → Nat → Nat → Nat
  | 0, newlen, _ => newlen
  | fuel + 1, newlen, needed =>
    if needed > newlen then doubleUntil fuel (2 * newlen) needed else newlen

/-- Text of a message as a byte string. -/
def cstr (m : String) : List Nat := m.data.map Char.toNat

/-- Parameters of the embedding: the constants of `rdc_comm.h`/`rdc_msg.h`
and the helpers of `rdc_msg.c`/`stringinfo.c` whose definitions are not
among the sources and on which the spec is silent. -/
structure Env where
  /-- The protocol version. -/
  RDC_VERSION_NUM : Nat
  /-- The type tags, as `char` values. -/
  RDC_START_RQT : Int
  RDC_START_RSP : Int
  RDC_ERROR_MSG : Int
  MSG_P2R_DATA : Int
  MSG_R2R_DATA : Int
  MSG_R2P_DATA : Int
  MSG_EOF : Int
  MSG_PLAN_CLOSE : Int
  MSG_ERROR : Int
  /-- The id of the local reducer. -/
  MyReduceId : Nat
  /-- Whether `rdc_getmsgend` returns normally on a buffer. -/
  rdc_getmsgend : StringInfo → Bool
  /-- Whether `enlargeStringInfo(buf, needed)` reports an error (`needed` as `int`). -/
  enlarge_fails : StringInfo → Int → Bool

/-- Modelled from the spec: `enlargeStringInfo` (stringinfo.c) is not among the
sources; per §4.1 `grow(n)` ensures capacity for `n` more bytes (and the
terminator) by doubling.  `none` is an error report. -/
def enlargeStringInfo (E : Env) (str : StringInfo) (needed : Int) : Option StringInfo :=
  if E.enlarge_fails str needed then none
  else
    let need := needed.toNat + str.len + 1
    if need ≤ str.maxlen then some str
    else some { str with maxlen := doubleUntil need (2 * str.maxlen) need }

/-- Modelled from the spec: `appendBinaryStringInfo` (stringinfo.c) is not among
the sources; per §4.1 `append(bytes)` grows the buffer as needed and adds
the bytes after the valid ones. -/
def appendBinaryStringInfo (E : Env) (str : StringInfo) (bs : List Nat) : Option StringInfo :=
  match enlargeStringInfo E str bs.length with
  | some str1 => some { str1 with data := str1.data ++ bs }
  | none => none

/-! ## Ports -/

/-- Connection status of a port (`RdcConnStatusType`); `corrupt` stands for
any value outside the enumeration. -/
inductive RdcConnStatusType where
  | RDC_CONNECTION_OK
  | RDC_CONNECTION_BAD
  | RDC_CONNECTION_STARTED
  | RDC_CONNECTION_MADE
  | RDC_CONNECTION_AWAITING_RESPONSE
  | RDC_CONNECTION_AUTH_OK
  | RDC_CONNECTION_ACCEPT
  | RDC_CONNECTION_ACCEPT_NEED
  | RDC_CONNECTION_SENDING_RESPONSE
  | RDC_CONNECTION_NEEDED
  | corrupt (v : Nat)
deriving DecidableEq, Repr

/-- Result of one poll step (`RdcPollingStatusType`). -/
inductive RdcPollingStatusType where
  | RDC_POLLING_FAILED
  | RDC_POLLING_READING
  | RDC_POLLING_WRITING
  | RDC_POLLING_OK
deriving DecidableEq, Repr

/-- Modelled from the spec: the wait-event constants (`WAIT_NONE`,
`WAIT_SOCKET_READABLE`, `WAIT_SOCKET_WRITEABLE`) are not among the sources;
per §3 `wait_events` is a bitset over READABLE and WRITABLE. -/
structure WaitEvents where
  readable : Bool
  writable : Bool
deriving DecidableEq, Repr

/-- Embedding of `WAIT_NONE`. -/
def WAIT_NONE : WaitEvents := { readable := false, writable := false }

/-- Embedding of `WAIT_SOCKET_READABLE`. -/
def WAIT_SOCKET_READABLE : WaitEvents := { readable := true, writable := false }

/-- Embedding of `WAIT_SOCKET_WRITEABLE`. -/
def WAIT_SOCKET_WRITEABLE : WaitEvents := { readable := false, writable := true }

/-- Port flags (`RDC_FLAG_VALID`, `RDC_FLAG_CLOSED`). -/
inductive RdcFlag where
  | RDC_FLAG_VALID
  | RDC_FLAG_CLOSED
deriving DecidableEq, Repr

/-- Outcome of one `recv` call. -/
inductive RecvOutcome where
  /-- Bytes are available: `recv` returns as many as fit. -/
  | bytes (bs : List Nat)
  /-- `recv` fails with `EINTR`. -/
  | eintr
  /-- `recv` fails with `EAGAIN` or `EWOULDBLOCK`. -/
  | again
  /-- `recv` returns 0. -/
  | shutdown
  /-- `recv` fails with any other error. -/
  | fail
deriving DecidableEq, Repr

/-- Outcome of one `send` call. -/
inductive SendOutcome where
  /-- The socket takes up to `r` bytes, and at least one (`send` returns that count). -/
  | accepted (r : Nat)
  /-- `send` fails with `EINTR`. -/
  | eintr
  /-- `send` fails with `EAGAIN` or `EWOULDBLOCK`. -/
  | again
  /-- `send` fails with any other error. -/
  | fail
deriving DecidableEq, Repr

/-- Outcome of `connect`. -/
inductive ConnectOutcome where
  /-- `connect` returns 0. -/
  | connected
  /-- `connect` fails with `EINPROGRESS` or `EINTR`. -/
  | inprogress
  /-- `connect` fails with any other error. -/
  | fail
deriving DecidableEq, Repr

/-- One entry of the resolved address list, with the outcomes of the system
calls made when it is tried. -/
structure AddrInfo where
  /-- `IS_AF_INET(ai_family)`. -/
  is_inet : Bool
  /-- Result of `socket()`; `-1` is `PGINVALID_SOCKET`. -/
  socket_fd : Int
  /-- `pg_set_noblock` succeeds on the new socket. -/
  noblock_ok : Bool
  /-- `setsockopt(TCP_NODELAY)` succeeds. -/
  nodelay_ok : Bool
  /-- `setsockopt(SO_KEEPALIVE)` succeeds. -/
  keepalive_ok : Bool
  /-- `fcntl(F_SETFD, FD_CLOEXEC)` succeeds. -/
  cloexec_ok : Bool
  /-- Result of `connect`. -/
  connect : ConnectOutcome
  /-- `getsockopt(SO_ERROR)` succeeds. -/
  getsockopt_ok : Bool
  /-- The value `getsockopt(SO_ERROR)` stores in `optval`. -/
  so_error : Int
  /-- `getsockname` succeeds. -/
  getsockname_ok : Bool
deriving DecidableEq, Repr

/-- Embedding of `PGINVALID_SOCKET`. -/
def PGINVALID_SOCKET : Int := -1

/-- An `RdcPort`.  `addrs` and `addr_cur` are the address list and what is
left of it from the current entry on (`[]` is `NULL`).  The last four fields
describe the socket: whether `pg_set_noblock` succeeds on it, the outcomes
of the coming `recv` and `send` calls, and the bytes `send` has accepted. -/
structure RdcPort where
  sock : Int
  noblock : Bool
  active : Bool
  peer_type : Nat
  peer_id : Nat
  self_type : Nat
  self_id : Nat
  version : Nat
  wait_events : WaitEvents
  send_eof : Bool
  status : RdcConnStatusType
  flags : RdcFlag
  addrs : List AddrInfo
  addr_cur : List AddrInfo
  in_buf : StringInfo
  out_buf : StringInfo
  err_buf : StringInfo
  pg_set_noblock_ok : Bool
  recvs : List RecvOutcome
  sends : List SendOutcome
  wire : List Nat
deriving DecidableEq, Repr

/-- The process-wide flags `ClientConnectionLost` and `InterruptPending`. -/
structure Globals where
  ClientConnectionLost : Bool
  InterruptPending : Bool
deriving DecidableEq, Repr

/-- A port together with the process-wide flags. -/
structure PSt where
  p : RdcPort
  g : Globals
deriving DecidableEq, Repr

/-- How a call ends: it returns `a` in state `s`, it reports an error in
state `s` (`ereport(ERROR)`), or it does not return. -/
inductive Res (σ α : Type) where
  | ret (a : α) (s : σ)
  | raised (s : σ)
  | stuck
deriving DecidableEq, Repr

/-- Sequencing of calls. -/
def Res.bind {σ α β : Type} (r : Res σ α) (f : α → σ → Res σ β) : Res σ β :=
  match r with
  | .ret a s => f a s
  | .raised s => .raised s
  | .stuck => .stuck

/-- Embedding of `rdc_puterror`: the error buffer is replaced by the message (`replace` is
always true).  The message is kept as its format text; conversions are not
expanded. -/
def rdc_puterror (port : RdcPort) (fmt : List Nat) : RdcPort :=
  let need := fmt.length + 1
  let mx := port.err_buf.maxlen
  { port with err_buf :=
      { data := fmt, cursor := 0,
        maxlen := if need ≤ mx then mx else doubleUntil need (2 * mx) need } }

/-- Embedding of `rdc_puterror` on the port of a state. -/
def PSt.err (s : PSt) (fmt : String) : PSt := { s with p := rdc_puterror s.p (cstr fmt) }

/-- Embedding of `drop_connection`. -/
def drop_connection (port : RdcPort) (flushInput : Bool) : RdcPort :=
  let port1 := { port with sock := PGINVALID_SOCKET }
  let port2 := if flushInput then { port1 with in_buf := resetStringInfo port1.in_buf } else port1
  { port2 with out_buf := resetStringInfo port2.out_buf }

/-- Embedding of `drop_connection` on the port of a state. -/
def PSt.dropConn (s : PSt) (flushInput : Bool) : PSt :=
  { s with p := drop_connection s.p flushInput }

/-- Embedding of `rdc_set_block`: only the flag is changed. -/
def rdc_set_block (port : RdcPort) : Int × RdcPort :=
  (1, { port with noblock := false })

/-- Embedding of `rdc_set_noblock`. -/
def rdc_set_noblock (port : RdcPort) : Int × RdcPort :=
  if port.noblock = true then (1, port)
  else if !port.pg_set_noblock_ok then
    (0, rdc_puterror port (cstr "could set socket to noblocking mode: %m"))
  else (1, { port with noblock := true })

/-- Modelled from the spec: `CHECK_FOR_INTERRUPTS` (miscadmin.h, rdc_globals.h) is
not among the sources; per §5 a set interrupt-pending flag makes the next
safe point exit.  The result says whether the call returns. -/
def CHECK_FOR_INTERRUPTS (g : Globals) : Bool := !g.InterruptPending

/-- The loop of `rdc_recv` with `rdc_secure_read` inlined, over the outcomes
of the successive `recv` calls.  In blocking mode `rdc_secure_read` waits for
the socket and calls `recv` again when it would block. -/
def rdc_recv_loop (s : PSt) : List RecvOutcome → Res PSt Int
  | [] => .stuck
  | o :: rest =>
    let s1 : PSt := { s with p := { s.p with recvs := rest } }
    match o with
    | .again =>
      if !s.p.noblock then rdc_recv_loop s rest
      else if !CHECK_FOR_INTERRUPTS s.g then .raised s1
      else .ret 0 s1
    | .eintr =>
      if !CHECK_FOR_INTERRUPTS s.g then .raised s1
      else rdc_recv_loop s rest
    | .fail =>
      if !CHECK_FOR_INTERRUPTS s.g then .raised s1
      else .ret EOF (s1.err "could not receive data from [%s %ld] \x7b%s:%s\x7d: %m")
    | .shutdown =>
      if !CHECK_FOR_INTERRUPTS s.g then .raised s1
      else .ret EOF (s1.err "the peer of [%s %ld] \x7b%s:%s\x7d has performed an orderly shutdown")
    | .bytes bs =>
      let r := min bs.length (s.p.in_buf.maxlen - s.p.in_buf.len)
      let left := if bs.drop r = [] then rest else RecvOutcome.bytes (bs.drop r) :: rest
      let s2 : PSt := { s with p := { s.p with recvs := left } }
      if !CHECK_FOR_INTERRUPTS s.g then .raised s2
      else if r = 0 then
        .ret EOF (s2.err "the peer of [%s %ld] \x7b%s:%s\x7d has performed an orderly shutdown")
      else
        .ret 1 { s2 with p := { s2.p with
          in_buf := { s2.p.in_buf with data := s2.p.in_buf.data ++ bs.take r } } }

/-- Embedding of `rdc_recv`: left-justify the unread input, then receive. -/
def rdc_recv (s : PSt) : Res PSt Int :=
  let buf := s.p.in_buf
  let buf1 : StringInfo :=
    if buf.cursor > 0 then
      if buf.cursor < buf.len then { buf with data := buf.data.drop buf.cursor, cursor := 0 }
      else { buf with data := [], cursor := 0 }
    else buf
  rdc_recv_loop { s with p := { s.p with in_buf := buf1 } } s.p.recvs

/-- What `rdc_getbyte` returns once a byte is buffered: `rdc_getmsgbyte`. -/
def getbyte_buffered (s : PSt) : Res PSt Int :=
  match rdc_getmsgbyte s.p.in_buf with
  | some (b, buf) => .ret (b : Int) { s with p := { s.p with in_buf := buf } }
  | none => .raised s

/-- Embedding of `rdc_getbyte`. -/
def rdc_getbyte (s : PSt) : Res PSt Int :=
  if s.p.in_buf.cursor ≥ s.p.in_buf.len then
    if s.p.noblock then .ret EOF s
    else
      (rdc_recv s).bind fun r s1 =>
        if r = EOF then .ret EOF s1 else getbyte_buffered s1
  else getbyte_buffered s

/-- Embedding of `rdc_discardbytes`; `len` is a `size_t`. -/
def rdc_discardbytes : Nat → PSt → Nat → Res PSt Int
  | 0, _, _ => .stuck
  | fuel + 1, s, len =>
    if len = 0 then .ret 0 s
    else if s.p.in_buf.cursor ≥ s.p.in_buf.len then
      (rdc_recv s).bind fun r s1 =>
        if r = EOF then .ret EOF s1 else rdc_discardbytes fuel s1 len
    else
      let amount := min (s.p.in_buf.len - s.p.in_buf.cursor) len
      rdc_discardbytes fuel
        { s with p := { s.p with in_buf := { s.p.in_buf with cursor := s.p.in_buf.cursor + amount } } }
        (len - amount)

/-- The loops of `rdc_getbytes`; `len` is a `size_t`, and the comparisons are
made in `size_t` arithmetic. -/
def rdc_getbytes_loop (E : Env) : Nat → PSt → Nat → Res PSt Int
  | 0, _, _ => .stuck
  | fuel + 1, s, len =>
    let buf := s.p.in_buf
    if len = 0 then .ret 0 s
    else if (buf.cursor + len) % 2 ^ 64 > buf.len then
      if s.p.noblock then .ret EOF s
      else
        let room : Int := (buf.maxlen : Int) - (buf.len : Int) - 1 + (buf.cursor : Int)
        let grown : Option StringInfo :=
          if (room % 2 ^ 64).toNat < len then
            enlargeStringInfo E buf (((len : Int) + 2 ^ 31) % 2 ^ 32 - 2 ^ 31)
          else some buf
        match grown with
        | none =>
          (rdc_discardbytes (fuel + 1) s len).bind fun _ s1 => .raised s1
        | some buf1 =>
          (rdc_recv { s with p := { s.p with in_buf := buf1 } }).bind fun r s1 =>
            if r = EOF then .ret EOF s1 else rdc_getbytes_loop E fuel s1 len
    else
      let amount := (((buf.len : Int) - (buf.cursor : Int)) % 2 ^ 64).toNat
      if amount ≥ len then .ret 0 s
      else rdc_getbytes_loop E fuel s (len - amount)

/-- Embedding of `rdc_getbytes`. -/
def rdc_getbytes (E : Env) (fuel : Nat) (s : PSt) (len : Nat) : Res PSt Int :=
  if len = 0 then .ret 0 s else rdc_getbytes_loop E fuel s len

/-! ## Output -/

/-- Embedding of `internal_flush_buffer`, over the outcomes of the successive `send` calls. -/
def internal_flush_buffer (block : Bool) (s : PSt) : List SendOutcome → Res PSt Int
  | [] =>
    if s.p.out_buf.cursor < s.p.out_buf.len then .stuck
    else .ret 0 { s with p := { s.p with out_buf := { s.p.out_buf with data := [], cursor := 0 } } }
  | o :: rest =>
    let buf := s.p.out_buf
    if buf.cursor < buf.len then
      match o with
      | .accepted r =>
        let n := max 1 (min r (buf.len - buf.cursor))
        internal_flush_buffer block
          { s with p := { s.p with
              out_buf := { buf with cursor := buf.cursor + n },
              wire := s.p.wire ++ (buf.data.drop buf.cursor).take n,
              sends := rest } } rest
      | .eintr => internal_flush_buffer block { s with p := { s.p with sends := rest } } rest
      | .again =>
        if block then internal_flush_buffer block { s with p := { s.p with sends := rest } } rest
        else .ret 1 { s with p := { s.p with sends := rest } }
      | .fail =>
        .ret EOF
          { p := { s.p with out_buf := { buf with data := [], cursor := 0 }, sends := rest },
            g := { ClientConnectionLost := true, InterruptPending := true } }
    else .ret 0 { s with p := { s.p with out_buf := { buf with data := [], cursor := 0 } } }

/-- Embedding of `rdc_flush`. -/
def rdc_flush (s : PSt) : Res PSt Int :=
  (internal_flush_buffer true s s.p.sends).bind fun r s1 =>
    if r ≠ 0 then .ret EOF s1 else .ret 0 s1

/-- Embedding of `rdc_try_flush`. -/
def rdc_try_flush (s : PSt) : Res PSt Int :=
  internal_flush_buffer false s s.p.sends

/-- The loop of `internal_put_buffer` for `enlarge = false`. -/
def put_buffer_loop (E : Env) : Nat → PSt → List Nat → Res PSt Int
  | 0, _, _ => .stuck
  | fuel + 1, s, bs =>
    if bs.length = 0 then .ret 0 s
    else
      (if s.p.out_buf.len + bs.length ≥ s.p.out_buf.maxlen then rdc_flush s else .ret 0 s).bind
        fun r s1 =>
          if r ≠ 0 then .ret EOF s1
          else
            let amount := min (s1.p.out_buf.maxlen - s1.p.out_buf.len) bs.length
            match appendBinaryStringInfo E s1.p.out_buf (bs.take amount) with
            | none => .raised s1
            | some buf => put_buffer_loop E fuel { s1 with p := { s1.p with out_buf := buf } }
                (bs.drop amount)

/-- Embedding of `internal_put_buffer`. -/
def internal_put_buffer (E : Env) (fuel : Nat) (s : PSt) (bs : List Nat) (enlarge : Bool) :
    Res PSt Int :=
  if enlarge then
    (if s.p.out_buf.len + bs.length ≥ s.p.out_buf.maxlen then rdc_flush s else .ret 0 s).bind
      fun r s1 =>
        if r ≠ 0 then .ret EOF s1
        else
          match appendBinaryStringInfo E s1.p.out_buf bs with
          | none => .raised s1
          | some buf => .ret 0 { s1 with p := { s1.p with out_buf := buf } }
  else put_buffer_loop E fuel s bs

/-- Embedding of `rdc_putmessage`. -/
def rdc_putmessage (E : Env) (fuel : Nat) (s : PSt) (bs : List Nat) : Res PSt Int :=
  internal_put_buffer E fuel s bs false

/-- The byte a `char` tag occupies on the wire. -/
def tagByte (t : Int) : Nat := (t % 256).toNat

/-- Modelled from the spec: the message builders of rdc_msg.c (`rdc_beginmessage`,
`rdc_sendint`, `rdc_sendRdcPortID`, `rdc_sendbytes`, `rdc_sendlength`) are not
among the sources; per §4.2 a message is framed `T | L | payload` with `L`
a 4-byte big-endian length that counts itself. -/
def frame (t : Int) (payload : List Nat) : List Nat :=
  tagByte t :: (beEncode 4 (payload.length + 4) ++ payload)

/-- Modelled from the spec: `rdc_send_startup_rqt` (rdc_msg.c) is not among the
sources; per §4.2 and §4.3 (MADE) it composes a STARTUP_REQUEST carrying
`(version, self_kind, self_id)`, puts it in the out-buffer and flushes it;
a non-zero result is a failure. -/
def rdc_send_startup_rqt (E : Env) (fuel : Nat) (s : PSt) (type id : Nat) : Res PSt Int :=
  (rdc_putmessage E fuel s
      (frame E.RDC_START_RQT (beEncode 4 E.RDC_VERSION_NUM ++ beEncode 4 type ++ beEncode 8 id))).bind
    fun r s1 => if r ≠ 0 then .ret EOF s1 else rdc_flush s1

/-- Modelled from the spec: `rdc_send_startup_rsp` (rdc_msg.c) is not among the
sources; per §4.2 and §4.3 (SENDING_RESPONSE) it composes a STARTUP_RESPONSE
carrying `(version, kind, id)`, puts it in the out-buffer and flushes it;
a non-zero result is a failure. -/
def rdc_send_startup_rsp (E : Env) (fuel : Nat) (s : PSt) (type id : Nat) : Res PSt Int :=
  (rdc_putmessage E fuel s
      (frame E.RDC_START_RSP (beEncode 4 E.RDC_VERSION_NUM ++ beEncode 4 type ++ beEncode 8 id))).bind
    fun r s1 => if r ≠ 0 then .ret EOF s1 else rdc_flush s1

/-! ## The handshake -/

open RdcConnStatusType RdcPollingStatusType

/-- Assignment `msg->cursor = sv_cursor` on the in-buffer. -/
def PSt.setCursor (s : PSt) (sv_cursor : Nat) : PSt :=
  { s with p := { s.p with in_buf := { s.p.in_buf with cursor := sv_cursor } } }

/-- The in-buffer after a read through the `msg` pointer. -/
def PSt.setIn (s : PSt) (buf : StringInfo) : PSt :=
  { s with p := { s.p with in_buf := buf } }

/-- Embedding of `internal_recv_startup_rqt`. -/
def internal_recv_startup_rqt (E : Env) (fuel : Nat) (s : PSt) (expected_ver : Nat) :
    Res PSt RdcPollingStatusType :=
  let nb := rdc_set_noblock s.p
  if nb.1 = 0 then .ret RDC_POLLING_FAILED ({ s with p := nb.2 }.dropConn true)
  else
    let s0 : PSt := { s with p := nb.2 }
    let sv_cursor := s0.p.in_buf.cursor
    (rdc_getbyte s0).bind fun b s1 =>
      let beresp := toChar b
      if beresp = EOF then .ret RDC_POLLING_READING (s1.setCursor sv_cursor)
      else if beresp ≠ E.RDC_START_RQT then
        .ret RDC_POLLING_FAILED
          (s1.err "expected startup request from client, but received %c")
      else
        (rdc_getbytes E fuel s1 4).bind fun r s2 =>
          if r = EOF then .ret RDC_POLLING_READING (s2.setCursor sv_cursor)
          else
            match rdc_getmsgint s2.p.in_buf 4 with
            | none => .raised s2
            | some (length, buf3) =>
              let s3 := s2.setIn buf3
              if length < 4 then .ret RDC_POLLING_FAILED (s3.err "invalid message length")
              else
                (rdc_getbytes E fuel s3 (length - 4)).bind fun r s4 =>
                  if r = EOF then .ret RDC_POLLING_READING (s4.setCursor sv_cursor)
                  else
                    match rdc_getmsgint s4.p.in_buf 4 with
                    | none => .raised s4
                    | some (rqt_ver, buf5) =>
                      let s5 : PSt := { s4 with p := { s4.p with in_buf := buf5, version := rqt_ver } }
                      match rdc_getmsgint s5.p.in_buf 4 with
                      | none => .raised s5
                      | some (rqt_type, buf6) =>
                        let s6 : PSt :=
                          { s5 with p := { s5.p with in_buf := buf6, peer_type := rqt_type } }
                        match rdc_getmsgRdcPortID s6.p.in_buf with
                        | none => .raised s6
                        | some (rqt_id, buf7) =>
                          let s7 : PSt :=
                            { s6 with p := { s6.p with in_buf := buf7, peer_id := rqt_id } }
                          if !E.rdc_getmsgend s7.p.in_buf then .raised s7
                          else if rqt_ver ≠ expected_ver then
                            .ret RDC_POLLING_FAILED
                              (s7.err ("expected Reduce version '%d' from client, " ++
                                "but received request version '%d'"))
                          else
                            .ret RDC_POLLING_WRITING
                              { s7 with p := { s7.p with status := RDC_CONNECTION_SENDING_RESPONSE } }

/-- Embedding of `internal_recv_startup_rsp`. -/
def internal_recv_startup_rsp (E : Env) (fuel : Nat) (s : PSt)
    (expected_type expected_id : Nat) : Res PSt RdcPollingStatusType :=
  let sv_cursor := s.p.in_buf.cursor
  (rdc_getbyte s).bind fun b s1 =>
    let beresp := toChar b
    if beresp = EOF then .ret RDC_POLLING_READING (s1.setCursor sv_cursor)
    else if !(beresp = E.RDC_START_RSP || beresp = E.RDC_ERROR_MSG) then
      .ret RDC_POLLING_FAILED
        (s1.err "expected startup response from server, but received %c")
    else
      (rdc_getbytes E fuel s1 4).bind fun r s2 =>
        if r = EOF then .ret RDC_POLLING_READING (s2.setCursor sv_cursor)
        else
          match rdc_getmsgint s2.p.in_buf 4 with
          | none => .raised s2
          | some (length, buf3) =>
            let s3 := s2.setIn buf3
            if length < 4 then .ret RDC_POLLING_FAILED (s3.err "invalid message length")
            else
              (rdc_getbytes E fuel s3 (length - 4)).bind fun r s4 =>
                if r = EOF then .ret RDC_POLLING_READING (s4.setCursor sv_cursor)
                else if beresp = E.RDC_ERROR_MSG then
                  if length - 4 > 0 then
                    match rdc_getmsgstring s4.p.in_buf with
                    | none => .raised s4
                    | some (errmsg, buf5) =>
                      let s5 := s4.setIn buf5
                      if !E.rdc_getmsgend s5.p.in_buf then .raised s5
                      else .ret RDC_POLLING_FAILED { s5 with p := rdc_puterror s5.p errmsg }
                  else
                    if !E.rdc_getmsgend s4.p.in_buf then .raised s4
                    else .ret RDC_POLLING_FAILED (s4.err "received error response from server")
                else
                  match rdc_getmsgint s4.p.in_buf 4 with
                  | none => .raised s4
                  | some (rsp_ver, buf5) =>
                    let s5 := s4.setIn buf5
                    if rsp_ver ≠ E.RDC_VERSION_NUM then
                      .ret RDC_POLLING_FAILED
                        (s5.err ("expected Reduce version '%d' from server, " ++
                          "but received response type '%d'"))
                    else
                      match rdc_getmsgint s5.p.in_buf 4 with
                      | none => .raised s5
                      | some (rsp_type, buf6) =>
                        let s6 := s5.setIn buf6
                        if rsp_type ≠ expected_type then
                          .ret RDC_POLLING_FAILED
                            (s6.err ("expected port type '%s' from server, " ++
                              "but received response type '%s'"))
                        else
                          match rdc_getmsgRdcPortID s6.p.in_buf with
                          | none => .raised s6
                          | some (rsp_id, buf7) =>
                            let s7 := s6.setIn buf7
                            if rsp_id ≠ expected_id then
                              .ret RDC_POLLING_FAILED
                                (s7.err ("expected port id '%ld' from server, " ++
                                  "but received response id '%ld'"))
                            else if !E.rdc_getmsgend s7.p.in_buf then .raised s7
                            else
                              .ret RDC_POLLING_OK
                                { s7 with p := { s7.p with status := RDC_CONNECTION_AUTH_OK } }

/-! ## `rdc_connect_poll` -/

/-- The label `error_return`. -/
def error_return (s : PSt) : Res PSt RdcPollingStatusType :=
  .ret RDC_POLLING_FAILED { s with p := { s.p with status := RDC_CONNECTION_BAD } }

/-- The socket options set on a new socket in state NEEDED:
`!rdc_set_noblock || !connect_nodelay || !connect_keepalive || !connect_close_on_exec`.
The result says whether one of them failed. -/
def connect_options_fail (a : AddrInfo) (port : RdcPort) : Bool × RdcPort :=
  let nb := rdc_set_noblock port
  if nb.1 = 0 then (true, nb.2)
  else if !a.nodelay_ok then
    (true, rdc_puterror nb.2 (cstr "could not set socket to TCP no delay mode: %m"))
  else if !a.keepalive_ok then
    (true, rdc_puterror nb.2 (cstr "setsockopt(SO_KEEPALIVE) failed: %m"))
  else if !a.cloexec_ok then (true, nb.2)
  else (false, nb.2)

/-- The `while (port->addr_cur != NULL)` loop of state NEEDED, over what is
left of the address list.  `Sum.inl` is a `return` (or the jump to
`error_return`), `Sum.inr` the jump to `keep_going`. -/
def needed_loop (s : PSt) : List AddrInfo → Res PSt RdcPollingStatusType ⊕ PSt
  | [] => .inl (error_return { s with p := { s.p with addr_cur := [] } })
  | a :: next =>
    let s0 : PSt := { s with p := { s.p with addr_cur := a :: next } }
    if !a.is_inet then needed_loop s0 next
    else
      let s1 : PSt :=
        { s0 with p := { s0.p with sock := a.socket_fd, pg_set_noblock_ok := a.noblock_ok } }
      if a.socket_fd = PGINVALID_SOCKET then
        if next ≠ [] then needed_loop s1 next
        else .inl (error_return (s1.err "could not create socket: %m"))
      else
        let opt := connect_options_fail a s1.p
        if opt.1 then needed_loop ({ s1 with p := opt.2 }.dropConn true) next
        else
          let s2 : PSt := { s1 with p := opt.2 }
          match a.connect with
          | .inprogress =>
            .inl (.ret RDC_POLLING_WRITING
              { s2 with p := { s2.p with status := RDC_CONNECTION_STARTED,
                                         wait_events := WAIT_SOCKET_WRITEABLE } })
          | .connected =>
            .inr { s2 with p := { s2.p with status := RDC_CONNECTION_STARTED } }
          | .fail =>
            needed_loop ((s2.err "fail to connect [%s:%ld] \x7b%s:%s\x7d: %m").dropConn true) next

/-- The code at the label `keep_going` of `rdc_connect_poll`. -/
def keep_going (E : Env) (fuel : Nat) : Nat → PSt → Res PSt RdcPollingStatusType
  | 0, _ => .stuck
  | k + 1, s =>
    match s.p.status with
    | RDC_CONNECTION_NEEDED =>
      match needed_loop s s.p.addr_cur with
      | .inl r => r
      | .inr s1 => keep_going E fuel k s1
    | RDC_CONNECTION_STARTED =>
      match s.p.addr_cur with
      | [] => .stuck
      | a :: next =>
        if !a.getsockopt_ok then
          error_return (s.err "could not get socket error status: %m")
        else if a.so_error ≠ 0 then
          let s1 : PSt := (s.err "some error occurred when connect: %s").dropConn true
          if next ≠ [] then
            keep_going E fuel k
              { s1 with p := { s1.p with addr_cur := next, status := RDC_CONNECTION_NEEDED } }
          else error_return s1
        else if !a.getsockname_ok then
          error_return (s.err "could not get client address from socket: %m")
        else
          .ret RDC_POLLING_WRITING
            { s with p := { s.p with status := RDC_CONNECTION_MADE,
                                     wait_events := WAIT_SOCKET_WRITEABLE } }
    | RDC_CONNECTION_MADE =>
      (rdc_send_startup_rqt E fuel s s.p.self_type s.p.self_id).bind fun r s1 =>
        if r ≠ 0 then
          error_return ((s1.dropConn true).err "could not send startup packet: %m")
        else
          .ret RDC_POLLING_READING
            { s1 with p := { s1.p with status := RDC_CONNECTION_AWAITING_RESPONSE,
                                       wait_events := WAIT_SOCKET_READABLE } }
    | RDC_CONNECTION_AWAITING_RESPONSE =>
      (internal_recv_startup_rsp E fuel s s.p.self_type s.p.self_id).bind fun status s1 =>
        match status with
        | RDC_POLLING_FAILED => error_return s1
        | RDC_POLLING_OK => keep_going E fuel k s1
        | RDC_POLLING_READING =>
          .ret RDC_POLLING_READING { s1 with p := { s1.p with wait_events := WAIT_SOCKET_READABLE } }
        | RDC_POLLING_WRITING => error_return s1
    | RDC_CONNECTION_ACCEPT_NEED => error_return s
    | RDC_CONNECTION_ACCEPT =>
      (internal_recv_startup_rqt E fuel s E.RDC_VERSION_NUM).bind fun status s1 =>
        match status with
        | RDC_POLLING_FAILED => error_return s1
        | RDC_POLLING_READING =>
          .ret RDC_POLLING_READING { s1 with p := { s1.p with wait_events := WAIT_SOCKET_READABLE } }
        | RDC_POLLING_WRITING =>
          .ret RDC_POLLING_WRITING { s1 with p := { s1.p with wait_events := WAIT_SOCKET_WRITEABLE } }
        | RDC_POLLING_OK =>
          (rdc_send_startup_rsp E fuel s1 s1.p.peer_type s1.p.peer_id).bind fun r s2 =>
            if r ≠ 0 then
              error_return ((s2.dropConn true).err "could not send startup response: %m")
            else keep_going E fuel k { s2 with p := { s2.p with status := RDC_CONNECTION_AUTH_OK } }
    | RDC_CONNECTION_SENDING_RESPONSE =>
      (rdc_send_startup_rsp E fuel s s.p.peer_type s.p.peer_id).bind fun r s1 =>
        if r ≠ 0 then
          error_return ((s1.dropConn true).err "could not send startup response: %m")
        else keep_going E fuel k { s1 with p := { s1.p with status := RDC_CONNECTION_AUTH_OK } }
    | RDC_CONNECTION_AUTH_OK =>
      let port1 : RdcPort :=
        if s.p.addrs ≠ [] then { s.p with addrs := [], addr_cur := [] } else s.p
      .ret RDC_POLLING_OK
        { s with p := { port1 with
            out_buf := resetStringInfo port1.out_buf,
            err_buf := resetStringInfo port1.err_buf,
            wait_events := WAIT_SOCKET_READABLE,
            status := RDC_CONNECTION_OK } }
    | _ =>
      error_return
        (s.err "invalid connection state %d, probably indicative of memory corruption")

/-- Embedding of `rdc_connect_poll` on a non-null port.  `fuel` bounds the loops of one
call. -/
def rdc_connect_poll (E : Env) (fuel : Nat) (s : PSt) : Res PSt RdcPollingStatusType :=
  match s.p.status with
  | RDC_CONNECTION_BAD => .ret RDC_POLLING_FAILED s
  | RDC_CONNECTION_OK => .ret RDC_POLLING_OK s
  | RDC_CONNECTION_AWAITING_RESPONSE | RDC_CONNECTION_ACCEPT | RDC_CONNECTION_AUTH_OK =>
    (rdc_recv s).bind fun n s1 =>
      if n = EOF then error_return s1
      else if n = 0 then .ret RDC_POLLING_READING s1
      else keep_going E fuel fuel s1
  | RDC_CONNECTION_STARTED | RDC_CONNECTION_MADE | RDC_CONNECTION_SENDING_RESPONSE
  | RDC_CONNECTION_ACCEPT_NEED | RDC_CONNECTION_NEEDED => keep_going E fuel fuel s
  | corrupt _ =>
    error_return
      (s.err "invalid connection state, probably indicative of memory corruption")

/-! ## Creation of ports -/

/-- Embedding of `rdc_newport`.  `palloc0` leaves `status` and `flags` at the enumerators
of value 0, which the sources do not show: they are the parameters
`zero_status` and `zero_flags`.  The socket of a new port has no scripted
outcomes yet. -/
def rdc_newport (zero_status : RdcConnStatusType) (zero_flags : RdcFlag) (sock : Int)
    (peer_type peer_id self_type self_id : Nat) : RdcPort :=
  { sock := sock, noblock := false, active := false,
    peer_type := peer_type, peer_id := peer_id, self_type := self_type, self_id := self_id,
    version := 0, wait_events := WAIT_NONE, send_eof := false,
    status := zero_status, flags := zero_flags, addrs := [], addr_cur := [],
    in_buf := initStringInfoExtend RDC_BUFFER_SIZE,
    out_buf := initStringInfoExtend RDC_BUFFER_SIZE,
    err_buf := initStringInfoExtend RDC_BUFFER_SIZE,
    pg_set_noblock_ok := false, recvs := [], sends := [], wire := [] }

/-- The port `RdcConnectStart` has built when it calls `rdc_connect_poll`:
`addrs` is the non-empty list `getaddrinfo` returned. -/
def connect_start_port (zero_status : RdcConnStatusType) (zero_flags : RdcFlag)
    (peer_type peer_id self_type self_id : Nat) (addrs : List AddrInfo) : RdcPort :=
  { rdc_newport zero_status zero_flags PGINVALID_SOCKET peer_type peer_id self_type self_id with
    addrs := addrs, addr_cur := addrs, status := RDC_CONNECTION_NEEDED }

/-- Embedding of `RdcConnectStart`; `resolved` is what `getaddrinfo` stores in `addrs` when
it succeeds. -/
def RdcConnectStart (E : Env) (fuel : Nat) (zero_status : RdcConnStatusType)
    (zero_flags : RdcFlag) (g : Globals) (resolved : Option (List AddrInfo))
    (peer_type peer_id self_type self_id : Nat) : Res PSt Unit :=
  match resolved with
  | none | some [] =>
    .ret ()
      { p := rdc_puterror
          (rdc_newport zero_status zero_flags PGINVALID_SOCKET peer_type peer_id self_type self_id)
          (cstr "could not resolve address %s:%d: %s"),
        g := g }
  | some (a :: as) =>
    (rdc_connect_poll E fuel
      { p := connect_start_port zero_status zero_flags peer_type peer_id self_type self_id (a :: as),
        g := g }).bind fun _ s => .ret () s

/-- Outcome of one `accept` call. -/
inductive AcceptOutcome where
  /-- `accept` returns a socket. -/
  | fd (sock : Int)
  /-- `accept` fails with `EINTR`. -/
  | eintr
  /-- `accept` fails with `EAGAIN` or `EWOULDBLOCK`. -/
  | again
  /-- `accept` fails with any other error. -/
  | fail
deriving DecidableEq, Repr

/-- The new socket of `rdc_accept`, with the outcomes of the calls made on it. -/
structure AcceptedSock where
  noblock_ok : Bool
  nodelay_ok : Bool
  keepalive_ok : Bool
  recvs : List RecvOutcome
  sends : List SendOutcome
deriving DecidableEq, Repr

/-- Embedding of `rdc_accept`, over the outcomes of the successive `accept` calls.  The
result is the new port, or `none` when no connection is ready;
`InvalidPortType` and `InvalidPortId` are constants of rdc_comm.h. -/
def rdc_accept (zero_status : RdcConnStatusType) (zero_flags : RdcFlag)
    (InvalidPortType InvalidPortId : Nat) (sk : AcceptedSock) :
    List AcceptOutcome → Res Unit (Option RdcPort)
  | [] => .stuck
  | AcceptOutcome.eintr :: rest =>
    rdc_accept zero_status zero_flags InvalidPortType InvalidPortId sk rest
  | AcceptOutcome.again :: _ => .ret none ()
  | AcceptOutcome.fail :: _ => .raised ()
  | AcceptOutcome.fd sock :: _ =>
    if sock < 0 then .raised ()
    else
      let port0 : RdcPort :=
        { rdc_newport zero_status zero_flags PGINVALID_SOCKET InvalidPortType InvalidPortId
            InvalidPortType InvalidPortId with
          sock := sock, pg_set_noblock_ok := sk.noblock_ok, recvs := sk.recvs, sends := sk.sends }
      let nb := rdc_set_noblock port0
      if nb.1 = 0 ∨ !sk.nodelay_ok ∨ !sk.keepalive_ok then .raised ()
      else
        .ret (some { nb.2 with status := RDC_CONNECTION_ACCEPT,
                               wait_events := WAIT_SOCKET_READABLE }) ()

/-! ## The dispatcher (rdc_handler.c) -/

/-- Conversion to `int`: a value outside the range of `int` is reduced modulo
2^32 into it, any other is kept. -/
def toInt32 (v : Int) : Int :=
  if v < 0 ∨ 2 ^ 31 ≤ v then (v + 2 ^ 31) % 2 ^ 32 - 2 ^ 31 else v

/-- Conversion of an `int` to `size_t`. -/
def toSizeT (v : Int) : Nat := (v % 2 ^ 64).toNat

/-- One entry of `MyRdcOpts->rdc_nodes`; `port = none` is a null pointer. -/
structure RdcNode where
  id : Nat
  port : Option RdcPort
deriving DecidableEq, Repr

/-- A `PlanPort`.  `rdcstore` is the sequence of frames put into the store
and not yet fetched, `rdc_eofs` the array of that name, `msg_buf` the
contents of `PlanMsgBuf`. -/
structure PlanPort where
  plan_id : Nat
  work_port : List RdcPort
  work_num : Int
  rdcstore : List (List Nat)
  rdc_eofs : List Nat
  eof_num : Nat
  recv_from_pln : Nat
  send_to_pln : Nat
  recv_from_rdc : Nat
  dscd_from_rdc : Nat
  msg_buf : List Nat
deriving DecidableEq, Repr

/-- Modelled from the spec: the macro `PlanPortIsValid` (rdc_plan.h) is not among
the sources; per §3 a PlanPort is valid iff `work_num > 0`. -/
def PlanPortIsValid (pln_port : PlanPort) : Bool := decide (pln_port.work_num > 0)

/-- Modelled from the spec: the macro `PortIsValid` (rdc_comm.h) is not among the
sources; per §3 the flags of a port are VALID or CLOSED. -/
def PortIsValid (port : RdcPort) : Bool := port.flags == RdcFlag.RDC_FLAG_VALID

/-- Modelled from the spec: `rdcstore_puttuple` is not among the sources; per §4.7
`puttuple(bytes)` appends one frame. -/
def rdcstore_puttuple (rdcstore : List (List Nat)) (tuple : List Nat) : List (List Nat) :=
  rdcstore ++ [tuple]

/-- Modelled from the spec: `PlanPortAddEvents` (rdc_plan.c) is not among the
sources; per §4.6 it arms the given event on every live worker of the
PlanPort. -/
def PlanPortAddEvents (pln_port : PlanPort) (ev : WaitEvents) : PlanPort :=
  { pln_port with work_port := pln_port.work_port.map fun w =>
      if PortIsValid w then
        { w with wait_events := { readable := w.wait_events.readable || ev.readable,
                                  writable := w.wait_events.writable || ev.writable } }
      else w }

/-- Modelled from the spec: `LookUpPlanPort` (rdc_plan.c) is not among the sources;
per §4.6 it locates the PlanPort of a plan id.  The result is its position
in the list. -/
def LookUpPlanPort (pln_nodes : List PlanPort) (planid : Nat) : Option Nat :=
  let i := pln_nodes.findIdx fun pp => pp.plan_id == planid
  if i < pln_nodes.length then some i else none

/-- The state of the dispatcher: the reducer nodes with their ports, the
process-wide flags and the list of PlanPorts. -/
structure Reducer where
  nodes : List RdcNode
  g : Globals
  pln_nodes : List PlanPort
deriving DecidableEq, Repr

/-- Embedding of `LookUpReducePort`: the position of the node and its port; `none` is the
error report for an unknown id. -/
def LookUpReducePort (nodes : List RdcNode) (rpid : Nat) : Option (Nat × Option RdcPort) :=
  let i := nodes.findIdx fun n => n.id == rpid
  match nodes.get? i with
  | some n => some (i, n.port)
  | none => none

/-- Store back the port of node `i` and the process-wide flags. -/
def Reducer.setPort (R : Reducer) (i : Nat) (s : PSt) : Reducer :=
  { R with nodes := R.nodes.modify (fun n => { n with port := some s.p }) i, g := s.g }

/-- The packet `BroadcastDataToRdc` makes up in `rdc_buf`. -/
def broadcast_packet (E : Env) (planid : Nat) (msg_type : Int) (msg_data : List Nat) : List Nat :=
  frame msg_type
    (beEncode 8 planid ++
      (if msg_type = E.MSG_EOF then []
       else if msg_type = E.MSG_PLAN_CLOSE then []
       else if msg_type = E.MSG_R2R_DATA then msg_data
       else []))

/-- The `for` loop of `BroadcastDataToRdc` over the `num` target ids read
from `msg`; the state carries `msg` and the result `res`. -/
def broadcast_loop (E : Env) (fuel : Nat) (packet : List Nat) (flush : Bool) :
    Nat → Reducer → StringInfo → Int → Res (Reducer × StringInfo) Int
  | 0, R, msg, res => .ret res (R, msg)
  | n + 1, R, msg, res =>
    match rdc_getmsgRdcPortID msg with
    | none => .raised (R, msg)
    | some (rid, msg1) =>
      if rid = E.MyReduceId then broadcast_loop E fuel packet flush n R msg1 res
      else
        match LookUpReducePort R.nodes rid with
        | none => .raised (R, msg1)
        | some (_, none) => .stuck
        | some (i, some rdc_port) =>
          if !PortIsValid rdc_port then broadcast_loop E fuel packet flush n R msg1 res
          else
            match rdc_putmessage E fuel { p := rdc_port, g := R.g } packet with
            | .stuck => .stuck
            | .raised s1 => .raised (R.setPort i s1, msg1)
            | .ret _ s1 =>
              if flush then
                match rdc_flush s1 with
                | .stuck => .stuck
                | .raised s2 => .raised (R.setPort i s2, msg1)
                | .ret _ s2 => broadcast_loop E fuel packet flush n (R.setPort i s2) msg1 res
              else
                match rdc_try_flush s1 with
                | .stuck => .stuck
                | .raised s2 => .raised (R.setPort i s2, msg1)
                | .ret ret s2 =>
                  if !CHECK_FOR_INTERRUPTS s2.g then .raised (R.setPort i s2, msg1)
                  else if ret ≠ 0 then
                    broadcast_loop E fuel packet flush n
                      (R.setPort i
                        { s2 with p := { s2.p with
                            wait_events := { s2.p.wait_events with writable := true } } })
                      msg1 ret
                  else
                    broadcast_loop E fuel packet flush n
                      (R.setPort i
                        { s2 with p := { s2.p with
                            wait_events := { s2.p.wait_events with writable := false } } })
                      msg1 res

/-- Embedding of `BroadcastDataToRdc`; `msg` is the in-buffer of the worker port, read
through the pointer. -/
def BroadcastDataToRdc (E : Env) (fuel : Nat) (R : Reducer) (msg : StringInfo) (planid : Nat)
    (msg_type : Int) (msg_data : List Nat) (flush : Bool) : Res (Reducer × StringInfo) Int :=
  match rdc_getmsgint msg 4 with
  | none => .raised (R, msg)
  | some (num, msg1) =>
    (broadcast_loop E fuel (broadcast_packet E planid msg_type msg_data) flush
        (toInt32 num).toNat R msg1 0).bind fun res st =>
      if !E.rdc_getmsgend st.2 then .raised st else .ret res st

/-- Embedding of `SendPlanDataToRdc`. -/
def SendPlanDataToRdc (E : Env) (fuel : Nat) (R : Reducer) (msg : StringInfo) (planid : Nat) :
    Res (Reducer × StringInfo) Int :=
  match rdc_getmsgint msg 4 with
  | none => .raised (R, msg)
  | some (datalen, msg1) =>
    match rdc_getmsgbytes msg1 (toInt32 datalen) with
    | none => .raised (R, msg1)
    | some (data, msg2) => BroadcastDataToRdc E fuel R msg2 planid E.MSG_R2R_DATA data false

/-- Embedding of `SendPlanEofToRdc`. -/
def SendPlanEofToRdc (E : Env) (fuel : Nat) (R : Reducer) (msg : StringInfo) (planid : Nat) :
    Res (Reducer × StringInfo) Int :=
  BroadcastDataToRdc E fuel R msg planid E.MSG_EOF [] false

/-- Embedding of `SendPlanCloseToRdc`. -/
def SendPlanCloseToRdc (E : Env) (fuel : Nat) (R : Reducer) (msg : StringInfo) (planid : Nat) :
    Res (Reducer × StringInfo) Int :=
  BroadcastDataToRdc E fuel R msg planid E.MSG_PLAN_CLOSE [] false

/-- Result of the functions that fill the store of a PlanPort: the PlanPort
afterwards, or the error report of a repeated EOF, or an access past the
end of `rdc_eofs`. -/
inductive PlanRes where
  | done (pln_port : PlanPort)
  | raised (pln_port : PlanPort)
  | stuck
deriving DecidableEq, Repr

/-- Embedding of `SendRdcDataToPlan`. -/
def SendRdcDataToPlan (E : Env) (pln_port : PlanPort) (rdc_id : Nat) (data : List Nat) :
    PlanPort :=
  if !PlanPortIsValid pln_port then
    { pln_port with dscd_from_rdc := pln_port.dscd_from_rdc + 1 }
  else
    let pp1 := { pln_port with recv_from_rdc := pln_port.recv_from_rdc + 1 }
    let buf := frame E.MSG_R2P_DATA (beEncode 8 rdc_id ++ data)
    let pp2 := { pp1 with msg_buf := buf, rdcstore := rdcstore_puttuple pp1.rdcstore buf }
    PlanPortAddEvents pp2 WAIT_SOCKET_WRITEABLE

/-- Embedding of `SendRdcEofToPlan`. -/
def SendRdcEofToPlan (E : Env) (pln_port : PlanPort) (rdc_id : Nat) (error_if_exists : Bool) :
    PlanRes :=
  if !PlanPortIsValid pln_port then
    .done { pln_port with dscd_from_rdc := pln_port.dscd_from_rdc + 1 }
  else
    let pp1 := { pln_port with recv_from_rdc := pln_port.recv_from_rdc + 1 }
    let found := (pp1.rdc_eofs.take pp1.eof_num).contains rdc_id
    if found then
      if error_if_exists then .raised pp1 else .done pp1
    else if pp1.eof_num < pp1.rdc_eofs.length then
      let pp2 := { pp1 with rdc_eofs := pp1.rdc_eofs.set pp1.eof_num rdc_id,
                            eof_num := pp1.eof_num + 1 }
      let buf := frame E.MSG_EOF (beEncode 8 rdc_id)
      let pp3 := { pp2 with msg_buf := buf, rdcstore := rdcstore_puttuple pp2.rdcstore buf }
      .done (PlanPortAddEvents pp3 WAIT_SOCKET_WRITEABLE)
    else .stuck

/-- Embedding of `SendPlanCloseToPlan`. -/
def SendPlanCloseToPlan (E : Env) (pln_port : PlanPort) (rdc_id : Nat) : PlanRes :=
  if !PlanPortIsValid pln_port then
    .done { pln_port with dscd_from_rdc := pln_port.dscd_from_rdc + 1 }
  else
    let pp1 := { pln_port with recv_from_rdc := pln_port.recv_from_rdc + 1 }
    let buf := frame E.MSG_PLAN_CLOSE (beEncode 8 rdc_id)
    let pp2 := { pp1 with msg_buf := buf, rdcstore := rdcstore_puttuple pp1.rdcstore buf }
    SendRdcEofToPlan E pp2 rdc_id false

/-- State of `HandleRdcMsg`: the reducer port being read, the process-wide
flags, and the list of PlanPorts. -/
structure RSt where
  s : PSt
  pln_nodes : List PlanPort
deriving DecidableEq, Repr

/-- The in-buffer cursor is put back and READABLE is armed: the exit of the
dispatcher loops on a partial frame. -/
def PSt.waitMore (s : PSt) (sv_cursor : Nat) : PSt :=
  { s with p := { s.p with
      in_buf := { s.p.in_buf with cursor := sv_cursor },
      wait_events := { s.p.wait_events with readable := true } } }

/-- The body of the `while (true)` loop of `HandleRdcMsg`: `ret true` goes on
with the next iteration, `ret false` is the `break`.  `plan_newport` stands
for the function of that name in rdc_plan.c, which is not among the
sources; `fuel` bounds the loops of `rdc_getbytes`. -/
def HandleRdcMsg_body (E : Env) (plan_newport : Nat → PlanPort) (fuel : Nat) (st : RSt) :
    Res RSt Bool :=
  let sv_cursor := st.s.p.in_buf.cursor
  match rdc_getbyte st.s with
  | .stuck => .stuck
  | .raised s1 => .raised { st with s := s1 }
  | .ret b s1 =>
    let msg_type := toChar b
    if msg_type = EOF then .ret false { st with s := s1.waitMore sv_cursor }
    else
      match rdc_getbytes E fuel s1 4 with
      | .stuck => .stuck
      | .raised s2 => .raised { st with s := s2 }
      | .ret r s2 =>
        if r = EOF then .ret false { st with s := s2.waitMore sv_cursor }
        else
          match rdc_getmsgint s2.p.in_buf 4 with
          | none => .raised { st with s := s2 }
          | some (len, buf3) =>
            let msg_len := toInt32 ((toInt32 len : Int) - 4)
            match rdc_getbytes E fuel (s2.setIn buf3) (toSizeT msg_len) with
            | .stuck => .stuck
            | .raised s4 => .raised { st with s := s4 }
            | .ret r s4 =>
              if r = EOF then .ret false { st with s := s4.waitMore sv_cursor }
              else if msg_type = E.MSG_R2R_DATA ∨ msg_type = E.MSG_EOF ∨
                  msg_type = E.MSG_PLAN_CLOSE then
                match rdc_getmsgRdcPortID s4.p.in_buf with
                | none => .raised { st with s := s4 }
                | some (planid, buf5) =>
                  let s5 := s4.setIn buf5
                  let found := LookUpPlanPort st.pln_nodes planid
                  let nodes1 := if found.isSome then st.pln_nodes
                                else st.pln_nodes ++ [plan_newport planid]
                  let idx := found.getD st.pln_nodes.length
                  match nodes1.get? idx with
                  | none => .stuck
                  | some pln_port =>
                    if msg_type = E.MSG_R2R_DATA then
                      let datalen := toInt32 (msg_len - 8)
                      match rdc_getmsgbytes s5.p.in_buf datalen with
                      | none => .raised { s := s5, pln_nodes := nodes1 }
                      | some (data, buf6) =>
                        let s6 := s5.setIn buf6
                        if !E.rdc_getmsgend s6.p.in_buf then
                          .raised { s := s6, pln_nodes := nodes1 }
                        else
                          .ret true
                            { s := s6,
                              pln_nodes := nodes1.set idx
                                (SendRdcDataToPlan E pln_port s6.p.peer_id data) }
                    else if !E.rdc_getmsgend s5.p.in_buf then
                      .raised { s := s5, pln_nodes := nodes1 }
                    else
                      match (if msg_type = E.MSG_EOF then
                               SendRdcEofToPlan E pln_port s5.p.peer_id true
                             else SendPlanCloseToPlan E pln_port s5.p.peer_id) with
                      | .stuck => .stuck
                      | .raised pp => .raised { s := s5, pln_nodes := nodes1.set idx pp }
                      | .done pp => .ret true { s := s5, pln_nodes := nodes1.set idx pp }
              else if msg_type = E.MSG_ERROR then .ret true { st with s := s4 }
              else .raised { st with s := s4 }

/-- Embedding of `HandleRdcMsg`: the loop runs its body until the `break`. -/
def HandleRdcMsg (E : Env) (plan_newport : Nat → PlanPort) :
    Nat → RSt → Res RSt Unit
  | 0, _ => .stuck
  | fuel + 1, st =>
    match HandleRdcMsg_body E plan_newport (fuel + 1) st with
    | .stuck => .stuck
    | .raised st1 => .raised st1
    | .ret false st1 => .ret () st1
    | .ret true st1 => HandleRdcMsg E plan_newport fuel st1

/-! ## Vocabulary of the statements -/

/-- The buffer with the cursor moved `n` bytes on. -/
def StringInfo.adv (b : StringInfo) (n : Nat) : StringInfo := { b with cursor := b.cursor + n }

/-- The state with the in-buffer cursor moved `n` bytes on. -/
def PSt.adv (s : PSt) (n : Nat) : PSt := s.setIn (s.p.in_buf.adv n)

/-- A tag is a 7-bit character: it is its own byte on the wire, and it
differs from `EOF`. -/
def IsTag (t : Int) : Prop := 0 ≤ t ∧ t < 128

instance IsTag.decidable (t : Int) : Decidable (IsTag t) :=
  inferInstanceAs (Decidable (0 ≤ t ∧ t < 128))

/-- The outgoing byte stream of a port: what `send` has accepted, followed
by the unsent bytes of the out-buffer. -/
def RdcPort.outstream (port : RdcPort) : List Nat := port.wire ++ port.out_buf.unread

/-- The environment between two poll steps: it fixes the outcomes of the
coming `recv` and `send` calls. -/
structure Offer where
  recvs : List RecvOutcome
  sends : List SendOutcome
deriving DecidableEq, Repr

/-- A port state with the coming outcomes replaced. -/
def PSt.offer (s : PSt) (o : Offer) : PSt :=
  { s with p := { s.p with recvs := o.recvs, sends := o.sends } }

/-- Successive poll steps, the environment acting before each of them;
`none` if a step does not return. -/
def poll_run (E : Env) (fuel : Nat) : List Offer → PSt → Option PSt
  | [], s => some s
  | o :: os, s =>
    match rdc_connect_poll E fuel (s.offer o) with
    | .ret _ s1 => poll_run E fuel os s1
    | _ => none

/-- An address none of whose system calls fails, the connection being
established asynchronously. -/
def AddrInfo.good (a : AddrInfo) : Prop :=
  a.is_inet = true ∧ a.socket_fd ≠ PGINVALID_SOCKET ∧ a.noblock_ok = true ∧ a.nodelay_ok = true ∧
  a.keepalive_ok = true ∧ a.cloexec_ok = true ∧ a.connect = ConnectOutcome.inprogress ∧
  a.getsockopt_ok = true ∧ a.so_error = 0 ∧ a.getsockname_ok = true

/-- A port between two poll steps of an undisturbed handshake: its buffers
are as `rdc_newport` made them and no interrupt is pending. -/
def PSt.quiet (s : PSt) : Prop :=
  s.p.in_buf = initStringInfoExtend RDC_BUFFER_SIZE ∧
  s.p.out_buf = initStringInfoExtend RDC_BUFFER_SIZE ∧
  s.g.InterruptPending = false

/-- Two ports joined by a lossless in-order byte channel: the dialing port,
the accepting port, and the bytes in flight in each direction. -/
structure Link where
  d : PSt
  a : PSt
  d2a : List Nat
  a2d : List Nat
deriving DecidableEq, Repr

/-- What a socket offers to `recv`: the bytes in flight, or would-block when
there are none. -/
def channel_recvs (chan : List Nat) : List RecvOutcome :=
  if chan = [] then [RecvOutcome.again] else [RecvOutcome.bytes chan]

/-- The bytes still in flight after a poll step that was offered `chan`. -/
def channel_left (chan : List Nat) (recvs : List RecvOutcome) : List Nat :=
  match recvs with
  | [] => []
  | RecvOutcome.bytes bs :: _ => bs
  | _ :: _ => chan

/-- One poll step of an end of the link: `recv` is offered the bytes in
flight towards it, `send` takes every byte, and what it took is put in
flight.  The result is the port (its socket script used up), what is left
of its input and what it sent. -/
def link_poll (E : Env) (fuel : Nat) (s : PSt) (chan : List Nat) :
    Option (PSt × List Nat × List Nat) :=
  let s0 : PSt :=
    { s with p := { s.p with
        recvs := channel_recvs chan,
        sends := [SendOutcome.accepted s.p.out_buf.maxlen],
        wire := [] } }
  match rdc_connect_poll E fuel s0 with
  | .ret _ s1 =>
    some ({ s1 with p := { s1.p with recvs := [], sends := [], wire := [] } },
          channel_left chan s1.p.recvs, s1.p.wire)
  | _ => none

/-- One round of the link: the dialing port polls, then the accepting port. -/
def link_round (E : Env) (fuel : Nat) (l : Link) : Option Link :=
  match link_poll E fuel l.d l.a2d with
  | none => none
  | some (d1, a2d1, sent1) =>
    match link_poll E fuel l.a (l.d2a ++ sent1) with
    | none => none
    | some (a1, d2a1, sent2) => some { d := d1, a := a1, d2a := d2a1, a2d := a2d1 ++ sent2 }

/-- Several rounds of the link. -/
def link_run (E : Env) (fuel : Nat) : Nat → Link → Option Link
  | 0, l => some l
  | n + 1, l =>
    match link_round E fuel l with
    | none => none
    | some l1 => link_run E fuel n l1

/-- The bytes one `recv` call adds to the in-buffer when `bs` are available:
as many as fit behind the left-justified unread input. -/
def delivered (buf : StringInfo) (bs : List Nat) : List Nat :=
  bs.take (min bs.length (buf.maxlen - buf.unread.length))

/-- A startup message (request or response) on the wire. -/
def startup_frame (t : Int) (ver kind id : Nat) : List Nat :=
  frame t (beEncode 4 ver ++ beEncode 4 kind ++ beEncode 8 id)

/-- The outcomes of the coming `send` calls let a nonblocking flush of `n`
pending bytes return without a hard failure: before the bytes are all
taken, or a call would block, no call fails otherwise and the outcomes do
not run out. -/
def SendsFlush : Nat → List SendOutcome → Prop
  | 0, _ => True
  | _ + 1, [] => False
  | _ + 1, SendOutcome.again :: _ => True
  | _ + 1, SendOutcome.fail :: _ => False
  | n + 1, SendOutcome.eintr :: rest => SendsFlush (n + 1) rest
  | n + 1, SendOutcome.accepted r :: rest => SendsFlush (n + 1 - max 1 (min r (n + 1))) rest

/-- A reducer port ready to take `packet`: it is valid, putting the packet in
its out-buffer succeeds (the blocking flush this may need completes), and
the nonblocking flush that follows meets no hard failure. -/
def RdcPort.ready (E : Env) (fuel : Nat) (g : Globals) (port : RdcPort) (packet : List Nat) :
    Prop :=
  PortIsValid port = true ∧ port.out_buf.cursor ≤ port.out_buf.len ∧
  ∃ s1, rdc_putmessage E fuel { p := port, g := g } packet = .ret 0 s1 ∧
    SendsFlush (s1.p.out_buf.len - s1.p.out_buf.cursor) s1.p.sends

/-- The port of a target after one iteration of the loop of
`BroadcastDataToRdc` (with `flush = false`) that returns: `packet` is put
in the out-buffer, the buffer is flushed as far as the socket allows, and
WRITABLE says whether bytes are left. -/
def after_send (E : Env) (fuel : Nat) (g : Globals) (packet : List Nat) (port : RdcPort) :
    RdcPort :=
  match rdc_putmessage E fuel { p := port, g := g } packet with
  | .ret _ s1 =>
    match rdc_try_flush s1 with
    | .ret ret s2 =>
      { s2.p with wait_events := { s2.p.wait_events with writable := decide (ret ≠ 0) } }
    | _ => port
  | _ => port

/-- The wire format of the payload of a P2R_DATA frame: the data with its
length, then the target ids with their count. -/
def p2r_payload (data : List Nat) (targets : List Nat) : List Nat :=
  beEncode 4 data.length ++ data ++ beEncode 4 targets.length ++
    targets.flatMap (beEncode 8)

open RdcConnStatusType RdcPollingStatusType

/-! ## The dispatcher: messages of a plan worker (rdc_handler.c) -/

/-- State of `HandlePlanMsg`: the worker port being read, the PlanPort it
belongs to, and the reducer nodes with the process-wide flags.  The worker
is held apart from `pp.work_port`; `HandlePlanMsg` does not go through that
list. -/
structure HSt where
  work : RdcPort
  pp : PlanPort
  R : Reducer
deriving DecidableEq, Repr

/-- The worker port with the process-wide flags, as the functions of
rdc_comm.c take it. -/
def HSt.port (st : HSt) : PSt := { p := st.work, g := st.R.g }

/-- Store back the worker port and the process-wide flags. -/
def HSt.back (st : HSt) (s : PSt) : HSt :=
  { st with work := s.p, R := { st.R with g := s.g } }

/-- The state after one of the `SendPlan…ToRdc` calls, which read `msg`
through the pointer and write to the reducer ports. -/
def HSt.sent (st : HSt) (x : Reducer × StringInfo) : HSt :=
  { st with work := { st.work with in_buf := x.2 }, R := x.1 }

/-- The cases `MSG_P2R_DATA` and `MSG_EOF` of `HandlePlanMsg`: a non-zero
result of the broadcast ends the loop with `res = 1`. -/
def plan_send_result (st : HSt) : Res (Reducer × StringInfo) Int → Res HSt (Option Int)
  | .stuck => .stuck
  | .raised x => .raised (st.sent x)
  | .ret r x => .ret (if r ≠ 0 then some 1 else none) (st.sent x)

/-- The `switch (msg_type)` of `HandlePlanMsg`, entered once a whole message
is buffered and counted.  `ret none` goes on with the next iteration of the
loop, `ret (some res)` leaves it with `quit` set. -/
def HandlePlanMsg_switch (E : Env) (fuel : Nat) (msg_type : Int) (st : HSt) :
    Res HSt (Option Int) :=
  if msg_type = E.MSG_P2R_DATA then
    plan_send_result st (SendPlanDataToRdc E fuel st.R st.work.in_buf st.work.peer_id)
  else if msg_type = E.MSG_EOF then
    plan_send_result st (SendPlanEofToRdc E fuel st.R st.work.in_buf st.work.peer_id)
  else if msg_type = E.MSG_PLAN_CLOSE then
    let work1 : RdcPort :=
      { st.work with wait_events := { readable := false, writable := false },
                     flags := RdcFlag.RDC_FLAG_CLOSED }
    let work_num1 := st.pp.work_num - 1
    let pp1 : PlanPort := { st.pp with work_num := if work_num1 = 0 then -1 else work_num1 }
    let st1 : HSt := { st with work := work1, pp := pp1 }
    match SendPlanCloseToRdc E fuel st1.R st1.work.in_buf st1.work.peer_id with
    | .stuck => .stuck
    | .raised x => .raised (st1.sent x)
    | .ret _ x => .ret (some EOF) (st1.sent x)
  else if msg_type = E.MSG_ERROR then .ret none st
  else .raised st

/-- The state once a whole message is buffered: `recv_from_pln` is
incremented. -/
def HSt.counted (st : HSt) : HSt :=
  { st with pp := { st.pp with recv_from_pln := st.pp.recv_from_pln + 1 } }

/-- The body of the `while (!quit)` loop of `HandlePlanMsg`: `ret none` goes on
with the next iteration, `ret (some res)` leaves the loop, after which
`HandlePlanMsg` returns `res`.  `fuel` bounds the loops of `rdc_getbytes` and
of the blocking flush. -/
def HandlePlanMsg_body (E : Env) (fuel : Nat) (st : HSt) : Res HSt (Option Int) :=
  let sv_cursor := st.work.in_buf.cursor
  match rdc_getbyte st.port with
  | .stuck => .stuck
  | .raised s1 => .raised (st.back s1)
  | .ret b s1 =>
    let msg_type := toChar b
    if msg_type = EOF then .ret (some 0) (st.back (s1.waitMore sv_cursor))
    else
      match rdc_getbytes E fuel s1 4 with
      | .stuck => .stuck
      | .raised s2 => .raised (st.back s2)
      | .ret r s2 =>
        if r = EOF then .ret (some 0) (st.back (s2.waitMore sv_cursor))
        else
          match rdc_getmsgint s2.p.in_buf 4 with
          | none => .raised (st.back s2)
          | some (len, buf3) =>
            let msg_len := toInt32 ((toInt32 len : Int) - 4)
            match rdc_getbytes E fuel (s2.setIn buf3) (toSizeT msg_len) with
            | .stuck => .stuck
            | .raised s4 => .raised (st.back s4)
            | .ret r s4 =>
              if r = EOF then .ret (some 0) (st.back (s4.waitMore sv_cursor))
              else HandlePlanMsg_switch E fuel msg_type (st.back s4).counted

/-- `HandlePlanMsg`: the loop runs its body until `quit` or a `break`. -/
def HandlePlanMsg (E : Env) : Nat → HSt → Res HSt Int
  | 0, _ => .stuck
  | fuel + 1, st =>
    match HandlePlanMsg_body E (fuel + 1) st with
    | .stuck => .stuck
    | .raised st1 => .raised st1
    | .ret (some res) st1 => .ret res st1
    | .ret none st1 => HandlePlanMsg E fuel st1

/-! ## Vocabulary of the statements on PlanPorts and buffers -/

/-- The EOF set of a PlanPort: the entries `rdc_eofs[0..eof_num)`. -/
def PlanPort.eofs (pp : PlanPort) : List Nat := pp.rdc_eofs.take pp.eof_num

/-- EOF messages of the reducers `ids`, handled one after the other. -/
def eof_run (E : Env) : PlanPort → List Nat → PlanRes
  | pp, [] => .done pp
  | pp, X :: rest =>
    match SendRdcEofToPlan E pp X true with
    | .done pp1 => eof_run E pp1 rest
    | r => r

/-- The EOF-set invariant of a PlanPort in a group whose other reducers are
`others`: the entries in use fit the array, are pairwise distinct, and are
ids of other reducers. -/
def EofSetOk (others : List Nat) (pp : PlanPort) : Prop :=
  pp.eof_num ≤ pp.rdc_eofs.length ∧ pp.eofs.Nodup ∧ ∀ x ∈ pp.eofs, x ∈ others

/-- The in-buffer invariant `0 ≤ cursor ≤ len ≤ maxlen`. -/
def InBufOk (b : StringInfo) : Prop := b.cursor ≤ b.len ∧ b.len ≤ b.maxlen

instance InBufOk.decidable (b : StringInfo) : Decidable (InBufOk b) :=
  inferInstanceAs (Decidable (b.cursor ≤ b.len ∧ b.len ≤ b.maxlen))

/-- A property of the state in which a call ends, whether it returns or
reports an error; a call that does not end leaves no state. -/
def Res.after {σ α : Type} (P : σ → Prop) : Res σ α → Prop
  | .ret _ s => P s
  | .raised s => P s
  | .stuck => True

/-- The closed-port invariant of the spec: a port with `flags = CLOSED` has an
invalid socket and no wait events. -/
def ClosedOk (port : RdcPort) : Prop :=
  port.flags = RdcFlag.RDC_FLAG_CLOSED →
    port.sock = PGINVALID_SOCKET ∧ port.wait_events = WAIT_NONE

/-- The payload of an EOF or PLAN_CLOSE frame of a plan worker: the target
ids with their count. -/
def targets_payload (targets : List Nat) : List Nat :=
  beEncode 4 targets.length ++ targets.flatMap (beEncode 8)

/-- One message of a peer reducer for a PlanPort: an EOF or a PLAN_CLOSE, with
the id of the sender. -/
inductive PeerMsg where
  | eof (sender : Nat)
  | close (sender : Nat)
deriving DecidableEq, Repr

/-- The id of the reducer a message comes from. -/
def PeerMsg.sender : PeerMsg → Nat
  | .eof X => X
  | .close X => X

/-- What `HandleRdcMsg` calls for a message of a peer reducer. -/
def PeerMsg.handle (E : Env) (pp : PlanPort) : PeerMsg → PlanRes
  | .eof X => SendRdcEofToPlan E pp X true
  | .close X => SendPlanCloseToPlan E pp X

/-- Messages of peer reducers for one PlanPort, handled one after the other
as long as none is reported as an error. -/
def peer_run (E : Env) : PlanPort → List PeerMsg → PlanRes
  | pp, [] => .done pp
  | pp, m :: rest =>
    match m.handle E pp with
    | .done pp1 => peer_run E pp1 rest
    | r => r

/-- A frame of a plan worker that is broadcast to reducers: P2R_DATA with
the data and the target ids, or EOF with the target ids. -/
inductive PlanFrame where
  | data (d : List Nat) (targets : List Nat)
  | eof (targets : List Nat)
deriving DecidableEq, Repr

/-- The tag of the frame. -/
def PlanFrame.tag (E : Env) : PlanFrame → Int
  | .data _ _ => E.MSG_P2R_DATA
  | .eof _ => E.MSG_EOF

/-- The payload of the frame. -/
def PlanFrame.payload : PlanFrame → List Nat
  | .data d T => p2r_payload d T
  | .eof T => targets_payload T

/-- The target ids of the frame. -/
def PlanFrame.targets : PlanFrame → List Nat
  | .data _ T => T
  | .eof T => T

/-- The bytes of the frame in the in-buffer of the worker. -/
def PlanFrame.wire (E : Env) (f : PlanFrame) : List Nat := frame (f.tag E) f.payload

/-- The packet the frame is broadcast as, for the plan `planid`. -/
def PlanFrame.packet (E : Env) (planid : Nat) : PlanFrame → List Nat
  | .data d _ => frame E.MSG_R2R_DATA (beEncode 8 planid ++ d)
  | .eof _ => frame E.MSG_EOF (beEncode 8 planid)

/-- What the `switch` of `HandlePlanMsg` calls for the frame. -/
def PlanFrame.send (E : Env) (fuel : Nat) (R : Reducer) (msg : StringInfo) (planid : Nat) :
    PlanFrame → Res (Reducer × StringInfo) Int
  | .data _ _ => SendPlanDataToRdc E fuel R msg planid
  | .eof _ => SendPlanEofToRdc E fuel R msg planid

/-- The state in which the `switch` of `HandlePlanMsg` is entered for a whole
message at the cursor: the five bytes of the header are consumed and the
message is counted. -/
def HSt.entered (st : HSt) : HSt := (st.back (st.port.adv 5)).counted

/-- Every broadcast that `HandlePlanMsg E fuel` makes for the frames `fs`, read
one after the other from the in-buffer of the worker, returns 0: the flush
to every target completes. -/
def flushes_complete (E : Env) : Nat → HSt → List PlanFrame → Prop
  | _, _, [] => True
  | 0, _, _ :: _ => False
  | fuel + 1, st, f :: fs =>
    ∃ x, f.send E (fuel + 1) st.entered.R st.entered.work.in_buf st.entered.work.peer_id =
        .ret 0 x ∧
      flushes_complete E fuel (st.entered.sent x) fs

/-- A port on which WRITABLE is armed for bytes left unsent in its
out-buffer. -/
def RdcPort.backlogged (port : RdcPort) : Prop :=
  port.wait_events.writable = true ∧ port.out_buf.unread ≠ []

/-- A port with nothing left to send: WRITABLE is cleared and its out-buffer
is empty. -/
def RdcPort.drained (port : RdcPort) : Prop :=
  port.wait_events.writable = false ∧ port.out_buf.unread = []

/-- Modelled from the spec: the macro `RdcWaitRead` (rdc_comm.h) is not among
the sources; per §3 `wait_events` is a set over READABLE and WRITABLE. -/
def RdcWaitRead (port : RdcPort) : Bool := port.wait_events.readable

/-- The `while (HandlePlanMsg(work_port, pln_port) == 0)` loop of
`HandleReadFromPlan`.  `rdc_try_read_some` stands for the function of that
name, which is not among the sources. -/
def read_plan_loop (E : Env) (rdc_try_read_some : PSt → Res PSt Int) : Nat → HSt → Res HSt Unit
  | 0, _ => .stuck
  | fuel + 1, st =>
    match HandlePlanMsg E (fuel + 1) st with
    | .stuck => .stuck
    | .raised st1 => .raised st1
    | .ret r st1 =>
      if r ≠ 0 then .ret () st1
      else if !PortIsValid st1.work then .ret () st1
      else
        match rdc_try_read_some st1.port with
        | .stuck => .stuck
        | .raised s2 => .raised (st1.back s2)
        | .ret n s2 =>
          if n = 0 then .ret () (st1.back s2)
          else read_plan_loop E rdc_try_read_some fuel (st1.back s2)

/-- The `for` loop of `HandleReadFromPlan` over the workers of the PlanPort. -/
def read_workers (E : Env) (rdc_try_read_some : PSt → Res PSt Int) (fuel : Nat) :
    List RdcPort → PlanPort → Reducer → Res (List RdcPort × PlanPort × Reducer) Unit
  | [], pp, R => .ret () ([], pp, R)
  | w :: ws, pp, R =>
    if !PortIsValid w || !RdcWaitRead w then
      match read_workers E rdc_try_read_some fuel ws pp R with
      | .stuck => .stuck
      | .raised x => .raised (w :: x.1, x.2)
      | .ret _ x => .ret () (w :: x.1, x.2)
    else
      match read_plan_loop E rdc_try_read_some fuel { work := w, pp := pp, R := R } with
      | .stuck => .stuck
      | .raised st1 => .raised (st1.work :: ws, st1.pp, st1.R)
      | .ret _ st1 =>
        match read_workers E rdc_try_read_some fuel ws st1.pp st1.R with
        | .stuck => .stuck
        | .raised x => .raised (st1.work :: x.1, x.2)
        | .ret _ x => .ret () (st1.work :: x.1, x.2)

/-- Embedding of `HandleReadFromPlan`. -/
def HandleReadFromPlan (E : Env) (rdc_try_read_some : PSt → Res PSt Int) (fuel : Nat)
    (pln_port : PlanPort) (R : Reducer) : Res (PlanPort × Reducer) Unit :=
  if !PlanPortIsValid pln_port then .ret () (pln_port, R)
  else
    match read_workers E rdc_try_read_some fuel pln_port.work_port pln_port R with
    | .stuck => .stuck
    | .raised x => .raised ({ x.2.1 with work_port := x.1 }, x.2.2)
    | .ret _ x => .ret () ({ x.2.1 with work_port := x.1 }, x.2.2)

open RdcConnStatusType RdcPollingStatusType

/-! ## Whole messages (rdc_comm.c) -/

/-- The end of `rdc_getmessage` at the label `eof_end` and in `PG_CATCH`: a
port that was nonblocking on entry is set nonblocking again. -/
def getmessage_restore (sv_noblock : Bool) (s : PSt) : PSt :=
  if sv_noblock then { s with p := (rdc_set_noblock s.p).2 } else s

/-- Embedding of `rdc_getmessage`; `maxlen` is a `size_t`.  The type is kept in
a `char` and returned as an `int`, the length is a `uint32`.  On the normal
return the port is left in blocking mode. -/
def rdc_getmessage (E : Env) (fuel : Nat) (s : PSt) (maxlen : Nat) : Res PSt Int :=
  let sv_noblock := s.p.noblock
  let s0 : PSt := if sv_noblock then { s with p := (rdc_set_block s.p).2 } else s
  match rdc_getbyte s0 with
  | .stuck => .stuck
  | .raised s1 => .raised (getmessage_restore sv_noblock s1)
  | .ret b s1 =>
    let rdctype := toChar b
    if rdctype = EOF then
      .ret EOF (getmessage_restore sv_noblock (s1.err "unexpected EOF on client connection: %m"))
    else
      match rdc_getbytes E fuel s1 4 with
      | .stuck => .stuck
      | .raised s2 => .raised (getmessage_restore sv_noblock s2)
      | .ret r s2 =>
        if r = EOF then
          .ret EOF
            (getmessage_restore sv_noblock
              (s2.err "unexpected EOF within message length word: %m"))
        else
          match rdc_getmsgint s2.p.in_buf 4 with
          | none => .raised (getmessage_restore sv_noblock s2)
          | some (word, buf3) =>
            let s3 := s2.setIn buf3
            let len := word % 2 ^ 32
            if len < 4 ∨ (maxlen > 0 ∧ len > maxlen) then
              .ret EOF (getmessage_restore sv_noblock (s3.err "invalid message length"))
            else if len - 4 > 0 then
              match rdc_getbytes E fuel s3 (len - 4) with
              | .stuck => .stuck
              | .raised s4 => .raised (getmessage_restore sv_noblock s4)
              | .ret r s4 =>
                if r = EOF then
                  .ret EOF
                    (getmessage_restore sv_noblock (s4.err "incomplete message from client"))
                else .ret rdctype s4
            else .ret rdctype s3

/-! ## The address walk of state NEEDED -/

/-- An address on which a port whose `noblock` flag is `nb` does not fail
hard: it is an IPv4 address, the socket is created, the socket options are
set (`rdc_set_noblock` does nothing on a port already flagged nonblocking)
and `connect` succeeds or is in progress. -/
def addr_ok (nb : Bool) (a : AddrInfo) : Bool :=
  a.is_inet && decide (a.socket_fd ≠ PGINVALID_SOCKET) && (nb || a.noblock_ok) &&
    a.nodelay_ok && a.keepalive_ok && a.cloexec_ok && decide (a.connect ≠ ConnectOutcome.fail)

/-- The `noblock` flag of the port after the address has been tried. -/
def nb_next (nb : Bool) (a : AddrInfo) : Bool :=
  nb || (a.is_inet && decide (a.socket_fd ≠ PGINVALID_SOCKET) && a.noblock_ok)

/-- The address list from the first address on which the port does not fail
hard, in list order; `none` if there is no such address. -/
def first_ok : Bool → List AddrInfo → Option (List AddrInfo)
  | _, [] => none
  | nb, a :: next => if addr_ok nb a then some (a :: next) else first_ok (nb_next nb a) next

/-! ## Writing (rdc_handler.c) -/

/-- Embedding of `HandleWriteToReduce`. -/
def HandleWriteToReduce (s : PSt) : Res PSt Unit :=
  if !PortIsValid s.p then .ret () s
  else
    match rdc_try_flush s with
    | .stuck => .stuck
    | .raised s1 => .raised s1
    | .ret ret s1 =>
      if !CHECK_FOR_INTERRUPTS s1.g then .raised s1
      else if ret ≠ 0 then
        .ret () { s1 with p := { s1.p with
          wait_events := { s1.p.wait_events with writable := true } } }
      else
        .ret () { s1 with p := { s1.p with
          wait_events := { s1.p.wait_events with writable := false } } }

/-- Modelled from the spec: the macro `RdcWaitWrite` (rdc_comm.h) is not among
the sources; per §3 `wait_events` is a set over READABLE and WRITABLE. -/
def RdcWaitWrite (port : RdcPort) : Bool := port.wait_events.writable

/-- State of `HandleWriteToPlan` for one worker: the worker port, its second
out-buffer `out_buf2` (held apart from the port), the PlanPort and the
process-wide flags. -/
structure WSt where
  work : RdcPort
  out_buf2 : StringInfo
  pp : PlanPort
  g : Globals
deriving DecidableEq, Repr

/-- What `rdcstore_gettuple_multi(rdcstore, buf, buf2)` leaves: the count it
returns, the store and the two buffers. -/
structure Fetched where
  count : Nat
  rdcstore : List (List Nat)
  buf : StringInfo
  buf2 : StringInfo
deriving DecidableEq, Repr

/-- Modelled from the spec: `rdcstore_gettuple_multi` is not among the sources;
per §4.7 it moves whole frames from the store into `dst_primary`, a frame
that would overflow it is spilled into `dst_overflow`, and it returns the
number of frames moved.  A store with no frame moves none. -/
def rdcstore_gettuple_multi : List (List Nat) → StringInfo → StringInfo → Fetched
  | [], buf, buf2 => { count := 0, rdcstore := [], buf := buf, buf2 := buf2 }
  | f :: rest, buf, buf2 =>
    if buf.len + f.length < buf.maxlen then
      let r := rdcstore_gettuple_multi rest { buf with data := buf.data ++ f } buf2
      { r with count := r.count + 1 }
    else
      { count := 1, rdcstore := rest, buf := buf, buf2 := { buf2 with data := buf2.data ++ f } }

/-- The `while (buf->cursor < buf->len)` loop of `HandleWriteToPlan`, over the
outcomes of the successive `send` calls. -/
def plan_send_loop (s : PSt) : List SendOutcome → Res PSt Unit
  | [] => if s.p.out_buf.cursor < s.p.out_buf.len then .stuck else .ret () s
  | o :: rest =>
    let buf := s.p.out_buf
    if buf.cursor < buf.len then
      match o with
      | .accepted r =>
        let n := max 1 (min r (buf.len - buf.cursor))
        plan_send_loop
          { s with p := { s.p with
              out_buf := { buf with cursor := buf.cursor + n },
              wire := s.p.wire ++ (buf.data.drop buf.cursor).take n,
              sends := rest } } rest
      | .eintr => plan_send_loop { s with p := { s.p with sends := rest } } rest
      | .again => .ret () { s with p := { s.p with sends := rest } }
      | .fail =>
        .raised
          { p := { s.p with out_buf := { buf with data := [], cursor := 0 }, sends := rest },
            g := { ClientConnectionLost := true, InterruptPending := true } }
    else .ret () s

/-- The `for (;;)` loop of `HandleWriteToPlan` for one worker.
`gettuple_multi` stands for `rdcstore_gettuple_multi`;
`appendStringInfoStringInfo`, which is not among the sources either, is
taken to append the contents of its second argument (per §4.7 the out-buffer
adopts the overflow). -/
def write_plan_loop (E : Env)
    (gettuple_multi : List (List Nat) → StringInfo → StringInfo → Fetched) :
    Nat → WSt → Res WSt Unit
  | 0, _ => .stuck
  | fuel + 1, st =>
    match plan_send_loop { p := st.work, g := st.g } st.work.sends with
    | .stuck => .stuck
    | .raised s1 => .raised { st with work := s1.p, g := s1.g }
    | .ret _ s1 =>
      if s1.p.out_buf.cursor < s1.p.out_buf.len then
        .ret ()
          { st with
            work := { s1.p with wait_events := { s1.p.wait_events with writable := true } },
            g := s1.g }
      else
        match appendBinaryStringInfo E (resetStringInfo s1.p.out_buf) st.out_buf2.data with
        | none => .raised { st with work := s1.p, g := s1.g }
        | some buf =>
          let got := gettuple_multi st.pp.rdcstore buf (resetStringInfo st.out_buf2)
          if got.count = 0 then
            .ret ()
              { work := { s1.p with
                          out_buf := got.buf,
                          wait_events := { s1.p.wait_events with writable := false } },
                out_buf2 := got.buf2,
                pp := { st.pp with rdcstore := got.rdcstore },
                g := s1.g }
          else
            write_plan_loop E gettuple_multi fuel
              { work := { s1.p with out_buf := got.buf },
                out_buf2 := got.buf2,
                pp := { st.pp with rdcstore := got.rdcstore,
                                   send_to_pln := st.pp.send_to_pln + got.count },
                g := s1.g }

/-- The body of the loop of `HandleWriteToPlan` over the workers of a
PlanPort, for one worker. -/
def HandleWriteToPlan_worker (E : Env)
    (gettuple_multi : List (List Nat) → StringInfo → StringInfo → Fetched)
    (fuel : Nat) (st : WSt) : Res WSt Unit :=
  if !PortIsValid st.work || !RdcWaitWrite st.work then .ret () st
  else
    let nb := rdc_set_noblock st.work
    if nb.1 = 0 then .raised { st with work := nb.2 }
    else write_plan_loop E gettuple_multi fuel { st with work := nb.2 }

/-! ## The mesh builder (rdc_comm.c) -/

/-- An entry of the group: host, port number and reducer id (`RdcMask`). -/
structure RdcMask where
  rdc_host : List Nat
  rdc_port : Nat
  rdc_rpid : Nat
deriving DecidableEq, Repr

/-- The first loop of `rdc_parse_group`: `num` entries are read from `msg`. -/
def parse_masks : Nat → StringInfo → Res StringInfo (List RdcMask)
  | 0, msg => .ret [] msg
  | n + 1, msg =>
    match rdc_getmsgstring msg with
    | none => .raised msg
    | some (host, m1) =>
      match rdc_getmsgint m1 4 with
      | none => .raised m1
      | some (port, m2) =>
        match rdc_getmsgRdcPortID m2 with
        | none => .raised m2
        | some (rpid, m3) =>
          match parse_masks n m3 with
          | .ret ms m4 => .ret ({ rdc_host := host, rdc_port := port, rdc_rpid := rpid } :: ms) m4
          | r => r

/-- Modelled from the spec: `rdc_portidx` is not among the sources; per §4.4 a
reducer is identified in the rule by its index in the ordered group.  The
result is -1 for an id that is not in the group. -/
def rdc_portidx (rdc_masks : List RdcMask) (rpid : Nat) : Int :=
  let i := rdc_masks.findIdx fun m => m.rdc_rpid == rpid
  if i < rdc_masks.length then (i : Int) else -1

/-- The result of `rdc_parse_group`: `STATUS_ERROR`, or `STATUS_OK` with the
values stored through `rdc_num`, `masks` and `connect_list`. -/
inductive GroupResult where
  | STATUS_ERROR
  | STATUS_OK (rdc_num : Int) (masks : List RdcMask) (connect_list : List RdcPort)
deriving DecidableEq, Repr

/-- The port `rdc_parse_group` has built for a reducer it dials when it calls
`rdc_connect_poll`; `addrs` is the non-empty list `getaddrinfo` returned. -/
def group_port (E : Env) (zero_status : RdcConnStatusType) (zero_flags : RdcFlag)
    (TYPE_REDUCE : Nat) (rpid : Nat) (addrs : List AddrInfo) : RdcPort :=
  { rdc_newport zero_status zero_flags PGINVALID_SOCKET TYPE_REDUCE rpid TYPE_REDUCE E.MyReduceId
    with addrs := addrs, addr_cur := addrs, status := RDC_CONNECTION_NEEDED, active := true }

/-- The second loop of `rdc_parse_group`, over the entries that are left;
`clist` is the list of the ports connecting so far.  `getaddrinfo` gives the
outcome of the address resolution for an entry (`none` is a failure),
`TYPE_REDUCE` is a constant of rdc_comm.h.  When the first
`rdc_connect_poll` of a dial does not return WRITING, the code calls
`rdc_freeport(rdc_port)` and then reads `RdcPeerID(rdc_port)` and
`RdcError(rdc_port)` for its message: a read of freed memory, after which no
result is defined. -/
def parse_group_loop (E : Env) (fuel : Nat) (zero_status : RdcConnStatusType)
    (zero_flags : RdcFlag) (TYPE_REDUCE : Nat) (getaddrinfo : RdcMask → Option (List AddrInfo))
    (rdc_masks : List RdcMask) : List RdcMask → PSt → List RdcPort → Res PSt (Option (List RdcPort))
  | [], s, clist => .ret (some clist) s
  | m :: rest, s, clist =>
    if m.rdc_rpid = E.MyReduceId then
      parse_group_loop E fuel zero_status zero_flags TYPE_REDUCE getaddrinfo rdc_masks rest s clist
    else if dial (rdc_portidx rdc_masks E.MyReduceId) (rdc_portidx rdc_masks m.rdc_rpid) then
      match getaddrinfo m with
      | none | some [] => .ret none (s.err "could not resolve address %s:%u: %s")
      | some (a :: as) =>
        match rdc_connect_poll E fuel
            { p := group_port E zero_status zero_flags TYPE_REDUCE m.rdc_rpid (a :: as),
              g := s.g } with
        | .stuck => .stuck
        | .raised s1 => .raised { s with g := s1.g }
        | .ret status s1 =>
          if status ≠ RDC_POLLING_WRITING then .stuck
          else
            parse_group_loop E fuel zero_status zero_flags TYPE_REDUCE getaddrinfo rdc_masks rest
              { s with g := s1.g } (clist ++ [s1.p])
    else
      parse_group_loop E fuel zero_status zero_flags TYPE_REDUCE getaddrinfo rdc_masks rest s clist

/-- Embedding of `rdc_parse_group` on a non-null port, with all three output
arguments given; the message is read from the in-buffer of the port. -/
def rdc_parse_group (E : Env) (fuel : Nat) (zero_status : RdcConnStatusType)
    (zero_flags : RdcFlag) (TYPE_REDUCE : Nat) (getaddrinfo : RdcMask → Option (List AddrInfo))
    (s : PSt) : Res PSt GroupResult :=
  match rdc_getmsgint s.p.in_buf 4 with
  | none => .raised s
  | some (word, m1) =>
    let num := toInt32 word
    match parse_masks num.toNat m1 with
    | .stuck => .stuck
    | .raised m2 => .raised (s.setIn m2)
    | .ret rdc_masks m2 =>
      match parse_group_loop E fuel zero_status zero_flags TYPE_REDUCE getaddrinfo rdc_masks
          rdc_masks (s.setIn m2) [] with
      | .stuck => .stuck
      | .raised s1 => .raised s1
      | .ret none s1 => .ret GroupResult.STATUS_ERROR s1
      | .ret (some clist) s1 => .ret (GroupResult.STATUS_OK num rdc_masks clist) s1

/-- The group message on the wire: the count, then for each reducer its host
as a null-terminated string, its port number and its id. -/
def group_msg (masks : List RdcMask) : List Nat :=
  beEncode 4 masks.length ++
    masks.flatMap fun m => m.rdc_host ++ [0] ++ beEncode 4 m.rdc_port ++ beEncode 8 m.rdc_rpid

/-- The entries of a group that the reducer at index `s` dials, in group
order. -/
def dialed (s : Nat) (masks : List RdcMask) : List RdcMask :=
  (masks.enum.filter fun im => dial (s : Int) (im.1 : Int)).map fun im => im.2

/-- The port of a dial that `rdc_parse_group` keeps: the address resolution
succeeds and the first `rdc_connect_poll` returns WRITING. -/
def dial_port (E : Env) (fuel : Nat) (zero_status : RdcConnStatusType)
    (zero_flags : RdcFlag) (TYPE_REDUCE : Nat) (getaddrinfo : RdcMask → Option (List AddrInfo))
    (g : Globals) (m : RdcMask) : Option RdcPort :=
  match getaddrinfo m with
  | none | some [] => none
  | some (a :: as) =>
    match rdc_connect_poll E fuel
        { p := group_port E zero_status zero_flags TYPE_REDUCE m.rdc_rpid (a :: as), g := g } with
    | .ret RDC_POLLING_WRITING s1 => some s1.p
    | _ => none

/-! ## Vocabulary of the frame lemmas -/

/-- The address list of the port and its cursor are `A` and `C`. -/
@[reducible] def AddrsAre (A C : List AddrInfo) (s : PSt) : Prop :=
  s.p.addrs = A ∧ s.p.addr_cur = C

/-- The two ends of the port, its `active` flag and the process-wide flags
are the given ones. -/
@[reducible] def EndsAre (pt pi st si : Nat) (act : Bool) (g : Globals) (s : PSt) : Prop :=
  s.p.peer_type = pt ∧ s.p.peer_id = pi ∧ s.p.self_type = st ∧ s.p.self_id = si ∧
    s.p.active = act ∧ s.g = g

open RdcConnStatusType RdcPollingStatusType

/-! ## Sample data -/

/-- A sample environment: the tags are ASCII letters, `rdc_getmsgend` and
`enlargeStringInfo` never report an error, the local reducer has id 1. -/
def exEnv : Env :=
  { RDC_VERSION_NUM := 90600, RDC_START_RQT := 81, RDC_START_RSP := 83, RDC_ERROR_MSG := 69,
    MSG_P2R_DATA := 80, MSG_R2R_DATA := 82, MSG_R2P_DATA := 84, MSG_EOF := 70,
    MSG_PLAN_CLOSE := 67, MSG_ERROR := 69, MyReduceId := 1,
    rdc_getmsgend := fun _ => true, enlarge_fails := fun _ _ => false }

/-- The process-wide flags with nothing pending. -/
def exGlobals : Globals := { ClientConnectionLost := false, InterruptPending := false }

/-- A sample port of reducer 1 for its peer reducer 2, in nonblocking mode
with empty buffers. -/
def exPort : RdcPort :=
  { sock := 7, noblock := true, active := false, peer_type := 3, peer_id := 2, self_type := 3,
    self_id := 1, version := 0, wait_events := WAIT_SOCKET_READABLE, send_eof := false,
    status := RDC_CONNECTION_ACCEPT, flags := RdcFlag.RDC_FLAG_VALID, addrs := [], addr_cur := [],
    in_buf := initStringInfoExtend RDC_BUFFER_SIZE,
    out_buf := initStringInfoExtend RDC_BUFFER_SIZE,
    err_buf := initStringInfoExtend RDC_BUFFER_SIZE,
    pg_set_noblock_ok := true, recvs := [], sends := [], wire := [] }

/-- An accepting port whose next `recv` delivers `bs`. -/
def exAccept (bs : List Nat) : PSt :=
  { p := { exPort with recvs := [RecvOutcome.bytes bs] }, g := exGlobals }

/-- A dialing port awaiting the response whose next `recv` delivers `bs`. -/
def exDial (bs : List Nat) : PSt :=
  { p := { exPort with status := RDC_CONNECTION_AWAITING_RESPONSE, active := true,
                       recvs := [RecvOutcome.bytes bs] },
    g := exGlobals }

/-- A port whose in-buffer holds `bs`, unread. -/
def exBuffered (bs : List Nat) : PSt :=
  { p := { exPort with in_buf := { data := bs, cursor := 0, maxlen := RDC_BUFFER_SIZE } },
    g := exGlobals }

/-- A port in the given status. -/
def exStatus (st : RdcConnStatusType) : PSt :=
  { p := { exPort with status := st }, g := exGlobals }

/-- An address none of whose system calls fails. -/
def exAddr : AddrInfo :=
  { is_inet := true, socket_fd := 5, noblock_ok := true, nodelay_ok := true, keepalive_ok := true,
    cloexec_ok := true, connect := ConnectOutcome.inprogress, getsockopt_ok := true, so_error := 0,
    getsockname_ok := true }

/-- An accepted socket none of whose system calls fails. -/
def exSock : AcceptedSock :=
  { noblock_ok := true, nodelay_ok := true, keepalive_ok := true, recvs := [], sends := [] }

/-- The port `rdc_accept` makes of `exSock`. -/
def exAcceptor : RdcPort :=
  { rdc_newport RDC_CONNECTION_OK RdcFlag.RDC_FLAG_VALID PGINVALID_SOCKET 0 0 0 0 with
    sock := 9, noblock := true, pg_set_noblock_ok := true, status := RDC_CONNECTION_ACCEPT,
    wait_events := WAIT_SOCKET_READABLE }

/-- A connected port to a peer reducer whose socket would block. -/
def exPeer (id : Nat) : RdcPort :=
  { exPort with peer_id := id, status := RDC_CONNECTION_OK, sends := [SendOutcome.again] }

/-- A reducer with the nodes 1 (itself), 2, 3 and 4. -/
def exReducer : Reducer :=
  { nodes := [{ id := 1, port := none }, { id := 2, port := some (exPeer 2) },
              { id := 3, port := some (exPeer 3) }, { id := 4, port := some (exPeer 4) }],
    g := exGlobals, pln_nodes := [] }

/-- The port of a worker of plan 11 that has sent the data `[7, 8, 9]` for the
reducers 2, 1 and 3. -/
def exWorker : RdcPort :=
  { exPort with peer_type := 2, peer_id := 11,
                in_buf := { data := p2r_payload [7, 8, 9] [2, 1, 3], cursor := 0,
                            maxlen := RDC_BUFFER_SIZE } }

/-- A valid PlanPort of plan 11 with an empty store. -/
def exPlanPort : PlanPort :=
  { plan_id := 11, work_port := [], work_num := 1, rdcstore := [], rdc_eofs := [], eof_num := 0,
    recv_from_pln := 0, send_to_pln := 0, recv_from_rdc := 0, dscd_from_rdc := 0, msg_buf := [] }

/-- The port to reducer 2 with two R2R_DATA frames of plan 11 in its
in-buffer, and the PlanPort of that plan. -/
def exRSt : RSt :=
  { s := { p := { exPeer 2 with
                  in_buf := { data := broadcast_packet exEnv 11 exEnv.MSG_R2R_DATA [7, 8, 9] ++
                                broadcast_packet exEnv 11 exEnv.MSG_R2R_DATA [5],
                              cursor := 0, maxlen := RDC_BUFFER_SIZE } },
           g := exGlobals },
    pln_nodes := [exPlanPort] }

/-- The port to reducer 2, nonblocking, with `bs` in its in-buffer, and the
PlanPort of plan 11. -/
def exRdcIn (bs : List Nat) : RSt :=
  { s := { p := { exPeer 2 with in_buf := { data := bs, cursor := 0, maxlen := RDC_BUFFER_SIZE } },
           g := exGlobals },
    pln_nodes := [exPlanPort] }

/-- The worker of plan 11, nonblocking, with `bs` in its in-buffer. -/
def exPlanIn (bs : List Nat) : HSt :=
  { work := { exWorker with in_buf := { data := bs, cursor := 0, maxlen := RDC_BUFFER_SIZE } },
    pp := exPlanPort, R := exReducer }

/-- The PlanPort of plan 11 with an EOF array of three slots, one for each
other reducer of a group of four. -/
def exPlanRoom : PlanPort := { exPlanPort with rdc_eofs := [0, 0, 0] }

/-- The PlanPort of plan 11 after its last worker closed. -/
def exPlanGone : PlanPort := { exPlanRoom with work_num := -1 }

/-- A PlanPort whose EOF array already holds the id 100, which is not the id
of a reducer of the group. -/
def exPlanStale : PlanPort := { exPlanPort with rdc_eofs := [100, 0], eof_num := 1 }

/-- A connected port to a peer reducer whose socket takes whatever it is
given, twice. -/
def exOpenPeer (id : Nat) : RdcPort :=
  { exPort with peer_id := id, status := RDC_CONNECTION_OK,
                sends := [SendOutcome.accepted 4096, SendOutcome.accepted 4096] }

/-- A reducer with the nodes 1 (itself), 2 and 3, whose sockets take whatever
they are given. -/
def exOpenReducer : Reducer :=
  { nodes := [{ id := 1, port := none }, { id := 2, port := some (exOpenPeer 2) },
              { id := 3, port := some (exOpenPeer 3) }],
    g := exGlobals, pln_nodes := [] }

/-- The worker of plan 11, nonblocking, with `bs` in its in-buffer, and a
reducer whose sockets take whatever they are given. -/
def exPlanOpen (bs : List Nat) : HSt :=
  { work := { exWorker with in_buf := { data := bs, cursor := 0, maxlen := RDC_BUFFER_SIZE } },
    pp := exPlanPort, R := exOpenReducer }

/-- A worker of plan 11 that has been closed. -/
def exClosedWorker : RdcPort :=
  { exWorker with flags := RdcFlag.RDC_FLAG_CLOSED, wait_events := WAIT_NONE }

/-- The PlanPort of plan 11 that has had the EOF of reducer 2. -/
def exPlanSeen : PlanPort := { exPlanRoom with rdc_eofs := [2, 0, 0], eof_num := 1 }

/-- The port to reducer 2 with an EOF frame of plan 11 in its in-buffer, and
the PlanPort of that plan, which has had the EOF of reducer 2. -/
def exRdcDup : RSt :=
  { s := { p := { exPeer 2 with
                  in_buf := { data := frame 70 (beEncode 8 11), cursor := 0,
                              maxlen := RDC_BUFFER_SIZE } },
           g := exGlobals },
    pln_nodes := [exPlanSeen] }

/-- A worker of plan 11 armed for writing, nonblocking, with empty out-buffers
of 8192 bytes, whose socket takes whatever is sent; the store of its PlanPort
holds the frames `store`. -/
def exWriter (store : List (List Nat)) : WSt :=
  { work := { exPort with peer_type := 2, peer_id := 11, status := RDC_CONNECTION_OK,
                          wait_events := { readable := true, writable := true },
                          sends := [SendOutcome.accepted 10000, SendOutcome.accepted 10000] },
    out_buf2 := initStringInfoExtend RDC_BUFFER_SIZE,
    pp := { exPlanPort with rdcstore := store }, g := exGlobals }

/-- A dialing port of reducer 1 awaiting the response of reducer 2, with its
resolved address list and a stale error text, whose next `recv` delivers `bs`. -/
def exAwaiting (bs : List Nat) : PSt :=
  { p := { exPort with status := RDC_CONNECTION_AWAITING_RESPONSE, active := true,
                       addrs := [exAddr], addr_cur := [exAddr],
                       err_buf := { data := cstr "old", cursor := 0, maxlen := RDC_BUFFER_SIZE },
                       recvs := [RecvOutcome.bytes bs] },
    g := exGlobals }

/-- A group of three reducers: the local reducer 1 at index 0, then the
reducers 2 and 3. -/
def exGroup : List RdcMask :=
  [{ rdc_host := [104, 49], rdc_port := 7001, rdc_rpid := 1 },
   { rdc_host := [104, 50], rdc_port := 7002, rdc_rpid := 2 },
   { rdc_host := [104, 51], rdc_port := 7003, rdc_rpid := 3 }]

/-- An address resolution that gives every entry the one address `exAddr`. -/
def exResolve : RdcMask → Option (List AddrInfo) := fun _ => some [exAddr]

/-- A nonblocking port whose `recv` calls have the outcomes `script`. -/
def exRecv (script : List RecvOutcome) : PSt :=
  { p := { exPort with recvs := script }, g := exGlobals }

/-- A port with the bytes 8 and 7 unread behind the cursor, whose next `recv`
delivers 1, 2 and 3. -/
def exUnread : PSt :=
  { p := { exPort with in_buf := { data := [9, 8, 7], cursor := 1, maxlen := RDC_BUFFER_SIZE },
                       recvs := [RecvOutcome.bytes [1, 2, 3]] },
    g := exGlobals }

/-- A port to reducer 2 with four bytes to send, whose socket takes two of
them and would block then. -/
def exSending : PSt :=
  { p := { exPort with status := RDC_CONNECTION_OK,
                       out_buf := { data := [1, 2, 3, 4], cursor := 0, maxlen := RDC_BUFFER_SIZE },
                       sends := [SendOutcome.accepted 2, SendOutcome.again] },
    g := exGlobals }

/-- An address that is not an IPv4 address. -/
def exAddr6 : AddrInfo := { exAddr with is_inet := false, socket_fd := 3 }

/-- An address on which `connect` fails. -/
def exAddrDown : AddrInfo := { exAddr with socket_fd := 4, connect := ConnectOutcome.fail }

/-- A dialing port in state NEEDED, without a socket, with three addresses to
try. -/
def exNeeded : PSt :=
  { p := { exPort with sock := PGINVALID_SOCKET, noblock := false, active := true,
                       status := RDC_CONNECTION_NEEDED,
                       addrs := [exAddr6, exAddrDown, exAddr],
                       addr_cur := [exAddr6, exAddrDown, exAddr] },
    g := exGlobals }

open RdcConnStatusType RdcPollingStatusType

/-! ## Vocabulary of the statements on the status graph -/

/-- The property `Q` holds of the value and the end state of a computation
that returns, and `R` of the end state of one that raises. -/
def Res.post {σ α : Type} (Q : α → σ → Prop) (R : σ → Prop) : Res σ α → Prop
  | .ret a s => Q a s
  | .raised s => R s
  | .stuck => True

/-- The permitted transitions of the status of a port: the dialing path
NEEDED, STARTED, MADE, AWAITING_RESPONSE, AUTH_OK, OK, the step back from
STARTED to NEEDED, the accepting path ACCEPT, SENDING_RESPONSE, AUTH_OK, OK,
and the step to BAD from any status. -/
def permitted : RdcConnStatusType → RdcConnStatusType → Bool
  | _, RDC_CONNECTION_BAD => true
  | RDC_CONNECTION_NEEDED, RDC_CONNECTION_STARTED => true
  | RDC_CONNECTION_STARTED, RDC_CONNECTION_MADE => true
  | RDC_CONNECTION_MADE, RDC_CONNECTION_AWAITING_RESPONSE => true
  | RDC_CONNECTION_AWAITING_RESPONSE, RDC_CONNECTION_AUTH_OK => true
  | RDC_CONNECTION_AUTH_OK, RDC_CONNECTION_OK => true
  | RDC_CONNECTION_STARTED, RDC_CONNECTION_NEEDED => true
  | RDC_CONNECTION_ACCEPT, RDC_CONNECTION_SENDING_RESPONSE => true
  | RDC_CONNECTION_SENDING_RESPONSE, RDC_CONNECTION_AUTH_OK => true
  | _, _ => false

/-- The status `b` is reachable from the status `a` along permitted
transitions, in any number of steps. -/
def Reach (a b : RdcConnStatusType) : Prop :=
  Relation.ReflTransGen (fun x y => permitted x y = true) a b

/-- The statuses of the dialing side of the graph. -/
def dialSide : List RdcConnStatusType :=
  [RDC_CONNECTION_NEEDED, RDC_CONNECTION_STARTED, RDC_CONNECTION_MADE,
   RDC_CONNECTION_AWAITING_RESPONSE, RDC_CONNECTION_AUTH_OK, RDC_CONNECTION_OK,
   RDC_CONNECTION_BAD]

/-- The statuses of the accepting side of the graph. -/
def acceptSide : List RdcConnStatusType :=
  [RDC_CONNECTION_ACCEPT, RDC_CONNECTION_SENDING_RESPONSE, RDC_CONNECTION_AUTH_OK,
   RDC_CONNECTION_OK, RDC_CONNECTION_BAD]

/-- What the result of the code at `keep_going` says about the port it
leaves: FAILED goes with status BAD and OK with status OK; READING goes with
`wait_events = READABLE` in a status that awaits input, WRITING with
`wait_events = WRITEABLE` in a status that has output to send. -/
def StepOut (r : RdcPollingStatusType) (s : PSt) : Prop :=
  match r with
  | RDC_POLLING_FAILED => s.p.status = RDC_CONNECTION_BAD
  | RDC_POLLING_OK => s.p.status = RDC_CONNECTION_OK
  | RDC_POLLING_READING =>
    s.p.wait_events = WAIT_SOCKET_READABLE ∧
      (s.p.status = RDC_CONNECTION_AWAITING_RESPONSE ∨ s.p.status = RDC_CONNECTION_ACCEPT)
  | RDC_POLLING_WRITING =>
    s.p.wait_events = WAIT_SOCKET_WRITEABLE ∧
      (s.p.status = RDC_CONNECTION_STARTED ∨ s.p.status = RDC_CONNECTION_MADE ∨
        s.p.status = RDC_CONNECTION_SENDING_RESPONSE)

/-- The invariant of a port between two poll steps of its handshake: a status
that awaits input has `wait_events = READABLE`, and the status is not
AUTH_OK, which is passed within one call. -/
def Armed (s : PSt) : Prop :=
  ((s.p.status = RDC_CONNECTION_AWAITING_RESPONSE ∨ s.p.status = RDC_CONNECTION_ACCEPT) →
    s.p.wait_events = WAIT_SOCKET_READABLE) ∧
  s.p.status ≠ RDC_CONNECTION_AUTH_OK

/-- The status, the wait events and the blocking mode of the port are the
given ones. -/
@[reducible] def ModeIs (X : RdcConnStatusType) (W : WaitEvents) (B K : Bool) (s : PSt) :
    Prop :=
  s.p.status = X ∧ s.p.wait_events = W ∧ s.p.noblock = B ∧ s.p.pg_set_noblock_ok = K

/-! ## The socket-option calls of the two ways to a connection -/

/-- The functions of rdc_comm.c that set an option of a socket:
`rdc_set_noblock` (nonblocking mode), `connect_nodelay` (TCP_NODELAY),
`connect_keepalive` (SO_KEEPALIVE) and `connect_close_on_exec` (FD_CLOEXEC). -/
inductive SockOptCall where
  | set_noblock
  | nodelay
  | keepalive
  | close_on_exec
deriving DecidableEq, Repr

/-- The calls of the condition
`!rdc_set_noblock(port) || !connect_nodelay(port) || !connect_keepalive(port)`
of `rdc_accept` on the new socket, in the order in which they are made: `||`
stops at the first call that fails. -/
def rdc_accept_calls (sk : AcceptedSock) : List SockOptCall :=
  SockOptCall.set_noblock ::
    if !sk.noblock_ok then []
    else SockOptCall.nodelay ::
      if !sk.nodelay_ok then []
      else [SockOptCall.keepalive]

/-- The calls of the condition `!rdc_set_noblock(port) || !connect_nodelay(port) ||
!connect_keepalive(port) || !connect_close_on_exec(port)` of state NEEDED on
the new socket, in the order in which they are made. -/
def connect_options_calls (a : AddrInfo) (port : RdcPort) : List SockOptCall :=
  SockOptCall.set_noblock ::
    if (rdc_set_noblock port).1 = 0 then []
    else SockOptCall.nodelay ::
      if !a.nodelay_ok then []
      else SockOptCall.keepalive ::
        if !a.keepalive_ok then []
        else [SockOptCall.close_on_exec]

open RdcConnStatusType RdcPollingStatusType

/-! ## Vocabulary of the statements on the flush loop -/

/-- The number of bytes the socket takes of `avail` pending bytes over the
outcomes `pre` of successive `send` calls: a call that accepts bytes takes
what it reports, at least one byte and at most what is pending; the other
calls take none. -/
def accepted_bytes : Nat → List SendOutcome → Nat
  | _, [] => 0
  | avail, SendOutcome.accepted r :: rest =>
    max 1 (min r avail) + accepted_bytes (avail - max 1 (min r avail)) rest
  | avail, _ :: rest => accepted_bytes avail rest

/-- An outcome of `send` after which the flush loop calls `send` again: the
call accepted bytes, was interrupted by EINTR or, in blocking mode, would
block. -/
def SendOutcome.goes_on (block : Bool) : SendOutcome → Bool
  | SendOutcome.accepted _ => true
  | SendOutcome.eintr => true
  | SendOutcome.again => block
  | SendOutcome.fail => false

/-! ## The dispatcher: writing to the workers of a plan (rdc_handler.c) -/

/-- The `while (work_port != NULL)` loop of `HandleWriteToPlan` over the
workers of the PlanPort.  `bufs2` holds the second out-buffers `RdcOutBuf2` of
the workers, in their order; a worker without an entry has an empty one. -/
def write_workers (E : Env)
    (gettuple_multi : List (List Nat) → StringInfo → StringInfo → Fetched) (fuel : Nat) :
    List RdcPort → List StringInfo → PlanPort → Globals →
      Res (List RdcPort × List StringInfo × PlanPort × Globals) Unit
  | [], bufs2, pp, g => .ret () ([], bufs2, pp, g)
  | w :: ws, bufs2, pp, g =>
    match HandleWriteToPlan_worker E gettuple_multi fuel
        { work := w, out_buf2 := bufs2.headD (initStringInfoExtend RDC_BUFFER_SIZE),
          pp := pp, g := g } with
    | .stuck => .stuck
    | .raised st1 => .raised (st1.work :: ws, st1.out_buf2 :: bufs2.tail, st1.pp, st1.g)
    | .ret _ st1 =>
      match write_workers E gettuple_multi fuel ws bufs2.tail st1.pp st1.g with
      | .stuck => .stuck
      | .raised x => .raised (st1.work :: x.1, st1.out_buf2 :: x.2.1, x.2.2)
      | .ret _ x => .ret () (st1.work :: x.1, st1.out_buf2 :: x.2.1, x.2.2)

/-- Embedding of `HandleWriteToPlan`.  `rdcstore_ateof` stands for the
function of that name, which is not among the sources. -/
def HandleWriteToPlan (E : Env)
    (gettuple_multi : List (List Nat) → StringInfo → StringInfo → Fetched)
    (rdcstore_ateof : List (List Nat) → Bool) (fuel : Nat)
    (pln_port : PlanPort) (bufs2 : List StringInfo) (g : Globals) :
    Res (PlanPort × List StringInfo × Globals) Unit :=
  if !PlanPortIsValid pln_port then .ret () (pln_port, bufs2, g)
  else
    let pp1 :=
      if !rdcstore_ateof pln_port.rdcstore then PlanPortAddEvents pln_port WAIT_SOCKET_WRITEABLE
      else pln_port
    match write_workers E gettuple_multi fuel pp1.work_port bufs2 pp1 g with
    | .stuck => .stuck
    | .raised x => .raised ({ x.2.2.1 with work_port := x.1 }, x.2.1, x.2.2.2)
    | .ret _ x => .ret () ({ x.2.2.1 with work_port := x.1 }, x.2.1, x.2.2.2)

/-! ## Vocabulary of the statements on closed workers -/

/-- Every CLOSED worker of the PlanPort `pp` is found at the same place among
the workers of `pp'`, unchanged, and `pp'` has as many workers. -/
def ClosedKept (pp pp' : PlanPort) : Prop :=
  pp'.work_port.length = pp.work_port.length ∧
  ∀ i w, pp.work_port.get? i = some w → w.flags = RdcFlag.RDC_FLAG_CLOSED →
    pp'.work_port.get? i = some w

/-- Every PlanPort of the list `l` is found at the same place in `l'`, with
its CLOSED workers kept. -/
def NodesKept (l l' : List PlanPort) : Prop :=
  ∀ j pp, l.get? j = some pp → ∃ pp', l'.get? j = some pp' ∧ ClosedKept pp pp'

/-! ## Theorems -/

open RdcConnStatusType RdcPollingStatusType

theorem beEncode_length (n v : Nat) : (beEncode n v).length = n := by
  induction n generalizing v with
  | zero => rfl
  | succ n ih => simp [beEncode, ih]

theorem beDecode_snoc (xs : List Nat) (b : Nat) :
    beDecode (xs ++ [b]) = beDecode xs * 256 + b % 256 := by
  simp [beDecode, List.foldl_append]

theorem beDecode_beEncode (n v : Nat) : beDecode (beEncode n v) = v % 256 ^ n := by
  induction n generalizing v with
  | zero => simp [beEncode, beDecode, Nat.mod_one]
  | succ n ih =>
    rw [beEncode, beDecode_snoc, ih, Nat.mod_mod, pow_succ]
    have h := Nat.mod_mul (a := 256) (b := 256 ^ n) (x := v)
    rw [Nat.mul_comm (256 ^ n) 256] 
    omega

theorem beDecode_beEncode_of_lt (n v : Nat) (h : v < 256 ^ n) : beDecode (beEncode n v) = v := by
  rw [beDecode_beEncode, Nat.mod_eq_of_lt h]

theorem beDecode_lt (bs : List Nat) : beDecode bs < 256 ^ bs.length := by
  induction bs using List.reverseRecOn with
  | nil => simp [beDecode]
  | append_singleton xs b ih =>
    rw [beDecode_snoc, List.length_append, List.length_singleton, pow_succ]
    have : b % 256 < 256 := Nat.mod_lt _ (by decide)
    omega

theorem unread_length (msg : StringInfo) : msg.unread.length = msg.len - msg.cursor := by
  simp [StringInfo.unread, StringInfo.len]

theorem getmsgbytes_of_unread (msg : StringInfo) (bs rest : List Nat)
    (h : msg.unread = bs ++ rest) (hc : msg.cursor ≤ msg.len) :
    rdc_getmsgbytes msg (bs.length : Int) =
      some (bs, { msg with cursor := msg.cursor + bs.length }) := by
  have hl := unread_length msg
  rw [h, List.length_append] at hl
  unfold rdc_getmsgbytes
  rw [if_neg (by omega)]
  simp [h]

theorem unread_advance (msg : StringInfo) (n : Nat) :
    StringInfo.unread { msg with cursor := msg.cursor + n } = msg.unread.drop n := by
  simp [StringInfo.unread, List.drop_drop, Nat.add_comm]

theorem getmsgint_of_unread (msg : StringInfo) (b : Nat) (bs rest : List Nat)
    (h : msg.unread = bs ++ rest) (hb : bs.length = b) (hc : msg.cursor ≤ msg.len) :
    rdc_getmsgint msg b = some (beDecode bs, { msg with cursor := msg.cursor + b }) := by
  subst hb
  simp [rdc_getmsgint, getmsgbytes_of_unread msg bs rest h hc]

theorem unread_nil_iff (msg : StringInfo) : msg.unread = [] ↔ msg.cursor ≥ msg.len := by
  simp [StringInfo.unread, StringInfo.len]

theorem cursor_lt_of_unread_cons (msg : StringInfo) (b : Nat) (rest : List Nat)
    (h : msg.unread = b :: rest) : msg.cursor < msg.len := by
  have hl := unread_length msg
  rw [h] at hl
  simp at hl
  omega

theorem rdc_getbyte_nil (s : PSt) (hnb : s.p.noblock = true) (h : s.p.in_buf.unread = []) :
    rdc_getbyte s = .ret EOF s := by
  have hc := (unread_nil_iff _).1 h
  simp [rdc_getbyte, hc, hnb]

theorem rdc_getbyte_cons (s : PSt) (b : Nat) (rest : List Nat)
    (h : s.p.in_buf.unread = b :: rest) :
    rdc_getbyte s =
      .ret ((b % 256 : Nat) : Int) (s.setIn { s.p.in_buf with cursor := s.p.in_buf.cursor + 1 }) := by
  have hc := cursor_lt_of_unread_cons _ _ _ h
  have hb := getmsgbytes_of_unread s.p.in_buf [b] rest (by simpa using h) (by omega)
  have hb' : rdc_getmsgbytes s.p.in_buf 1 = some ([b], { s.p.in_buf with cursor := s.p.in_buf.cursor + 1 }) := by
    simpa using hb
  simp [rdc_getbyte, Nat.not_le.2 hc, getbyte_buffered, rdc_getmsgbyte, hb', beDecode, PSt.setIn]

theorem rdc_getbytes_enough (E : Env) (fuel : Nat) (s : PSt) (n : Nat)
    (h : s.p.in_buf.cursor + n ≤ s.p.in_buf.len) (hl : s.p.in_buf.len < 2 ^ 64) :
    rdc_getbytes E (fuel + 1) s n = .ret 0 s := by
  unfold rdc_getbytes
  by_cases hn : n = 0
  · simp [hn]
  · rw [if_neg hn]
    unfold rdc_getbytes_loop
    simp only [hn, if_false]
    have h1 : (s.p.in_buf.cursor + n) % 2 ^ 64 = s.p.in_buf.cursor + n :=
      Nat.mod_eq_of_lt (by omega)
    rw [h1, if_neg (by omega)]
    have h2 : ((((s.p.in_buf.len : Int) - (s.p.in_buf.cursor : Int)) % 2 ^ 64).toNat) =
        s.p.in_buf.len - s.p.in_buf.cursor := by
      omega
    rw [h2, if_pos (by omega)]

theorem rdc_getbytes_short (E : Env) (fuel : Nat) (s : PSt) (n : Nat)
    (hnb : s.p.noblock = true) (hc : s.p.in_buf.cursor ≤ s.p.in_buf.len)
    (h : s.p.in_buf.len < s.p.in_buf.cursor + n) (hl : s.p.in_buf.cursor + n < 2 ^ 64) :
    rdc_getbytes E (fuel + 1) s n = .ret EOF s := by
  unfold rdc_getbytes
  have hn : n ≠ 0 := by omega
  rw [if_neg hn]
  unfold rdc_getbytes_loop
  simp only [hn, if_false]
  have h1 : (s.p.in_buf.cursor + n) % 2 ^ 64 = s.p.in_buf.cursor + n :=
    Nat.mod_eq_of_lt (by omega)
  rw [h1, if_pos (by omega)]
  simp [hnb]

@[simp] theorem adv_unread (b : StringInfo) (n : Nat) : (b.adv n).unread = b.unread.drop n :=
  unread_advance b n
@[simp] theorem adv_len (b : StringInfo) (n : Nat) : (b.adv n).len = b.len := rfl
@[simp] theorem adv_cursor (b : StringInfo) (n : Nat) : (b.adv n).cursor = b.cursor + n := rfl
@[simp] theorem adv_maxlen (b : StringInfo) (n : Nat) : (b.adv n).maxlen = b.maxlen := rfl
@[simp] theorem adv_data (b : StringInfo) (n : Nat) : (b.adv n).data = b.data := rfl
@[simp] theorem adv_adv (b : StringInfo) (n m : Nat) : (b.adv n).adv m = b.adv (n + m) := by
  simp [StringInfo.adv, Nat.add_assoc]
@[simp] theorem setIn_in_buf (s : PSt) (b : StringInfo) : (s.setIn b).p.in_buf = b := rfl
@[simp] theorem setIn_noblock (s : PSt) (b : StringInfo) : (s.setIn b).p.noblock = s.p.noblock := rfl
@[simp] theorem setIn_g (s : PSt) (b : StringInfo) : (s.setIn b).g = s.g := rfl
@[simp] theorem adv_setIn (s : PSt) (n : Nat) (b : StringInfo) : (s.adv n).setIn b = s.setIn b := rfl
@[simp] theorem setIn_setIn (s : PSt) (b c : StringInfo) : (s.setIn b).setIn c = s.setIn c := rfl
@[simp] theorem padv_in_buf (s : PSt) (n : Nat) : (s.adv n).p.in_buf = s.p.in_buf.adv n := rfl
@[simp] theorem padv_noblock (s : PSt) (n : Nat) : (s.adv n).p.noblock = s.p.noblock := rfl
@[simp] theorem padv_adv (s : PSt) (n m : Nat) : (s.adv n).adv m = s.adv (n + m) := by
  simp [PSt.adv]

@[simp] theorem setIn_adv_eq (s : PSt) (n : Nat) : s.setIn (s.p.in_buf.adv n) = s.adv n := rfl

theorem EOF_ne_zero : (0 : Int) ≠ EOF := by decide

theorem getbyte_adv (s : PSt) (b : Nat) (rest : List Nat) (h : s.p.in_buf.unread = b :: rest) :
    rdc_getbyte s = .ret ((b % 256 : Nat) : Int) (s.adv 1) :=
  rdc_getbyte_cons s b rest h

theorem getmsgint_adv (msg : StringInfo) (b : Nat) (bs rest : List Nat)
    (h : msg.unread = bs ++ rest) (hb : bs.length = b) (hc : msg.cursor ≤ msg.len) :
    rdc_getmsgint msg b = some (beDecode bs, msg.adv b) :=
  getmsgint_of_unread msg b bs rest h hb hc

theorem recv_rsp_complete (E : Env) (fuel : Nat) (s : PSt) (et ei : Nat)
    (tagb : Nat) (l4 v4 t4 i8 rest : List Nat)
    (hun : s.p.in_buf.unread = tagb :: (l4 ++ (v4 ++ (t4 ++ (i8 ++ rest)))))
    (hl4 : l4.length = 4) (hv4 : v4.length = 4) (ht4 : t4.length = 4) (hi8 : i8.length = 8)
    (htag : toChar ((tagb % 256 : Nat) : Int) = E.RDC_START_RSP)
    (hne : E.RDC_START_RSP ≠ E.RDC_ERROR_MSG) (hEOF : E.RDC_START_RSP ≠ EOF)
    (hL : beDecode l4 = 20) (hlen : s.p.in_buf.len < 2 ^ 64) :
    internal_recv_startup_rsp E (fuel + 1) s et ei =
      if beDecode v4 ≠ E.RDC_VERSION_NUM then
        .ret RDC_POLLING_FAILED ((s.adv 9).err
          ("expected Reduce version '%d' from server, " ++ "but received response type '%d'"))
      else if beDecode t4 ≠ et then
        .ret RDC_POLLING_FAILED ((s.adv 13).err
          ("expected port type '%s' from server, " ++ "but received response type '%s'"))
      else if beDecode i8 ≠ ei then
        .ret RDC_POLLING_FAILED ((s.adv 21).err
          ("expected port id '%ld' from server, " ++ "but received response id '%ld'"))
      else if !E.rdc_getmsgend (s.p.in_buf.adv 21) then .raised (s.adv 21)
      else .ret RDC_POLLING_OK
        { (s.adv 21) with p := { (s.adv 21).p with status := RDC_CONNECTION_AUTH_OK } } := by
  have hlenu := unread_length s.p.in_buf
  rw [hun] at hlenu
  simp only [List.length_cons, List.length_append, hl4, hv4, ht4, hi8] at hlenu
  have e1 : rdc_getmsgint (s.p.in_buf.adv 1) 4 = some (beDecode l4, s.p.in_buf.adv 5) := by
    rw [getmsgint_adv _ 4 l4 (v4 ++ (t4 ++ (i8 ++ rest))) (by simp [hun]) hl4 (by simp; omega)]
    simp
  have e5 : rdc_getmsgint (s.p.in_buf.adv 5) 4 = some (beDecode v4, s.p.in_buf.adv 9) := by
    rw [getmsgint_adv _ 4 v4 (t4 ++ (i8 ++ rest)) (by simp [hun, hl4]) hv4 (by simp; omega)]
    simp
  have e9 : rdc_getmsgint (s.p.in_buf.adv 9) 4 = some (beDecode t4, s.p.in_buf.adv 13) := by
    rw [getmsgint_adv _ 4 t4 (i8 ++ rest) ?_ ht4 (by simp; omega)]
    · simp
    · have : s.p.in_buf.adv 9 = (s.p.in_buf.adv 5).adv 4 := by simp
      rw [this, adv_unread, adv_unread, hun]; simp [hl4, hv4]
  have e13 : rdc_getmsgRdcPortID (s.p.in_buf.adv 13) = some (beDecode i8, s.p.in_buf.adv 21) := by
    unfold rdc_getmsgRdcPortID
    rw [getmsgint_adv _ 8 i8 rest ?_ hi8 (by simp; omega)]
    · simp
    · have : s.p.in_buf.adv 13 = ((s.p.in_buf.adv 5).adv 4).adv 4 := by simp
      rw [this, adv_unread, adv_unread, adv_unread, hun]; simp [hl4, hv4, ht4]
  unfold internal_recv_startup_rsp
  rw [getbyte_adv s tagb _ hun]
  simp only [Res.bind, htag, hEOF, if_false]
  rw [rdc_getbytes_enough E fuel (s.adv 1) 4 (by simp; omega) (by simpa using hlen)]
  simp only [Res.bind, padv_in_buf, e1, hL, adv_setIn, setIn_adv_eq]
  rw [rdc_getbytes_enough E fuel (s.adv 5) (20 - 4) (by simp; omega) (by simpa using hlen)]
  simp only [padv_in_buf, e5, e9, e13, hne, EOF_ne_zero, if_false, setIn_adv_eq, adv_setIn]
  simp

theorem rdc_set_noblock_true (port : RdcPort) (h : port.noblock = true) :
    rdc_set_noblock port = (1, port) := by
  simp [rdc_set_noblock, h]

/-- The state after a complete startup request has been parsed. -/
theorem recv_rqt_complete (E : Env) (fuel : Nat) (s : PSt) (ver : Nat)
    (tagb : Nat) (l4 v4 t4 i8 rest : List Nat)
    (hnb : s.p.noblock = true)
    (hun : s.p.in_buf.unread = tagb :: (l4 ++ (v4 ++ (t4 ++ (i8 ++ rest)))))
    (hl4 : l4.length = 4) (hv4 : v4.length = 4) (ht4 : t4.length = 4) (hi8 : i8.length = 8)
    (htag : toChar ((tagb % 256 : Nat) : Int) = E.RDC_START_RQT)
    (hEOF : E.RDC_START_RQT ≠ EOF)
    (hL : beDecode l4 = 20) (hlen : s.p.in_buf.len < 2 ^ 64) :
    internal_recv_startup_rqt E (fuel + 1) s ver =
      if !E.rdc_getmsgend (s.p.in_buf.adv 21) then
        .raised { s with p := { s.p with in_buf := s.p.in_buf.adv 21, version := beDecode v4,
                                          peer_type := beDecode t4, peer_id := beDecode i8 } }
      else if beDecode v4 ≠ ver then
        .ret RDC_POLLING_FAILED
          (PSt.err { s with p := { s.p with in_buf := s.p.in_buf.adv 21, version := beDecode v4,
                                            peer_type := beDecode t4, peer_id := beDecode i8 } }
            ("expected Reduce version '%d' from client, " ++ "but received request version '%d'"))
      else
        .ret RDC_POLLING_WRITING
          { s with p := { s.p with in_buf := s.p.in_buf.adv 21, version := beDecode v4,
                                   peer_type := beDecode t4, peer_id := beDecode i8,
                                   status := RDC_CONNECTION_SENDING_RESPONSE } } := by
  have hlenu := unread_length s.p.in_buf
  rw [hun] at hlenu
  simp only [List.length_cons, List.length_append, hl4, hv4, ht4, hi8] at hlenu
  have e1 : rdc_getmsgint (s.p.in_buf.adv 1) 4 = some (beDecode l4, s.p.in_buf.adv 5) := by
    rw [getmsgint_adv _ 4 l4 (v4 ++ (t4 ++ (i8 ++ rest))) (by simp [hun]) hl4 (by simp; omega)]
    simp
  have e5 : rdc_getmsgint (s.p.in_buf.adv 5) 4 = some (beDecode v4, s.p.in_buf.adv 9) := by
    rw [getmsgint_adv _ 4 v4 (t4 ++ (i8 ++ rest)) (by simp [hun, hl4]) hv4 (by simp; omega)]
    simp
  have e9 : rdc_getmsgint (s.p.in_buf.adv 9) 4 = some (beDecode t4, s.p.in_buf.adv 13) := by
    rw [getmsgint_adv _ 4 t4 (i8 ++ rest) ?_ ht4 (by simp; omega)]
    · simp
    · have : s.p.in_buf.adv 9 = (s.p.in_buf.adv 5).adv 4 := by simp
      rw [this, adv_unread, adv_unread, hun]; simp [hl4, hv4]
  have e13 : rdc_getmsgRdcPortID (s.p.in_buf.adv 13) = some (beDecode i8, s.p.in_buf.adv 21) := by
    unfold rdc_getmsgRdcPortID
    rw [getmsgint_adv _ 8 i8 rest ?_ hi8 (by simp; omega)]
    · simp
    · have : s.p.in_buf.adv 13 = ((s.p.in_buf.adv 5).adv 4).adv 4 := by simp
      rw [this, adv_unread, adv_unread, adv_unread, hun]; simp [hl4, hv4, ht4]
  unfold internal_recv_startup_rqt
  rw [rdc_set_noblock_true s.p hnb]
  simp only [one_ne_zero, if_false]
  rw [getbyte_adv s tagb _ hun]
  simp only [Res.bind, htag, hEOF, if_false, ne_eq, not_true_eq_false]
  rw [rdc_getbytes_enough E fuel (s.adv 1) 4 (by simp; omega) (by simpa using hlen)]
  simp only [Res.bind, padv_in_buf, e1, hL, adv_setIn, setIn_adv_eq]
  rw [rdc_getbytes_enough E fuel (s.adv 5) (20 - 4) (by simp; omega) (by simpa using hlen)]
  simp only [padv_in_buf, e5, EOF_ne_zero, if_false]
  simp [PSt.adv, PSt.setIn, e9, e13]

/-- The in-buffer as `rdc_recv` leaves it before receiving: the unread bytes,
left-justified. -/
theorem recv_justify (buf : StringInfo) :
    (if buf.cursor > 0 then
      if buf.cursor < buf.len then { buf with data := buf.data.drop buf.cursor, cursor := 0 }
      else { buf with data := [], cursor := 0 }
    else buf) = { data := buf.unread, cursor := 0, maxlen := buf.maxlen } := by
  obtain ⟨data, cursor, maxlen⟩ := buf
  simp only [StringInfo.unread, StringInfo.len]
  by_cases h0 : cursor > 0
  · by_cases h1 : cursor < data.length
    · simp [h0, h1]
    · simp [h0, h1, List.drop_eq_nil_of_le (Nat.le_of_not_lt h1)]
  · have : cursor = 0 := by omega
    subst this
    simp

theorem rdc_recv_loop_bytes (s : PSt) (k : Nat) (bs : List Nat) (script : List RecvOutcome)
    (hint : s.g.InterruptPending = false)
    (hr : 0 < min bs.length (s.p.in_buf.maxlen - s.p.in_buf.len)) :
    rdc_recv_loop s (List.replicate k RecvOutcome.eintr ++ RecvOutcome.bytes bs :: script) =
      .ret 1 { s with p := { s.p with
        in_buf := { s.p.in_buf with
          data := s.p.in_buf.data ++ bs.take (min bs.length (s.p.in_buf.maxlen - s.p.in_buf.len)) },
        recvs := if bs.drop (min bs.length (s.p.in_buf.maxlen - s.p.in_buf.len)) = [] then script
                 else RecvOutcome.bytes (bs.drop (min bs.length (s.p.in_buf.maxlen - s.p.in_buf.len)))
                        :: script } } := by
  induction k with
  | zero =>
    have hr' : min bs.length (s.p.in_buf.maxlen - s.p.in_buf.len) ≠ 0 := by omega
    simp only [List.replicate, List.nil_append, rdc_recv_loop, CHECK_FOR_INTERRUPTS, hint,
      Bool.not_false, Bool.not_true, if_false, hr']
    simp
  | succ k ih =>
    simp only [List.replicate, List.cons_append, rdc_recv_loop, CHECK_FOR_INTERRUPTS, hint,
      Bool.not_false, Bool.not_true, if_false]
    exact ih

theorem rdc_recv_eq (s : PSt) :
    rdc_recv s =
      rdc_recv_loop
        { s with p := { s.p with
            in_buf := { data := s.p.in_buf.unread, cursor := 0, maxlen := s.p.in_buf.maxlen } } }
        s.p.recvs := by
  unfold rdc_recv
  simp only [recv_justify]

theorem rdc_recv_bytes (s : PSt) (k : Nat) (bs : List Nat) (script : List RecvOutcome)
    (hint : s.g.InterruptPending = false)
    (hrecv : s.p.recvs = List.replicate k RecvOutcome.eintr ++ RecvOutcome.bytes bs :: script)
    (hr : 0 < min bs.length (s.p.in_buf.maxlen - s.p.in_buf.unread.length)) :
    rdc_recv s =
      .ret 1 { s with p := { s.p with
        in_buf :=
          { data := s.p.in_buf.unread ++
              bs.take (min bs.length (s.p.in_buf.maxlen - s.p.in_buf.unread.length)),
            cursor := 0, maxlen := s.p.in_buf.maxlen },
        recvs :=
          if bs.drop (min bs.length (s.p.in_buf.maxlen - s.p.in_buf.unread.length)) = [] then script
          else RecvOutcome.bytes
            (bs.drop (min bs.length (s.p.in_buf.maxlen - s.p.in_buf.unread.length))) :: script } } := by
  rw [rdc_recv_eq, congrArg (rdc_recv_loop _) hrecv,
    rdc_recv_loop_bytes
      { s with p := { s.p with
            in_buf := { data := s.p.in_buf.unread, cursor := 0, maxlen := s.p.in_buf.maxlen } } } k bs script hint
      (by simpa [StringInfo.len] using hr)]
  simp [StringInfo.len]

theorem rdc_recv_loop_again (s : PSt) (k : Nat) (script : List RecvOutcome)
    (hint : s.g.InterruptPending = false) (hnb : s.p.noblock = true) :
    rdc_recv_loop s (List.replicate k RecvOutcome.eintr ++ RecvOutcome.again :: script) =
      .ret 0 { s with p := { s.p with recvs := script } } := by
  induction k with
  | zero =>
    simp [rdc_recv_loop, CHECK_FOR_INTERRUPTS, hint, hnb]
  | succ k ih =>
    simp only [List.replicate, List.cons_append, rdc_recv_loop, CHECK_FOR_INTERRUPTS, hint,
      Bool.not_false, Bool.not_true, if_false]
    exact ih

theorem rdc_recv_again (s : PSt) (k : Nat) (script : List RecvOutcome)
    (hint : s.g.InterruptPending = false) (hnb : s.p.noblock = true)
    (hrecv : s.p.recvs = List.replicate k RecvOutcome.eintr ++ RecvOutcome.again :: script) :
    rdc_recv s =
      .ret 0 { s with p := { s.p with
        in_buf := { data := s.p.in_buf.unread, cursor := 0, maxlen := s.p.in_buf.maxlen },
        recvs := script } } := by
  rw [rdc_recv_eq, congrArg (rdc_recv_loop _) hrecv,
    rdc_recv_loop_again
      { s with p := { s.p with
            in_buf := { data := s.p.in_buf.unread, cursor := 0, maxlen := s.p.in_buf.maxlen } } } k script hint hnb]

theorem delivered_pos (buf : StringInfo) (bs : List Nat) (h : delivered buf bs ≠ []) :
    0 < min bs.length (buf.maxlen - buf.unread.length) := by
  unfold delivered at h
  rcases Nat.eq_zero_or_pos (min bs.length (buf.maxlen - buf.unread.length)) with h0 | h0
  · rw [h0] at h; simp at h
  · exact h0

theorem delivered_fit (buf : StringInfo) (bs : List Nat) (h : delivered buf bs ≠ []) :
    buf.unread.length + (delivered buf bs).length ≤ buf.maxlen := by
  have hp := delivered_pos buf bs h
  unfold delivered
  rw [List.length_take]
  omega

theorem toChar_tagByte (t : Int) (h : IsTag t) : toChar ((tagByte t % 256 : Nat) : Int) = t := by
  unfold IsTag at h
  unfold toChar tagByte
  omega

theorem IsTag_ne_EOF (t : Int) (h : IsTag t) : t ≠ EOF := by
  unfold IsTag at h
  unfold EOF
  omega

theorem startup_frame_eq (t : Int) (ver kind id : Nat) (rest : List Nat) :
    startup_frame t ver kind id ++ rest =
      tagByte t :: (beEncode 4 20 ++ (beEncode 4 ver ++ (beEncode 4 kind ++ (beEncode 8 id ++ rest)))) := by
  simp [startup_frame, frame, beEncode_length]

theorem startup_frame_length (t : Int) (ver kind id : Nat) :
    (startup_frame t ver kind id).length = 21 := by
  simp [startup_frame, frame, beEncode_length]

theorem beDecode_20 : beDecode (beEncode 4 20) = 20 := by decide

/-- What is left of the script of a port after a `recv` that was offered `bs`. -/
theorem recv_left_def (buf : StringInfo) (bs : List Nat) (script : List RecvOutcome) :
    (if bs.drop (min bs.length (buf.maxlen - buf.unread.length)) = [] then script
      else RecvOutcome.bytes (bs.drop (min bs.length (buf.maxlen - buf.unread.length))) :: script) =
    (if bs.drop (delivered buf bs).length = [] then script
      else RecvOutcome.bytes (bs.drop (delivered buf bs).length) :: script) := by
  have : (delivered buf bs).length = min bs.length (buf.maxlen - buf.unread.length) := by
    unfold delivered
    rw [List.length_take]
    omega
  rw [this]

/-- The poll step of a reading state, once `recv` has delivered bytes, goes
on at `keep_going` with the bytes appended to the left-justified in-buffer. -/
theorem poll_reading_bytes (E : Env) (fuel : Nat) (s : PSt) (k : Nat) (bs : List Nat)
    (script : List RecvOutcome)
    (hst : s.p.status = RDC_CONNECTION_AWAITING_RESPONSE ∨ s.p.status = RDC_CONNECTION_ACCEPT)
    (hint : s.g.InterruptPending = false)
    (hrecv : s.p.recvs = List.replicate k RecvOutcome.eintr ++ RecvOutcome.bytes bs :: script)
    (hgot : delivered s.p.in_buf bs ≠ []) :
    rdc_connect_poll E fuel s =
      keep_going E fuel fuel
        { s with p := { s.p with
          in_buf := { data := s.p.in_buf.unread ++ delivered s.p.in_buf bs,
                      cursor := 0, maxlen := s.p.in_buf.maxlen },
          recvs := if bs.drop (delivered s.p.in_buf bs).length = [] then script
                   else RecvOutcome.bytes (bs.drop (delivered s.p.in_buf bs).length) :: script } } := by
  have h1 := rdc_recv_bytes s k bs script hint hrecv (delivered_pos _ _ hgot)
  rw [recv_left_def] at h1
  unfold rdc_connect_poll
  rcases hst with hst | hst <;> rw [hst] <;> simp only [] <;> rw [h1] <;>
    simp [Res.bind, EOF, delivered]

theorem keep_going_auth_ok (E : Env) (fuel k : Nat) (s : PSt)
    (hst : s.p.status = RDC_CONNECTION_AUTH_OK) :
    ∃ s', keep_going E fuel (k + 1) s = .ret RDC_POLLING_OK s' ∧
      s'.p.status = RDC_CONNECTION_OK ∧ s'.p.peer_type = s.p.peer_type ∧
      s'.p.peer_id = s.p.peer_id ∧ s'.p.self_type = s.p.self_type ∧ s'.p.self_id = s.p.self_id ∧
      s'.p.wait_events = WAIT_SOCKET_READABLE ∧ s'.p.in_buf = s.p.in_buf ∧ s'.g = s.g ∧
      s'.p.wire = s.p.wire ∧ s'.p.recvs = s.p.recvs := by
  unfold keep_going
  rw [hst]
  simp only []
  refine ⟨_, rfl, rfl, ?_⟩
  by_cases h : s.p.addrs ≠ [] <;> simp [h]

theorem IdxIsEven_iff (i : Int) (h : 0 ≤ i) : IdxIsEven i = true ↔ i % 2 = 0 := by
  simp [IdxIsEven, Int.tmod_eq_emod h (by decide : (0:Int) ≤ 2)]

theorem IdxIsOdd_iff (i : Int) (h : 0 ≤ i) : IdxIsOdd i = true ↔ i % 2 = 1 := by
  simp [IdxIsOdd, Int.tmod_eq_emod h (by decide : (0:Int) ≤ 2)]

/-- The dial rule on non-negative indices, in terms of parities. -/
theorem dial_iff (s o : Int) (hs : 0 ≤ s) (ho : 0 ≤ o) :
    dial s o = true ↔
      ((s % 2 = 0 ∧ o % 2 = 0 ∧ o > s) ∨ (s % 2 = 0 ∧ o % 2 = 1 ∧ o < s) ∨
       (s % 2 = 1 ∧ o % 2 = 1 ∧ o > s) ∨ (s % 2 = 1 ∧ o % 2 = 0 ∧ o < s)) := by
  simp only [dial, Bool.or_eq_true, Bool.and_eq_true, decide_eq_true_eq,
    IdxIsEven_iff s hs, IdxIsEven_iff o ho, IdxIsOdd_iff s hs, IdxIsOdd_iff o ho]
  tauto

/-- Of two distinct non-negative indices, exactly one dials the other. -/
theorem dial_one_side (s o : Int) (hs : 0 ≤ s) (ho : 0 ≤ o) (hne : s ≠ o) :
    (dial s o = true ∨ dial o s = true) ∧ ¬ (dial s o = true ∧ dial o s = true) := by
  rw [dial_iff s o hs ho, dial_iff o s ho hs]
  omega

/-- C1: for all group indices `s ≥ 0` and `o ≥ 0` with `s ≠ o`, exactly one of
`dial s o` and `dial o s` holds: at least one does, and never both. -/
theorem dial_exactly_one (s o : Int) (hs : 0 ≤ s) (ho : 0 ≤ o) (hne : s ≠ o) :
    (dial s o = true ∨ dial o s = true) ∧ ¬ (dial s o = true ∧ dial o s = true) :=
  dial_one_side s o hs ho hne

theorem dial_exactly_one_witness :
    (dial 2 5 = true ∨ dial 5 2 = true) ∧ ¬ (dial 2 5 = true ∧ dial 5 2 = true) :=
  dial_exactly_one 2 5 (by decide) (by decide) (by decide)

set_option maxRecDepth 100000 in
/-- C2: for every group size `N` with `2 ≤ N ≤ 16`, the ordered pairs `(s, o)` of
distinct indices below `N` for which the dial rule holds number exactly
`N * (N - 1) / 2`, and of the two orders of a pair at most one is counted. -/
theorem dial_count (N : Nat) (h2 : 2 ≤ N) (h16 : N ≤ 16) :
    ((Finset.range N ×ˢ Finset.range N).filter
        (fun p => p.1 ≠ p.2 ∧ dial (p.1 : Int) (p.2 : Int) = true)).card = N * (N - 1) / 2 ∧
    ∀ s o : Nat, s < N → o < N → s ≠ o → ¬ (dial s o = true ∧ dial o s = true) := by
  constructor
  · interval_cases N <;> decide
  · intro s o _ _ hne
    exact (dial_one_side s o (by omega) (by omega) (by omega)).2

theorem dial_count_witness :
    ((Finset.range 5 ×ˢ Finset.range 5).filter
        (fun p => p.1 ≠ p.2 ∧ dial (p.1 : Int) (p.2 : Int) = true)).card = 5 * (5 - 1) / 2 ∧
    ∀ s o : Nat, s < 5 → o < 5 → s ≠ o → ¬ (dial s o = true ∧ dial o s = true) :=
  dial_count 5 (by decide) (by decide)

/-- C3 (amended): on a dialing port in state AWAITING_RESPONSE that receives a
complete STARTUP_RESPONSE frame carrying the expected protocol version, the
poll step returns; it succeeds (returns OK, the port ends in OK) if and only
if the (kind, id) of the response equals the port's own (self_type, self_id),
and with any other identity it returns FAILED and the port ends in BAD. -/
theorem startup_response_identity (E : Env) (fuel k : Nat) (s : PSt) (bs rest : List Nat)
    (script : List RecvOutcome) (kind id : Nat)
    (hst : s.p.status = RDC_CONNECTION_AWAITING_RESPONSE)
    (hint : s.g.InterruptPending = false)
    (hrecv : s.p.recvs = List.replicate k RecvOutcome.eintr ++ RecvOutcome.bytes bs :: script)
    (hgot : delivered s.p.in_buf bs ≠ [])
    (hbuf : s.p.in_buf.unread ++ delivered s.p.in_buf bs =
      startup_frame E.RDC_START_RSP E.RDC_VERSION_NUM kind id ++ rest)
    (hmax : s.p.in_buf.maxlen < 2 ^ 31)
    (htag : IsTag E.RDC_START_RSP) (hne : E.RDC_START_RSP ≠ E.RDC_ERROR_MSG)
    (hver : E.RDC_VERSION_NUM < 2 ^ 32) (hkind : kind < 2 ^ 32) (hid : id < 2 ^ 64)
    (hend : E.rdc_getmsgend
      { data := startup_frame E.RDC_START_RSP E.RDC_VERSION_NUM kind id ++ rest,
        cursor := 21, maxlen := s.p.in_buf.maxlen } = true) :
    ∃ r s', rdc_connect_poll E (fuel + 2) s = .ret r s' ∧
      ((r = RDC_POLLING_OK ∧ s'.p.status = RDC_CONNECTION_OK) ↔
        (kind = s.p.self_type ∧ id = s.p.self_id)) ∧
      (¬ (kind = s.p.self_type ∧ id = s.p.self_id) →
        r = RDC_POLLING_FAILED ∧ s'.p.status = RDC_CONNECTION_BAD) := by
  rw [poll_reading_bytes E (fuel + 2) s k bs script (Or.inl hst) hint hrecv hgot, hbuf]
  generalize hs1 : ({ s with p := { s.p with
      in_buf := { data := startup_frame E.RDC_START_RSP E.RDC_VERSION_NUM kind id ++ rest,
                  cursor := 0, maxlen := s.p.in_buf.maxlen },
      recvs := if bs.drop (delivered s.p.in_buf bs).length = [] then script
               else RecvOutcome.bytes (bs.drop (delivered s.p.in_buf bs).length) :: script } } :
      PSt) = s1
  have hst1 : s1.p.status = RDC_CONNECTION_AWAITING_RESPONSE := by rw [← hs1]; exact hst
  have hself : s1.p.self_type = s.p.self_type ∧ s1.p.self_id = s.p.self_id := by
    rw [← hs1]; exact ⟨rfl, rfl⟩
  have hin : s1.p.in_buf =
      { data := startup_frame E.RDC_START_RSP E.RDC_VERSION_NUM kind id ++ rest,
        cursor := 0, maxlen := s.p.in_buf.maxlen } := by rw [← hs1]
  have hun : s1.p.in_buf.unread = tagByte E.RDC_START_RSP ::
      (beEncode 4 20 ++ (beEncode 4 E.RDC_VERSION_NUM ++ (beEncode 4 kind ++ (beEncode 8 id ++ rest)))) := by
    rw [hin, ← startup_frame_eq]; rfl
  have hlen : s1.p.in_buf.len < 2 ^ 64 := by
    have h1 := delivered_fit _ _ hgot
    have h2 := congrArg List.length hbuf
    rw [List.length_append] at h2
    rw [hin]
    simp only [StringInfo.len]
    omega
  have hparse := recv_rsp_complete E (fuel + 1) s1 s1.p.self_type s1.p.self_id _ _ _ _ _ _ hun
    (beEncode_length _ _) (beEncode_length _ _) (beEncode_length _ _) (beEncode_length _ _)
    (toChar_tagByte _ htag) hne (IsTag_ne_EOF _ htag) beDecode_20 hlen
  rw [beDecode_beEncode_of_lt 4 _ (by simpa using hver), beDecode_beEncode_of_lt 4 _ (by simpa using hkind),
    beDecode_beEncode_of_lt 8 _ (by simpa using hid)] at hparse
  simp only [ne_eq, not_true_eq_false, if_false] at hparse
  unfold keep_going
  rw [hst1]
  simp only []
  rw [hparse, hself.1, hself.2]
  have hend' : E.rdc_getmsgend (s1.p.in_buf.adv 21) = true := by
    rw [hin]; simpa [StringInfo.adv] using hend
  by_cases hk : kind = s.p.self_type
  · by_cases hi : id = s.p.self_id
    · simp only [hk, hi, not_true_eq_false, if_false, hend', Bool.not_true, Bool.false_eq_true, Res.bind]
      obtain ⟨s', hs', hok, -⟩ := keep_going_auth_ok E (fuel + 2) fuel
        { (s1.adv 21) with p := { (s1.adv 21).p with status := RDC_CONNECTION_AUTH_OK } } rfl
      exact ⟨_, _, hs', by simp [hok], by simp⟩
    · simp only [hk, hi, not_true_eq_false, not_false_eq_true, if_true, if_false, Res.bind, error_return]
      exact ⟨_, _, rfl, by simp [hi], by simp⟩
  · simp only [hk, not_false_eq_true, if_true, Res.bind, error_return]
    exact ⟨_, _, rfl, by simp [hk], by simp⟩

/-- C3, counterexample to the claim as stated: a dialing port created to dial
peer (3, 2), whose own identity is (3, 1), receives a complete STARTUP_RESPONSE
with the expected version that carries exactly the dialed identity (3, 2); the
poll step returns FAILED and the port ends in BAD. -/
theorem startup_response_peer_identity_rejected :
    exPort.peer_type = 3 ∧ exPort.peer_id = 2 ∧
    ∃ s', rdc_connect_poll exEnv 2 (exDial (startup_frame exEnv.RDC_START_RSP 90600 3 2)) =
        .ret RDC_POLLING_FAILED s' ∧ s'.p.status = RDC_CONNECTION_BAD :=
  ⟨rfl, rfl, _, rfl, rfl⟩

theorem startup_response_identity_witness :
    ∃ r s', rdc_connect_poll exEnv (0 + 2) (exDial (startup_frame exEnv.RDC_START_RSP 90600 3 1)) =
        .ret r s' ∧
      ((r = RDC_POLLING_OK ∧ s'.p.status = RDC_CONNECTION_OK) ↔
        (3 = (exDial (startup_frame exEnv.RDC_START_RSP 90600 3 1)).p.self_type ∧
         1 = (exDial (startup_frame exEnv.RDC_START_RSP 90600 3 1)).p.self_id)) ∧
      (¬ (3 = (exDial (startup_frame exEnv.RDC_START_RSP 90600 3 1)).p.self_type ∧
          1 = (exDial (startup_frame exEnv.RDC_START_RSP 90600 3 1)).p.self_id) →
        r = RDC_POLLING_FAILED ∧ s'.p.status = RDC_CONNECTION_BAD) :=
  startup_response_identity exEnv 0 0 (exDial (startup_frame exEnv.RDC_START_RSP 90600 3 1))
    (startup_frame exEnv.RDC_START_RSP 90600 3 1) [] [] 3 1 rfl rfl rfl (by decide) (by decide)
    (by decide) (by decide) (by decide) (by decide) (by decide) (by decide) rfl

theorem recv_rqt_set_noblock (E : Env) (fuel : Nat) (s : PSt) (ver : Nat)
    (hnb : s.p.noblock = false) (hok : s.p.pg_set_noblock_ok = true) :
    internal_recv_startup_rqt E fuel s ver =
      internal_recv_startup_rqt E fuel { s with p := { s.p with noblock := true } } ver := by
  simp [internal_recv_startup_rqt, rdc_set_noblock, hnb, hok]

theorem recv_rqt_noblock_fails (E : Env) (fuel : Nat) (s : PSt) (ver : Nat)
    (hnb : s.p.noblock = false) (hok : s.p.pg_set_noblock_ok = false) :
    ∃ s', internal_recv_startup_rqt E fuel s ver = .ret RDC_POLLING_FAILED s' := by
  simp [internal_recv_startup_rqt, rdc_set_noblock, hnb, hok]

/-- An accepting port that has buffered a complete startup request of another
version fails. -/
theorem keep_going_accept_version (E : Env) (fuel k : Nat) (s1 : PSt) (rest : List Nat)
    (v kind id : Nat)
    (hst : s1.p.status = RDC_CONNECTION_ACCEPT)
    (hun : s1.p.in_buf.unread = startup_frame E.RDC_START_RQT v kind id ++ rest)
    (hlen : s1.p.in_buf.len < 2 ^ 64)
    (htag : IsTag E.RDC_START_RQT) (hv : v < 2 ^ 32) (hvne : v ≠ E.RDC_VERSION_NUM)
    (hend : E.rdc_getmsgend (s1.p.in_buf.adv 21) = true) :
    ∃ s', keep_going E (fuel + 1) (k + 1) s1 = .ret RDC_POLLING_FAILED s' ∧
      s'.p.status = RDC_CONNECTION_BAD := by
  rw [startup_frame_eq] at hun
  unfold keep_going
  rw [hst]
  simp only []
  have key : ∀ s0 : PSt, s0.p.noblock = true → s0.p.in_buf = s1.p.in_buf →
      ∃ s', internal_recv_startup_rqt E (fuel + 1) s0 E.RDC_VERSION_NUM =
        .ret RDC_POLLING_FAILED s' := by
    intro s0 hnb hin
    have hparse := recv_rqt_complete E fuel s0 E.RDC_VERSION_NUM _ _ _ _ _ _ hnb (hin ▸ hun)
      (beEncode_length _ _) (beEncode_length _ _) (beEncode_length _ _) (beEncode_length _ _)
      (toChar_tagByte _ htag) (IsTag_ne_EOF _ htag) beDecode_20 (hin ▸ hlen)
    rw [beDecode_beEncode_of_lt 4 v (by simpa using hv), hin, hend] at hparse
    simp only [Bool.not_true, Bool.false_eq_true, if_false, ne_eq, hvne, not_false_eq_true,
      if_true] at hparse
    exact ⟨_, hparse⟩
  have fin : ∀ s', internal_recv_startup_rqt E (fuel + 1) s1 E.RDC_VERSION_NUM =
        .ret RDC_POLLING_FAILED s' →
      ∃ s'', ((internal_recv_startup_rqt E (fuel + 1) s1 E.RDC_VERSION_NUM).bind fun status s1 =>
        match status with
        | RDC_POLLING_FAILED => error_return s1
        | RDC_POLLING_READING =>
          .ret RDC_POLLING_READING { s1 with p := { s1.p with wait_events := WAIT_SOCKET_READABLE } }
        | RDC_POLLING_WRITING =>
          .ret RDC_POLLING_WRITING { s1 with p := { s1.p with wait_events := WAIT_SOCKET_WRITEABLE } }
        | RDC_POLLING_OK =>
          (rdc_send_startup_rsp E (fuel + 1) s1 s1.p.peer_type s1.p.peer_id).bind fun r s2 =>
            if r ≠ 0 then
              error_return ((s2.dropConn true).err "could not send startup response: %m")
            else keep_going E (fuel + 1) k { s2 with p := { s2.p with status := RDC_CONNECTION_AUTH_OK } })
        = .ret RDC_POLLING_FAILED s'' ∧ s''.p.status = RDC_CONNECTION_BAD := by
    intro s' h
    rw [h]
    exact ⟨_, rfl, rfl⟩
  by_cases hnb : s1.p.noblock = true
  · obtain ⟨s', h⟩ := key s1 hnb rfl
    exact fin s' h
  · have hnb' : s1.p.noblock = false := by simpa using hnb
    by_cases hok : s1.p.pg_set_noblock_ok = true
    · obtain ⟨s', h⟩ := key { s1 with p := { s1.p with noblock := true } } rfl rfl
      rw [← recv_rqt_set_noblock E (fuel + 1) s1 _ hnb' hok] at h
      exact fin s' h
    · obtain ⟨s', h⟩ := recv_rqt_noblock_fails E (fuel + 1) s1 E.RDC_VERSION_NUM hnb'
        (by simpa using hok)
      exact fin s' h

/-- A dialing port that has buffered a complete startup response of another
version fails. -/
theorem keep_going_awaiting_version (E : Env) (fuel k : Nat) (s1 : PSt) (rest : List Nat)
    (v kind id : Nat)
    (hst : s1.p.status = RDC_CONNECTION_AWAITING_RESPONSE)
    (hun : s1.p.in_buf.unread = startup_frame E.RDC_START_RSP v kind id ++ rest)
    (hlen : s1.p.in_buf.len < 2 ^ 64)
    (htag : IsTag E.RDC_START_RSP) (hne : E.RDC_START_RSP ≠ E.RDC_ERROR_MSG)
    (hv : v < 2 ^ 32) (hvne : v ≠ E.RDC_VERSION_NUM) :
    ∃ s', keep_going E (fuel + 1) (k + 1) s1 = .ret RDC_POLLING_FAILED s' ∧
      s'.p.status = RDC_CONNECTION_BAD := by
  rw [startup_frame_eq] at hun
  have hparse := recv_rsp_complete E fuel s1 s1.p.self_type s1.p.self_id _ _ _ _ _ _ hun
    (beEncode_length _ _) (beEncode_length _ _) (beEncode_length _ _) (beEncode_length _ _)
    (toChar_tagByte _ htag) hne (IsTag_ne_EOF _ htag) beDecode_20 hlen
  rw [beDecode_beEncode_of_lt 4 v (by simpa using hv)] at hparse
  simp only [ne_eq, hvne, not_false_eq_true, if_true] at hparse
  unfold keep_going
  rw [hst]
  simp only []
  rw [hparse]
  exact ⟨_, rfl, rfl⟩

/-- The in-buffer of a reading poll step after `recv`. -/
theorem poll_reading_frame (E : Env) (fuel : Nat) (s : PSt) (k : Nat) (bs fr rest : List Nat)
    (script : List RecvOutcome)
    (hst : s.p.status = RDC_CONNECTION_AWAITING_RESPONSE ∨ s.p.status = RDC_CONNECTION_ACCEPT)
    (hint : s.g.InterruptPending = false)
    (hrecv : s.p.recvs = List.replicate k RecvOutcome.eintr ++ RecvOutcome.bytes bs :: script)
    (hgot : delivered s.p.in_buf bs ≠ [])
    (hbuf : s.p.in_buf.unread ++ delivered s.p.in_buf bs = fr ++ rest)
    (hmax : s.p.in_buf.maxlen < 2 ^ 31) :
    ∃ s1, rdc_connect_poll E fuel s = keep_going E fuel fuel s1 ∧
      s1.p.status = s.p.status ∧
      s1.p.in_buf = { data := fr ++ rest, cursor := 0, maxlen := s.p.in_buf.maxlen } ∧
      s1.p.in_buf.unread = fr ++ rest ∧ s1.p.in_buf.len < 2 ^ 64 ∧
      s1.p.self_type = s.p.self_type ∧ s1.p.self_id = s.p.self_id ∧ s1.g = s.g := by
  have hpoll := poll_reading_bytes E fuel s k bs script hst hint hrecv hgot
  rw [hbuf] at hpoll
  refine ⟨_, hpoll, rfl, rfl, rfl, ?_, rfl, rfl, rfl⟩
  have h1 := delivered_fit _ _ hgot
  have h2 := congrArg List.length hbuf
  rw [List.length_append] at h2
  simp only [StringInfo.len]
  omega

/-- C4: a protocol-version mismatch is fatal on both sides.  An accepting port
that receives a complete STARTUP_REQUEST whose version differs from
`RDC_VERSION_NUM`, and a dialing port awaiting the response that receives a
complete STARTUP_RESPONSE whose version differs from it, both return FAILED
from the poll step and end in BAD. -/
theorem version_mismatch_fatal (E : Env) (fuel : Nat)
    (sA : PSt) (kA : Nat) (bsA restA : List Nat) (scriptA : List RecvOutcome) (vA kindA idA : Nat)
    (sD : PSt) (kD : Nat) (bsD restD : List Nat) (scriptD : List RecvOutcome) (vD kindD idD : Nat)
    (hrqt : IsTag E.RDC_START_RQT) (hrsp : IsTag E.RDC_START_RSP)
    (hne : E.RDC_START_RSP ≠ E.RDC_ERROR_MSG)
    (hstA : sA.p.status = RDC_CONNECTION_ACCEPT)
    (hintA : sA.g.InterruptPending = false)
    (hrecvA : sA.p.recvs = List.replicate kA RecvOutcome.eintr ++ RecvOutcome.bytes bsA :: scriptA)
    (hgotA : delivered sA.p.in_buf bsA ≠ [])
    (hbufA : sA.p.in_buf.unread ++ delivered sA.p.in_buf bsA =
      startup_frame E.RDC_START_RQT vA kindA idA ++ restA)
    (hmaxA : sA.p.in_buf.maxlen < 2 ^ 31)
    (hvA : vA < 2 ^ 32) (hneA : vA ≠ E.RDC_VERSION_NUM)
    (hendA : E.rdc_getmsgend
      { data := startup_frame E.RDC_START_RQT vA kindA idA ++ restA,
        cursor := 21, maxlen := sA.p.in_buf.maxlen } = true)
    (hstD : sD.p.status = RDC_CONNECTION_AWAITING_RESPONSE)
    (hintD : sD.g.InterruptPending = false)
    (hrecvD : sD.p.recvs = List.replicate kD RecvOutcome.eintr ++ RecvOutcome.bytes bsD :: scriptD)
    (hgotD : delivered sD.p.in_buf bsD ≠ [])
    (hbufD : sD.p.in_buf.unread ++ delivered sD.p.in_buf bsD =
      startup_frame E.RDC_START_RSP vD kindD idD ++ restD)
    (hmaxD : sD.p.in_buf.maxlen < 2 ^ 31)
    (hvD : vD < 2 ^ 32) (hneD : vD ≠ E.RDC_VERSION_NUM) :
    (∃ s', rdc_connect_poll E (fuel + 1) sA = .ret RDC_POLLING_FAILED s' ∧
      s'.p.status = RDC_CONNECTION_BAD) ∧
    (∃ s', rdc_connect_poll E (fuel + 1) sD = .ret RDC_POLLING_FAILED s' ∧
      s'.p.status = RDC_CONNECTION_BAD) := by
  constructor
  · obtain ⟨s1, hpoll, hst1, hin, hun, hlen, -⟩ :=
      poll_reading_frame E (fuel + 1) sA kA bsA _ restA scriptA (Or.inr hstA) hintA hrecvA hgotA
        hbufA hmaxA
    rw [hpoll]
    exact keep_going_accept_version E fuel fuel s1 restA vA kindA idA (hst1.trans hstA) hun hlen
      hrqt hvA hneA (by rw [hin]; simpa [StringInfo.adv] using hendA)
  · obtain ⟨s1, hpoll, hst1, hin, hun, hlen, -⟩ :=
      poll_reading_frame E (fuel + 1) sD kD bsD _ restD scriptD (Or.inl hstD) hintD hrecvD hgotD
        hbufD hmaxD
    rw [hpoll]
    exact keep_going_awaiting_version E fuel fuel s1 restD vD kindD idD (hst1.trans hstD) hun hlen
      hrsp hne hvD hneD

theorem version_mismatch_fatal_witness :
    (∃ s', rdc_connect_poll exEnv (0 + 1)
        (exAccept (startup_frame exEnv.RDC_START_RQT 90500 3 1)) = .ret RDC_POLLING_FAILED s' ∧
      s'.p.status = RDC_CONNECTION_BAD) ∧
    (∃ s', rdc_connect_poll exEnv (0 + 1)
        (exDial (startup_frame exEnv.RDC_START_RSP 90500 3 1)) = .ret RDC_POLLING_FAILED s' ∧
      s'.p.status = RDC_CONNECTION_BAD) :=
  version_mismatch_fatal exEnv 0
    (exAccept (startup_frame exEnv.RDC_START_RQT 90500 3 1)) 0
    (startup_frame exEnv.RDC_START_RQT 90500 3 1) [] [] 90500 3 1
    (exDial (startup_frame exEnv.RDC_START_RSP 90500 3 1)) 0
    (startup_frame exEnv.RDC_START_RSP 90500 3 1) [] [] 90500 3 1
    (by decide) (by decide) (by decide)
    rfl rfl rfl (by decide) (by decide) (by decide) (by decide) (by decide) rfl
    rfl rfl rfl (by decide) (by decide) (by decide) (by decide) (by decide)

/-- C5, failing input: the tag byte 0xFF.  Stored in a `char` it compares equal
to `EOF`, so on an accepting port and on a dialing port alike the poll step
returns READING, the status is unchanged and the byte stays unread. -/
theorem tag_ff_not_fatal :
    (∃ s', rdc_connect_poll exEnv 2 (exAccept [255, 0, 0, 0, 20]) = .ret RDC_POLLING_READING s' ∧
      s'.p.status = RDC_CONNECTION_ACCEPT ∧ s'.p.in_buf.unread = [255, 0, 0, 0, 20]) ∧
    (∃ s', rdc_connect_poll exEnv 2 (exDial [255, 0, 0, 0, 20]) = .ret RDC_POLLING_READING s' ∧
      s'.p.status = RDC_CONNECTION_AWAITING_RESPONSE ∧ s'.p.in_buf.unread = [255, 0, 0, 0, 20]) :=
  ⟨⟨_, rfl, rfl, rfl⟩, ⟨_, rfl, rfl, rfl⟩⟩

theorem setCursor_adv (s : PSt) (n : Nat) : (s.adv n).setCursor s.p.in_buf.cursor = s := by
  obtain ⟨⟨_, _, _, _, _, _, _, _, _, _, _, _, _, _, ⟨_, _, _⟩, _, _, _, _, _, _⟩, _⟩ := s
  rfl

theorem setCursor_self (s : PSt) : s.setCursor s.p.in_buf.cursor = s := by
  obtain ⟨⟨_, _, _, _, _, _, _, _, _, _, _, _, _, _, ⟨_, _, _⟩, _, _, _, _, _, _⟩, _⟩ := s
  rfl

theorem toChar_EOF : toChar EOF = EOF := by decide

/-- Splitting a proper prefix of a frame body at the length word. -/
theorem head_split (u sfx l4 payload : List Nat) (h : u ++ sfx = l4 ++ payload)
    (hl : l4.length ≤ u.length) : ∃ p, u = l4 ++ p ∧ p ++ sfx = payload := by
  rcases List.append_eq_append_iff.1 h with ⟨a, h1, h2⟩ | ⟨c, h1, h2⟩
  · -- l4 = u ++ a
    have : a = [] := by
      have := congrArg List.length h1
      rw [List.length_append] at this
      exact List.eq_nil_of_length_eq_zero (by omega)
    subst this
    refine ⟨[], by simpa using h1.symm, by simpa using h2⟩
  · exact ⟨c, h1, h2.symm⟩

/-- The header of a frame of which more than the length word is buffered. -/
theorem header_read (E : Env) (fuel : Nat) (s : PSt) (t : Int) (p sfx payload : List Nat)
    (hun : s.p.in_buf.unread = tagByte t :: (beEncode 4 (payload.length + 4) ++ p))
    (hp : p ++ sfx = payload) (hsfx : sfx ≠ []) (hnb : s.p.noblock = true)
    (hL : payload.length + 4 < 2 ^ 32) (hlen : s.p.in_buf.len < 2 ^ 31) :
    rdc_getbyte s = .ret ((tagByte t % 256 : Nat) : Int) (s.adv 1) ∧
    rdc_getbytes E (fuel + 1) (s.adv 1) 4 = .ret 0 (s.adv 1) ∧
    rdc_getmsgint (s.adv 1).p.in_buf 4 = some (payload.length + 4, (s.adv 5).p.in_buf) ∧
    rdc_getbytes E (fuel + 1) (s.adv 5) (payload.length + 4 - 4) = .ret EOF (s.adv 5) := by
  have hlenu := unread_length s.p.in_buf
  rw [hun] at hlenu
  simp only [List.length_cons, List.length_append, beEncode_length] at hlenu
  have hpl : p.length < payload.length := by
    have := congrArg List.length hp
    rw [List.length_append] at this
    have : 0 < sfx.length := List.length_pos.2 hsfx
    omega
  refine ⟨getbyte_adv s _ _ hun, ?_, ?_, ?_⟩
  · exact rdc_getbytes_enough E fuel (s.adv 1) 4 (by simp; omega) (by simp; omega)
  · rw [getmsgint_adv _ 4 (beEncode 4 (payload.length + 4)) p (by simp [hun]) (beEncode_length _ _)
      (by simp; omega), beDecode_beEncode_of_lt 4 _ (by simpa using hL)]
    simp
  · exact rdc_getbytes_short E fuel (s.adv 5) _ (by simpa using hnb) (by simp; omega)
      (by simp; omega) (by simp; omega)

/-- The three shapes of a proper prefix of a frame. -/
theorem head_cases (u sfx payload : List Nat) (t : Int)
    (hpre : u ++ sfx = frame t payload) :
    u = [] ∨
    (∃ u', u = tagByte t :: u' ∧ u'.length < 4) ∨
    (∃ p, u = tagByte t :: (beEncode 4 (payload.length + 4) ++ p) ∧ p ++ sfx = payload) := by
  cases u with
  | nil => exact Or.inl rfl
  | cons b u' =>
    right
    simp only [frame, List.cons_append, List.cons.injEq] at hpre
    obtain ⟨hb, hrest⟩ := hpre
    subst hb
    by_cases h4 : u'.length < 4
    · exact Or.inl ⟨u', rfl, h4⟩
    · right
      obtain ⟨p, hp1, hp2⟩ := head_split u' sfx _ payload hrest
        (by rw [beEncode_length]; omega)
      exact ⟨p, by rw [hp1], hp2⟩

theorem recv_rsp_incomplete (E : Env) (fuel : Nat) (s : PSt) (et ei : Nat) (t : Int)
    (payload sfx : List Nat)
    (hnb : s.p.noblock = true) (ht : t = E.RDC_START_RSP ∨ t = E.RDC_ERROR_MSG) (htag : IsTag t)
    (hpre : s.p.in_buf.unread ++ sfx = frame t payload) (hsfx : sfx ≠ [])
    (hL : payload.length + 4 < 2 ^ 32) (hlen : s.p.in_buf.len < 2 ^ 31) :
    internal_recv_startup_rsp E (fuel + 1) s et ei = .ret RDC_POLLING_READING s := by
  have hok : (!(decide (t = E.RDC_START_RSP) || decide (t = E.RDC_ERROR_MSG))) = false := by
    rcases ht with h | h <;> simp [h]
  unfold internal_recv_startup_rsp
  rcases head_cases _ _ _ _ hpre with h0 | ⟨u', hu, h4⟩ | ⟨p, hu, hp⟩
  · rw [rdc_getbyte_nil s hnb h0]
    simp only [Res.bind, toChar_EOF, if_true, setCursor_self]
  · have hlenu := unread_length s.p.in_buf
    rw [hu] at hlenu
    simp only [List.length_cons] at hlenu
    rw [getbyte_adv s _ _ hu]
    simp only [Res.bind, toChar_tagByte t htag, IsTag_ne_EOF t htag, if_false, hok,
      Bool.false_eq_true]
    rw [rdc_getbytes_short E fuel (s.adv 1) 4 (by simpa using hnb) (by simp; omega)
      (by simp; omega) (by simp; omega)]
    simp only [if_true, setCursor_adv]
  · obtain ⟨h1, h2, h3, h4⟩ := header_read E fuel s t p sfx payload hu hp hsfx hnb hL hlen
    rw [h1]
    simp only [Res.bind, toChar_tagByte t htag, IsTag_ne_EOF t htag, if_false, hok,
      Bool.false_eq_true]
    rw [h2]
    simp only [EOF_ne_zero, if_false, h3]
    have h5 : ¬ (payload.length + 4 < 4) := by omega
    simp only [h5, if_false, padv_in_buf, setIn_adv_eq, adv_setIn]
    rw [h4]
    simp only [if_true]
    have := setCursor_adv s 5
    simpa using this

theorem recv_rqt_incomplete (E : Env) (fuel : Nat) (s : PSt) (ver : Nat)
    (payload sfx : List Nat)
    (hnb : s.p.noblock = true) (htag : IsTag E.RDC_START_RQT)
    (hpre : s.p.in_buf.unread ++ sfx = frame E.RDC_START_RQT payload) (hsfx : sfx ≠ [])
    (hL : payload.length + 4 < 2 ^ 32) (hlen : s.p.in_buf.len < 2 ^ 31) :
    internal_recv_startup_rqt E (fuel + 1) s ver = .ret RDC_POLLING_READING s := by
  unfold internal_recv_startup_rqt
  rw [rdc_set_noblock_true s.p hnb]
  simp only [one_ne_zero, if_false]
  rcases head_cases _ _ _ _ hpre with h0 | ⟨u', hu, h4⟩ | ⟨p, hu, hp⟩
  · rw [rdc_getbyte_nil s hnb h0]
    simp only [Res.bind, toChar_EOF, if_true, setCursor_self]
  · have hlenu := unread_length s.p.in_buf
    rw [hu] at hlenu
    simp only [List.length_cons] at hlenu
    rw [getbyte_adv s _ _ hu]
    simp only [Res.bind, toChar_tagByte _ htag, IsTag_ne_EOF _ htag, if_false, ne_eq,
      not_true_eq_false]
    rw [rdc_getbytes_short E fuel (s.adv 1) 4 (by simpa using hnb) (by simp; omega)
      (by simp; omega) (by simp; omega)]
    simp only [if_true, setCursor_adv]
  · obtain ⟨h1, h2, h3, h4⟩ := header_read E fuel s _ p sfx payload hu hp hsfx hnb hL hlen
    rw [h1]
    simp only [Res.bind, toChar_tagByte _ htag, IsTag_ne_EOF _ htag, if_false, ne_eq,
      not_true_eq_false]
    rw [h2]
    simp only [EOF_ne_zero, if_false, h3]
    have h5 : ¬ (payload.length + 4 < 4) := by omega
    simp only [h5, if_false, padv_in_buf, setIn_adv_eq, adv_setIn]
    rw [h4]
    simp only [if_true]
    have := setCursor_adv s 5
    simpa using this

/-- C6: on a nonblocking port whose unread input is a proper initial part
(possibly empty) of a handshake frame, the parsers of the startup request and
of the startup response return READING and leave the whole state, the
in-buffer cursor included, as it was on entry. -/
theorem handshake_cursor_restored (E : Env) (fuel : Nat) (s : PSt) (ver et ei : Nat) (t : Int)
    (payload sfx : List Nat)
    (hnb : s.p.noblock = true) (htag : IsTag t)
    (hpre : s.p.in_buf.unread ++ sfx = frame t payload) (hsfx : sfx ≠ [])
    (hL : payload.length + 4 < 2 ^ 32) (hlen : s.p.in_buf.len < 2 ^ 31) :
    (t = E.RDC_START_RQT →
      internal_recv_startup_rqt E (fuel + 1) s ver = .ret RDC_POLLING_READING s) ∧
    (t = E.RDC_START_RSP ∨ t = E.RDC_ERROR_MSG →
      internal_recv_startup_rsp E (fuel + 1) s et ei = .ret RDC_POLLING_READING s) := by
  constructor
  · intro h
    subst h
    exact recv_rqt_incomplete E fuel s ver payload sfx hnb htag hpre hsfx hL hlen
  · intro h
    exact recv_rsp_incomplete E fuel s et ei t payload sfx hnb h htag hpre hsfx hL hlen

theorem handshake_cursor_restored_witness :
    internal_recv_startup_rqt exEnv (0 + 1) (exBuffered [81, 0, 0, 0, 20, 0, 1]) 90600 =
      .ret RDC_POLLING_READING (exBuffered [81, 0, 0, 0, 20, 0, 1]) :=
  (handshake_cursor_restored exEnv 0 (exBuffered [81, 0, 0, 0, 20, 0, 1]) 90600 3 1 81
    (beEncode 4 90600 ++ beEncode 4 3 ++ beEncode 8 1)
    [97, 232, 0, 0, 0, 3, 0, 0, 0, 0, 0, 0, 0, 1] rfl (by decide) (by decide) (by decide)
    (by decide) (by decide)).1 rfl

/-- A short message put in an empty out-buffer and flushed to a socket that
takes everything. -/
theorem put_flush_quiet (E : Env) (fuel : Nat) (s : PSt) (fr : List Nat)
    (hout : s.p.out_buf = initStringInfoExtend RDC_BUFFER_SIZE) (hfr : fr.length = 21)
    (hmem : ∀ b n, E.enlarge_fails b n = false)
    (hsends : s.p.sends = [SendOutcome.accepted RDC_BUFFER_SIZE]) :
    ((rdc_putmessage E (fuel + 2) s fr).bind fun r s1 =>
        if r ≠ 0 then .ret EOF s1 else rdc_flush s1) =
      .ret 0 { s with p := { s.p with sends := [], wire := s.p.wire ++ fr } } := by
  obtain ⟨⟨sock, noblock, active, peer_type, peer_id, self_type, self_id, version, wait_events,
    send_eof, status, flags, addrs, addr_cur, in_buf, out_buf, err_buf, pg_ok, recvs, sends, wire⟩,
    g⟩ := s
  simp only at hout hsends
  subst hout hsends
  have h1 : fr.take 21 = fr := List.take_of_length_le (by omega)
  have h2 : fr.drop 21 = [] := List.drop_eq_nil_of_le (by omega)
  simp [rdc_putmessage, internal_put_buffer, put_buffer_loop, hfr, initStringInfoExtend,
    RDC_BUFFER_SIZE, StringInfo.len, Res.bind, appendBinaryStringInfo, enlargeStringInfo, hmem,
    rdc_flush, internal_flush_buffer, h1, h2]

theorem link_step_needed (E : Env) (fuel : Nat) (s : PSt) (a : AddrInfo) (more : List AddrInfo)
    (chan : List Nat)
    (hst : s.p.status = RDC_CONNECTION_NEEDED) (hcur : s.p.addr_cur = a :: more) (ha : a.good)
    (hq : s.quiet) :
    ∃ s', link_poll E (fuel + 1) s chan = some (s', chan, []) ∧
      s'.p.status = RDC_CONNECTION_STARTED ∧ s'.p.addr_cur = a :: more ∧ s'.quiet ∧
      s'.p.noblock = true ∧ s'.p.self_type = s.p.self_type ∧ s'.p.self_id = s.p.self_id := by
  obtain ⟨h1, h2, h3, h4, h5, h6, h7, h8, h9, h10⟩ := ha
  obtain ⟨hq1, hq2, hq3⟩ := hq
  obtain ⟨⟨sock, noblock, active, peer_type, peer_id, self_type, self_id, version, wait_events,
    send_eof, status, flags, addrs, addr_cur, in_buf, out_buf, err_buf, pg_ok, recvs, sends, wire⟩,
    g⟩ := s
  simp only at hst hcur hq1 hq2 hq3
  subst hst hcur hq1 hq2
  cases noblock <;>
  simp [link_poll, rdc_connect_poll, keep_going, needed_loop, h1, h2, h3, h4, h5, h6, h7,
    connect_options_fail, rdc_set_noblock, PSt.quiet, hq3, channel_left, channel_recvs] <;>
  by_cases hc : chan = [] <;> simp [hc, hq3]

theorem link_step_started (E : Env) (fuel : Nat) (s : PSt) (a : AddrInfo) (more : List AddrInfo)
    (chan : List Nat)
    (hst : s.p.status = RDC_CONNECTION_STARTED) (hcur : s.p.addr_cur = a :: more) (ha : a.good)
    (hq : s.quiet) (hnb : s.p.noblock = true) :
    ∃ s', link_poll E (fuel + 1) s chan = some (s', chan, []) ∧
      s'.p.status = RDC_CONNECTION_MADE ∧ s'.quiet ∧
      s'.p.noblock = true ∧ s'.p.self_type = s.p.self_type ∧ s'.p.self_id = s.p.self_id := by
  obtain ⟨h1, h2, h3, h4, h5, h6, h7, h8, h9, h10⟩ := ha
  obtain ⟨hq1, hq2, hq3⟩ := hq
  obtain ⟨⟨sock, noblock, active, peer_type, peer_id, self_type, self_id, version, wait_events,
    send_eof, status, flags, addrs, addr_cur, in_buf, out_buf, err_buf, pg_ok, recvs, sends, wire⟩,
    g⟩ := s
  simp only at hst hcur hq1 hq2 hq3 hnb
  subst hst hcur hq1 hq2 hnb
  simp [link_poll, rdc_connect_poll, keep_going, h8, h9, h10, PSt.quiet, hq3, channel_left,
    channel_recvs]
  by_cases hc : chan = [] <;> simp [hc, hq3]

theorem link_step_made (E : Env) (fuel : Nat) (s : PSt) (chan : List Nat)
    (hst : s.p.status = RDC_CONNECTION_MADE) (hq : s.quiet) (hnb : s.p.noblock = true)
    (hmem : ∀ b n, E.enlarge_fails b n = false) :
    ∃ s', link_poll E (fuel + 2) s chan =
        some (s', chan, startup_frame E.RDC_START_RQT E.RDC_VERSION_NUM s.p.self_type s.p.self_id) ∧
      s'.p.status = RDC_CONNECTION_AWAITING_RESPONSE ∧ s'.quiet ∧
      s'.p.noblock = true ∧ s'.p.self_type = s.p.self_type ∧ s'.p.self_id = s.p.self_id := by
  obtain ⟨hq1, hq2, hq3⟩ := hq
  have hpf := fun s0 h1 h2 => put_flush_quiet E fuel s0
    (startup_frame E.RDC_START_RQT E.RDC_VERSION_NUM s.p.self_type s.p.self_id) h1
    (startup_frame_length _ _ _ _) hmem h2
  obtain ⟨⟨sock, noblock, active, peer_type, peer_id, self_type, self_id, version, wait_events,
    send_eof, status, flags, addrs, addr_cur, in_buf, out_buf, err_buf, pg_ok, recvs, sends, wire⟩,
    g⟩ := s
  simp only at hst hq1 hq2 hq3 hnb hpf
  subst hst hq1 hq2 hnb
  simp only [link_poll, rdc_connect_poll, keep_going, rdc_send_startup_rqt]
  rw [show frame E.RDC_START_RQT (beEncode 4 E.RDC_VERSION_NUM ++ beEncode 4 self_type ++
      beEncode 8 self_id) = startup_frame E.RDC_START_RQT E.RDC_VERSION_NUM self_type self_id from rfl]
  rw [hpf _ rfl rfl]
  simp [Res.bind, PSt.quiet, hq3, channel_left, channel_recvs]
  by_cases hc : chan = [] <;> simp [hc, hq3]

theorem link_step_idle (E : Env) (fuel : Nat) (s : PSt)
    (hst : s.p.status = RDC_CONNECTION_AWAITING_RESPONSE ∨ s.p.status = RDC_CONNECTION_ACCEPT)
    (hq : s.quiet) (hnb : s.p.noblock = true) :
    ∃ s', link_poll E fuel s [] = some (s', [], []) ∧
      s'.p.status = s.p.status ∧ s'.quiet ∧
      s'.p.noblock = true ∧ s'.p.self_type = s.p.self_type ∧ s'.p.self_id = s.p.self_id := by
  obtain ⟨hq1, hq2, hq3⟩ := hq
  obtain ⟨⟨sock, noblock, active, peer_type, peer_id, self_type, self_id, version, wait_events,
    send_eof, status, flags, addrs, addr_cur, in_buf, out_buf, err_buf, pg_ok, recvs, sends, wire⟩,
    g⟩ := s
  simp only at hst hq1 hq2 hq3 hnb
  subst hq1 hq2 hnb
  rcases hst with hst | hst <;> subst hst <;>
  simp [link_poll, rdc_connect_poll, rdc_recv, rdc_recv_loop, CHECK_FOR_INTERRUPTS, hq3,
    channel_recvs, channel_left, Res.bind, EOF, PSt.quiet, initStringInfoExtend, StringInfo.len]

theorem link_step_ok (E : Env) (fuel : Nat) (s : PSt) (chan : List Nat)
    (hst : s.p.status = RDC_CONNECTION_OK) :
    ∃ s', link_poll E fuel s chan = some (s', chan, []) ∧
      s'.p.status = RDC_CONNECTION_OK ∧ s'.p.peer_type = s.p.peer_type ∧
      s'.p.peer_id = s.p.peer_id := by
  simp only [link_poll, rdc_connect_poll, hst]
  refine ⟨{ s with p := { s.p with recvs := [], sends := [], wire := [] } }, ?_, hst, rfl, rfl⟩
  by_cases hc : chan = [] <;> simp [channel_left, channel_recvs, hc, hst]

theorem link_step_respond (E : Env) (fuel : Nat) (s : PSt) (chan : List Nat)
    (hst : s.p.status = RDC_CONNECTION_SENDING_RESPONSE)
    (hout : s.p.out_buf = initStringInfoExtend RDC_BUFFER_SIZE)
    (hmem : ∀ b n, E.enlarge_fails b n = false) :
    ∃ s', link_poll E (fuel + 2) s chan =
        some (s', chan, startup_frame E.RDC_START_RSP E.RDC_VERSION_NUM s.p.peer_type s.p.peer_id) ∧
      s'.p.status = RDC_CONNECTION_OK ∧ s'.p.peer_type = s.p.peer_type ∧
      s'.p.peer_id = s.p.peer_id := by
  have hpf := fun s0 h1 h2 => put_flush_quiet E fuel s0
    (startup_frame E.RDC_START_RSP E.RDC_VERSION_NUM s.p.peer_type s.p.peer_id) h1
    (startup_frame_length _ _ _ _) hmem h2
  obtain ⟨⟨sock, noblock, active, peer_type, peer_id, self_type, self_id, version, wait_events,
    send_eof, status, flags, addrs, addr_cur, in_buf, out_buf, err_buf, pg_ok, recvs, sends, wire⟩,
    g⟩ := s
  simp only at hst hout hpf
  subst hst hout
  simp only [link_poll, rdc_connect_poll, keep_going, rdc_send_startup_rsp]
  rw [show frame E.RDC_START_RSP (beEncode 4 E.RDC_VERSION_NUM ++ beEncode 4 peer_type ++
      beEncode 8 peer_id) = startup_frame E.RDC_START_RSP E.RDC_VERSION_NUM peer_type peer_id from rfl]
  rw [hpf _ rfl rfl]
  simp only [Res.bind, ne_eq, not_true_eq_false, if_false]
  by_cases hc : chan = [] <;> by_cases ha : addrs = [] <;>
    simp [channel_left, channel_recvs, hc, ha]

/-- An accepting port that has buffered a complete startup request of its own
version records the peer and goes on to send the response. -/
theorem keep_going_accept_ok (E : Env) (fuel n : Nat) (s1 : PSt) (rest : List Nat)
    (kind id : Nat)
    (hst : s1.p.status = RDC_CONNECTION_ACCEPT) (hnb : s1.p.noblock = true)
    (hun : s1.p.in_buf.unread = startup_frame E.RDC_START_RQT E.RDC_VERSION_NUM kind id ++ rest)
    (hlen : s1.p.in_buf.len < 2 ^ 64)
    (htag : IsTag E.RDC_START_RQT) (hv : E.RDC_VERSION_NUM < 2 ^ 32)
    (hk : kind < 2 ^ 32) (hi : id < 2 ^ 64)
    (hend : E.rdc_getmsgend (s1.p.in_buf.adv 21) = true) :
    keep_going E (fuel + 1) (n + 1) s1 =
      .ret RDC_POLLING_WRITING
        { s1 with p := { s1.p with
            in_buf := s1.p.in_buf.adv 21, version := E.RDC_VERSION_NUM,
            peer_type := kind, peer_id := id,
            status := RDC_CONNECTION_SENDING_RESPONSE,
            wait_events := WAIT_SOCKET_WRITEABLE } } := by
  rw [startup_frame_eq] at hun
  have hparse := recv_rqt_complete E fuel s1 E.RDC_VERSION_NUM _ _ _ _ _ _ hnb hun
    (beEncode_length _ _) (beEncode_length _ _) (beEncode_length _ _) (beEncode_length _ _)
    (toChar_tagByte _ htag) (IsTag_ne_EOF _ htag) beDecode_20 hlen
  rw [beDecode_beEncode_of_lt 4 E.RDC_VERSION_NUM (by simpa using hv),
    beDecode_beEncode_of_lt 4 kind (by simpa using hk),
    beDecode_beEncode_of_lt 8 id (by simpa using hi), hend] at hparse
  simp only [Bool.not_true, Bool.false_eq_true, if_false, ne_eq, not_true_eq_false] at hparse
  unfold keep_going
  rw [hst]
  simp only []
  rw [hparse]
  rfl

theorem link_step_request (E : Env) (fuel : Nat) (s : PSt) (kind id : Nat)
    (hst : s.p.status = RDC_CONNECTION_ACCEPT) (hq : s.quiet) (hnb : s.p.noblock = true)
    (htag : IsTag E.RDC_START_RQT) (hv : E.RDC_VERSION_NUM < 2 ^ 32)
    (hk : kind < 2 ^ 32) (hi : id < 2 ^ 64)
    (hend : ∀ b : StringInfo, b.cursor = b.len → E.rdc_getmsgend b = true) :
    ∃ s', link_poll E (fuel + 1) s (startup_frame E.RDC_START_RQT E.RDC_VERSION_NUM kind id) =
        some (s', [], []) ∧
      s'.p.status = RDC_CONNECTION_SENDING_RESPONSE ∧
      s'.p.out_buf = initStringInfoExtend RDC_BUFFER_SIZE ∧
      s'.p.peer_type = kind ∧ s'.p.peer_id = id := by
  obtain ⟨hq1, hq2, hq3⟩ := hq
  obtain ⟨⟨sock, noblock, active, peer_type, peer_id, self_type, self_id, version, wait_events,
    send_eof, status, flags, addrs, addr_cur, in_buf, out_buf, err_buf, pg_ok, recvs, sends, wire⟩,
    g⟩ := s
  simp only at hst hq1 hq2 hq3 hnb
  subst hst hq1 hq2 hnb
  have hfl := startup_frame_length E.RDC_START_RQT E.RDC_VERSION_NUM kind id
  have hne : startup_frame E.RDC_START_RQT E.RDC_VERSION_NUM kind id ≠ [] := by
    intro h; rw [h] at hfl; simp at hfl
  have hdel : delivered (initStringInfoExtend RDC_BUFFER_SIZE)
      (startup_frame E.RDC_START_RQT E.RDC_VERSION_NUM kind id) =
      startup_frame E.RDC_START_RQT E.RDC_VERSION_NUM kind id := by
    simp [delivered, hfl, initStringInfoExtend, RDC_BUFFER_SIZE, StringInfo.unread]
  simp only [link_poll, channel_recvs, hne, if_false]
  rw [poll_reading_bytes E (fuel + 1) _ 0 (startup_frame E.RDC_START_RQT E.RDC_VERSION_NUM kind id)
    [] (Or.inr rfl) hq3 rfl (by simpa only [hdel] using hne)]
  simp only [hdel]
  rw [keep_going_accept_ok E fuel fuel _ [] kind id rfl rfl
    (by simp [StringInfo.unread, initStringInfoExtend])
    (by simp [StringInfo.len, StringInfo.unread, hfl, initStringInfoExtend]) htag hv hk hi
    (hend _ (by simp [StringInfo.adv, StringInfo.len, StringInfo.unread, hfl, initStringInfoExtend]))]
  simp [channel_left, hfl]

/-- A dialing port that has buffered a complete startup response of its own
version carrying its own identity becomes OK. -/
theorem keep_going_awaiting_ok (E : Env) (fuel n : Nat) (s1 : PSt) (rest : List Nat)
    (hst : s1.p.status = RDC_CONNECTION_AWAITING_RESPONSE)
    (hun : s1.p.in_buf.unread =
      startup_frame E.RDC_START_RSP E.RDC_VERSION_NUM s1.p.self_type s1.p.self_id ++ rest)
    (hlen : s1.p.in_buf.len < 2 ^ 64)
    (htag : IsTag E.RDC_START_RSP) (hne : E.RDC_START_RSP ≠ E.RDC_ERROR_MSG)
    (hv : E.RDC_VERSION_NUM < 2 ^ 32)
    (hk : s1.p.self_type < 2 ^ 32) (hi : s1.p.self_id < 2 ^ 64)
    (hend : E.rdc_getmsgend (s1.p.in_buf.adv 21) = true) :
    ∃ s', keep_going E (fuel + 1) (n + 2) s1 = .ret RDC_POLLING_OK s' ∧
      s'.p.status = RDC_CONNECTION_OK ∧ s'.p.recvs = s1.p.recvs ∧ s'.p.wire = s1.p.wire ∧
      s'.p.peer_type = s1.p.peer_type ∧ s'.p.peer_id = s1.p.peer_id := by
  rw [startup_frame_eq] at hun
  have hparse := recv_rsp_complete E fuel s1 s1.p.self_type s1.p.self_id _ _ _ _ _ _ hun
    (beEncode_length _ _) (beEncode_length _ _) (beEncode_length _ _) (beEncode_length _ _)
    (toChar_tagByte _ htag) hne (IsTag_ne_EOF _ htag) beDecode_20 hlen
  rw [beDecode_beEncode_of_lt 4 E.RDC_VERSION_NUM (by simpa using hv),
    beDecode_beEncode_of_lt 4 _ (by simpa using hk),
    beDecode_beEncode_of_lt 8 _ (by simpa using hi), hend] at hparse
  simp only [Bool.not_true, Bool.false_eq_true, if_false, ne_eq, not_true_eq_false] at hparse
  unfold keep_going
  rw [hst]
  simp only []
  rw [hparse]
  simp only [Res.bind]
  obtain ⟨s', hs', hok, hpt, hpi, -, -, -, -, -, hw, hr⟩ := keep_going_auth_ok E (fuel + 1) n
    { (s1.adv 21) with p := { (s1.adv 21).p with status := RDC_CONNECTION_AUTH_OK } } rfl
  exact ⟨s', hs', hok, hr, hw, hpt, hpi⟩

theorem link_step_response (E : Env) (fuel : Nat) (s : PSt)
    (hst : s.p.status = RDC_CONNECTION_AWAITING_RESPONSE) (hq : s.quiet)
    (htag : IsTag E.RDC_START_RSP) (hne : E.RDC_START_RSP ≠ E.RDC_ERROR_MSG)
    (hv : E.RDC_VERSION_NUM < 2 ^ 32)
    (hk : s.p.self_type < 2 ^ 32) (hi : s.p.self_id < 2 ^ 64)
    (hend : ∀ b : StringInfo, b.cursor = b.len → E.rdc_getmsgend b = true) :
    ∃ s', link_poll E (fuel + 2) s
        (startup_frame E.RDC_START_RSP E.RDC_VERSION_NUM s.p.self_type s.p.self_id) =
        some (s', [], []) ∧
      s'.p.status = RDC_CONNECTION_OK := by
  obtain ⟨hq1, hq2, hq3⟩ := hq
  obtain ⟨⟨sock, noblock, active, peer_type, peer_id, self_type, self_id, version, wait_events,
    send_eof, status, flags, addrs, addr_cur, in_buf, out_buf, err_buf, pg_ok, recvs, sends, wire⟩,
    g⟩ := s
  simp only at hst hq1 hq2 hq3 hk hi
  subst hst hq1 hq2
  have hfl := startup_frame_length E.RDC_START_RSP E.RDC_VERSION_NUM self_type self_id
  have hne' : startup_frame E.RDC_START_RSP E.RDC_VERSION_NUM self_type self_id ≠ [] := by
    intro h; rw [h] at hfl; simp at hfl
  have hdel : delivered (initStringInfoExtend RDC_BUFFER_SIZE)
      (startup_frame E.RDC_START_RSP E.RDC_VERSION_NUM self_type self_id) =
      startup_frame E.RDC_START_RSP E.RDC_VERSION_NUM self_type self_id := by
    simp [delivered, hfl, initStringInfoExtend, RDC_BUFFER_SIZE, StringInfo.unread]
  simp only [link_poll, channel_recvs, hne', if_false]
  rw [poll_reading_bytes E (fuel + 2) _ 0
    (startup_frame E.RDC_START_RSP E.RDC_VERSION_NUM self_type self_id)
    [] (Or.inl rfl) hq3 rfl (by simpa only [hdel] using hne')]
  simp only [hdel]
  obtain ⟨s', hs', hok, hr, hw, -⟩ := keep_going_awaiting_ok E (fuel + 1) fuel
    { p := { sock := sock, noblock := noblock, active := active, peer_type := peer_type,
             peer_id := peer_id, self_type := self_type, self_id := self_id, version := version,
             wait_events := wait_events, send_eof := send_eof,
             status := RDC_CONNECTION_AWAITING_RESPONSE, flags := flags, addrs := addrs,
             addr_cur := addr_cur,
             in_buf := { data := (initStringInfoExtend RDC_BUFFER_SIZE).unread ++
                           startup_frame E.RDC_START_RSP E.RDC_VERSION_NUM self_type self_id,
                         cursor := 0, maxlen := (initStringInfoExtend RDC_BUFFER_SIZE).maxlen },
             out_buf := initStringInfoExtend RDC_BUFFER_SIZE, err_buf := err_buf,
             pg_set_noblock_ok := pg_ok,
             recvs := if (startup_frame E.RDC_START_RSP E.RDC_VERSION_NUM self_type self_id).drop
                           (startup_frame E.RDC_START_RSP E.RDC_VERSION_NUM self_type self_id).length = []
                      then [] else
                        [RecvOutcome.bytes
                          ((startup_frame E.RDC_START_RSP E.RDC_VERSION_NUM self_type self_id).drop
                            (startup_frame E.RDC_START_RSP E.RDC_VERSION_NUM self_type self_id).length)],
             sends := [SendOutcome.accepted (initStringInfoExtend RDC_BUFFER_SIZE).maxlen],
             wire := [] },
      g := g } [] rfl
    (by simp [StringInfo.unread, initStringInfoExtend])
    (by simp [StringInfo.len, StringInfo.unread, hfl, initStringInfoExtend]) htag hne hv hk hi
    (hend _ (by simp [StringInfo.adv, StringInfo.len, StringInfo.unread, hfl, initStringInfoExtend]))
  have e : fuel + 2 = fuel + 1 + 1 := rfl
  rw [hs']
  simp only [hr, hw, hok]
  simp [channel_left]

theorem rdc_accept_port (zs : RdcConnStatusType) (zf : RdcFlag) (ipt ipi : Nat)
    (sk : AcceptedSock) (script : List AcceptOutcome) (port : RdcPort)
    (h : rdc_accept zs zf ipt ipi sk script = .ret (some port) ()) :
    port.status = RDC_CONNECTION_ACCEPT ∧ port.noblock = true ∧
    port.in_buf = initStringInfoExtend RDC_BUFFER_SIZE ∧
    port.out_buf = initStringInfoExtend RDC_BUFFER_SIZE ∧
    port.wait_events = WAIT_SOCKET_READABLE := by
  induction script with
  | nil => simp [rdc_accept] at h
  | cons o rest ih =>
    cases o with
    | eintr => exact ih (by simpa [rdc_accept] using h)
    | again => simp [rdc_accept] at h
    | fail => simp [rdc_accept] at h
    | fd sock =>
      simp only [rdc_accept] at h
      by_cases hs : sock < 0
      · simp [hs] at h
      · simp only [hs, if_false, rdc_set_noblock, rdc_newport] at h
        by_cases hnb : sk.noblock_ok = true
        · by_cases hnd : sk.nodelay_ok = true
          · by_cases hka : sk.keepalive_ok = true
            · simp [hnb, hnd, hka] at h
              subst h
              simp
            · simp [hnb, hnd, hka] at h
          · simp [hnb, hnd] at h
        · simp [hnb] at h

/-- C7: for all identities, a dialing port starting in NEEDED and the port
`rdc_accept` has made, starting in ACCEPT, driven in turn by
`rdc_connect_poll` over a channel that hands every byte sent to the other
side, in order, with no failing system call, both reach status OK within five
rounds, and the accepting port has recorded the dialer's (self kind, self id)
as its peer. -/
theorem handshake_reaches_ok (E : Env) (fuel : Nat) (zs : RdcConnStatusType) (zf : RdcFlag)
    (peer_kind peer_id self_kind self_id : Nat) (a : AddrInfo) (more : List AddrInfo)
    (ipt ipi : Nat) (sk : AcceptedSock) (script : List AcceptOutcome) (acceptor : RdcPort)
    (hrqt : IsTag E.RDC_START_RQT) (hrsp : IsTag E.RDC_START_RSP)
    (hne : E.RDC_START_RSP ≠ E.RDC_ERROR_MSG) (hver : E.RDC_VERSION_NUM < 2 ^ 32)
    (hkind : self_kind < 2 ^ 32) (hid : self_id < 2 ^ 64)
    (hmem : ∀ b n, E.enlarge_fails b n = false)
    (hend : ∀ b : StringInfo, b.cursor = b.len → E.rdc_getmsgend b = true)
    (ha : a.good)
    (hacc : rdc_accept zs zf ipt ipi sk script = .ret (some acceptor) ()) :
    ∃ l, link_run E (fuel + 2) 5
        { d := { p := connect_start_port zs zf peer_kind peer_id self_kind self_id (a :: more),
                 g := { ClientConnectionLost := false, InterruptPending := false } },
          a := { p := acceptor, g := { ClientConnectionLost := false, InterruptPending := false } },
          d2a := [], a2d := [] } = some l ∧
      l.d.p.status = RDC_CONNECTION_OK ∧ l.a.p.status = RDC_CONNECTION_OK ∧
      l.a.p.peer_type = self_kind ∧ l.a.p.peer_id = self_id := by
  obtain ⟨hast, hanb, hain, haout, -⟩ := rdc_accept_port zs zf ipt ipi sk script acceptor hacc
  -- round 1
  obtain ⟨d1, hd1, hd1st, hd1cur, hd1q, hd1nb, hd1t, hd1i⟩ :=
    link_step_needed E (fuel + 1)
      { p := connect_start_port zs zf peer_kind peer_id self_kind self_id (a :: more),
        g := { ClientConnectionLost := false, InterruptPending := false } } a more []
      rfl rfl ha ⟨rfl, rfl, rfl⟩
  obtain ⟨a1, ha1, ha1st, ha1q, ha1nb, -, -⟩ :=
    link_step_idle E (fuel + 2)
      { p := acceptor, g := { ClientConnectionLost := false, InterruptPending := false } }
      (Or.inr hast) ⟨hain, haout, rfl⟩ hanb
  -- round 2
  obtain ⟨d2, hd2, hd2st, hd2q, hd2nb, hd2t, hd2i⟩ :=
    link_step_started E (fuel + 1) d1 a more [] hd1st hd1cur ha hd1q hd1nb
  obtain ⟨a2, ha2, ha2st, ha2q, ha2nb, -, -⟩ :=
    link_step_idle E (fuel + 2) a1 (Or.inr (ha1st.trans hast)) ha1q ha1nb
  -- round 3
  obtain ⟨d3, hd3, hd3st, hd3q, hd3nb, hd3t, hd3i⟩ :=
    link_step_made E fuel d2 [] hd2st hd2q hd2nb hmem
  have hself2 : d2.p.self_type = self_kind ∧ d2.p.self_id = self_id :=
    ⟨hd2t.trans hd1t, hd2i.trans hd1i⟩
  rw [hself2.1, hself2.2] at hd3
  obtain ⟨a3, ha3, ha3st, ha3out, ha3t, ha3i⟩ :=
    link_step_request E (fuel + 1) a2 self_kind self_id
      (ha2st.trans (ha1st.trans hast)) ha2q ha2nb hrqt hver hkind hid hend
  -- round 4
  obtain ⟨d4, hd4, hd4st, hd4q, hd4nb, hd4t, hd4i⟩ :=
    link_step_idle E (fuel + 2) d3 (Or.inl hd3st) hd3q hd3nb
  obtain ⟨a4, ha4, ha4st, ha4t, ha4i⟩ :=
    link_step_respond E fuel a3 [] ha3st ha3out hmem
  rw [ha3t, ha3i] at ha4
  -- round 5
  have hself4 : d4.p.self_type = self_kind ∧ d4.p.self_id = self_id :=
    ⟨hd4t.trans (hd3t.trans hself2.1), hd4i.trans (hd3i.trans hself2.2)⟩
  obtain ⟨d5, hd5, hd5st⟩ :=
    link_step_response E fuel d4 (hd4st.trans hd3st) hd4q hrsp hne hver
      (by rw [hself4.1]; exact hkind) (by rw [hself4.2]; exact hid) hend
  rw [hself4.1, hself4.2] at hd5
  obtain ⟨a5, ha5, ha5st, ha5t, ha5i⟩ := link_step_ok E (fuel + 2) a4 [] ha4st
  refine ⟨{ d := d5, a := a5, d2a := [], a2d := [] }, ?_, hd5st, ha5st,
    by rw [ha5t, ha4t, ha3t], by rw [ha5i, ha4i, ha3i]⟩
  simp [link_run, link_round, hd1, ha1, hd2, ha2, hd3, ha3, hd4, ha4, hd5, ha5]

theorem accept_sample : rdc_accept RDC_CONNECTION_OK RdcFlag.RDC_FLAG_VALID 0 0 exSock [AcceptOutcome.fd 9] =
    .ret (some exAcceptor) () := by decide

theorem handshake_reaches_ok_witness :
    ∃ l, link_run exEnv (0 + 2) 5
        { d := { p := connect_start_port RDC_CONNECTION_OK RdcFlag.RDC_FLAG_VALID 3 2 3 1
                   (exAddr :: []),
                 g := { ClientConnectionLost := false, InterruptPending := false } },
          a := { p := exAcceptor,
                 g := { ClientConnectionLost := false, InterruptPending := false } },
          d2a := [], a2d := [] } = some l ∧
      l.d.p.status = RDC_CONNECTION_OK ∧ l.a.p.status = RDC_CONNECTION_OK ∧
      l.a.p.peer_type = 3 ∧ l.a.p.peer_id = 1 :=
  handshake_reaches_ok exEnv 0 RDC_CONNECTION_OK RdcFlag.RDC_FLAG_VALID 3 2 3 1 exAddr [] 0 0
    exSock [AcceptOutcome.fd 9] exAcceptor (by decide) (by decide) (by decide) (by decide)
    (by decide) (by decide) (fun _ _ => rfl) (fun _ _ => rfl)
    ⟨rfl, by decide, rfl, rfl, rfl, rfl, rfl, rfl, rfl, rfl⟩ (by decide)

theorem poll_run_bad (E : Env) (fuel : Nat) (offers : List Offer) (s : PSt)
    (h : s.p.status = RDC_CONNECTION_BAD) :
    ∃ s', poll_run E fuel offers s = some s' ∧ s'.p.status = RDC_CONNECTION_BAD := by
  induction offers generalizing s with
  | nil => exact ⟨s, rfl, h⟩
  | cons o os ih =>
    have h1 : (s.offer o).p.status = RDC_CONNECTION_BAD := h
    have h2 : rdc_connect_poll E fuel (s.offer o) = .ret RDC_POLLING_FAILED (s.offer o) := by
      simp [rdc_connect_poll, h1]
    obtain ⟨s', hs', hst⟩ := ih (s.offer o) h1
    exact ⟨s', by simp [poll_run, h2, hs'], hst⟩

/-- C8: BAD and OK are absorbing.  On a port in BAD `rdc_connect_poll` returns
FAILED and leaves the whole state unchanged; on a port in OK it returns OK
and leaves the whole state unchanged; hence from BAD every sequence of poll
steps, whatever the sockets offer in between, ends in BAD and not in OK. -/
theorem bad_and_ok_absorbing (E : Env) (fuel : Nat) (s : PSt) :
    (s.p.status = RDC_CONNECTION_BAD → rdc_connect_poll E fuel s = .ret RDC_POLLING_FAILED s) ∧
    (s.p.status = RDC_CONNECTION_OK → rdc_connect_poll E fuel s = .ret RDC_POLLING_OK s) ∧
    (s.p.status = RDC_CONNECTION_BAD → ∀ offers : List Offer,
      ∃ s', poll_run E fuel offers s = some s' ∧ s'.p.status = RDC_CONNECTION_BAD ∧
        s'.p.status ≠ RDC_CONNECTION_OK) := by
  refine ⟨fun h => by simp [rdc_connect_poll, h], fun h => by simp [rdc_connect_poll, h], ?_⟩
  intro h offers
  obtain ⟨s', hs', hst⟩ := poll_run_bad E fuel offers s h
  exact ⟨s', hs', hst, by rw [hst]; decide⟩

theorem bad_and_ok_absorbing_witness :
    rdc_connect_poll exEnv 3 (exStatus RDC_CONNECTION_BAD) =
        .ret RDC_POLLING_FAILED (exStatus RDC_CONNECTION_BAD) ∧
    rdc_connect_poll exEnv 3 (exStatus RDC_CONNECTION_OK) =
        .ret RDC_POLLING_OK (exStatus RDC_CONNECTION_OK) :=
  ⟨(bad_and_ok_absorbing exEnv 3 (exStatus RDC_CONNECTION_BAD)).1 rfl,
   (bad_and_ok_absorbing exEnv 3 (exStatus RDC_CONNECTION_OK)).2.1 rfl⟩

/-- A flush that returns without a hard failure leaves the outgoing byte stream
and the process-wide flags as they were. -/
theorem flush_stream (block : Bool) (script : List SendOutcome) :
    ∀ (s : PSt) (r : Int) (s' : PSt), s.p.out_buf.cursor ≤ s.p.out_buf.len →
      internal_flush_buffer block s script = .ret r s' → r ≠ EOF →
      s'.g = s.g ∧ s'.p.outstream = s.p.outstream ∧ s'.p.flags = s.p.flags ∧
      s'.p.out_buf.cursor ≤ s'.p.out_buf.len ∧ s'.p.out_buf.maxlen = s.p.out_buf.maxlen ∧
      (r = 0 → s'.p.out_buf.len = 0) := by
  induction script with
  | nil =>
    intro s r s' hc h hr
    by_cases hlt : s.p.out_buf.cursor < s.p.out_buf.len
    · simp [internal_flush_buffer, hlt] at h
    · simp only [internal_flush_buffer, hlt, if_false, Res.ret.injEq] at h
      obtain ⟨-, h⟩ := h
      subst h
      have hd : s.p.out_buf.data.drop s.p.out_buf.cursor = [] :=
        List.drop_eq_nil_of_le (by simp only [StringInfo.len] at *; omega)
      simp [RdcPort.outstream, StringInfo.unread, hd, StringInfo.len]
  | cons o rest ih =>
    intro s r s' hc h hr
    by_cases hlt : s.p.out_buf.cursor < s.p.out_buf.len
    · cases o with
      | accepted k =>
        simp only [internal_flush_buffer, hlt, if_true] at h
        obtain ⟨h1, h2, h3, h4, h5, h6⟩ := ih _ r s'
          (by simp only [StringInfo.len] at *; omega) h hr
        refine ⟨h1, ?_, h3, h4, h5, h6⟩
        rw [h2]
        simp only [RdcPort.outstream, StringInfo.unread, List.append_assoc]
        rw [← List.drop_drop, List.take_append_drop]
      | eintr =>
        simp only [internal_flush_buffer, hlt, if_true] at h
        exact ih { s with p := { s.p with sends := rest } } r s' hc h hr
      | again =>
        cases block with
        | true =>
          simp only [internal_flush_buffer, hlt, if_true] at h
          exact ih { s with p := { s.p with sends := rest } } r s' hc h hr
        | false =>
          simp only [internal_flush_buffer, hlt, if_true, Bool.false_eq_true, if_false,
            Res.ret.injEq] at h
          obtain ⟨h0, h⟩ := h
          subst h
          subst h0
          exact ⟨rfl, rfl, rfl, hc, rfl, by intro h; exact absurd h (by decide)⟩
      | fail =>
        simp only [internal_flush_buffer, hlt, if_true, Res.ret.injEq] at h
        exact absurd h.1.symm hr
    · simp only [internal_flush_buffer, hlt, if_false, Res.ret.injEq] at h
      obtain ⟨-, h⟩ := h
      subst h
      have hd : s.p.out_buf.data.drop s.p.out_buf.cursor = [] :=
        List.drop_eq_nil_of_le (by simp only [StringInfo.len] at *; omega)
      simp [RdcPort.outstream, StringInfo.unread, hd, StringInfo.len]

/-- A nonblocking flush returns when the outcomes of `send` allow it. -/
theorem try_flush_returns (script : List SendOutcome) :
    ∀ s : PSt, s.p.out_buf.cursor ≤ s.p.out_buf.len →
      SendsFlush (s.p.out_buf.len - s.p.out_buf.cursor) script →
      ∃ r s', internal_flush_buffer false s script = .ret r s' ∧ (r = 0 ∨ r = 1) := by
  induction script with
  | nil =>
    intro s hc hs
    have hlt : ¬ s.p.out_buf.cursor < s.p.out_buf.len := by
      intro hlt
      obtain ⟨m, hm⟩ : ∃ m, s.p.out_buf.len - s.p.out_buf.cursor = m + 1 :=
        ⟨s.p.out_buf.len - s.p.out_buf.cursor - 1, by omega⟩
      rw [hm] at hs
      exact absurd hs (by simp [SendsFlush])
    exact ⟨0, _, by simp only [internal_flush_buffer, hlt, if_false]; rfl, Or.inl rfl⟩
  | cons o rest ih =>
    intro s hc hs
    by_cases hlt : s.p.out_buf.cursor < s.p.out_buf.len
    · obtain ⟨m, hm⟩ : ∃ m, s.p.out_buf.len - s.p.out_buf.cursor = m + 1 :=
        ⟨s.p.out_buf.len - s.p.out_buf.cursor - 1, by omega⟩
      rw [hm] at hs
      cases o with
      | accepted r =>
        simp only [SendsFlush] at hs
        simp only [internal_flush_buffer, hlt, if_true]
        exact ih _ (by simp only [StringInfo.len] at *; omega)
          (by
            simp only [StringInfo.len] at *
            have : s.p.out_buf.data.length -
                (s.p.out_buf.cursor + max 1 (min r (s.p.out_buf.data.length - s.p.out_buf.cursor))) =
                m + 1 - max 1 (min r (m + 1)) := by omega
            rw [this]; exact hs)
      | eintr =>
        simp only [SendsFlush] at hs
        simp only [internal_flush_buffer, hlt, if_true]
        exact ih _ hc (by rw [hm]; exact hs)
      | again =>
        simp only [internal_flush_buffer, hlt, if_true]
        exact ⟨1, _, rfl, Or.inr rfl⟩
      | fail => simp [SendsFlush] at hs
    · exact ⟨0, _, by simp only [internal_flush_buffer, hlt, if_false]; rfl, Or.inl rfl⟩

theorem putmessage_room (E : Env) (fuel : Nat) (s : PSt) (packet : List Nat)
    (hroom : s.p.out_buf.len + packet.length < s.p.out_buf.maxlen)
    (hmem : ∀ b n, E.enlarge_fails b n = false) :
    rdc_putmessage E (fuel + 2) s packet =
      .ret 0 { s with p := { s.p with
        out_buf := { s.p.out_buf with data := s.p.out_buf.data ++ packet } } } := by
  by_cases hp : packet.length = 0
  · have : packet = [] := List.eq_nil_of_length_eq_zero hp
    subst this
    simp [rdc_putmessage, internal_put_buffer, put_buffer_loop]
  · have h1 : ¬ (s.p.out_buf.len + packet.length ≥ s.p.out_buf.maxlen) := by omega
    have h2 : min (s.p.out_buf.maxlen - s.p.out_buf.len) packet.length = packet.length := by omega
    have h3 : (↑packet.length : Int).toNat + s.p.out_buf.len + 1 ≤ s.p.out_buf.maxlen := by
      simp only [Int.toNat_ofNat]; omega
    simp only [rdc_putmessage, internal_put_buffer, Bool.false_eq_true, if_false, put_buffer_loop,
      hp, h1, Res.bind, ne_eq, not_true_eq_false, h2, List.take_length, List.drop_length,
      appendBinaryStringInfo, enlargeStringInfo, hmem, h3, if_true, List.length_nil]

/-- Appending to a buffer adds the bytes after the valid ones and keeps the cursor. -/
theorem append_some (E : Env) (b b' : StringInfo) (xs : List Nat)
    (h : appendBinaryStringInfo E b xs = some b') :
    b'.data = b.data ++ xs ∧ b'.cursor = b.cursor := by
  unfold appendBinaryStringInfo enlargeStringInfo at h
  by_cases hf : E.enlarge_fails b (↑xs.length) = true
  · simp [hf] at h
  · simp only [hf, Bool.false_eq_true, if_false] at h
    by_cases hn : (↑xs.length : Int).toNat + b.len + 1 ≤ b.maxlen
    · simp only [hn, if_true, Option.some.injEq] at h
      subst h
      exact ⟨rfl, rfl⟩
    · simp only [hn, if_false, Option.some.injEq] at h
      subst h
      exact ⟨rfl, rfl⟩

/-- The stream of a port whose out-buffer got more bytes. -/
theorem outstream_append (s1 : PSt) (buf : StringInfo) (xs : List Nat)
    (hc : s1.p.out_buf.cursor ≤ s1.p.out_buf.len)
    (hd : buf.data = s1.p.out_buf.data ++ xs) (hcur : buf.cursor = s1.p.out_buf.cursor) :
    ({ s1.p with out_buf := buf } : RdcPort).outstream = s1.p.outstream ++ xs := by
  simp only [RdcPort.outstream, StringInfo.unread, hd, hcur, List.append_assoc]
  rw [List.drop_append_of_le_length (by simpa [StringInfo.len] using hc)]

/-- A put that returns 0 has added exactly the bytes to the outgoing stream. -/
theorem put_stream (E : Env) :
    ∀ (fuel : Nat) (s : PSt) (bs : List Nat) (s' : PSt),
      s.p.out_buf.cursor ≤ s.p.out_buf.len →
      put_buffer_loop E fuel s bs = .ret 0 s' →
      s'.g = s.g ∧ s'.p.outstream = s.p.outstream ++ bs ∧ s'.p.flags = s.p.flags ∧
      s'.p.out_buf.cursor ≤ s'.p.out_buf.len := by
  intro fuel
  induction fuel with
  | zero => intro s bs s' _ h; simp [put_buffer_loop] at h
  | succ fuel ih =>
    intro s bs s' hc h
    by_cases hp : bs.length = 0
    · have : bs = [] := List.eq_nil_of_length_eq_zero hp
      subst this
      simp only [put_buffer_loop, List.length_nil, if_true, Res.ret.injEq, true_and] at h
      subst h
      simp [hc]
    · have key : ∀ s1 : PSt, s1.p.out_buf.cursor ≤ s1.p.out_buf.len →
          s1.g = s.g → s1.p.outstream = s.p.outstream → s1.p.flags = s.p.flags →
          (match appendBinaryStringInfo E s1.p.out_buf
              (bs.take (min (s1.p.out_buf.maxlen - s1.p.out_buf.len) bs.length)) with
            | none => Res.raised s1
            | some buf => put_buffer_loop E fuel { s1 with p := { s1.p with out_buf := buf } }
                (bs.drop (min (s1.p.out_buf.maxlen - s1.p.out_buf.len) bs.length))) =
            .ret 0 s' →
          s'.g = s.g ∧ s'.p.outstream = s.p.outstream ++ bs ∧ s'.p.flags = s.p.flags ∧
            s'.p.out_buf.cursor ≤ s'.p.out_buf.len := by
        intro s1 hc1 hg1 hs1 hf1 hk
        cases ha : appendBinaryStringInfo E s1.p.out_buf
            (bs.take (min (s1.p.out_buf.maxlen - s1.p.out_buf.len) bs.length)) with
        | none => simp [ha] at hk
        | some buf =>
          simp only [ha] at hk
          obtain ⟨hd, hcur⟩ := append_some E _ _ _ ha
          obtain ⟨h1, h2, h3, h4⟩ := ih { s1 with p := { s1.p with out_buf := buf } } _ s'
            (by
              simp only [StringInfo.len, hd, hcur, List.length_append] at *
              omega) hk
          refine ⟨h1.trans hg1, ?_, h3.trans hf1, h4⟩
          rw [h2, outstream_append s1 buf _ hc1 hd hcur, hs1, List.append_assoc,
            List.take_append_drop]
      simp only [put_buffer_loop, hp, if_false] at h
      by_cases hfull : s.p.out_buf.len + bs.length ≥ s.p.out_buf.maxlen
      · simp only [hfull, if_true, rdc_flush] at h
        cases hfl : internal_flush_buffer true s s.p.sends with
        | ret r s1 =>
          simp only [hfl, Res.bind] at h
          by_cases hr : r = 0
          · subst hr
            obtain ⟨g1, g2, g3, g4, -, -⟩ := flush_stream true s.p.sends s 0 s1 hc hfl
              (by decide)
            simp only [ne_eq, not_true_eq_false, if_false, Res.bind] at h
            exact key s1 g4 g1 g2 g3 h
          · simp [hr, Res.bind, EOF] at h
        | raised s1 => simp [hfl, Res.bind] at h
        | stuck => simp [hfl, Res.bind] at h
      · simp only [hfull, if_false, Res.bind, ne_eq, not_true_eq_false] at h
        exact key s hc rfl rfl rfl h

/-- One send to a ready port: the packet is put, the flush returns, and the
outgoing stream has grown by exactly the packet. -/
theorem send_step (E : Env) (fuel : Nat) (g : Globals) (packet : List Nat) (port : RdcPort)
    (hr : port.ready E fuel g packet) :
    ∃ s1 ret s2, rdc_putmessage E fuel { p := port, g := g } packet = .ret 0 s1 ∧
      rdc_try_flush s1 = .ret ret s2 ∧ s2.g = g ∧ (ret = 0 ∨ ret = 1) ∧
      after_send E fuel g packet port =
        { s2.p with wait_events := { s2.p.wait_events with writable := decide (ret ≠ 0) } } ∧
      (after_send E fuel g packet port).outstream = port.outstream ++ packet ∧
      (after_send E fuel g packet port).flags = port.flags := by
  obtain ⟨hv, hc, s1, hput, hs⟩ := hr
  have hput' : put_buffer_loop E fuel { p := port, g := g } packet = .ret 0 s1 := by
    simpa [rdc_putmessage, internal_put_buffer] using hput
  obtain ⟨p1, p2, p3, p4⟩ := put_stream E fuel { p := port, g := g } packet s1 hc hput'
  obtain ⟨ret, s2, h1, h2⟩ := try_flush_returns s1.p.sends s1 p4 hs
  have hne : ret ≠ EOF := by
    rcases h2 with h | h <;> rw [h] <;> decide
  obtain ⟨q1, q2, q3, -, -, -⟩ := flush_stream false s1.p.sends s1 ret s2 p4 h1 hne
  have hflush : rdc_try_flush s1 = .ret ret s2 := h1
  refine ⟨s1, ret, s2, hput, hflush, q1.trans p1, h2, ?_, ?_, ?_⟩
  · simp only [after_send, hput, hflush]
  · simp only [after_send, hput, hflush]
    have : ({ s2.p with wait_events :=
        { s2.p.wait_events with writable := decide (ret ≠ 0) } } : RdcPort).outstream =
        s2.p.outstream := rfl
    rw [this, q2, p2]
  · simp only [after_send, hput, hflush]
    exact q3.trans p3

/-- A port with room for the packet whose socket meets no hard failure is ready. -/
theorem ready_of_room (E : Env) (fuel : Nat) (g : Globals) (packet : List Nat) (port : RdcPort)
    (hv : PortIsValid port = true) (hc : port.out_buf.cursor ≤ port.out_buf.len)
    (hroom : port.out_buf.len + packet.length < port.out_buf.maxlen)
    (hs : SendsFlush (port.out_buf.unread.length + packet.length) port.sends)
    (hmem : ∀ b n, E.enlarge_fails b n = false) :
    port.ready E (fuel + 2) g packet := by
  refine ⟨hv, hc, _, putmessage_room E fuel { p := port, g := g } packet hroom hmem, ?_⟩
  simp only [StringInfo.len, StringInfo.unread, List.length_append, List.length_drop] at *
  have : port.out_buf.data.length + packet.length - port.out_buf.cursor =
      port.out_buf.data.length - port.out_buf.cursor + packet.length := by omega
  rw [this]; exact hs

theorem lookup_reduce_port (nodes : List RdcNode) (i : Nat) (n : RdcNode) (t : Nat)
    (hnd : (nodes.map fun m => m.id).Nodup) (hi : nodes.get? i = some n) (hn : n.id = t) :
    LookUpReducePort nodes t = some (i, n.port) := by
  have hidx : nodes.findIdx (fun m => m.id == t) = i := by
    induction nodes generalizing i with
    | nil => simp at hi
    | cons m ms ih =>
      simp only [List.map_cons, List.nodup_cons] at hnd
      cases i with
      | zero =>
        simp only [List.get?_cons_zero, Option.some.injEq] at hi
        subst hi
        simp [List.findIdx_cons, hn]
      | succ j =>
        simp only [List.get?_cons_succ] at hi
        have hmem : n.id ∈ ms.map fun m => m.id :=
          List.mem_map.2 ⟨n, List.get?_mem hi, rfl⟩
        have hne : m.id ≠ t := by
          intro h; rw [← hn] at h; exact hnd.1 (h ▸ hmem)
        have hb : (m.id == t) = false := by simpa using hne
        simp [List.findIdx_cons, hb, ih j hnd.2 hi]
  simp only [LookUpReducePort, hidx, hi]

theorem modify_eq_map (nodes : List RdcNode) (i : Nat) (n : RdcNode) (t : Nat)
    (f : RdcNode → RdcNode)
    (hnd : (nodes.map fun m => m.id).Nodup) (hi : nodes.get? i = some n) (hn : n.id = t) :
    nodes.modify f i = nodes.map fun m => if m.id = t then f m else m := by
  induction nodes generalizing i with
  | nil => simp at hi
  | cons m ms ih =>
    simp only [List.map_cons, List.nodup_cons] at hnd
    cases i with
    | zero =>
      simp only [List.get?_cons_zero, Option.some.injEq] at hi
      subst hi
      have hrest : ms.map (fun m => if m.id = t then f m else m) = ms := by
        conv_rhs => rw [← List.map_id ms]
        apply List.map_congr_left
        intro x hx
        have : x.id ≠ t := by
          intro h
          exact hnd.1 (List.mem_map.2 ⟨x, hx, by rw [h, hn]⟩)
        simp [this]
      simp [hn, hrest]
    | succ j =>
      simp only [List.get?_cons_succ] at hi
      have hmem : n.id ∈ ms.map fun m => m.id :=
        List.mem_map.2 ⟨n, List.get?_mem hi, rfl⟩
      have hne : m.id ≠ t := by
        intro h; rw [← hn] at h; exact hnd.1 (h ▸ hmem)
      simp [hne, ih j hnd.2 hi]

theorem nodes_eq_of_id (nodes : List RdcNode) (m n : RdcNode)
    (hnd : (nodes.map fun m => m.id).Nodup) (hm : m ∈ nodes) (hn : n ∈ nodes)
    (h : m.id = n.id) : m = n :=
  List.inj_on_of_nodup_map hnd hm hn h

theorem getmsgid_adv (msg : StringInfo) (t : Nat) (rest : List Nat)
    (hun : msg.unread = beEncode 8 t ++ rest) (hc : msg.cursor ≤ msg.len) (ht : t < 2 ^ 64) :
    rdc_getmsgRdcPortID msg = some (t, msg.adv 8) := by
  unfold rdc_getmsgRdcPortID
  rw [getmsgint_adv msg 8 _ rest hun (beEncode_length _ _) hc,
    beDecode_beEncode_of_lt 8 t (by simpa using ht)]

theorem broadcast_loop_spec (E : Env) (fuel : Nat) (packet : List Nat)
    (T : List Nat) :
    ∀ (R : Reducer) (msg : StringInfo) (res : Int) (rest : List Nat),
      msg.unread = T.flatMap (beEncode 8) ++ rest → msg.cursor ≤ msg.len →
      (∀ t ∈ T, t < 2 ^ 64) → T.Nodup → (R.nodes.map fun m => m.id).Nodup →
      R.g.InterruptPending = false →
      (∀ t ∈ T, t ≠ E.MyReduceId →
        ∃ n ∈ R.nodes, n.id = t ∧ ∃ port, n.port = some port ∧ port.ready E (fuel + 2) R.g packet) →
      ∃ res', broadcast_loop E (fuel + 2) packet false T.length R msg res =
        .ret res'
          ({ R with nodes := R.nodes.map fun n =>
              if n.id ∈ T ∧ n.id ≠ E.MyReduceId then
                { n with port := n.port.map (after_send E (fuel + 2) R.g packet) }
              else n },
           msg.adv (8 * T.length)) := by
  induction T with
  | nil =>
    intro R msg res rest _ _ _ _ _ _ _
    refine ⟨res, ?_⟩
    simp [broadcast_loop, StringInfo.adv]
  | cons t T' ih =>
    intro R msg res rest hun hc hlt hnd hids hint hready
    have hlen := unread_length msg
    have hid := getmsgid_adv msg t (T'.flatMap (beEncode 8) ++ rest)
      (by simpa [List.flatMap_cons, List.append_assoc] using hun) hc
      (hlt t (List.mem_cons_self _ _))
    have hun' : (msg.adv 8).unread = T'.flatMap (beEncode 8) ++ rest := by
      rw [adv_unread, hun]
      simp [List.flatMap_cons, List.append_assoc, beEncode_length]
    have hc' : (msg.adv 8).cursor ≤ (msg.adv 8).len := by
      rw [hun] at hlen
      simp only [List.flatMap_cons, List.length_append, beEncode_length] at hlen
      simp only [adv_cursor, adv_len]
      omega
    have hmsg : (msg.adv 8).adv (8 * T'.length) = msg.adv (8 * (t :: T').length) := by
      simp only [adv_adv, List.length_cons]
      congr 1
      omega
    obtain ⟨htT, hndT⟩ := List.nodup_cons.1 hnd
    simp only [List.length_cons, broadcast_loop, hid]
    by_cases hself : t = E.MyReduceId
    · simp only [hself, if_true]
      obtain ⟨res', h⟩ := ih R (msg.adv 8) res rest hun' hc'
        (fun x hx => hlt x (List.mem_cons_of_mem _ hx)) hndT hids hint
        (fun x hx hxs => hready x (List.mem_cons_of_mem _ hx) hxs)
      refine ⟨res', ?_⟩
      rw [h, hmsg]
      congr 2
      congr 1
      apply List.map_congr_left
      intro n _
      by_cases hn : n.id = E.MyReduceId
      · simp [hn]
      · have : n.id ≠ t := by rw [hself]; exact hn
        simp [hn, this]
    · simp only [hself, if_false]
      obtain ⟨n, hnmem, hnid, port, hport, hrdy⟩ := hready t (List.mem_cons_self _ _) hself
      obtain ⟨i, hi⟩ := List.get?_of_mem hnmem
      rw [lookup_reduce_port R.nodes i n t hids hi hnid, hport]
      obtain ⟨s1, ret, s2, hput, hflush, hg, hret, hafter, -, -⟩ :=
        send_step E (fuel + 2) R.g packet port hrdy
      have hvalid : PortIsValid port = true := hrdy.1
      simp only [hvalid, Bool.not_true, Bool.false_eq_true, if_false, hput, hflush,
        CHECK_FOR_INTERRUPTS, hg, hint, Bool.not_false]
      -- the reducer after this target
      have hR1 : ∀ w : Bool, w = decide (ret ≠ 0) →
          R.setPort i { p := { s2.p with
            wait_events := { s2.p.wait_events with writable := w } }, g := R.g } =
          { R with nodes := R.nodes.map fun m =>
              if m.id = t then { m with port := some (after_send E (fuel + 2) R.g packet port) }
              else m } := by
        intro w hw
        subst hw
        simp only [Reducer.setPort]
        rw [modify_eq_map R.nodes i n t _ hids hi hnid, hafter]
      have hmap_id : ((R.nodes.map fun m =>
              if m.id = t then { m with port := some (after_send E (fuel + 2) R.g packet port) }
              else m).map fun m => m.id) = R.nodes.map fun m => m.id := by
        rw [List.map_map]
        apply List.map_congr_left
        intro m _
        by_cases hm : m.id = t <;> simp [hm]
      have hnext : ∀ res1 : Int, ∃ res',
          broadcast_loop E (fuel + 2) packet false T'.length
            { R with nodes := R.nodes.map fun m =>
              if m.id = t then { m with port := some (after_send E (fuel + 2) R.g packet port) }
              else m } (msg.adv 8) res1 =
          .ret res'
            ({ R with nodes := R.nodes.map fun n =>
                if n.id ∈ t :: T' ∧ n.id ≠ E.MyReduceId then
                  { n with port := n.port.map (after_send E (fuel + 2) R.g packet) }
                else n },
             msg.adv (8 * (T'.length + 1))) := by
        intro res1
        obtain ⟨res', h⟩ := ih
          { R with nodes := R.nodes.map fun m =>
              if m.id = t then { m with port := some (after_send E (fuel + 2) R.g packet port) }
              else m } (msg.adv 8) res1 rest hun' hc'
          (fun x hx => hlt x (List.mem_cons_of_mem _ hx)) hndT (by rw [hmap_id]; exact hids) hint
          (by
            intro x hx hxs
            obtain ⟨n', hn'mem, hn'id, port', hport', hrdy'⟩ :=
              hready x (List.mem_cons_of_mem _ hx) hxs
            have hxt : n'.id ≠ t := by
              rw [hn'id]; intro h; exact htT (h ▸ hx)
            refine ⟨n', ?_, hn'id, port', hport', hrdy'⟩
            exact List.mem_map.2 ⟨n', hn'mem, by simp [hxt]⟩)
        refine ⟨res', ?_⟩
        rw [h]
        simp only [List.length_cons] at hmsg
        rw [hmsg]
        congr 2
        congr 1
        rw [List.map_map]
        apply List.map_congr_left
        intro m hm
        by_cases hmt : m.id = t
        · have hmn : m = n := nodes_eq_of_id R.nodes m n hids hm hnmem (by rw [hmt, hnid])
          subst hmn
          have ht' : t ∉ T' := htT
          simp [hmt, hself, ht', hport]
        · simp [hmt]
      by_cases hr0 : ret ≠ 0
      · rw [if_pos hr0]
        rw [hR1 true (by simp [hr0])]
        exact hnext ret
      · rw [if_neg hr0]
        rw [hR1 false (by simp [hr0])]
        exact hnext res

theorem toInt32_small_int (v : Int) (h0 : 0 ≤ v) (h : v < 2 ^ 31) : toInt32 v = v := by
  unfold toInt32
  rw [if_neg (by omega)]

theorem toInt32_small (n : Nat) (h : n < 2 ^ 31) : toInt32 (n : Int) = (n : Int) :=
  toInt32_small_int _ (by omega) (by exact_mod_cast h)

theorem flatMap_be_length (T : List Nat) : (T.flatMap (beEncode 8)).length = 8 * T.length := by
  induction T with
  | nil => rfl
  | cons t T ih =>
    simp only [List.flatMap_cons, List.length_append, beEncode_length, ih, List.length_cons]
    omega

theorem send_plan_data_eq (E : Env) (fuel : Nat) (R : Reducer) (msg : StringInfo) (planid : Nat)
    (dl : Nat) (m1 m2 : StringInfo) (data : List Nat)
    (h1 : rdc_getmsgint msg 4 = some (dl, m1))
    (h2 : rdc_getmsgbytes m1 (toInt32 dl) = some (data, m2)) :
    SendPlanDataToRdc E fuel R msg planid =
      BroadcastDataToRdc E fuel R m2 planid E.MSG_R2R_DATA data false := by
  simp only [SendPlanDataToRdc, h1, h2]

theorem broadcast_data_eq (E : Env) (fuel : Nat) (R : Reducer) (msg : StringInfo) (planid : Nat)
    (msg_type : Int) (msg_data : List Nat) (num : Nat) (m1 : StringInfo) (res : Int)
    (R' : Reducer) (m' : StringInfo)
    (h1 : rdc_getmsgint msg 4 = some (num, m1))
    (h2 : broadcast_loop E fuel (broadcast_packet E planid msg_type msg_data) false
      (toInt32 num).toNat R m1 0 = .ret res (R', m'))
    (hend : E.rdc_getmsgend m' = true) :
    BroadcastDataToRdc E fuel R msg planid msg_type msg_data false = .ret res (R', m') := by
  simp only [BroadcastDataToRdc, h1, h2, Res.bind, hend, Bool.not_true, Bool.false_eq_true,
    if_false]

/-- The fan-out of `SendPlanDataToRdc` on a buffer holding a P2R_DATA payload. -/
theorem send_plan_data_spec (E : Env) (fuel : Nat) (R : Reducer) (msg : StringInfo) (planid : Nat)
    (data T rest : List Nat)
    (hun : msg.unread = p2r_payload data T ++ rest) (hc : msg.cursor ≤ msg.len)
    (hdata : data.length < 2 ^ 31) (hnum : T.length < 2 ^ 31) (hlt : ∀ t ∈ T, t < 2 ^ 64)
    (hnd : T.Nodup) (hids : (R.nodes.map fun m => m.id).Nodup)
    (hint : R.g.InterruptPending = false)
    (hready : ∀ t ∈ T, t ≠ E.MyReduceId → ∃ n ∈ R.nodes, n.id = t ∧ ∃ port,
      n.port = some port ∧
        port.ready E (fuel + 2) R.g (frame E.MSG_R2R_DATA (beEncode 8 planid ++ data)))
    (htag : E.MSG_R2R_DATA ≠ E.MSG_EOF ∧ E.MSG_R2R_DATA ≠ E.MSG_PLAN_CLOSE)
    (hend : E.rdc_getmsgend (msg.adv (p2r_payload data T).length) = true) :
    ∃ res R', SendPlanDataToRdc E (fuel + 2) R msg planid =
        .ret res (R', msg.adv (p2r_payload data T).length) ∧
      R'.nodes.length = R.nodes.length ∧
      ∀ i n, R.nodes.get? i = some n → ∃ n', R'.nodes.get? i = some n' ∧ n'.id = n.id ∧
        ((n.id ∈ T ∧ n.id ≠ E.MyReduceId) → ∃ port port', n.port = some port ∧
          n'.port = some port' ∧
          port'.outstream = port.outstream ++ frame E.MSG_R2R_DATA (beEncode 8 planid ++ data)) ∧
        (¬ (n.id ∈ T ∧ n.id ≠ E.MyReduceId) → n' = n) := by
  have hlen := unread_length msg
  have hplen : (p2r_payload data T).length = 4 + data.length + 4 + 8 * T.length := by
    simp only [p2r_payload, List.length_append, beEncode_length, flatMap_be_length]
  rw [hun, List.length_append, hplen] at hlen
  -- the data length
  have h1 := getmsgint_adv msg 4 (beEncode 4 data.length)
    (data ++ (beEncode 4 T.length ++ (T.flatMap (beEncode 8) ++ rest)))
    (by rw [hun]; simp [p2r_payload, List.append_assoc]) (beEncode_length _ _) hc
  rw [beDecode_beEncode_of_lt 4 data.length (by
    have : (2:Nat) ^ 31 < 256 ^ 4 := by norm_num
    omega)] at h1
  have hun1 : (msg.adv 4).unread =
      data ++ (beEncode 4 T.length ++ (T.flatMap (beEncode 8) ++ rest)) := by
    rw [adv_unread, hun]
    simp [p2r_payload, List.append_assoc, beEncode_length]
  have hc1 : (msg.adv 4).cursor ≤ (msg.adv 4).len := by
    simp only [adv_cursor, adv_len]; omega
  have h2 := getmsgbytes_of_unread (msg.adv 4) data _ hun1 hc1
  have h2' : rdc_getmsgbytes (msg.adv 4) (toInt32 (data.length : Int)) =
      some (data, (msg.adv 4).adv data.length) := by
    rw [toInt32_small _ hdata]; exact h2
  have hun2 : ((msg.adv 4).adv data.length).unread =
      beEncode 4 T.length ++ (T.flatMap (beEncode 8) ++ rest) := by
    rw [adv_unread, hun1]; simp
  have hc2 : ((msg.adv 4).adv data.length).cursor ≤ ((msg.adv 4).adv data.length).len := by
    simp only [adv_cursor, adv_len]; omega
  have h3 := getmsgint_adv ((msg.adv 4).adv data.length) 4 (beEncode 4 T.length) _ hun2
    (beEncode_length _ _) hc2
  rw [beDecode_beEncode_of_lt 4 T.length (by
    have : (2:Nat) ^ 31 < 256 ^ 4 := by norm_num
    omega)] at h3
  have hun3 : (((msg.adv 4).adv data.length).adv 4).unread = T.flatMap (beEncode 8) ++ rest := by
    rw [adv_unread, hun2]; simp [beEncode_length]
  have hc3 : (((msg.adv 4).adv data.length).adv 4).cursor ≤
      (((msg.adv 4).adv data.length).adv 4).len := by
    simp only [adv_cursor, adv_len]; omega
  have hpk : broadcast_packet E planid E.MSG_R2R_DATA data =
      frame E.MSG_R2R_DATA (beEncode 8 planid ++ data) := by
    simp [broadcast_packet, htag.1, htag.2]
  obtain ⟨res, hloop⟩ := broadcast_loop_spec E fuel
    (frame E.MSG_R2R_DATA (beEncode 8 planid ++ data)) T R
    (((msg.adv 4).adv data.length).adv 4) 0 rest hun3 hc3 hlt hnd hids hint hready
  have hfin : (((msg.adv 4).adv data.length).adv 4).adv (8 * T.length) =
      msg.adv (p2r_payload data T).length := by
    simp only [adv_adv, hplen]
  have hnat : (toInt32 (T.length : Int)).toNat = T.length := by
    rw [toInt32_small _ hnum]; simp
  have hcall : SendPlanDataToRdc E (fuel + 2) R msg planid = .ret res
      (Reducer.mk (R.nodes.map fun n =>
          if n.id ∈ T ∧ n.id ≠ E.MyReduceId then
            RdcNode.mk n.id (n.port.map
              (after_send E (fuel + 2) R.g (frame E.MSG_R2R_DATA (beEncode 8 planid ++ data))))
          else n) R.g R.pln_nodes,
        msg.adv (p2r_payload data T).length) := by
    rw [send_plan_data_eq E (fuel + 2) R msg planid _ _ _ _ h1 h2',
      broadcast_data_eq E (fuel + 2) R _ planid E.MSG_R2R_DATA data _ _ res _ _ h3
        (by rw [hpk, hnat, hloop]) (by rw [hfin]; exact hend), hfin]
  refine ⟨res, _, hcall, ?_, ?_⟩
  · simp
  · intro i n hi
    have hi' : R.nodes[i]? = some n := by simpa using hi
    by_cases htgt : n.id ∈ T ∧ n.id ≠ E.MyReduceId
    · refine ⟨RdcNode.mk n.id (n.port.map
          (after_send E (fuel + 2) R.g (frame E.MSG_R2R_DATA (beEncode 8 planid ++ data)))),
        by simp [List.getElem?_map, hi', htgt], rfl, ?_, fun h => absurd htgt h⟩
      intro _
      obtain ⟨m, hm, hmid, port, hport, hrdy⟩ := hready n.id htgt.1 htgt.2
      have hmn : m = n := nodes_eq_of_id R.nodes m n hids hm (List.get?_mem hi) hmid
      subst hmn
      obtain ⟨s1, ret, s2, -, -, -, -, -, hstream, -⟩ := send_step E (fuel + 2) R.g _ port hrdy
      exact ⟨port, _, hport, by simp [hport], hstream⟩
    · exact ⟨n, by simp [List.getElem?_map, hi', htgt], rfl, fun h => absurd h htgt, fun _ => rfl⟩

/-- C9: for a P2R_DATA payload (data, target ids) read from the in-buffer of
a plan worker port, where the target ids are distinct and every target
other than the local reducer is a known node with a valid port on which no
send fails, `SendPlanDataToRdc` (called as in `HandlePlanMsg`, with the
worker port's peer id) returns, and afterwards the outgoing stream of every
such target has grown by exactly one R2R_DATA frame holding that id and the
data, while every other node, the local reducer included, is untouched. -/
theorem plan_data_fanout (E : Env) (fuel : Nat) (R : Reducer) (work_port : RdcPort)
    (data T rest : List Nat)
    (hun : work_port.in_buf.unread = p2r_payload data T ++ rest)
    (hc : work_port.in_buf.cursor ≤ work_port.in_buf.len)
    (hdata : data.length < 2 ^ 31) (hnum : T.length < 2 ^ 31) (hlt : ∀ t ∈ T, t < 2 ^ 64)
    (hnd : T.Nodup) (hids : (R.nodes.map fun m => m.id).Nodup)
    (hint : R.g.InterruptPending = false)
    (hready : ∀ t ∈ T, t ≠ E.MyReduceId → ∃ n ∈ R.nodes, n.id = t ∧ ∃ port,
      n.port = some port ∧
        port.ready E (fuel + 2) R.g
          (frame E.MSG_R2R_DATA (beEncode 8 work_port.peer_id ++ data)))
    (htag : E.MSG_R2R_DATA ≠ E.MSG_EOF ∧ E.MSG_R2R_DATA ≠ E.MSG_PLAN_CLOSE)
    (hend : E.rdc_getmsgend (work_port.in_buf.adv (p2r_payload data T).length) = true) :
    ∃ res R', SendPlanDataToRdc E (fuel + 2) R work_port.in_buf work_port.peer_id =
        .ret res (R', work_port.in_buf.adv (p2r_payload data T).length) ∧
      R'.nodes.length = R.nodes.length ∧
      ∀ i n, R.nodes.get? i = some n → ∃ n', R'.nodes.get? i = some n' ∧ n'.id = n.id ∧
        ((n.id ∈ T ∧ n.id ≠ E.MyReduceId) → ∃ port port', n.port = some port ∧
          n'.port = some port' ∧
          port'.outstream =
            port.outstream ++ frame E.MSG_R2R_DATA (beEncode 8 work_port.peer_id ++ data)) ∧
        (¬ (n.id ∈ T ∧ n.id ≠ E.MyReduceId) → n' = n) :=
  send_plan_data_spec E fuel R work_port.in_buf work_port.peer_id data T rest hun hc hdata hnum
    hlt hnd hids hint hready htag hend

theorem plan_data_fanout_witness :
    ∃ res R', SendPlanDataToRdc exEnv (0 + 2) exReducer exWorker.in_buf exWorker.peer_id =
        .ret res (R', exWorker.in_buf.adv (p2r_payload [7, 8, 9] [2, 1, 3]).length) ∧
      R'.nodes.length = exReducer.nodes.length ∧
      ∀ i n, exReducer.nodes.get? i = some n → ∃ n', R'.nodes.get? i = some n' ∧ n'.id = n.id ∧
        ((n.id ∈ [2, 1, 3] ∧ n.id ≠ exEnv.MyReduceId) → ∃ port port', n.port = some port ∧
          n'.port = some port' ∧
          port'.outstream = port.outstream ++
            frame exEnv.MSG_R2R_DATA (beEncode 8 exWorker.peer_id ++ [7, 8, 9])) ∧
        (¬ (n.id ∈ [2, 1, 3] ∧ n.id ≠ exEnv.MyReduceId) → n' = n) :=
  plan_data_fanout exEnv 0 exReducer exWorker [7, 8, 9] [2, 1, 3] [] (by decide) (by decide)
    (by decide) (by decide) (by decide) (by decide) (by decide) rfl
    (by
      intro t ht hself
      have h23 : t = 2 ∨ t = 3 := by
        simp only [List.mem_cons, List.mem_singleton, List.not_mem_nil, or_false] at ht
        rcases ht with h | h | h
        · exact Or.inl h
        · exact absurd h hself
        · exact Or.inr h
      rcases h23 with h | h
      · subst h
        exact ⟨{ id := 2, port := some (exPeer 2) }, by decide, rfl, exPeer 2, rfl,
          rfl, by decide, _, rfl, trivial⟩
      · subst h
        exact ⟨{ id := 3, port := some (exPeer 3) }, by decide, rfl, exPeer 3, rfl,
          rfl, by decide, _, rfl, trivial⟩)
    (by decide) rfl

theorem toSizeT_small (n : Nat) : toSizeT (n : Int) = n % 2 ^ 64 := by
  unfold toSizeT
  omega

/-- The lookup of a PlanPort only reads the plan ids. -/
theorem lookup_plan_set (nodes : List PlanPort) (p i : Nat) (pp pp' : PlanPort)
    (hi : nodes.get? i = some pp) (hid : pp'.plan_id = pp.plan_id) :
    LookUpPlanPort (nodes.set i pp') p = LookUpPlanPort nodes p := by
  have hmap : ∀ (l : List PlanPort) (j : Nat), l.get? j = some pp →
      (l.set j pp').findIdx (fun q => q.plan_id == p) = l.findIdx (fun q => q.plan_id == p) := by
    intro l
    induction l with
    | nil => intro j hj; simp at hj
    | cons a l ih =>
      intro j hj
      cases j with
      | zero =>
        simp only [List.get?_cons_zero, Option.some.injEq] at hj
        subst hj
        simp [List.findIdx_cons, hid]
      | succ j =>
        simp only [List.get?_cons_succ] at hj
        simp [List.findIdx_cons, ih j hj]
  simp only [LookUpPlanPort, hmap nodes i hi, List.length_set]

/-- One R2R_DATA frame at the cursor is handed to its PlanPort. -/
theorem handle_rdc_frame (E : Env) (plan_newport : Nat → PlanPort) (n : Nat) (st : RSt)
    (p i : Nat) (pp : PlanPort) (d rest : List Nat)
    (hun : st.s.p.in_buf.unread = frame E.MSG_R2R_DATA (beEncode 8 p ++ d) ++ rest)
    (hlen : st.s.p.in_buf.len < 2 ^ 31)
    (htag : IsTag E.MSG_R2R_DATA) (hp : p < 2 ^ 64)
    (hlook : LookUpPlanPort st.pln_nodes p = some i) (hpp : st.pln_nodes.get? i = some pp)
    (hend : E.rdc_getmsgend
      (st.s.p.in_buf.adv (frame E.MSG_R2R_DATA (beEncode 8 p ++ d)).length) = true) :
    HandleRdcMsg_body E plan_newport (n + 1) st =
      .ret true
        { s := st.s.adv (frame E.MSG_R2R_DATA (beEncode 8 p ++ d)).length,
          pln_nodes := st.pln_nodes.set i (SendRdcDataToPlan E pp st.s.p.peer_id d) } := by
  have hlenu := unread_length st.s.p.in_buf
  have hflen : (frame E.MSG_R2R_DATA (beEncode 8 p ++ d)).length = d.length + 13 := by
    simp [frame, beEncode_length]; omega
  rw [hun, List.length_append, hflen] at hlenu
  have hun' : st.s.p.in_buf.unread =
      tagByte E.MSG_R2R_DATA :: (beEncode 4 (d.length + 12) ++ (beEncode 8 p ++ (d ++ rest))) := by
    rw [hun]
    simp only [frame, List.cons_append, List.append_assoc, List.length_append, beEncode_length]
    congr 2
    congr 1
    omega
  have e1 : rdc_getmsgint (st.s.p.in_buf.adv 1) 4 = some (d.length + 12, st.s.p.in_buf.adv 5) := by
    rw [getmsgint_adv _ 4 (beEncode 4 (d.length + 12)) (beEncode 8 p ++ (d ++ rest))
      (by simp [hun']) (beEncode_length _ _) (by simp; omega)]
    rw [beDecode_beEncode_of_lt 4 (d.length + 12) (by
      have : (2:Nat) ^ 31 < 256 ^ 4 := by norm_num
      omega)]
    simp
  have e5 : rdc_getmsgRdcPortID (st.s.p.in_buf.adv 5) = some (p, st.s.p.in_buf.adv 13) := by
    rw [getmsgid_adv _ p (d ++ rest) ?_ (by simp; omega) hp]
    · simp
    · have : st.s.p.in_buf.adv 5 = (st.s.p.in_buf.adv 1).adv 4 := by simp
      rw [this, adv_unread, adv_unread, hun']; simp [beEncode_length]
  have e13 : rdc_getmsgbytes (st.s.p.in_buf.adv 13) (d.length : Int) =
      some (d, st.s.p.in_buf.adv (d.length + 13)) := by
    rw [getmsgbytes_of_unread _ d rest ?_ (by simp; omega)]
    · simp [StringInfo.adv]; omega
    · have : st.s.p.in_buf.adv 13 = ((st.s.p.in_buf.adv 1).adv 4).adv 8 := by simp
      rw [this, adv_unread, adv_unread, adv_unread, hun']; simp [beEncode_length]
  have hm1 : toInt32 ((toInt32 ((d.length + 12 : Nat) : Int)) - 4) = ((d.length + 8 : Nat) : Int) := by
    rw [toInt32_small_int ((d.length + 12 : Nat) : Int) (by omega) (by push_cast; omega)]
    rw [toInt32_small_int _ (by push_cast; omega) (by push_cast; omega)]
    push_cast; omega
  have hm2 : toSizeT ((d.length + 8 : Nat) : Int) = d.length + 8 := by
    rw [toSizeT_small, Nat.mod_eq_of_lt (by omega)]
  have hm3 : toInt32 (((d.length + 8 : Nat) : Int) - 8) = (d.length : Int) := by
    rw [toInt32_small_int _ (by push_cast; omega) (by push_cast; omega)]
    push_cast; omega
  have hne := IsTag_ne_EOF _ htag
  rw [hflen] at hend ⊢
  unfold HandleRdcMsg_body
  rw [getbyte_adv st.s _ _ hun']
  simp only [toChar_tagByte _ htag, hne, if_false]
  rw [rdc_getbytes_enough E n (st.s.adv 1) 4 (by simp; omega) (by simp; omega)]
  simp only [EOF_ne_zero, if_false, padv_in_buf, e1, hm1, hm2, adv_setIn, setIn_adv_eq]
  rw [rdc_getbytes_enough E n (st.s.adv 5) (d.length + 8) (by simp; omega) (by simp; omega)]
  simp only [EOF_ne_zero, if_false, true_or, if_true, padv_in_buf, e5, hlook, Option.isSome_some,
    Option.getD_some, hpp, hm3, e13, adv_setIn, setIn_adv_eq, setIn_in_buf, hend, Bool.not_true,
    Bool.false_eq_true]
  rfl

/-- Writing back the element that is already there changes nothing. -/
theorem set_same (l : List PlanPort) (i : Nat) (pp : PlanPort) (h : l.get? i = some pp) :
    l.set i pp = l := by
  induction l generalizing i with
  | nil => simp at h
  | cons a l ih =>
    cases i with
    | zero =>
      simp only [List.get?_cons_zero, Option.some.injEq] at h
      subst h
      rfl
    | succ j =>
      simp only [List.get?_cons_succ] at h
      simp [ih j h]

theorem get_set_same (l : List PlanPort) (i : Nat) (pp pp' : PlanPort)
    (h : l.get? i = some pp) : (l.set i pp').get? i = some pp' := by
  induction l generalizing i with
  | nil => simp at h
  | cons a l ih =>
    cases i with
    | zero => simp
    | succ j =>
      simp only [List.get?_cons_succ] at h
      simpa using ih j h

theorem send_data_plan_id (E : Env) (pp : PlanPort) (X : Nat) (d : List Nat) :
    (SendRdcDataToPlan E pp X d).plan_id = pp.plan_id := by
  unfold SendRdcDataToPlan
  split <;> rfl

theorem send_data_valid (E : Env) (pp : PlanPort) (X : Nat) (d : List Nat)
    (h : PlanPortIsValid pp = true) :
    PlanPortIsValid (SendRdcDataToPlan E pp X d) = true ∧
      (SendRdcDataToPlan E pp X d).rdcstore =
        pp.rdcstore ++ [frame E.MSG_R2P_DATA (beEncode 8 X ++ d)] := by
  unfold SendRdcDataToPlan
  simp only [h, Bool.not_true, Bool.false_eq_true, if_false]
  exact ⟨h, rfl⟩

/-- The store of a valid PlanPort after a run of data tuples from reducer `X`. -/
theorem fold_store (E : Env) (X : Nat) (ds : List (List Nat)) :
    ∀ pp : PlanPort, PlanPortIsValid pp = true →
      (ds.foldl (fun q d => SendRdcDataToPlan E q X d) pp).rdcstore =
        pp.rdcstore ++ ds.map fun d => frame E.MSG_R2P_DATA (beEncode 8 X ++ d) := by
  induction ds with
  | nil => intro pp _; simp
  | cons d ds ih =>
    intro pp h
    obtain ⟨hv, hs⟩ := send_data_valid E pp X d h
    rw [List.foldl_cons, ih _ hv, hs]
    simp

/-- A run of R2R_DATA frames in the in-buffer of a nonblocking port is handed,
frame by frame, to the PlanPort of the plan. -/
theorem handle_rdc_frames (E : Env) (plan_newport : Nat → PlanPort) (p i X : Nat)
    (htag : IsTag E.MSG_R2R_DATA) (hp : p < 2 ^ 64) (ds : List (List Nat)) :
    ∀ (fuel : Nat) (st : RSt) (pp : PlanPort),
      st.s.p.noblock = true → st.s.p.peer_id = X →
      st.s.p.in_buf.unread = ds.flatMap (fun d => frame E.MSG_R2R_DATA (beEncode 8 p ++ d)) →
      st.s.p.in_buf.len < 2 ^ 31 →
      LookUpPlanPort st.pln_nodes p = some i → st.pln_nodes.get? i = some pp →
      (∀ pre d post, ds = pre ++ d :: post → E.rdc_getmsgend (st.s.p.in_buf.adv
        ((pre ++ [d]).flatMap fun d => frame E.MSG_R2R_DATA (beEncode 8 p ++ d)).length) = true) →
      ∃ s', HandleRdcMsg E plan_newport (fuel + ds.length + 1) st =
        .ret () { s := s',
                  pln_nodes := st.pln_nodes.set i
                    (ds.foldl (fun q d => SendRdcDataToPlan E q X d) pp) } := by
  induction ds with
  | nil =>
    intro fuel st pp hnb _ hun _ _ hpp _
    have hb : HandleRdcMsg_body E plan_newport (fuel + 0 + 1) st =
        .ret false { st with s := st.s.waitMore st.s.p.in_buf.cursor } := by
      unfold HandleRdcMsg_body
      rw [rdc_getbyte_nil st.s hnb (by simpa using hun)]
      simp only [toChar_EOF, if_true]
    refine ⟨st.s.waitMore st.s.p.in_buf.cursor, ?_⟩
    simp only [List.length_nil, List.foldl_nil]
    unfold HandleRdcMsg
    rw [hb, set_same _ _ _ hpp]
  | cons d ds ih =>
    intro fuel st pp hnb hpeer hun hlen hlook hpp hend
    have hun1 : st.s.p.in_buf.unread = frame E.MSG_R2R_DATA (beEncode 8 p ++ d) ++
        ds.flatMap (fun d => frame E.MSG_R2R_DATA (beEncode 8 p ++ d)) := by
      simpa [List.flatMap_cons] using hun
    have hb := handle_rdc_frame E plan_newport (fuel + ds.length + 1) st p i pp d _ hun1 hlen htag hp
      hlook hpp (by simpa using hend [] d ds rfl)
    obtain ⟨s', hrec⟩ := ih fuel
      { s := st.s.adv (frame E.MSG_R2R_DATA (beEncode 8 p ++ d)).length,
        pln_nodes := st.pln_nodes.set i (SendRdcDataToPlan E pp st.s.p.peer_id d) }
      (SendRdcDataToPlan E pp st.s.p.peer_id d) hnb hpeer
      (by simp [hun1]) (by simpa using hlen)
      (by rw [lookup_plan_set _ _ _ _ _ hpp (send_data_plan_id E pp _ d)]; exact hlook)
      (get_set_same _ _ _ _ hpp)
      (by
        intro pre d' post hds
        have := hend (d :: pre) d' post (by rw [hds]; rfl)
        simpa [List.flatMap_cons, Nat.add_assoc] using this)
    refine ⟨s', ?_⟩
    have hf : fuel + (d :: ds).length + 1 = (fuel + ds.length + 1) + 1 := by
      simp only [List.length_cons]; omega
    rw [hf]
    unfold HandleRdcMsg
    rw [hb]
    simp only []
    rw [hrec, hpeer, List.set_set, List.foldl_cons]

theorem broadcast_packet_data (E : Env) (p : Nat) (d : List Nat)
    (hne : E.MSG_R2R_DATA ≠ E.MSG_EOF ∧ E.MSG_R2R_DATA ≠ E.MSG_PLAN_CLOSE) :
    broadcast_packet E p E.MSG_R2R_DATA d = frame E.MSG_R2R_DATA (beEncode 8 p ++ d) := by
  simp [broadcast_packet, hne.1, hne.2]

/-- C10: when the in-buffer of a nonblocking reducer port whose peer id is `X`
holds the R2R frames that `BroadcastDataToRdc` builds for plan `p` and the
non-empty data strings `ds`, and the PlanPort of `p` is valid, `HandleRdcMsg`
returns and has pushed onto that PlanPort's store exactly one R2P_DATA frame
per data string, carrying `X` and the data byte for byte, in the order of
the frames; the other PlanPorts are untouched. -/
theorem r2r_round_trip (E : Env) (plan_newport : Nat → PlanPort) (fuel : Nat) (st : RSt)
    (p X i : Nat) (pp : PlanPort) (ds : List (List Nat))
    (hnb : st.s.p.noblock = true) (hpeer : st.s.p.peer_id = X)
    (hun : st.s.p.in_buf.unread = ds.flatMap fun d => broadcast_packet E p E.MSG_R2R_DATA d)
    (hlen : st.s.p.in_buf.len < 2 ^ 31)
    (_hd : ∀ d ∈ ds, d ≠ [])
    (htag : IsTag E.MSG_R2R_DATA)
    (hne : E.MSG_R2R_DATA ≠ E.MSG_EOF ∧ E.MSG_R2R_DATA ≠ E.MSG_PLAN_CLOSE)
    (hp : p < 2 ^ 64)
    (hlook : LookUpPlanPort st.pln_nodes p = some i) (hpp : st.pln_nodes.get? i = some pp)
    (hvalid : PlanPortIsValid pp = true)
    (hend : ∀ pre d post, ds = pre ++ d :: post → E.rdc_getmsgend (st.s.p.in_buf.adv
      ((pre ++ [d]).flatMap fun d => broadcast_packet E p E.MSG_R2R_DATA d).length) = true) :
    ∃ st', HandleRdcMsg E plan_newport (fuel + ds.length + 1) st = .ret () st' ∧
      st'.pln_nodes.length = st.pln_nodes.length ∧
      (∃ pp', st'.pln_nodes.get? i = some pp' ∧
        pp'.rdcstore =
          pp.rdcstore ++ ds.map fun d => frame E.MSG_R2P_DATA (beEncode 8 X ++ d)) ∧
      ∀ j, j ≠ i → st'.pln_nodes.get? j = st.pln_nodes.get? j := by
  have hfun : (fun d => broadcast_packet E p E.MSG_R2R_DATA d) =
      fun d => frame E.MSG_R2R_DATA (beEncode 8 p ++ d) :=
    funext fun d => broadcast_packet_data E p d hne
  rw [hfun] at hun hend
  obtain ⟨s', h⟩ := handle_rdc_frames E plan_newport p i X htag hp ds fuel st pp hnb hpeer hun
    hlen hlook hpp hend
  refine ⟨_, h, by simp, ⟨_, get_set_same _ _ _ _ hpp, fold_store E X ds pp hvalid⟩, ?_⟩
  intro j hj
  simp [List.getElem?_set, Ne.symm hj]

theorem r2r_round_trip_witness :
    ∃ st', HandleRdcMsg exEnv (fun _ => exPlanPort) (0 + [[7, 8, 9], [5]].length + 1) exRSt =
        .ret () st' ∧
      st'.pln_nodes.length = exRSt.pln_nodes.length ∧
      (∃ pp', st'.pln_nodes.get? 0 = some pp' ∧
        pp'.rdcstore = exPlanPort.rdcstore ++
          [[7, 8, 9], [5]].map fun d => frame exEnv.MSG_R2P_DATA (beEncode 8 2 ++ d)) ∧
      ∀ j, j ≠ 0 → st'.pln_nodes.get? j = exRSt.pln_nodes.get? j :=
  r2r_round_trip exEnv (fun _ => exPlanPort) 0 exRSt 11 2 0 exPlanPort [[7, 8, 9], [5]]
    rfl rfl (by decide) (by decide) (by decide) (by decide) (by decide) (by decide)
    (by decide) rfl (by decide) (fun _ _ _ _ => rfl)

theorem take_succ_set (l : List Nat) (n X : Nat) (h : n < l.length) :
    List.take (n + 1) (l.set n X) = List.take n l ++ [X] := by
  induction l generalizing n with
  | nil => simp at h
  | cons a l ih =>
    cases n with
    | zero => simp
    | succ m =>
      simp only [List.length_cons, Nat.add_lt_add_iff_right] at h
      simp [ih m h]

/-- A first EOF from reducer `X` on a valid PlanPort with room in `rdc_eofs`. -/
theorem eof_fresh (E : Env) (pp : PlanPort) (X : Nat) (b : Bool)
    (hv : PlanPortIsValid pp = true) (hnew : X ∉ pp.eofs)
    (hroom : pp.eof_num < pp.rdc_eofs.length) :
    ∃ pp', SendRdcEofToPlan E pp X b = .done pp' ∧ PlanPortIsValid pp' = true ∧
      pp'.eof_num = pp.eof_num + 1 ∧ pp'.rdc_eofs = pp.rdc_eofs.set pp.eof_num X ∧
      pp'.eofs = pp.eofs ++ [X] ∧
      pp'.rdcstore = pp.rdcstore ++ [frame E.MSG_EOF (beEncode 8 X)] ∧
      pp'.recv_from_rdc = pp.recv_from_rdc + 1 ∧ pp'.dscd_from_rdc = pp.dscd_from_rdc := by
  have hc : (List.take pp.eof_num pp.rdc_eofs).contains X = false := by
    simpa [PlanPort.eofs] using hnew
  unfold SendRdcEofToPlan
  simp only [hv, Bool.not_true, Bool.false_eq_true, if_false, hc, hroom, if_true]
  exact ⟨_, rfl, hv, rfl, rfl, take_succ_set _ _ _ hroom, rfl, rfl, rfl⟩

/-- An EOF from a reducer already in the EOF set of a valid PlanPort. -/
theorem eof_again (E : Env) (pp : PlanPort) (X : Nat) (b : Bool)
    (hv : PlanPortIsValid pp = true) (hold : X ∈ pp.eofs) :
    SendRdcEofToPlan E pp X b =
      if b then .raised { pp with recv_from_rdc := pp.recv_from_rdc + 1 }
      else .done { pp with recv_from_rdc := pp.recv_from_rdc + 1 } := by
  have hc : (List.take pp.eof_num pp.rdc_eofs).contains X = true := by
    simpa [PlanPort.eofs] using hold
  unfold SendRdcEofToPlan
  simp only [hv, Bool.not_true, Bool.false_eq_true, if_false, hc, if_true]

/-- EOF messages of distinct new reducers, one after the other. -/
theorem eof_run_spec (E : Env) (ids : List Nat) :
    ∀ pp : PlanPort, PlanPortIsValid pp = true → ids.Nodup → (∀ x ∈ ids, x ∉ pp.eofs) →
      pp.eof_num + ids.length ≤ pp.rdc_eofs.length →
      ∃ pp', eof_run E pp ids = .done pp' ∧ pp'.eof_num = pp.eof_num + ids.length ∧
        pp'.eofs = pp.eofs ++ ids ∧
        pp'.rdcstore = pp.rdcstore ++ ids.map fun X => frame E.MSG_EOF (beEncode 8 X) := by
  induction ids with
  | nil => intro pp _ _ _ _; exact ⟨pp, rfl, rfl, by simp, by simp⟩
  | cons X rest ih =>
    intro pp hv hnd hnew hroom
    obtain ⟨hX, hrest⟩ := List.nodup_cons.1 hnd
    simp only [List.length_cons] at hroom
    obtain ⟨pp1, h1, hv1, hn1, hr1, he1, hs1, -, -⟩ :=
      eof_fresh E pp X true hv (hnew X (List.mem_cons_self _ _)) (by omega)
    have hl1 : pp1.rdc_eofs.length = pp.rdc_eofs.length := by rw [hr1, List.length_set]
    obtain ⟨pp', h2, hn2, he2, hs2⟩ := ih pp1 hv1 hrest
      (by
        intro x hx
        rw [he1, List.mem_append, List.mem_singleton]
        rintro (h | h)
        · exact hnew x (List.mem_cons_of_mem _ hx) h
        · exact hX (h ▸ hx))
      (by rw [hn1]; omega)
    refine ⟨pp', ?_, ?_, ?_, ?_⟩
    · simp only [eof_run, h1, h2]
    · rw [hn2, hn1, List.length_cons]; omega
    · rw [he2, he1]; simp
    · rw [hs2, hs1]; simp

/-- C11: on a valid PlanPort with an empty EOF set whose array `rdc_eofs` has
room for them, EOF messages from `k` pairwise distinct reducers are all
processed; afterwards `eof_num = k`, `rdc_eofs[0..k)` holds the sender ids in
arrival order, and exactly `k` EOF frames, each carrying its sender's id,
have been appended to the store in arrival order. -/
theorem eof_accounting (E : Env) (pp : PlanPort) (ids : List Nat)
    (hv : PlanPortIsValid pp = true) (hempty : pp.eof_num = 0) (hnd : ids.Nodup)
    (hroom : ids.length ≤ pp.rdc_eofs.length) :
    ∃ pp', eof_run E pp ids = .done pp' ∧ pp'.eof_num = ids.length ∧
      pp'.rdc_eofs.take ids.length = ids ∧
      pp'.rdcstore = pp.rdcstore ++ ids.map fun X => frame E.MSG_EOF (beEncode 8 X) := by
  have he : pp.eofs = [] := by simp [PlanPort.eofs, hempty]
  obtain ⟨pp', h1, h2, h3, h4⟩ := eof_run_spec E ids pp hv hnd
    (by intro x _; rw [he]; exact List.not_mem_nil x) (by rw [hempty]; omega)
  rw [hempty, Nat.zero_add] at h2
  refine ⟨pp', h1, h2, ?_, h4⟩
  rw [he, List.nil_append, PlanPort.eofs, h2] at h3
  exact h3

/-- C13: on a tombstoned PlanPort (`work_num ≤ 0`) a data tuple, an EOF and a
PLAN_CLOSE of a peer reducer are each discarded: `dscd_from_rdc` grows by
exactly one and every other field, `rdcstore`, `rdc_eofs`, `eof_num` and
`recv_from_rdc` among them, is left as it was. -/
theorem tombstone_discards (E : Env) (pp : PlanPort) (X : Nat) (d : List Nat) (b : Bool)
    (hinv : pp.work_num ≤ 0) :
    SendRdcDataToPlan E pp X d = { pp with dscd_from_rdc := pp.dscd_from_rdc + 1 } ∧
    SendRdcEofToPlan E pp X b = .done { pp with dscd_from_rdc := pp.dscd_from_rdc + 1 } ∧
    SendPlanCloseToPlan E pp X = .done { pp with dscd_from_rdc := pp.dscd_from_rdc + 1 } := by
  have hv : PlanPortIsValid pp = false := by
    simp only [PlanPortIsValid, decide_eq_false_iff_not]; omega
  refine ⟨?_, ?_, ?_⟩
  · simp only [SendRdcDataToPlan, hv, Bool.not_false, if_true]
  · simp only [SendRdcEofToPlan, hv, Bool.not_false, if_true]
  · simp only [SendPlanCloseToPlan, hv, Bool.not_false, if_true]

/-- An EOF frame of plan `p` at the cursor of a reducer port is handed to
`SendRdcEofToPlan` with the port's peer id. -/
theorem handle_eof_frame (E : Env) (plan_newport : Nat → PlanPort) (n : Nat) (st : RSt)
    (p i : Nat) (pp : PlanPort) (rest : List Nat)
    (hun : st.s.p.in_buf.unread = frame E.MSG_EOF (beEncode 8 p) ++ rest)
    (hlen : st.s.p.in_buf.len < 2 ^ 31)
    (htag : IsTag E.MSG_EOF) (hne : E.MSG_EOF ≠ E.MSG_R2R_DATA) (hp : p < 2 ^ 64)
    (hlook : LookUpPlanPort st.pln_nodes p = some i) (hpp : st.pln_nodes.get? i = some pp)
    (hend : E.rdc_getmsgend (st.s.p.in_buf.adv 13) = true) :
    HandleRdcMsg_body E plan_newport (n + 1) st =
      match SendRdcEofToPlan E pp st.s.p.peer_id true with
      | .stuck => .stuck
      | .raised q => .raised { s := st.s.adv 13, pln_nodes := st.pln_nodes.set i q }
      | .done q => .ret true { s := st.s.adv 13, pln_nodes := st.pln_nodes.set i q } := by
  have hlenu := unread_length st.s.p.in_buf
  have hflen : (frame E.MSG_EOF (beEncode 8 p)).length = 13 := by
    simp [frame, beEncode_length]
  rw [hun, List.length_append, hflen] at hlenu
  have hun' : st.s.p.in_buf.unread =
      tagByte E.MSG_EOF :: (beEncode 4 12 ++ (beEncode 8 p ++ rest)) := by
    rw [hun]
    simp only [frame, List.cons_append, List.append_assoc, beEncode_length]
  have e1 : rdc_getmsgint (st.s.p.in_buf.adv 1) 4 = some (12, st.s.p.in_buf.adv 5) := by
    rw [getmsgint_adv _ 4 (beEncode 4 12) (beEncode 8 p ++ rest)
      (by simp [hun']) (beEncode_length _ _) (by simp; omega)]
    rw [beDecode_beEncode_of_lt 4 12 (by norm_num)]
    simp
  have e5 : rdc_getmsgRdcPortID (st.s.p.in_buf.adv 5) = some (p, st.s.p.in_buf.adv 13) := by
    rw [getmsgid_adv _ p rest ?_ (by simp; omega) hp]
    · simp
    · have : st.s.p.in_buf.adv 5 = (st.s.p.in_buf.adv 1).adv 4 := by simp
      rw [this, adv_unread, adv_unread, hun']; simp [beEncode_length]
  have hm1 : toInt32 ((toInt32 ((12 : Nat) : Int)) - 4) = ((8 : Nat) : Int) := by decide
  have hm2 : toSizeT ((8 : Nat) : Int) = 8 := by decide
  have hEOF := IsTag_ne_EOF _ htag
  unfold HandleRdcMsg_body
  rw [getbyte_adv st.s _ _ hun']
  simp only [toChar_tagByte _ htag, hEOF, if_false]
  rw [rdc_getbytes_enough E n (st.s.adv 1) 4 (by simp; omega) (by simp; omega)]
  simp only [EOF_ne_zero, if_false, padv_in_buf, e1, hm1, hm2, adv_setIn, setIn_adv_eq]
  rw [rdc_getbytes_enough E n (st.s.adv 5) 8 (by simp; omega) (by simp; omega)]
  simp only [EOF_ne_zero, if_false, true_or, or_true, if_true, padv_in_buf, e5, hlook,
    Option.isSome_some, Option.getD_some, hpp, hne, adv_setIn, setIn_adv_eq, setIn_in_buf, hend,
    Bool.not_true, Bool.false_eq_true]
  rfl

/-- C12: an EOF message from a reducer `X` that is already in the EOF set of a
valid PlanPort is reported as an error, by `SendRdcEofToPlan` and by
`HandleRdcMsg` when the frame arrives on the port of `X`, and the PlanPort's
`rdc_eofs`, `eof_num` and `rdcstore` are as they were before the message. -/
theorem duplicate_eof_rejected (E : Env) (plan_newport : Nat → PlanPort) (fuel : Nat)
    (st : RSt) (p i X : Nat) (pp : PlanPort) (rest : List Nat)
    (hv : PlanPortIsValid pp = true) (hold : X ∈ pp.eofs)
    (hpeer : st.s.p.peer_id = X)
    (hun : st.s.p.in_buf.unread = frame E.MSG_EOF (beEncode 8 p) ++ rest)
    (hlen : st.s.p.in_buf.len < 2 ^ 31)
    (htag : IsTag E.MSG_EOF) (hne : E.MSG_EOF ≠ E.MSG_R2R_DATA) (hp : p < 2 ^ 64)
    (hlook : LookUpPlanPort st.pln_nodes p = some i) (hpp : st.pln_nodes.get? i = some pp)
    (hend : E.rdc_getmsgend (st.s.p.in_buf.adv 13) = true) :
    (∃ pp', SendRdcEofToPlan E pp X true = .raised pp' ∧ pp'.rdc_eofs = pp.rdc_eofs ∧
      pp'.eof_num = pp.eof_num ∧ pp'.rdcstore = pp.rdcstore) ∧
    (∃ st' pp', HandleRdcMsg E plan_newport (fuel + 1) st = .raised st' ∧
      st'.pln_nodes.get? i = some pp' ∧ pp'.rdc_eofs = pp.rdc_eofs ∧
      pp'.eof_num = pp.eof_num ∧ pp'.rdcstore = pp.rdcstore) := by
  have h := eof_again E pp X true hv hold
  simp only [if_true] at h
  refine ⟨⟨_, h, rfl, rfl, rfl⟩, ?_⟩
  have hb := handle_eof_frame E plan_newport fuel st p i pp rest hun hlen htag hne hp hlook hpp
    hend
  rw [hpeer, h] at hb
  have hrun : HandleRdcMsg E plan_newport (fuel + 1) st =
      .raised { s := st.s.adv 13,
                pln_nodes := st.pln_nodes.set i
                  { pp with recv_from_rdc := pp.recv_from_rdc + 1 } } := by
    unfold HandleRdcMsg
    rw [hb]
  exact ⟨_, _, hrun, get_set_same _ _ _ _ hpp, rfl, rfl, rfl⟩

theorem eofs_length (pp : PlanPort) (h : pp.eof_num ≤ pp.rdc_eofs.length) :
    pp.eofs.length = pp.eof_num := by
  simp [PlanPort.eofs, h]

/-- The EOF set of a PlanPort that satisfies the invariant has at most as many
entries as there are other reducers. -/
theorem eof_set_bound (others : List Nat) (pp : PlanPort) (h : EofSetOk others pp) :
    pp.eof_num ≤ others.length := by
  obtain ⟨h1, h2, h3⟩ := h
  rw [← eofs_length pp h1]
  exact (List.subperm_of_subset h2 h3).length_le

/-- `SendRdcEofToPlan` keeps the EOF-set invariant whenever it returns. -/
theorem eof_step_inv (E : Env) (others : List Nat) (pp pp' : PlanPort) (X : Nat) (b : Bool)
    (hinv : EofSetOk others pp) (hX : X ∈ others)
    (hstep : SendRdcEofToPlan E pp X b = .done pp') : EofSetOk others pp' := by
  by_cases hv : PlanPortIsValid pp = true
  · by_cases hold : X ∈ pp.eofs
    · rw [eof_again E pp X b hv hold] at hstep
      cases b with
      | true => simp at hstep
      | false =>
        simp only [Bool.false_eq_true, if_false, PlanRes.done.injEq] at hstep
        subst hstep
        exact hinv
    · by_cases hroom : pp.eof_num < pp.rdc_eofs.length
      · obtain ⟨q, hq, -, hn, hr, he, -, -, -⟩ := eof_fresh E pp X b hv hold hroom
        rw [hq] at hstep
        simp only [PlanRes.done.injEq] at hstep
        subst hstep
        obtain ⟨h1, h2, h3⟩ := hinv
        refine ⟨?_, ?_, ?_⟩
        · rw [hn, hr, List.length_set]; omega
        · rw [he]
          exact List.Nodup.append h2 (List.nodup_singleton X)
            (by
              intro a ha hb
              rw [List.mem_singleton] at hb
              exact hold (hb ▸ ha))
        · intro x hx
          rw [he, List.mem_append, List.mem_singleton] at hx
          rcases hx with h | h
          · exact h3 x h
          · rw [h]; exact hX
      · simp only [PlanPort.eofs] at hold
        unfold SendRdcEofToPlan at hstep
        simp [hv, hold, hroom] at hstep
  · have hv' : PlanPortIsValid pp = false := by simpa using hv
    simp only [SendRdcEofToPlan, hv', Bool.not_false, if_true, PlanRes.done.injEq] at hstep
    subst hstep
    exact hinv

/-- `SendPlanCloseToPlan` keeps the EOF-set invariant whenever it returns. -/
theorem close_step_inv (E : Env) (others : List Nat) (pp pp' : PlanPort) (X : Nat)
    (hinv : EofSetOk others pp) (hX : X ∈ others)
    (hstep : SendPlanCloseToPlan E pp X = .done pp') : EofSetOk others pp' := by
  by_cases hv : PlanPortIsValid pp = true
  · simp only [SendPlanCloseToPlan, hv, Bool.not_true, Bool.false_eq_true, if_false] at hstep
    refine eof_step_inv E others _ pp' X false ?_ hX hstep
    exact hinv
  · have hv' : PlanPortIsValid pp = false := by simpa using hv
    simp only [SendPlanCloseToPlan, hv', Bool.not_false, if_true, PlanRes.done.injEq] at hstep
    subst hstep
    exact hinv

/-- C16 (amended): in a group whose other reducers are `others` (there are
`N - 1` of them), if the entries `rdc_eofs[0..eof_num)` of a PlanPort fit the
array, are pairwise distinct and are ids of other reducers, then after every
sequence of EOF and PLAN_CLOSE messages from other reducers that is processed
without error the entries are still pairwise distinct ids of other reducers
and `eof_num ≤ N - 1`. -/
theorem eof_set_invariant (E : Env) (others : List Nat) (msgs : List PeerMsg) :
    ∀ pp pp' : PlanPort, EofSetOk others pp → (∀ m ∈ msgs, m.sender ∈ others) →
      peer_run E pp msgs = .done pp' →
      EofSetOk others pp' ∧ pp'.eof_num ≤ others.length := by
  induction msgs with
  | nil =>
    intro pp pp' hinv _ hrun
    simp only [peer_run, PlanRes.done.injEq] at hrun
    subst hrun
    exact ⟨hinv, eof_set_bound others pp hinv⟩
  | cons m rest ih =>
    intro pp pp' hinv hs hrun
    cases hm : m.handle E pp with
    | done pp1 =>
      simp only [peer_run, hm] at hrun
      have hinv1 : EofSetOk others pp1 := by
        cases m with
        | eof X =>
          exact eof_step_inv E others pp pp1 X true hinv (hs _ (List.mem_cons_self _ _)) hm
        | close X =>
          exact close_step_inv E others pp pp1 X hinv (hs _ (List.mem_cons_self _ _)) hm
      exact ih pp1 pp' hinv1 (fun x hx => hs x (List.mem_cons_of_mem _ hx)) hrun
    | raised q => simp [peer_run, hm] at hrun
    | stuck => simp [peer_run, hm] at hrun

theorem doubleUntil_ge (fuel newlen needed : Nat) : newlen ≤ doubleUntil fuel newlen needed := by
  induction fuel generalizing newlen with
  | zero => simp [doubleUntil]
  | succ n ih =>
    unfold doubleUntil
    split
    · exact Nat.le_trans (by omega) (ih (2 * newlen))
    · exact Nat.le_refl _

/-- Enlarging a buffer keeps its contents and cursor and does not shrink it. -/
theorem enlarge_some (E : Env) (b b' : StringInfo) (n : Int)
    (h : enlargeStringInfo E b n = some b') :
    b'.data = b.data ∧ b'.cursor = b.cursor ∧ b.maxlen ≤ b'.maxlen := by
  unfold enlargeStringInfo at h
  by_cases hf : E.enlarge_fails b n = true
  · simp [hf] at h
  · simp only [hf, Bool.false_eq_true, if_false] at h
    by_cases hn : n.toNat + b.len + 1 ≤ b.maxlen
    · simp only [hn, if_true, Option.some.injEq] at h
      subst h
      exact ⟨rfl, rfl, Nat.le_refl _⟩
    · simp only [hn, if_false, Option.some.injEq] at h
      subst h
      exact ⟨rfl, rfl, Nat.le_trans (by omega) (doubleUntil_ge _ (2 * b.maxlen) _)⟩

theorem recv_loop_inv (script : List RecvOutcome) :
    ∀ s : PSt, InBufOk s.p.in_buf →
      (rdc_recv_loop s script).after fun s' => InBufOk s'.p.in_buf := by
  induction script with
  | nil => intro s _; exact trivial
  | cons o rest ih =>
    intro s h
    cases o with
    | again =>
      simp only [rdc_recv_loop]
      split
      · exact ih s h
      · split
        · exact h
        · exact h
    | eintr =>
      simp only [rdc_recv_loop]
      split
      · exact h
      · exact ih s h
    | fail =>
      simp only [rdc_recv_loop]
      split
      · exact h
      · exact h
    | shutdown =>
      simp only [rdc_recv_loop]
      split
      · exact h
      · exact h
    | bytes bs =>
      simp only [rdc_recv_loop]
      split
      · exact h
      · split
        · exact h
        · obtain ⟨h1, h2⟩ := h
          refine ⟨?_, ?_⟩
          · simp only [StringInfo.len, List.length_append] at *
            omega
          · simp only [StringInfo.len, List.length_append, List.length_take] at *
            omega

theorem recv_inv (s : PSt) (h : InBufOk s.p.in_buf) :
    (rdc_recv s).after fun s' => InBufOk s'.p.in_buf := by
  unfold rdc_recv
  apply recv_loop_inv
  obtain ⟨h1, h2⟩ := h
  simp only []
  split
  · split
    · refine ⟨Nat.zero_le _, ?_⟩
      simp only [StringInfo.len, List.length_drop] at *
      omega
    · exact ⟨Nat.zero_le _, Nat.zero_le _⟩
  · exact ⟨h1, h2⟩

/-- A property of the end state passes through `bind`. -/
theorem after_bind {σ α β : Type} (P : σ → Prop) (x : Res σ α) (f : α → σ → Res σ β)
    (hx : x.after P) (hf : ∀ a s, P s → (f a s).after P) : (x.bind f).after P := by
  cases x with
  | ret a s => exact hf a s hx
  | raised s => exact hx
  | stuck => exact trivial

theorem discard_inv (fuel : Nat) :
    ∀ (s : PSt) (len : Nat), InBufOk s.p.in_buf →
      (rdc_discardbytes fuel s len).after fun s' => InBufOk s'.p.in_buf := by
  induction fuel with
  | zero => intro s len _; exact trivial
  | succ n ih =>
    intro s len h
    unfold rdc_discardbytes
    split
    · exact h
    · split
      · apply after_bind _ _ _ (recv_inv s h)
        intro r s1 h1
        split
        · exact h1
        · exact ih s1 len h1
      · apply ih
        obtain ⟨h1, h2⟩ := h
        refine ⟨?_, h2⟩
        show s.p.in_buf.cursor + min (s.p.in_buf.len - s.p.in_buf.cursor) len ≤ s.p.in_buf.len
        omega

theorem getbytes_loop_inv (E : Env) (fuel : Nat) :
    ∀ (s : PSt) (len : Nat), InBufOk s.p.in_buf →
      (rdc_getbytes_loop E fuel s len).after fun s' => InBufOk s'.p.in_buf := by
  induction fuel with
  | zero => intro s len _; exact trivial
  | succ n ih =>
    intro s len h
    unfold rdc_getbytes_loop
    simp only []
    split
    · exact h
    · split
      · split
        · exact h
        · split
          · rename_i hg
            apply after_bind _ _ _ (discard_inv (n + 1) s len h)
            intro _ s1 h1
            exact h1
          · rename_i buf1 hg
            have hb : InBufOk buf1 := by
              split at hg
              · obtain ⟨e1, e2, e3⟩ := enlarge_some E _ _ _ hg
                obtain ⟨h1, h2⟩ := h
                refine ⟨?_, ?_⟩
                · simp only [StringInfo.len, e1, e2] at *; exact h1
                · simp only [StringInfo.len, e1] at *; omega
              · simp only [Option.some.injEq] at hg
                rw [← hg]; exact h
            apply after_bind _ _ _ (recv_inv _ hb)
            intro r s1 h1
            split
            · exact h1
            · exact ih s1 len h1
      · split
        · exact h
        · exact ih s _ h

/-- C17: if the in-buffer of a port satisfies `0 ≤ cursor ≤ len ≤ maxlen`, then
whatever the underlying `recv` calls do, the in-buffer satisfies it again in
the state in which `rdc_recv`, `rdc_getbytes` and `rdc_discardbytes` end,
whether they return or report an error. -/
theorem in_buf_invariant (E : Env) (fuel : Nat) (s : PSt) (len : Nat)
    (h : InBufOk s.p.in_buf) :
    ((rdc_recv s).after fun s' => InBufOk s'.p.in_buf) ∧
    ((rdc_getbytes E fuel s len).after fun s' => InBufOk s'.p.in_buf) ∧
    ((rdc_discardbytes fuel s len).after fun s' => InBufOk s'.p.in_buf) := by
  refine ⟨recv_inv s h, ?_, discard_inv fuel s len h⟩
  unfold rdc_getbytes
  split
  · exact h
  · exact getbytes_loop_inv E fuel s len h

theorem toInt32_of_small (v : Int) (h0 : -(2 ^ 31) ≤ v) (h : v < 2 ^ 31) : toInt32 v = v := by
  unfold toInt32
  split <;> omega

/-- With nothing unread and a request that wraps around in `size_t`, the
loop of `rdc_getbytes` makes no progress. -/
theorem getbytes_spin (E : Env) (len : Nat) (fuel : Nat) :
    ∀ s : PSt, len ≠ 0 → s.p.in_buf.cursor = s.p.in_buf.len →
      (s.p.in_buf.cursor + len) % 2 ^ 64 ≤ s.p.in_buf.len →
      rdc_getbytes_loop E fuel s len = .stuck := by
  induction fuel with
  | zero => intro s _ _ _; rfl
  | succ n ih =>
    intro s h0 hc hw
    unfold rdc_getbytes_loop
    have h1 : ¬ ((s.p.in_buf.cursor + len) % 2 ^ 64 > s.p.in_buf.len) := by omega
    have h2 : ((((s.p.in_buf.len : Int) - (s.p.in_buf.cursor : Int)) % 2 ^ 64).toNat) = 0 := by
      omega
    simp only [h0, if_false, h1, h2]
    rw [if_neg (by omega)]
    exact ih s h0 hc hw

theorem short_header_request (E : Env) (fuel : Nat) (s : PSt) (t : Int) (L : Nat)
    (hun : s.p.in_buf.unread = tagByte t :: beEncode 4 L) (hL : L < 4)
    (hlen : s.p.in_buf.len < 2 ^ 31) :
    rdc_getmsgint (s.p.in_buf.adv 1) 4 = some (L, s.p.in_buf.adv 5) ∧
    toSizeT (toInt32 ((toInt32 (L : Int) : Int) - 4)) = 2 ^ 64 + L - 4 ∧
    rdc_getbytes E fuel (s.adv 5) (2 ^ 64 + L - 4) = .stuck := by
  have hlenu := unread_length s.p.in_buf
  rw [hun] at hlenu
  simp only [List.length_cons, beEncode_length] at hlenu
  refine ⟨?_, ?_, ?_⟩
  · rw [getmsgint_adv _ 4 (beEncode 4 L) [] (by simp [hun]) (beEncode_length _ _)
      (by simp; omega), beDecode_beEncode_of_lt 4 L (by
        have : (4:Nat) < 256 ^ 4 := by norm_num
        omega)]
    simp
  · rw [toInt32_of_small (L : Int) (by omega) (by omega),
      toInt32_of_small ((L : Int) - 4) (by omega) (by omega)]
    unfold toSizeT
    omega
  · unfold rdc_getbytes
    rw [if_neg (by omega)]
    apply getbytes_spin
    · omega
    · simp only [padv_in_buf, adv_cursor, adv_len]; omega
    · simp only [padv_in_buf, adv_cursor, adv_len]; omega

/-- A frame header with `L < 4` at the end of the in-buffer of a reducer port:
the body of `HandleRdcMsg` does not end, whatever the fuel. -/
theorem rdc_short_header_spins (E : Env) (plan_newport : Nat → PlanPort) (fuel : Nat) (st : RSt)
    (t : Int) (L : Nat)
    (hun : st.s.p.in_buf.unread = tagByte t :: beEncode 4 L) (hL : L < 4) (htag : IsTag t)
    (hlen : st.s.p.in_buf.len < 2 ^ 31) :
    HandleRdcMsg_body E plan_newport fuel st = .stuck := by
  have hlenu := unread_length st.s.p.in_buf
  rw [hun] at hlenu
  simp only [List.length_cons, beEncode_length] at hlenu
  obtain ⟨e1, e2, e3⟩ := short_header_request E fuel st.s t L hun hL hlen
  unfold HandleRdcMsg_body
  rw [getbyte_adv st.s _ _ hun]
  simp only [toChar_tagByte _ htag, IsTag_ne_EOF _ htag, if_false]
  cases fuel with
  | zero => rfl
  | succ n =>
    rw [rdc_getbytes_enough E n (st.s.adv 1) 4 (by simp; omega) (by simp; omega)]
    simp only [EOF_ne_zero, if_false, padv_in_buf, e1, e2, adv_setIn, setIn_adv_eq]
    rw [e3]

/-- A frame header with `L < 4` at the end of the in-buffer of a plan worker:
the body of `HandlePlanMsg` does not end, whatever the fuel. -/
theorem plan_short_header_spins (E : Env) (fuel : Nat) (st : HSt) (t : Int) (L : Nat)
    (hun : st.work.in_buf.unread = tagByte t :: beEncode 4 L) (hL : L < 4) (htag : IsTag t)
    (hlen : st.work.in_buf.len < 2 ^ 31) :
    HandlePlanMsg_body E fuel st = .stuck := by
  have hlenu := unread_length st.work.in_buf
  rw [hun] at hlenu
  simp only [List.length_cons, beEncode_length] at hlenu
  obtain ⟨e1, e2, e3⟩ := short_header_request E fuel st.port t L hun hL hlen
  unfold HandlePlanMsg_body
  rw [getbyte_adv st.port _ _ hun]
  simp only [toChar_tagByte _ htag, IsTag_ne_EOF _ htag, if_false]
  cases fuel with
  | zero => rfl
  | succ n =>
    rw [rdc_getbytes_enough E n (st.port.adv 1) 4 (by simp [HSt.port]; omega)
      (by simp [HSt.port]; omega)]
    simp only [EOF_ne_zero, if_false, padv_in_buf, e1, e2, adv_setIn, setIn_adv_eq]
    rw [e3]

/-- C20, failing inputs: a frame header with the length word `L = 0`.  When
more bytes follow in the in-buffer of a nonblocking port, `HandleRdcMsg` and
`HandlePlanMsg` report no error: they put the cursor back, arm READABLE and
return as for a partial frame.  When the header ends the buffer, neither
returns, whatever the fuel. -/
theorem short_length_not_rejected :
    (∃ st', HandleRdcMsg exEnv (fun _ => exPlanPort) 3
        (exRdcIn [82, 0, 0, 0, 0, 1, 2, 3, 4, 5, 6]) = .ret () st' ∧
      st'.s.p.in_buf.cursor = 0 ∧ st'.s.p.wait_events.readable = true) ∧
    (∃ st', HandlePlanMsg exEnv 3 (exPlanIn [80, 0, 0, 0, 0, 1, 2, 3, 4, 5, 6]) = .ret 0 st' ∧
      st'.work.in_buf.cursor = 0 ∧ st'.work.wait_events.readable = true ∧
      st'.pp.recv_from_pln = 0) ∧
    (∀ fuel, HandleRdcMsg exEnv (fun _ => exPlanPort) fuel (exRdcIn [82, 0, 0, 0, 0]) = .stuck) ∧
    (∀ fuel, HandlePlanMsg exEnv fuel (exPlanIn [80, 0, 0, 0, 0]) = .stuck) := by
  refine ⟨⟨_, rfl, rfl, rfl⟩, ⟨_, rfl, rfl, rfl, rfl⟩, ?_, ?_⟩
  · intro fuel
    cases fuel with
    | zero => rfl
    | succ n =>
      unfold HandleRdcMsg
      rw [rdc_short_header_spins exEnv _ (n + 1) _ 82 0 (by decide) (by decide) (by decide)
        (by decide)]
  · intro fuel
    cases fuel with
    | zero => rfl
    | succ n =>
      unfold HandlePlanMsg
      rw [plan_short_header_spins exEnv (n + 1) _ 80 0 (by decide) (by decide) (by decide)
        (by decide)]

@[simp] theorem hst_port_p (st : HSt) : st.port.p = st.work := rfl
@[simp] theorem hst_port_g (st : HSt) : st.port.g = st.R.g := rfl

/-- The state of `HandlePlanMsg` with the in-buffer cursor of the worker moved
`n` bytes on. -/
theorem hst_back_adv (st : HSt) (n : Nat) :
    st.back (st.port.adv n) =
      { st with work := { st.work with in_buf := st.work.in_buf.adv n } } := rfl

/-- A whole frame at the cursor of a plan worker: the message is counted and
handed to the `switch`. -/
theorem plan_header (E : Env) (fuel : Nat) (st : HSt) (t : Int) (payload rest : List Nat)
    (hun : st.work.in_buf.unread = frame t payload ++ rest)
    (hlen : st.work.in_buf.len < 2 ^ 31) (htag : IsTag t) :
    HandlePlanMsg_body E (fuel + 1) st =
      HandlePlanMsg_switch E (fuel + 1) t (st.back (st.port.adv 5)).counted := by
  have hlenu := unread_length st.work.in_buf
  have hflen : (frame t payload).length = payload.length + 5 := by
    simp [frame, beEncode_length]; omega
  rw [hun, List.length_append, hflen] at hlenu
  have hun' : st.port.p.in_buf.unread =
      tagByte t :: (beEncode 4 (payload.length + 4) ++ (payload ++ rest)) := by
    rw [hst_port_p, hun]
    simp only [frame, List.cons_append, List.append_assoc]
  have e1 : rdc_getmsgint (st.port.p.in_buf.adv 1) 4 =
      some (payload.length + 4, st.port.p.in_buf.adv 5) := by
    rw [getmsgint_adv _ 4 (beEncode 4 (payload.length + 4)) (payload ++ rest)
      (by rw [adv_unread, hun']; simp) (beEncode_length _ _) (by simp; omega)]
    rw [beDecode_beEncode_of_lt 4 (payload.length + 4) (by
      have : (2:Nat) ^ 31 < 256 ^ 4 := by norm_num
      omega)]
    simp
  have hm1 : toInt32 ((toInt32 ((payload.length + 4 : Nat) : Int)) - 4) =
      ((payload.length : Nat) : Int) := by
    rw [toInt32_small_int ((payload.length + 4 : Nat) : Int) (by omega) (by push_cast; omega)]
    rw [toInt32_small_int _ (by push_cast; omega) (by push_cast; omega)]
    push_cast; omega
  have hm2 : toSizeT ((payload.length : Nat) : Int) = payload.length := by
    rw [toSizeT_small, Nat.mod_eq_of_lt (by omega)]
  unfold HandlePlanMsg_body
  rw [getbyte_adv st.port _ _ hun']
  simp only [toChar_tagByte _ htag, IsTag_ne_EOF _ htag, if_false]
  rw [rdc_getbytes_enough E fuel (st.port.adv 1) 4 (by simp; omega) (by simp; omega)]
  simp only [EOF_ne_zero, if_false, padv_in_buf, e1, hm1, hm2, adv_setIn, setIn_adv_eq]
  rw [rdc_getbytes_enough E fuel (st.port.adv 5) payload.length (by simp; omega)
    (by simp; omega)]
  simp only [EOF_ne_zero, if_false]

/-- A proper initial part of a frame at the cursor of a nonblocking plan
worker: the cursor is put back, READABLE is armed and the loop is left with
the result 0. -/
theorem plan_incomplete (E : Env) (fuel : Nat) (st : HSt) (t : Int) (payload sfx : List Nat)
    (hnb : st.work.noblock = true) (htag : IsTag t)
    (hpre : st.work.in_buf.unread ++ sfx = frame t payload) (hsfx : sfx ≠ [])
    (hL : payload.length + 4 < 2 ^ 31) (hlen : st.work.in_buf.len < 2 ^ 31) :
    HandlePlanMsg_body E (fuel + 1) st =
      .ret (some 0)
        { st with work := { st.work with
            wait_events := { st.work.wait_events with readable := true } } } := by
  have hw0 : st.back (st.port.waitMore st.work.in_buf.cursor) =
      { st with work := { st.work with
          wait_events := { st.work.wait_events with readable := true } } } := by
    obtain ⟨⟨_, _, _, _, _, _, _, _, _, _, _, _, _, _, ⟨_, _, _⟩, _, _, _, _, _, _⟩, _, _⟩ := st
    rfl
  have hw : ∀ n, st.back ((st.port.adv n).waitMore st.work.in_buf.cursor) =
      { st with work := { st.work with
          wait_events := { st.work.wait_events with readable := true } } } := by
    intro n
    obtain ⟨⟨_, _, _, _, _, _, _, _, _, _, _, _, _, _, ⟨_, _, _⟩, _, _, _, _, _, _⟩, _, _⟩ := st
    rfl
  unfold HandlePlanMsg_body
  rcases head_cases _ _ _ _ hpre with h0 | ⟨u', hu, h4⟩ | ⟨p, hu, hp⟩
  · rw [rdc_getbyte_nil st.port hnb h0]
    simp only [toChar_EOF, if_true, hw0]
  · have hlenu := unread_length st.work.in_buf
    rw [hu] at hlenu
    simp only [List.length_cons] at hlenu
    rw [getbyte_adv st.port _ _ hu]
    simp only [toChar_tagByte t htag, IsTag_ne_EOF t htag, if_false]
    rw [rdc_getbytes_short E fuel (st.port.adv 1) 4 (by simpa using hnb) (by simp; omega)
      (by simp; omega) (by simp; omega)]
    simp only [if_true, hw]
  · obtain ⟨h1, h2, h3, h4⟩ := header_read E fuel st.port t p sfx payload hu hp hsfx hnb
      (by omega) hlen
    have hm1 : toInt32 ((toInt32 ((payload.length + 4 : Nat) : Int)) - 4) =
        ((payload.length : Nat) : Int) := by
      rw [toInt32_small_int ((payload.length + 4 : Nat) : Int) (by omega)
        (by push_cast; omega)]
      rw [toInt32_small_int _ (by push_cast; omega) (by push_cast; omega)]
      push_cast; omega
    have hm2 : toSizeT ((payload.length : Nat) : Int) = payload.length := by
      rw [toSizeT_small, Nat.mod_eq_of_lt (by omega)]
    have h4' : rdc_getbytes E (fuel + 1) (st.port.adv 5) payload.length =
        .ret EOF (st.port.adv 5) := by
      simpa using h4
    simp only [padv_in_buf] at h3
    rw [h1]
    simp only [toChar_tagByte t htag, IsTag_ne_EOF t htag, if_false]
    rw [h2]
    simp only [EOF_ne_zero, if_false, padv_in_buf, h3, hm1, hm2, setIn_adv_eq, adv_setIn]
    rw [h4']
    simp only [if_true, hw]

/-- What the result of a nonblocking flush says about the out-buffer. -/
theorem flush_unsent (script : List SendOutcome) :
    ∀ (s : PSt) (r : Int) (s' : PSt), s.p.out_buf.cursor ≤ s.p.out_buf.len →
      internal_flush_buffer false s script = .ret r s' →
      (r = 0 → s'.p.out_buf.unread = []) ∧ (r = 1 → s'.p.out_buf.unread ≠ []) := by
  induction script with
  | nil =>
    intro s r s' hc h
    by_cases hlt : s.p.out_buf.cursor < s.p.out_buf.len
    · simp [internal_flush_buffer, hlt] at h
    · simp only [internal_flush_buffer, hlt, if_false, Res.ret.injEq] at h
      obtain ⟨h0, h⟩ := h
      subst h
      subst h0
      exact ⟨fun _ => rfl, fun h => absurd h (by decide)⟩
  | cons o rest ih =>
    intro s r s' hc h
    by_cases hlt : s.p.out_buf.cursor < s.p.out_buf.len
    · cases o with
      | accepted k =>
        simp only [internal_flush_buffer, hlt, if_true] at h
        exact ih _ r s' (by simp only [StringInfo.len] at *; omega) h
      | eintr =>
        simp only [internal_flush_buffer, hlt, if_true] at h
        exact ih { s with p := { s.p with sends := rest } } r s' hc h
      | again =>
        simp only [internal_flush_buffer, hlt, if_true, Bool.false_eq_true, if_false,
          Res.ret.injEq] at h
        obtain ⟨h0, h⟩ := h
        subst h
        subst h0
        refine ⟨fun h => absurd h (by decide), fun _ => ?_⟩
        intro hu
        have := (unread_nil_iff _).1 hu
        simp only [StringInfo.len] at *
        omega
      | fail =>
        simp only [internal_flush_buffer, hlt, if_true, Res.ret.injEq] at h
        obtain ⟨h0, -⟩ := h
        subst h0
        exact ⟨fun h => absurd h (by decide), fun h => absurd h (by decide)⟩
    · simp only [internal_flush_buffer, hlt, if_false, Res.ret.injEq] at h
      obtain ⟨h0, h⟩ := h
      subst h
      subst h0
      exact ⟨fun _ => rfl, fun h => absurd h (by decide)⟩

/-- After a send to a ready port, WRITABLE is armed exactly when bytes are
left unsent in the out-buffer. -/
theorem after_send_armed (E : Env) (fuel : Nat) (g : Globals) (packet : List Nat)
    (port : RdcPort) (hr : port.ready E fuel g packet) :
    ((after_send E fuel g packet port).wait_events.writable = true ∧
      (after_send E fuel g packet port).out_buf.unread ≠ []) ∨
    ((after_send E fuel g packet port).wait_events.writable = false ∧
      (after_send E fuel g packet port).out_buf.unread = []) := by
  obtain ⟨s1, ret, s2, hput, hflush, -, hret, hafter, -, -⟩ := send_step E fuel g packet port hr
  obtain ⟨hv, hc, s1', hput', hs⟩ := hr
  rw [hput] at hput'
  simp only [Res.ret.injEq, true_and] at hput'
  subst hput'
  have hput2 : put_buffer_loop E fuel { p := port, g := g } packet = .ret 0 s1 := by
    simpa [rdc_putmessage, internal_put_buffer] using hput
  obtain ⟨-, -, -, p4⟩ := put_stream E fuel { p := port, g := g } packet s1 hc hput2
  obtain ⟨u0, u1⟩ := flush_unsent s1.p.sends s1 ret s2 p4 hflush
  rw [hafter]
  rcases hret with h | h
  · right
    subst h
    exact ⟨by simp, u0 rfl⟩
  · left
    subst h
    exact ⟨by simp, u1 rfl⟩

/-- The result of the broadcast loop: it is the incoming `res` when no
target is left with unsent bytes, and 1 when some target is. -/
theorem broadcast_loop_result (E : Env) (fuel : Nat) (packet : List Nat)
    (T : List Nat) :
    ∀ (R : Reducer) (msg : StringInfo) (res : Int) (rest : List Nat),
      msg.unread = T.flatMap (beEncode 8) ++ rest → msg.cursor ≤ msg.len →
      (∀ t ∈ T, t < 2 ^ 64) → T.Nodup → (R.nodes.map fun m => m.id).Nodup →
      R.g.InterruptPending = false →
      (∀ t ∈ T, t ≠ E.MyReduceId →
        ∃ n ∈ R.nodes, n.id = t ∧ ∃ port, n.port = some port ∧ port.ready E (fuel + 2) R.g packet) →
      ∀ (res' : Int) (R' : Reducer) (msg' : StringInfo),
        broadcast_loop E (fuel + 2) packet false T.length R msg res = .ret res' (R', msg') →
        (res' = res ∧ ∀ n' ∈ R'.nodes, n'.id ∈ T → n'.id ≠ E.MyReduceId → ∀ p',
            n'.port = some p' → p'.wait_events.writable = false ∧ p'.out_buf.unread = []) ∨
        (res' = 1 ∧ ∃ n' ∈ R'.nodes, n'.id ∈ T ∧ n'.id ≠ E.MyReduceId ∧ ∃ p',
            n'.port = some p' ∧ p'.wait_events.writable = true ∧ p'.out_buf.unread ≠ []) := by
  induction T with
  | nil =>
    intro R msg res rest _ _ _ _ _ _ _ res' R' msg' h
    simp only [List.length_nil, broadcast_loop, Res.ret.injEq] at h
    left
    exact ⟨h.1.symm, fun n' _ hn => absurd hn (List.not_mem_nil _)⟩
  | cons t T' ih =>
    intro R msg res rest hun hc hlt hnd hids hint hready res' R' msg' hloop
    -- the final reducer
    obtain ⟨r2, hspec⟩ := broadcast_loop_spec E fuel packet (t :: T') R msg res rest hun hc hlt
      hnd hids hint hready
    have hR' : R' = { R with nodes := R.nodes.map fun n =>
              if n.id ∈ t :: T' ∧ n.id ≠ E.MyReduceId then
                { n with port := n.port.map (after_send E (fuel + 2) R.g packet) }
              else n } := by
      rw [hspec] at hloop
      simp only [Res.ret.injEq, Prod.mk.injEq] at hloop
      exact hloop.2.1.symm
    have hlen := unread_length msg
    have hid := getmsgid_adv msg t (T'.flatMap (beEncode 8) ++ rest)
      (by simpa [List.flatMap_cons, List.append_assoc] using hun) hc
      (hlt t (List.mem_cons_self _ _))
    have hun' : (msg.adv 8).unread = T'.flatMap (beEncode 8) ++ rest := by
      rw [adv_unread, hun]
      simp [List.flatMap_cons, List.append_assoc, beEncode_length]
    have hc' : (msg.adv 8).cursor ≤ (msg.adv 8).len := by
      rw [hun] at hlen
      simp only [List.flatMap_cons, List.length_append, beEncode_length] at hlen
      simp only [adv_cursor, adv_len]
      omega
    obtain ⟨htT, hndT⟩ := List.nodup_cons.1 hnd
    simp only [List.length_cons, broadcast_loop, hid] at hloop
    by_cases hself : t = E.MyReduceId
    · simp only [hself, if_true] at hloop
      rcases ih R (msg.adv 8) res rest hun' hc'
        (fun x hx => hlt x (List.mem_cons_of_mem _ hx)) hndT hids hint
        (fun x hx hxs => hready x (List.mem_cons_of_mem _ hx) hxs) res' R' msg' hloop with h | h
      · left
        refine ⟨h.1, fun n' hn' hmem hns p' hp' => ?_⟩
        rcases List.mem_cons.1 hmem with h1 | h1
        · exact absurd (h1.trans hself) hns
        · exact h.2 n' hn' h1 hns p' hp'
      · right
        obtain ⟨h1, n', hn', hmem, hrest⟩ := h
        exact ⟨h1, n', hn', List.mem_cons_of_mem _ hmem, hrest⟩
    · simp only [hself, if_false] at hloop
      obtain ⟨n, hnmem, hnid, port, hport, hrdy⟩ := hready t (List.mem_cons_self _ _) hself
      obtain ⟨i, hi⟩ := List.get?_of_mem hnmem
      rw [lookup_reduce_port R.nodes i n t hids hi hnid, hport] at hloop
      obtain ⟨s1, ret, s2, hput, hflush, hg, hret, hafter, -, -⟩ :=
        send_step E (fuel + 2) R.g packet port hrdy
      have hvalid : PortIsValid port = true := hrdy.1
      simp only [hvalid, Bool.not_true, Bool.false_eq_true, if_false, hput, hflush,
        CHECK_FOR_INTERRUPTS, hg, hint, Bool.not_false] at hloop
      have hR1 : ∀ w : Bool, w = decide (ret ≠ 0) →
          R.setPort i { p := { s2.p with
            wait_events := { s2.p.wait_events with writable := w } }, g := R.g } =
          { R with nodes := R.nodes.map fun m =>
              if m.id = t then { m with port := some (after_send E (fuel + 2) R.g packet port) }
              else m } := by
        intro w hw
        subst hw
        simp only [Reducer.setPort]
        rw [modify_eq_map R.nodes i n t _ hids hi hnid, hafter]
      have hmap_id : ((R.nodes.map fun m =>
              if m.id = t then { m with port := some (after_send E (fuel + 2) R.g packet port) }
              else m).map fun m => m.id) = R.nodes.map fun m => m.id := by
        rw [List.map_map]
        apply List.map_congr_left
        intro m _
        by_cases hm : m.id = t <;> simp [hm]
      have hnext : ∀ res1 : Int,
          broadcast_loop E (fuel + 2) packet false T'.length
            { R with nodes := R.nodes.map fun m =>
              if m.id = t then { m with port := some (after_send E (fuel + 2) R.g packet port) }
              else m } (msg.adv 8) res1 = .ret res' (R', msg') →
          (res' = res1 ∧ ∀ n' ∈ R'.nodes, n'.id ∈ T' → n'.id ≠ E.MyReduceId → ∀ p',
            n'.port = some p' → p'.wait_events.writable = false ∧ p'.out_buf.unread = []) ∨
          (res' = 1 ∧ ∃ n' ∈ R'.nodes, n'.id ∈ T' ∧ n'.id ≠ E.MyReduceId ∧ ∃ p',
            n'.port = some p' ∧ p'.wait_events.writable = true ∧ p'.out_buf.unread ≠ []) := by
        intro res1 h
        exact ih
          { R with nodes := R.nodes.map fun m =>
              if m.id = t then { m with port := some (after_send E (fuel + 2) R.g packet port) }
              else m } (msg.adv 8) res1 rest hun' hc'
          (fun x hx => hlt x (List.mem_cons_of_mem _ hx)) hndT (by rw [hmap_id]; exact hids) hint
          (by
            intro x hx hxs
            obtain ⟨n', hn'mem, hn'id, port', hport', hrdy'⟩ :=
              hready x (List.mem_cons_of_mem _ hx) hxs
            have hxt : n'.id ≠ t := by
              rw [hn'id]; intro h; exact htT (h ▸ hx)
            refine ⟨n', ?_, hn'id, port', hport', hrdy'⟩
            exact List.mem_map.2 ⟨n', hn'mem, by simp [hxt]⟩) res' R' msg' h
      -- the node of `t` in the final reducer
      have hnode : ∀ n' ∈ R'.nodes, n'.id = t → n'.port = some (after_send E (fuel + 2) R.g packet port) := by
        intro n' hn' hid'
        rw [hR'] at hn'
        obtain ⟨m, hm, hmn⟩ := List.mem_map.1 hn'
        have hmid : m.id = t := by
          rw [← hid', ← hmn]
          split <;> rfl
        have hmn' : m = n := nodes_eq_of_id R.nodes m n hids hm hnmem (by rw [hmid, hnid])
        subst hmn'
        rw [← hmn]
        simp [hmid, hself, hport]
      have hin : ∃ n' ∈ R'.nodes, n'.id = t := by
        rw [hR']
        have hc0 : n.id ∈ t :: T' ∧ n.id ≠ E.MyReduceId :=
          ⟨by rw [hnid]; exact List.mem_cons_self _ _, by rw [hnid]; exact hself⟩
        exact ⟨_, List.mem_map.2 ⟨n, hnmem, rfl⟩, by rw [if_pos hc0]; exact hnid⟩
      have hw : (after_send E (fuel + 2) R.g packet port).wait_events.writable = decide (ret ≠ 0) := by
        rw [hafter]
      have harm := after_send_armed E (fuel + 2) R.g packet port hrdy
      by_cases hr0 : ret ≠ 0
      · rw [if_pos hr0, hR1 true (by simp [hr0])] at hloop
        have hret1 : ret = 1 := by
          rcases hret with h | h
          · exact absurd h hr0
          · exact h
        have hres' : res' = 1 := by
          rcases hnext ret hloop with h | h
          · rw [h.1, hret1]
          · exact h.1
        right
        obtain ⟨n', hn', hid'⟩ := hin
        refine ⟨hres', n', hn', by rw [hid']; exact List.mem_cons_self _ _,
          by rw [hid']; exact hself, _, hnode n' hn' hid', ?_⟩
        rcases harm with h | h
        · exact h
        · rw [hw] at h
          simp [hr0] at h
      · rw [if_neg hr0, hR1 false (by simp [hr0])] at hloop
        rcases hnext res hloop with h | h
        · left
          refine ⟨h.1, fun n' hn' hmem hns p' hp' => ?_⟩
          rcases List.mem_cons.1 hmem with h1 | h1
          · rw [hnode n' hn' h1] at hp'
            simp only [Option.some.injEq] at hp'
            subst hp'
            rcases harm with h2 | h2
            · rw [hw] at h2
              simp [hr0] at h2
            · exact h2
          · exact h.2 n' hn' h1 hns p' hp'
        · right
          obtain ⟨h1, n', hn', hmem, hrest⟩ := h
          exact ⟨h1, n', hn', List.mem_cons_of_mem _ hmem, hrest⟩

/-- A successful read of a `b`-byte integer moves the cursor `b` bytes on. -/
theorem getmsgint_some (msg : StringInfo) (b v : Nat) (m1 : StringInfo)
    (h : rdc_getmsgint msg b = some (v, m1)) : m1 = msg.adv b := by
  unfold rdc_getmsgint rdc_getmsgbytes at h
  split at h
  · rename_i bs m hb
    split at hb
    · cases hb
    · simp only [Option.some.injEq, Prod.mk.injEq] at hb h
      rw [← h.2, ← hb.2]
      simp [StringInfo.adv]
  · cases h

/-- When the loop of `BroadcastDataToRdc` returns, the cursor of `msg` is past
the `n` target ids. -/
theorem broadcast_loop_cursor (E : Env) (fuel : Nat) (packet : List Nat) (flush : Bool) (n : Nat) :
    ∀ (R : Reducer) (msg : StringInfo) (res r : Int) (x : Reducer × StringInfo),
      broadcast_loop E fuel packet flush n R msg res = .ret r x → x.2 = msg.adv (8 * n) := by
  induction n with
  | zero =>
    intro R msg res r x h
    simp only [broadcast_loop, Res.ret.injEq] at h
    rw [← h.2]
    simp [StringInfo.adv]
  | succ n ih =>
    intro R msg res r x h
    cases hid : rdc_getmsgRdcPortID msg with
    | none => simp [broadcast_loop, hid] at h
    | some p =>
      obtain ⟨rid, msg1⟩ := p
      have hm := getmsgint_some msg 8 rid msg1 hid
      subst hm
      simp only [broadcast_loop, hid] at h
      have key : ∀ (R' : Reducer) (res' : Int),
          broadcast_loop E fuel packet flush n R' (msg.adv 8) res' = .ret r x →
          x.2 = msg.adv (8 * (n + 1)) := by
        intro R' res' h'
        rw [ih _ _ _ _ _ h', adv_adv]
        congr 1
        omega
      repeat' (first | exact key _ _ h | contradiction | split at h)

/-- The parse of the target count by `BroadcastDataToRdc`. -/
theorem broadcast_parse (E : Env) (fuel : Nat) (R : Reducer) (msg : StringInfo) (planid : Nat)
    (msg_type : Int) (msg_data T rest : List Nat)
    (hun : msg.unread = targets_payload T ++ rest) (hc : msg.cursor ≤ msg.len)
    (hnum : T.length < 2 ^ 31) :
    BroadcastDataToRdc E fuel R msg planid msg_type msg_data false =
      (broadcast_loop E fuel (broadcast_packet E planid msg_type msg_data) false T.length R
        (msg.adv 4) 0).bind fun res st =>
          if !E.rdc_getmsgend st.2 then .raised st else .ret res st := by
  have h3 := getmsgint_adv msg 4 (beEncode 4 T.length) (T.flatMap (beEncode 8) ++ rest)
    (by rw [hun]; simp [targets_payload, List.append_assoc]) (beEncode_length _ _) hc
  rw [beDecode_beEncode_of_lt 4 T.length (by
    have : (2:Nat) ^ 31 < 256 ^ 4 := by norm_num
    omega)] at h3
  have hnat : (toInt32 (T.length : Int)).toNat = T.length := by
    rw [toInt32_small _ hnum]; simp
  simp only [BroadcastDataToRdc, h3, hnat]

theorem targets_payload_length (T : List Nat) : (targets_payload T).length = 4 + 8 * T.length := by
  simp only [targets_payload, List.length_append, beEncode_length, flatMap_be_length]

theorem p2r_payload_eq (d T : List Nat) :
    p2r_payload d T = beEncode 4 d.length ++ (d ++ targets_payload T) := by
  simp [p2r_payload, targets_payload, List.append_assoc]

/-- The parse of the data by `SendPlanDataToRdc`. -/
theorem send_data_parse (E : Env) (fuel : Nat) (R : Reducer) (msg : StringInfo) (planid : Nat)
    (d T rest : List Nat)
    (hun : msg.unread = p2r_payload d T ++ rest) (hc : msg.cursor ≤ msg.len)
    (hdata : d.length < 2 ^ 31) :
    SendPlanDataToRdc E fuel R msg planid =
        BroadcastDataToRdc E fuel R (msg.adv (4 + d.length)) planid E.MSG_R2R_DATA d false ∧
      (msg.adv (4 + d.length)).unread = targets_payload T ++ rest ∧
      (msg.adv (4 + d.length)).cursor ≤ (msg.adv (4 + d.length)).len := by
  have hlen := unread_length msg
  rw [hun, p2r_payload_eq] at hlen
  simp only [List.length_append, beEncode_length] at hlen
  have h1 := getmsgint_adv msg 4 (beEncode 4 d.length) (d ++ (targets_payload T ++ rest))
    (by rw [hun, p2r_payload_eq]; simp [List.append_assoc]) (beEncode_length _ _) hc
  rw [beDecode_beEncode_of_lt 4 d.length (by
    have : (2:Nat) ^ 31 < 256 ^ 4 := by norm_num
    omega)] at h1
  have hun1 : (msg.adv 4).unread = d ++ (targets_payload T ++ rest) := by
    rw [adv_unread, hun, p2r_payload_eq]
    simp [List.append_assoc, beEncode_length]
  have hc1 : (msg.adv 4).cursor ≤ (msg.adv 4).len := by
    simp only [adv_cursor, adv_len]; omega
  have h2 := getmsgbytes_of_unread (msg.adv 4) d _ hun1 hc1
  have h2' : rdc_getmsgbytes (msg.adv 4) (toInt32 (d.length : Int)) =
      some (d, (msg.adv 4).adv d.length) := by
    rw [toInt32_small _ hdata]; exact h2
  have hadv : (msg.adv 4).adv d.length = msg.adv (4 + d.length) := by
    simp only [adv_adv]
  refine ⟨?_, ?_, ?_⟩
  · rw [send_plan_data_eq E fuel R msg planid _ _ _ _ h1 h2', hadv]
  · rw [← hadv, adv_unread, hun1]; simp
  · simp only [adv_cursor, adv_len]; omega

/-- When the call made for a frame returns, the cursor of `msg` is past the
payload of the frame. -/
theorem frame_send_cursor (E : Env) (fuel : Nat) (R : Reducer) (msg : StringInfo) (planid : Nat)
    (f : PlanFrame) (rest : List Nat)
    (hun : msg.unread = f.payload ++ rest) (hc : msg.cursor ≤ msg.len)
    (hsize : f.payload.length < 2 ^ 31) (r : Int) (x : Reducer × StringInfo)
    (h : f.send E fuel R msg planid = .ret r x) : x.2 = msg.adv f.payload.length := by
  have hb : ∀ (m : StringInfo) (ty : Int) (d T : List Nat),
      m.unread = targets_payload T ++ rest → m.cursor ≤ m.len → T.length < 2 ^ 31 →
      BroadcastDataToRdc E fuel R m planid ty d false = .ret r x →
      x.2 = m.adv (targets_payload T).length := by
    intro m ty d T hu hcm hT hret
    rw [broadcast_parse E fuel R m planid ty d T rest hu hcm hT] at hret
    cases hl : broadcast_loop E fuel (broadcast_packet E planid ty d) false T.length R
        (m.adv 4) 0 with
    | stuck => simp [hl, Res.bind] at hret
    | raised s => simp [hl, Res.bind] at hret
    | ret r1 y =>
      have hy := broadcast_loop_cursor E fuel _ false T.length R (m.adv 4) 0 r1 y hl
      simp only [hl, Res.bind] at hret
      split at hret
      · cases hret
      · simp only [Res.ret.injEq] at hret
        rw [← hret.2, hy, adv_adv, targets_payload_length]
  cases f with
  | data d T =>
    simp only [PlanFrame.payload] at hun hsize ⊢
    have hsz : (p2r_payload d T).length = 4 + d.length + (4 + 8 * T.length) := by
      simp only [p2r_payload_eq, List.length_append, beEncode_length, targets_payload_length]
      omega
    obtain ⟨e1, e2, e3⟩ := send_data_parse E fuel R msg planid d T rest hun hc (by omega)
    simp only [PlanFrame.send] at h
    rw [e1] at h
    rw [hb _ _ _ T e2 e3 (by omega) h, adv_adv, targets_payload_length, hsz]
  | eof T =>
    simp only [PlanFrame.payload] at hun hsize ⊢
    simp only [PlanFrame.send, SendPlanEofToRdc] at h
    have := targets_payload_length T
    exact hb msg _ _ T hun hc (by omega) h

/-- The broadcast to ready targets returns with the cursor past the target
ids; its result is 0 when every target is drained afterwards, and 1 when
some target is left with unsent bytes and WRITABLE armed. -/
theorem broadcast_returns (E : Env) (fuel : Nat) (R : Reducer) (msg : StringInfo) (planid : Nat)
    (msg_type : Int) (msg_data T rest : List Nat)
    (hun : msg.unread = targets_payload T ++ rest) (hc : msg.cursor ≤ msg.len)
    (hnum : T.length < 2 ^ 31) (hlt : ∀ t ∈ T, t < 2 ^ 64)
    (hnd : T.Nodup) (hids : (R.nodes.map fun m => m.id).Nodup)
    (hint : R.g.InterruptPending = false)
    (hready : ∀ t ∈ T, t ≠ E.MyReduceId → ∃ n ∈ R.nodes, n.id = t ∧ ∃ port,
      n.port = some port ∧
        port.ready E (fuel + 2) R.g (broadcast_packet E planid msg_type msg_data))
    (hend : E.rdc_getmsgend (msg.adv (targets_payload T).length) = true) :
    ∃ res R', BroadcastDataToRdc E (fuel + 2) R msg planid msg_type msg_data false =
        .ret res (R', msg.adv (targets_payload T).length) ∧
      R'.g = R.g ∧ R'.pln_nodes = R.pln_nodes ∧
      ((res = 0 ∧ ∀ n' ∈ R'.nodes, n'.id ∈ T → n'.id ≠ E.MyReduceId → ∀ p',
          n'.port = some p' → p'.drained) ∨
       (res = 1 ∧ ∃ n' ∈ R'.nodes, n'.id ∈ T ∧ n'.id ≠ E.MyReduceId ∧ ∃ p',
          n'.port = some p' ∧ p'.backlogged)) := by
  have hlen := unread_length msg
  rw [hun, List.length_append, targets_payload_length] at hlen
  have hun3 : (msg.adv 4).unread = T.flatMap (beEncode 8) ++ rest := by
    rw [adv_unread, hun]; simp [targets_payload, beEncode_length]
  have hc3 : (msg.adv 4).cursor ≤ (msg.adv 4).len := by
    simp only [adv_cursor, adv_len]; omega
  obtain ⟨res, hloop⟩ := broadcast_loop_spec E fuel
    (broadcast_packet E planid msg_type msg_data) T R (msg.adv 4) 0 rest hun3 hc3 hlt hnd hids
    hint hready
  have hres := broadcast_loop_result E fuel
    (broadcast_packet E planid msg_type msg_data) T R (msg.adv 4) 0 rest hun3 hc3 hlt hnd hids
    hint hready res _ _ hloop
  have hfin : (msg.adv 4).adv (8 * T.length) = msg.adv (targets_payload T).length := by
    rw [adv_adv, targets_payload_length]
  have hcall := broadcast_parse E (fuel + 2) R msg planid msg_type msg_data T rest hun hc hnum
  rw [hloop] at hcall
  simp only [Res.bind, hfin, hend, Bool.not_true, Bool.false_eq_true, if_false] at hcall
  exact ⟨res, _, hcall, rfl, rfl, hres⟩

/-- The broadcast of a PLAN_CLOSE to ready targets returns with the cursor
past the target ids. -/
theorem close_send_returns (E : Env) (fuel : Nat) (R : Reducer) (msg : StringInfo) (planid : Nat)
    (T rest : List Nat)
    (hun : msg.unread = targets_payload T ++ rest) (hc : msg.cursor ≤ msg.len)
    (hnum : T.length < 2 ^ 31) (hlt : ∀ t ∈ T, t < 2 ^ 64)
    (hnd : T.Nodup) (hids : (R.nodes.map fun m => m.id).Nodup)
    (hint : R.g.InterruptPending = false)
    (hready : ∀ t ∈ T, t ≠ E.MyReduceId → ∃ n ∈ R.nodes, n.id = t ∧ ∃ port,
      n.port = some port ∧
        port.ready E (fuel + 2) R.g (frame E.MSG_PLAN_CLOSE (beEncode 8 planid)))
    (hend : E.rdc_getmsgend (msg.adv (targets_payload T).length) = true) :
    ∃ res R', SendPlanCloseToRdc E (fuel + 2) R msg planid =
        .ret res (R', msg.adv (targets_payload T).length) ∧
      R'.g = R.g ∧ R'.pln_nodes = R.pln_nodes := by
  have hpk : broadcast_packet E planid E.MSG_PLAN_CLOSE [] =
      frame E.MSG_PLAN_CLOSE (beEncode 8 planid) := by
    simp only [broadcast_packet]
    congr 1
    split
    · simp
    · simp
  rw [← hpk] at hready
  obtain ⟨res, R', h1, h2, h3, -⟩ := broadcast_returns E fuel R msg planid E.MSG_PLAN_CLOSE []
    T rest hun hc hnum hlt hnd hids hint hready hend
  exact ⟨res, R', h1, h2, h3⟩

/-- A PLAN_CLOSE frame at the cursor of a plan worker whose targets are ready:
`HandlePlanMsg` returns EOF with the worker marked CLOSED, its wait events
cleared, and `work_num` decremented, 0 becoming -1. -/
theorem plan_close_step (E : Env) (fuel : Nat) (st : HSt) (T rest : List Nat)
    (hun : st.work.in_buf.unread = frame E.MSG_PLAN_CLOSE (targets_payload T) ++ rest)
    (hlen : st.work.in_buf.len < 2 ^ 31) (htag : IsTag E.MSG_PLAN_CLOSE)
    (hne : E.MSG_PLAN_CLOSE ≠ E.MSG_P2R_DATA ∧ E.MSG_PLAN_CLOSE ≠ E.MSG_EOF)
    (hlt : ∀ t ∈ T, t < 2 ^ 64) (hnd : T.Nodup) (hids : (st.R.nodes.map fun m => m.id).Nodup)
    (hint : st.R.g.InterruptPending = false)
    (hready : ∀ t ∈ T, t ≠ E.MyReduceId → ∃ n ∈ st.R.nodes, n.id = t ∧ ∃ port,
      n.port = some port ∧
        port.ready E (fuel + 2) st.R.g (frame E.MSG_PLAN_CLOSE (beEncode 8 st.work.peer_id)))
    (hend : E.rdc_getmsgend
      (st.work.in_buf.adv (frame E.MSG_PLAN_CLOSE (targets_payload T)).length) = true) :
    ∃ R', HandlePlanMsg E (fuel + 2) st = .ret EOF
        { work := { st.work with
                    in_buf := st.work.in_buf.adv (frame E.MSG_PLAN_CLOSE (targets_payload T)).length,
                    wait_events := { readable := false, writable := false },
                    flags := RdcFlag.RDC_FLAG_CLOSED },
          pp := { st.pp with
                  recv_from_pln := st.pp.recv_from_pln + 1,
                  work_num := if st.pp.work_num - 1 = 0 then -1 else st.pp.work_num - 1 },
          R := R' } := by
  have hlenu := unread_length st.work.in_buf
  have hflen : (frame E.MSG_PLAN_CLOSE (targets_payload T)).length =
      5 + (targets_payload T).length := by
    simp [frame, beEncode_length]; omega
  have htl := targets_payload_length T
  rw [hun, List.length_append, hflen] at hlenu
  have hun5 : (st.work.in_buf.adv 5).unread = targets_payload T ++ rest := by
    rw [adv_unread, hun]; simp [frame, beEncode_length]
  have hc5 : (st.work.in_buf.adv 5).cursor ≤ (st.work.in_buf.adv 5).len := by
    simp only [adv_cursor, adv_len]; omega
  have hfin : (st.work.in_buf.adv 5).adv (targets_payload T).length =
      st.work.in_buf.adv (frame E.MSG_PLAN_CLOSE (targets_payload T)).length := by
    rw [adv_adv, hflen]
  obtain ⟨res, R', hsend, -, -⟩ := close_send_returns E fuel st.R (st.work.in_buf.adv 5)
    st.work.peer_id T rest hun5 hc5 (by simp only [StringInfo.len] at *; omega) hlt hnd hids hint
    hready (by rw [hfin]; exact hend)
  rw [hfin] at hsend
  have hsw : HandlePlanMsg_switch E (fuel + 2) E.MSG_PLAN_CLOSE
      (st.back (st.port.adv 5)).counted = .ret (some EOF)
        { work := { st.work with
                    in_buf := st.work.in_buf.adv (frame E.MSG_PLAN_CLOSE (targets_payload T)).length,
                    wait_events := { readable := false, writable := false },
                    flags := RdcFlag.RDC_FLAG_CLOSED },
          pp := { st.pp with
                  recv_from_pln := st.pp.recv_from_pln + 1,
                  work_num := if st.pp.work_num - 1 = 0 then -1 else st.pp.work_num - 1 },
          R := R' } := by
    have hcall : SendPlanCloseToRdc E (fuel + 2) (st.back (st.port.adv 5)).counted.R
        (st.back (st.port.adv 5)).counted.work.in_buf
        (st.back (st.port.adv 5)).counted.work.peer_id =
        .ret res (R', st.work.in_buf.adv (frame E.MSG_PLAN_CLOSE (targets_payload T)).length) :=
      hsend
    simp only [HandlePlanMsg_switch, if_neg hne.1, if_neg hne.2, if_true, hcall]
    rfl
  refine ⟨R', ?_⟩
  have hbody := plan_header E (fuel + 1) st E.MSG_PLAN_CLOSE (targets_payload T) rest hun hlen htag
  rw [hsw] at hbody
  simp only [HandlePlanMsg, hbody]

/-- The workers that `HandleReadFromPlan` finds CLOSED are left as they are. -/
theorem read_workers_closed (E : Env) (rdc_try_read_some : PSt → Res PSt Int) (fuel : Nat)
    (ws : List RdcPort) :
    ∀ (pp : PlanPort) (R : Reducer),
      (read_workers E rdc_try_read_some fuel ws pp R).after fun x =>
        x.1.length = ws.length ∧
        ∀ i w, ws.get? i = some w → w.flags = RdcFlag.RDC_FLAG_CLOSED → x.1.get? i = some w := by
  induction ws with
  | nil =>
    intro pp R
    simp [read_workers, Res.after]
  | cons w ws ih =>
    intro pp R
    have hcons : ∀ (w' : RdcPort) (l : List RdcPort),
        (w.flags = RdcFlag.RDC_FLAG_CLOSED → w' = w) →
        (l.length = ws.length ∧
          ∀ i v, ws.get? i = some v → v.flags = RdcFlag.RDC_FLAG_CLOSED → l.get? i = some v) →
        (w' :: l).length = (w :: ws).length ∧
          ∀ i v, (w :: ws).get? i = some v → v.flags = RdcFlag.RDC_FLAG_CLOSED →
            (w' :: l).get? i = some v := by
      intro w' l h0 h1
      refine ⟨by simp [h1.1], fun i v hi hv => ?_⟩
      cases i with
      | zero =>
        simp only [List.get?_cons_zero, Option.some.injEq] at hi ⊢
        subst hi
        exact h0 hv
      | succ j =>
        simp only [List.get?_cons_succ] at hi ⊢
        exact h1.2 j v hi hv
    have hsame : ws.length = ws.length ∧
        ∀ i v, ws.get? i = some v → v.flags = RdcFlag.RDC_FLAG_CLOSED → ws.get? i = some v :=
      ⟨rfl, fun _ _ h _ => h⟩
    simp only [read_workers]
    by_cases hskip : (!PortIsValid w || !RdcWaitRead w) = true
    · rw [if_pos hskip]
      have := ih pp R
      cases hr : read_workers E rdc_try_read_some fuel ws pp R with
      | stuck => trivial
      | raised x =>
        rw [hr] at this
        exact hcons w x.1 (fun _ => rfl) this
      | ret u x =>
        rw [hr] at this
        exact hcons w x.1 (fun _ => rfl) this
    · rw [if_neg hskip]
      have hvalid : w.flags ≠ RdcFlag.RDC_FLAG_CLOSED := by
        intro hc
        apply hskip
        simp [PortIsValid, hc]
      cases hl : read_plan_loop E rdc_try_read_some fuel { work := w, pp := pp, R := R } with
      | stuck => trivial
      | raised st1 => exact hcons st1.work ws (fun h => absurd h hvalid) hsame
      | ret u st1 =>
        dsimp only
        have := ih st1.pp st1.R
        cases hr : read_workers E rdc_try_read_some fuel ws st1.pp st1.R with
        | stuck => trivial
        | raised x =>
          rw [hr] at this
          exact hcons st1.work x.1 (fun h => absurd h hvalid) this
        | ret u x =>
          rw [hr] at this
          exact hcons st1.work x.1 (fun h => absurd h hvalid) this

/-- A pass of `HandleReadFromPlan` leaves every CLOSED worker of the PlanPort
as it is. -/
theorem read_plan_closed (E : Env) (rdc_try_read_some : PSt → Res PSt Int) (fuel : Nat)
    (pp : PlanPort) (R : Reducer) :
    (HandleReadFromPlan E rdc_try_read_some fuel pp R).after fun x =>
      x.1.work_port.length = pp.work_port.length ∧
      ∀ i w, pp.work_port.get? i = some w → w.flags = RdcFlag.RDC_FLAG_CLOSED →
        x.1.work_port.get? i = some w := by
  unfold HandleReadFromPlan
  by_cases hv : (!PlanPortIsValid pp) = true
  · rw [if_pos hv]
    exact ⟨rfl, fun _ _ h _ => h⟩
  · rw [if_neg hv]
    have := read_workers_closed E rdc_try_read_some fuel pp.work_port pp R
    cases hr : read_workers E rdc_try_read_some fuel pp.work_port pp R with
    | stuck => trivial
    | raised x => rw [hr] at this; exact this
    | ret u x => rw [hr] at this; exact this

/-- The worker that `HandlePlanMsg` marks CLOSED keeps its socket: the
closed-port invariant of the spec does not hold for it. -/
theorem closed_worker_keeps_socket :
    ∃ st', HandlePlanMsg exEnv 2 (exPlanIn (frame 67 (targets_payload [2]))) = .ret EOF st' ∧
      st'.work.flags = RdcFlag.RDC_FLAG_CLOSED ∧ st'.work.sock = 7 ∧ ¬ ClosedOk st'.work :=
  ⟨_, rfl, rfl, rfl, fun h => absurd (h rfl).1 (by decide)⟩

/-- The `switch` of `HandlePlanMsg` on the tag of a frame that is broadcast. -/
theorem switch_frame (E : Env) (fuel : Nat) (st : HSt) (f : PlanFrame)
    (hne : E.MSG_P2R_DATA ≠ E.MSG_EOF) :
    HandlePlanMsg_switch E fuel (f.tag E) st =
      plan_send_result st (f.send E fuel st.R st.work.in_buf st.work.peer_id) := by
  cases f with
  | data d T => simp only [HandlePlanMsg_switch, PlanFrame.tag, PlanFrame.send, if_true]
  | eof T =>
    simp only [HandlePlanMsg_switch, PlanFrame.tag, PlanFrame.send, if_true]
    rw [if_neg (fun h => hne h.symm)]

theorem frame_tag_ok (E : Env) (f : PlanFrame) (h1 : IsTag E.MSG_P2R_DATA)
    (h2 : IsTag E.MSG_EOF) : IsTag (f.tag E) := by
  cases f with
  | data d T => exact h1
  | eof T => exact h2

theorem frame_length (t : Int) (payload : List Nat) :
    (frame t payload).length = 5 + payload.length := by
  simp [frame, beEncode_length]; omega

/-- The state in which the `switch` is entered for a whole frame at the
cursor: the payload and what follows the frame are unread. -/
theorem entered_unread (st : HSt) (t : Int) (payload rest : List Nat)
    (hun : st.work.in_buf.unread = frame t payload ++ rest) :
    st.entered.work.in_buf.unread = payload ++ rest ∧
    st.entered.work.in_buf.cursor ≤ st.entered.work.in_buf.len ∧
    st.entered.work.in_buf = st.work.in_buf.adv 5 := by
  have hlenu := unread_length st.work.in_buf
  rw [hun, List.length_append, frame_length] at hlenu
  have e : st.entered.work.in_buf = st.work.in_buf.adv 5 := rfl
  refine ⟨?_, ?_, e⟩
  · rw [e, adv_unread, hun]; simp [frame, beEncode_length]
  · rw [e]; simp only [adv_cursor, adv_len]; omega

/-- Whole frames at the cursor of a nonblocking plan worker, followed by a
proper initial part of a frame: when every broadcast returns 0,
`HandlePlanMsg` counts the whole frames, stops at the partial one, arms
READABLE and returns 0. -/
theorem frames_drained (E : Env) (fuel : Nat) (t : Int) (payload pre sfx : List Nat)
    (htag : IsTag t) (hpre : pre ++ sfx = frame t payload) (hsfx : sfx ≠ [])
    (hL : payload.length + 4 < 2 ^ 31)
    (htags : IsTag E.MSG_P2R_DATA ∧ IsTag E.MSG_EOF ∧ E.MSG_P2R_DATA ≠ E.MSG_EOF)
    (fs : List PlanFrame) :
    ∀ st : HSt, st.work.noblock = true →
      st.work.in_buf.unread = fs.flatMap (PlanFrame.wire E) ++ pre →
      st.work.in_buf.len < 2 ^ 31 →
      flushes_complete E (fuel + fs.length + 1) st fs →
      ∃ st', HandlePlanMsg E (fuel + fs.length + 1) st = .ret 0 st' ∧
        st'.pp.recv_from_pln = st.pp.recv_from_pln + fs.length ∧
        st'.work.in_buf.data = st.work.in_buf.data ∧
        st'.work.in_buf.cursor = st.work.in_buf.cursor + (fs.flatMap (PlanFrame.wire E)).length ∧
        st'.work.in_buf.unread = pre ∧
        st'.work.wait_events.readable = true := by
  induction fs with
  | nil =>
    intro st hnb hun hlen _
    simp only [List.flatMap_nil, List.nil_append] at hun
    have hbody := plan_incomplete E fuel st t payload sfx hnb htag (by rw [hun]; exact hpre)
      hsfx hL hlen
    have hcall : HandlePlanMsg E (fuel + ([] : List PlanFrame).length + 1) st = .ret 0
        { st with work := { st.work with
            wait_events := { st.work.wait_events with readable := true } } } := by
      simp only [List.length_nil, Nat.add_zero, HandlePlanMsg, hbody]
    exact ⟨_, hcall, rfl, rfl, rfl, hun, rfl⟩
  | cons f fs ih =>
    intro st hnb hun hlen hflush
    have hun' : st.work.in_buf.unread =
        frame (f.tag E) f.payload ++ (fs.flatMap (PlanFrame.wire E) ++ pre) := by
      rw [hun]; simp [List.flatMap_cons, PlanFrame.wire, List.append_assoc]
    obtain ⟨u1, u2, u3⟩ := entered_unread st (f.tag E) f.payload _ hun'
    have hlenu := unread_length st.work.in_buf
    rw [hun', List.length_append, frame_length] at hlenu
    obtain ⟨x, hx, hrest⟩ := hflush
    have hcur := frame_send_cursor E (fuel + (f :: fs).length + 1) st.entered.R
      st.entered.work.in_buf st.entered.work.peer_id f _ u1 u2
      (by simp only [StringInfo.len] at *; omega) 0 x hx
    have hbody : HandlePlanMsg_body E (fuel + (f :: fs).length + 1) st =
        .ret none (st.entered.sent x) := by
      rw [plan_header E (fuel + (f :: fs).length) st (f.tag E) f.payload _ hun' hlen
        (frame_tag_ok E f htags.1 htags.2.1)]
      have := switch_frame E (fuel + (f :: fs).length + 1) st.entered f htags.2.2
      rw [HSt.entered] at this
      rw [this]
      rw [HSt.entered] at hx
      rw [hx]
      rfl
    have hin : (st.entered.sent x).work.in_buf = st.work.in_buf.adv (5 + f.payload.length) := by
      show x.2 = _
      rw [hcur, u3, adv_adv]
    have hun1 : (st.entered.sent x).work.in_buf.unread = fs.flatMap (PlanFrame.wire E) ++ pre := by
      rw [hin, adv_unread, hun', ← frame_length (f.tag E)]
      simp
    obtain ⟨st', h1, h2, h3, h4, h5, h6⟩ := ih (st.entered.sent x) hnb hun1
      (by rw [hin]; exact hlen) hrest
    refine ⟨st', ?_, ?_, ?_, ?_, h5, h6⟩
    · simp only [HandlePlanMsg, hbody]
      exact h1
    · rw [h2]
      show st.pp.recv_from_pln + 1 + fs.length = st.pp.recv_from_pln + (fs.length + 1)
      omega
    · rw [h3, hin]; rfl
    · rw [h4, hin]
      simp only [adv_cursor, List.flatMap_cons, List.length_append, PlanFrame.wire, frame_length]
      omega

/-- C18: for a nonblocking plan worker whose unread in-buffer bytes are the
whole P2R_DATA and EOF frames `fs` followed by a proper initial part `pre`
of a frame (possibly empty), when every broadcast made for these frames
returns 0, `HandlePlanMsg` returns 0, has increased `recv_from_pln` by
exactly the number of whole frames, leaves the cursor at the first byte of
the partial frame, and has READABLE armed on the worker port. -/
theorem whole_frames_drained (E : Env) (fuel : Nat) (st : HSt) (fs : List PlanFrame)
    (t : Int) (payload pre sfx : List Nat)
    (hnb : st.work.noblock = true)
    (hun : st.work.in_buf.unread = fs.flatMap (PlanFrame.wire E) ++ pre)
    (htag : IsTag t) (hpre : pre ++ sfx = frame t payload) (hsfx : sfx ≠ [])
    (hL : payload.length + 4 < 2 ^ 31) (hlen : st.work.in_buf.len < 2 ^ 31)
    (htags : IsTag E.MSG_P2R_DATA ∧ IsTag E.MSG_EOF ∧ E.MSG_P2R_DATA ≠ E.MSG_EOF)
    (hflush : flushes_complete E (fuel + fs.length + 1) st fs) :
    ∃ st', HandlePlanMsg E (fuel + fs.length + 1) st = .ret 0 st' ∧
      st'.pp.recv_from_pln = st.pp.recv_from_pln + fs.length ∧
      st'.work.in_buf.data = st.work.in_buf.data ∧
      st'.work.in_buf.cursor = st.work.in_buf.cursor + (fs.flatMap (PlanFrame.wire E)).length ∧
      st'.work.in_buf.unread = pre ∧
      st'.work.wait_events.readable = true :=
  frames_drained E fuel t payload pre sfx htag hpre hsfx hL htags fs st hnb hun hlen hflush

theorem whole_frames_drained_witness :
    ∃ st', HandlePlanMsg exEnv (0 + [PlanFrame.data [7, 8, 9] [2, 3], PlanFrame.eof [2]].length + 1)
        (exPlanOpen (frame 80 (p2r_payload [7, 8, 9] [2, 3]) ++ frame 70 (targets_payload [2]) ++
          [80, 0])) = .ret 0 st' ∧
      st'.pp.recv_from_pln =
        (exPlanOpen (frame 80 (p2r_payload [7, 8, 9] [2, 3]) ++ frame 70 (targets_payload [2]) ++
          [80, 0])).pp.recv_from_pln +
          [PlanFrame.data [7, 8, 9] [2, 3], PlanFrame.eof [2]].length ∧
      st'.work.in_buf.data =
        (exPlanOpen (frame 80 (p2r_payload [7, 8, 9] [2, 3]) ++ frame 70 (targets_payload [2]) ++
          [80, 0])).work.in_buf.data ∧
      st'.work.in_buf.cursor =
        (exPlanOpen (frame 80 (p2r_payload [7, 8, 9] [2, 3]) ++ frame 70 (targets_payload [2]) ++
          [80, 0])).work.in_buf.cursor +
          ([PlanFrame.data [7, 8, 9] [2, 3], PlanFrame.eof [2]].flatMap
            (PlanFrame.wire exEnv)).length ∧
      st'.work.in_buf.unread = [80, 0] ∧
      st'.work.wait_events.readable = true :=
  whole_frames_drained exEnv 0
    (exPlanOpen (frame 80 (p2r_payload [7, 8, 9] [2, 3]) ++ frame 70 (targets_payload [2]) ++
      [80, 0]))
    [PlanFrame.data [7, 8, 9] [2, 3], PlanFrame.eof [2]] 80 [] [80, 0] [0, 0, 4]
    rfl rfl (by decide) rfl (by decide) (by decide) (by decide) (by decide)
    ⟨_, rfl, _, rfl, trivial⟩

/-- The sample of the backpressure: the sockets of the reducers 2 and 3 would
block, and `HandlePlanMsg` returns 1 with the EOF frame that follows the
data frame unread. -/
theorem backpressure_sample :
    ∃ st', HandlePlanMsg exEnv 2
        (exPlanIn (frame 80 (p2r_payload [7, 8, 9] [2, 1, 3]) ++
          frame 70 (targets_payload [2]))) = .ret 1 st' ∧
      st'.work.in_buf.unread = frame 70 (targets_payload [2]) ∧
      st'.pp.recv_from_pln = 1 ∧
      (st'.R.nodes.map fun n => n.port.map fun p => p.wait_events.writable) =
        [none, some true, some true, some false] :=
  ⟨_, rfl, rfl, rfl, rfl⟩

theorem eof_accounting_witness :
    ∃ pp', eof_run exEnv exPlanRoom [2, 3] = .done pp' ∧ pp'.eof_num = [2, 3].length ∧
      pp'.rdc_eofs.take [2, 3].length = [2, 3] ∧
      pp'.rdcstore =
        exPlanRoom.rdcstore ++ [2, 3].map fun X => frame exEnv.MSG_EOF (beEncode 8 X) :=
  eof_accounting exEnv exPlanRoom [2, 3] rfl rfl (by decide) (by decide)

theorem tombstone_discards_witness :
    SendRdcDataToPlan exEnv exPlanGone 2 [7] =
      { exPlanGone with dscd_from_rdc := exPlanGone.dscd_from_rdc + 1 } ∧
    SendRdcEofToPlan exEnv exPlanGone 2 true =
      .done { exPlanGone with dscd_from_rdc := exPlanGone.dscd_from_rdc + 1 } ∧
    SendPlanCloseToPlan exEnv exPlanGone 2 =
      .done { exPlanGone with dscd_from_rdc := exPlanGone.dscd_from_rdc + 1 } :=
  tombstone_discards exEnv exPlanGone 2 [7] true (by decide)

theorem duplicate_eof_rejected_witness :
    (∃ pp', SendRdcEofToPlan exEnv exPlanSeen 2 true = .raised pp' ∧
      pp'.rdc_eofs = exPlanSeen.rdc_eofs ∧ pp'.eof_num = exPlanSeen.eof_num ∧
      pp'.rdcstore = exPlanSeen.rdcstore) ∧
    (∃ st' pp', HandleRdcMsg exEnv (fun _ => exPlanPort) (0 + 1) exRdcDup = .raised st' ∧
      st'.pln_nodes.get? 0 = some pp' ∧ pp'.rdc_eofs = exPlanSeen.rdc_eofs ∧
      pp'.eof_num = exPlanSeen.eof_num ∧ pp'.rdcstore = exPlanSeen.rdcstore) :=
  duplicate_eof_rejected exEnv (fun _ => exPlanPort) 0 exRdcDup 11 0 2 exPlanSeen []
    rfl (by decide) rfl rfl (by decide) (by decide) (by decide) (by decide) rfl rfl rfl

/-- A PlanPort whose EOF array holds an id that is not the id of a reducer of
the group: its entries are pairwise distinct, and after the EOF of the only
other reducer of a group of two, `eof_num` is 2. -/
theorem eof_set_stale_entry :
    exPlanStale.eofs.Nodup ∧
    ∃ pp', peer_run exEnv exPlanStale [PeerMsg.eof 2] = .done pp' ∧ pp'.eofs.Nodup ∧
      pp'.eof_num = 2 ∧ ¬ pp'.eof_num ≤ [2].length :=
  ⟨by decide, _, rfl, by decide, rfl, by decide⟩

theorem eof_set_invariant_witness :
    ∃ pp', peer_run exEnv exPlanRoom [PeerMsg.eof 2, PeerMsg.close 3, PeerMsg.close 2] =
        .done pp' ∧
      EofSetOk [2, 3, 4] pp' ∧ pp'.eof_num ≤ [2, 3, 4].length :=
  ⟨_, rfl, eof_set_invariant exEnv [2, 3, 4] [PeerMsg.eof 2, PeerMsg.close 3, PeerMsg.close 2]
    exPlanRoom _ ⟨by decide, by decide, by decide⟩ (by decide) rfl⟩

theorem in_buf_invariant_witness :
    (∃ r s', rdc_recv (exAccept [1, 2, 3]) = .ret r s') ∧
    ((rdc_recv (exAccept [1, 2, 3])).after fun s' => InBufOk s'.p.in_buf) ∧
    ((rdc_getbytes exEnv 3 (exAccept [1, 2, 3]) 2).after fun s' => InBufOk s'.p.in_buf) ∧
    ((rdc_discardbytes 3 (exAccept [1, 2, 3]) 2).after fun s' => InBufOk s'.p.in_buf) :=
  ⟨⟨_, _, rfl⟩, in_buf_invariant exEnv 3 (exAccept [1, 2, 3]) 2 (by decide)⟩

/-- What a flush that returns has done: with 0 every unsent byte has gone to
the socket and the buffer is reset; with 1 (in nonblocking mode, after a
send that would block) an initial part of the unsent bytes has gone to the
socket and the cursor is behind it; with EOF a send has failed, the buffer
is reset and both process-wide flags are set. -/
theorem flush_contract (block : Bool) (script : List SendOutcome) :
    ∀ (s : PSt) (r : Int) (s' : PSt),
      internal_flush_buffer block s script = .ret r s' →
      (r = 0 ∧ s'.p.wire = s.p.wire ++ s.p.out_buf.unread ∧
        s'.p.out_buf.data = [] ∧ s'.p.out_buf.cursor = 0 ∧ s'.g = s.g) ∨
      (r = 1 ∧ block = false ∧ SendOutcome.again ∈ script ∧
        ∃ k, k < s.p.out_buf.unread.length ∧
          s'.p.wire = s.p.wire ++ s.p.out_buf.unread.take k ∧
          s'.p.out_buf = { s.p.out_buf with cursor := s.p.out_buf.cursor + k } ∧ s'.g = s.g) ∨
      (r = EOF ∧ SendOutcome.fail ∈ script ∧
        s'.p.out_buf.data = [] ∧ s'.p.out_buf.cursor = 0 ∧
        s'.g = { ClientConnectionLost := true, InterruptPending := true }) := by
  induction script with
  | nil =>
    intro s r s' h
    by_cases hlt : s.p.out_buf.cursor < s.p.out_buf.len
    · simp [internal_flush_buffer, hlt] at h
    · simp only [internal_flush_buffer, hlt, if_false, Res.ret.injEq] at h
      obtain ⟨h0, h⟩ := h
      subst h
      left
      have hd : s.p.out_buf.unread = [] := (unread_nil_iff _).2 (by omega)
      exact ⟨h0.symm, by simp [hd], rfl, rfl, rfl⟩
  | cons o rest ih =>
    intro s r s' h
    by_cases hlt : s.p.out_buf.cursor < s.p.out_buf.len
    · have hul := unread_length s.p.out_buf
      cases o with
      | accepted n =>
        simp only [internal_flush_buffer, hlt, if_true] at h
        have hn : max 1 (min n (s.p.out_buf.len - s.p.out_buf.cursor)) ≤
            s.p.out_buf.len - s.p.out_buf.cursor := by omega
        generalize max 1 (min n (s.p.out_buf.len - s.p.out_buf.cursor)) = m at h hn
        have hu1 : (StringInfo.unread { s.p.out_buf with cursor := s.p.out_buf.cursor + m }) =
            s.p.out_buf.unread.drop m := unread_advance _ _
        rcases ih _ r s' h with
          ⟨h0, h1, h2, h3, h4⟩ | ⟨h0, hb, hmem, k, hk, h1, h2, h3⟩ | ⟨h0, hmem, h1, h2, h3⟩
        · left
          refine ⟨h0, ?_, h2, h3, h4⟩
          rw [h1]
          simp only [hu1, List.append_assoc]
          show s.p.wire ++ (s.p.out_buf.unread.take m ++ s.p.out_buf.unread.drop m) = _
          rw [List.take_append_drop]
        · right; left
          refine ⟨h0, hb, List.mem_cons_of_mem _ hmem, m + k, ?_, ?_, ?_, h3⟩
          · simp only [hu1, List.length_drop] at hk
            omega
          · rw [h1]
            simp only [hu1, List.append_assoc]
            show s.p.wire ++ (s.p.out_buf.unread.take m ++ (s.p.out_buf.unread.drop m).take k) = _
            rw [List.take_add]
          · rw [h2]
            simp [Nat.add_assoc]
        · right; right
          exact ⟨h0, List.mem_cons_of_mem _ hmem, h1, h2, h3⟩
      | eintr =>
        simp only [internal_flush_buffer, hlt, if_true] at h
        rcases ih { s with p := { s.p with sends := rest } } r s' h with
          ⟨h0, h1, h2, h3, h4⟩ | ⟨h0, hb, hmem, k, hk, h1, h2, h3⟩ | ⟨h0, hmem, h1, h2, h3⟩
        · exact Or.inl ⟨h0, h1, h2, h3, h4⟩
        · exact Or.inr (Or.inl ⟨h0, hb, List.mem_cons_of_mem _ hmem, k, hk, h1, h2, h3⟩)
        · exact Or.inr (Or.inr ⟨h0, List.mem_cons_of_mem _ hmem, h1, h2, h3⟩)
      | again =>
        cases block with
        | true =>
          simp only [internal_flush_buffer, hlt, if_true] at h
          rcases ih { s with p := { s.p with sends := rest } } r s' h with
            ⟨h0, h1, h2, h3, h4⟩ | ⟨h0, hb, hmem, k, hk, h1, h2, h3⟩ | ⟨h0, hmem, h1, h2, h3⟩
          · exact Or.inl ⟨h0, h1, h2, h3, h4⟩
          · exact absurd hb (by decide)
          · exact Or.inr (Or.inr ⟨h0, List.mem_cons_of_mem _ hmem, h1, h2, h3⟩)
        | false =>
          simp only [internal_flush_buffer, hlt, if_true, Bool.false_eq_true, if_false,
            Res.ret.injEq] at h
          obtain ⟨h0, h⟩ := h
          subst h
          right; left
          exact ⟨h0.symm, rfl, List.mem_cons_self _ _, 0, by omega, by simp, rfl, rfl⟩
      | fail =>
        simp only [internal_flush_buffer, hlt, if_true, Res.ret.injEq] at h
        obtain ⟨h0, h⟩ := h
        subst h
        right; right
        exact ⟨h0.symm, List.mem_cons_self _ _, rfl, rfl, rfl⟩
    · simp only [internal_flush_buffer, hlt, if_false, Res.ret.injEq] at h
      obtain ⟨h0, h⟩ := h
      subst h
      left
      have hd : s.p.out_buf.unread = [] := (unread_nil_iff _).2 (by omega)
      exact ⟨h0.symm, by simp [hd], rfl, rfl, rfl⟩

/-- A flush reports no error; it fails to return only when the outcomes of
`send` run out with none of them ending it. -/
theorem flush_ends (block : Bool) (script : List SendOutcome) :
    ∀ s : PSt,
      (∀ s', internal_flush_buffer block s script ≠ .raised s') ∧
      (internal_flush_buffer block s script = .stuck →
        ∀ o ∈ script, o ≠ SendOutcome.fail ∧ (block = false → o ≠ SendOutcome.again)) := by
  induction script with
  | nil =>
    intro s
    refine ⟨fun s' h => ?_, fun _ o ho => absurd ho (List.not_mem_nil _)⟩
    simp only [internal_flush_buffer] at h
    split at h <;> cases h
  | cons o rest ih =>
    intro s
    by_cases hlt : s.p.out_buf.cursor < s.p.out_buf.len
    · cases o with
      | accepted n =>
        simp only [internal_flush_buffer, hlt, if_true]
        refine ⟨(ih _).1, fun h o ho => ?_⟩
        rcases List.mem_cons.1 ho with e | e
        · subst e; exact ⟨by simp, fun _ => by simp⟩
        · exact (ih _).2 h o e
      | eintr =>
        simp only [internal_flush_buffer, hlt, if_true]
        refine ⟨(ih _).1, fun h o ho => ?_⟩
        rcases List.mem_cons.1 ho with e | e
        · subst e; exact ⟨by simp, fun _ => by simp⟩
        · exact (ih _).2 h o e
      | again =>
        cases block with
        | true =>
          simp only [internal_flush_buffer, hlt, if_true]
          refine ⟨(ih _).1, fun h o ho => ?_⟩
          rcases List.mem_cons.1 ho with e | e
          · subst e; exact ⟨by simp, fun hb => absurd hb (by decide)⟩
          · exact (ih _).2 h o e
        | false =>
          simp only [internal_flush_buffer, hlt, if_true, Bool.false_eq_true, if_false]
          exact ⟨(fun s' h => by cases h), (fun h => by cases h)⟩
      | fail =>
        simp only [internal_flush_buffer, hlt, if_true]
        exact ⟨(fun s' h => by cases h), (fun h => by cases h)⟩
    · simp only [internal_flush_buffer, hlt, if_false]
      exact ⟨(fun s' h => by cases h), (fun h => by cases h)⟩

/-- A send that fails, after sends interrupted by EINTR, ends the flush with
EOF, the buffer reset and both process-wide flags set. -/
theorem flush_fails (block : Bool) (k : Nat) (rest : List SendOutcome) :
    ∀ s : PSt, s.p.out_buf.cursor < s.p.out_buf.len →
      ∃ s', internal_flush_buffer block s
          (List.replicate k SendOutcome.eintr ++ SendOutcome.fail :: rest) = .ret EOF s' ∧
        s'.p.out_buf.cursor = 0 ∧ s'.p.out_buf.len = 0 ∧
        s'.g.ClientConnectionLost = true ∧ s'.g.InterruptPending = true := by
  induction k with
  | zero =>
    intro s hlt
    simp only [List.replicate, List.nil_append, internal_flush_buffer, hlt, if_true]
    exact ⟨_, rfl, rfl, rfl, rfl, rfl⟩
  | succ k ih =>
    intro s hlt
    simp only [List.replicate, List.cons_append, internal_flush_buffer, hlt, if_true]
    exact ih _ hlt

theorem accepted_bytes_again (avail : Nat) (pre : List SendOutcome) :
    accepted_bytes avail (SendOutcome.again :: pre) = accepted_bytes avail pre := rfl

theorem accepted_bytes_eintr (avail : Nat) (pre : List SendOutcome) :
    accepted_bytes avail (SendOutcome.eintr :: pre) = accepted_bytes avail pre := rfl

theorem accepted_bytes_accepted (avail n : Nat) (pre : List SendOutcome) :
    accepted_bytes avail (SendOutcome.accepted n :: pre) =
      max 1 (min n avail) + accepted_bytes (avail - max 1 (min n avail)) pre := rfl

/-- The calls a flush that returns has made: the outcomes `pre` of the calls
after which it went on, then, for the results 1 and EOF, the call that would
block or failed; the outcomes `rest` are left for later calls.  The socket
has taken the first `accepted_bytes` of the unsent bytes. -/
theorem flush_trace (block : Bool) (script : List SendOutcome) :
    ∀ (s : PSt) (r : Int) (s' : PSt), internal_flush_buffer block s script = .ret r s' →
      ∃ pre rest,
        (∀ o ∈ pre, SendOutcome.goes_on block o = true) ∧
        (pre ≠ [] → s'.p.sends = rest) ∧
        s'.p.wire = s.p.wire ++
          s.p.out_buf.unread.take (accepted_bytes s.p.out_buf.unread.length pre) ∧
        ((r = 0 ∧ script = pre ++ rest ∧
            accepted_bytes s.p.out_buf.unread.length pre = s.p.out_buf.unread.length ∧
            s'.p.out_buf.data = [] ∧ s'.p.out_buf.cursor = 0 ∧ s'.g = s.g ∧
            (pre = [] → s'.p.sends = s.p.sends)) ∨
         (r = 1 ∧ block = false ∧ script = pre ++ SendOutcome.again :: rest ∧
            accepted_bytes s.p.out_buf.unread.length pre < s.p.out_buf.unread.length ∧
            s'.p.out_buf = { s.p.out_buf with
              cursor := s.p.out_buf.cursor + accepted_bytes s.p.out_buf.unread.length pre } ∧
            s'.g = s.g ∧ s'.p.sends = rest) ∨
         (r = EOF ∧ script = pre ++ SendOutcome.fail :: rest ∧
            accepted_bytes s.p.out_buf.unread.length pre < s.p.out_buf.unread.length ∧
            s'.p.out_buf.data = [] ∧ s'.p.out_buf.cursor = 0 ∧
            s'.g = { ClientConnectionLost := true, InterruptPending := true } ∧
            s'.p.sends = rest)) := by
  induction script with
  | nil =>
    intro s r s' h
    by_cases hlt : s.p.out_buf.cursor < s.p.out_buf.len
    · simp [internal_flush_buffer, hlt] at h
    · simp only [internal_flush_buffer, hlt, if_false, Res.ret.injEq] at h
      obtain ⟨h0, h⟩ := h
      subst h
      have hd : s.p.out_buf.unread = [] := (unread_nil_iff _).2 (by omega)
      refine ⟨[], [], by simp, by simp, by simp [accepted_bytes], Or.inl ?_⟩
      exact ⟨h0.symm, rfl, by simp [accepted_bytes, hd], rfl, rfl, rfl, fun _ => rfl⟩
  | cons o rest0 ih =>
    intro s r s' h
    by_cases hlt : s.p.out_buf.cursor < s.p.out_buf.len
    · have hul := unread_length s.p.out_buf
      cases o with
      | accepted n =>
        simp only [internal_flush_buffer, hlt, if_true] at h
        have hm : max 1 (min n s.p.out_buf.unread.length) =
            max 1 (min n (s.p.out_buf.len - s.p.out_buf.cursor)) := by rw [hul]
        have hn : max 1 (min n (s.p.out_buf.len - s.p.out_buf.cursor)) ≤
            s.p.out_buf.len - s.p.out_buf.cursor := by omega
        have hab : ∀ pre1 : List SendOutcome,
            accepted_bytes s.p.out_buf.unread.length (SendOutcome.accepted n :: pre1) =
              max 1 (min n (s.p.out_buf.len - s.p.out_buf.cursor)) +
                accepted_bytes (s.p.out_buf.unread.length -
                  max 1 (min n (s.p.out_buf.len - s.p.out_buf.cursor))) pre1 := by
          intro pre1
          rw [accepted_bytes_accepted, hm]
        generalize max 1 (min n (s.p.out_buf.len - s.p.out_buf.cursor)) = m at h hn hab
        have hu1 : (StringInfo.unread { s.p.out_buf with cursor := s.p.out_buf.cursor + m }) =
            s.p.out_buf.unread.drop m := unread_advance _ _
        obtain ⟨pre1, rest, hgo, hsends, hwire, hcase⟩ := ih _ r s' h
        simp only [hu1, List.length_drop] at hwire hcase
        have hw : s'.p.wire = s.p.wire ++ s.p.out_buf.unread.take
            (accepted_bytes s.p.out_buf.unread.length (SendOutcome.accepted n :: pre1)) := by
          rw [hwire, hab, List.append_assoc]
          show s.p.wire ++ (s.p.out_buf.unread.take m ++ (s.p.out_buf.unread.drop m).take _) = _
          rw [List.take_add]
        have hgo2 : ∀ o ∈ SendOutcome.accepted n :: pre1, SendOutcome.goes_on block o = true := by
          intro o ho
          rcases List.mem_cons.1 ho with e | e
          · subst e; rfl
          · exact hgo o e
        rcases hcase with ⟨h0, hs, hk, h2, h3, h4, h5⟩ | ⟨h0, hb, hs, hk, h2, h3, h4⟩ |
          ⟨h0, hs, hk, h2, h3, h4, h5⟩
        · have hsd : s'.p.sends = rest := by
            by_cases hp : pre1 = []
            · rw [h5 hp]
              subst hp
              simpa using hs
            · exact hsends hp
          refine ⟨SendOutcome.accepted n :: pre1, rest, hgo2, fun _ => hsd, hw, Or.inl ?_⟩
          refine ⟨h0, by rw [hs]; rfl, ?_, h2, h3, h4, fun hp => by cases hp⟩
          rw [hab, hk]
          omega
        · refine ⟨SendOutcome.accepted n :: pre1, rest, hgo2, fun _ => h4, hw, Or.inr (Or.inl ?_)⟩
          refine ⟨h0, hb, by rw [hs]; rfl, ?_, ?_, h3, h4⟩
          · rw [hab]; omega
          · rw [h2, hab]
            simp [Nat.add_assoc]
        · refine ⟨SendOutcome.accepted n :: pre1, rest, hgo2, fun _ => h5, hw, Or.inr (Or.inr ?_)⟩
          refine ⟨h0, by rw [hs]; rfl, ?_, h2, h3, h4, h5⟩
          rw [hab]; omega
      | eintr =>
        simp only [internal_flush_buffer, hlt, if_true] at h
        obtain ⟨pre1, rest, hgo, hsends, hwire, hcase⟩ :=
          ih { s with p := { s.p with sends := rest0 } } r s' h
        have hgo2 : ∀ o ∈ SendOutcome.eintr :: pre1, SendOutcome.goes_on block o = true := by
          intro o ho
          rcases List.mem_cons.1 ho with e | e
          · subst e; rfl
          · exact hgo o e
        rcases hcase with ⟨h0, hs, hk, h2, h3, h4, h5⟩ | ⟨h0, hb, hs, hk, h2, h3, h4⟩ |
          ⟨h0, hs, hk, h2, h3, h4, h5⟩
        · have hsd : s'.p.sends = rest := by
            by_cases hp : pre1 = []
            · rw [h5 hp]
              subst hp
              simpa using hs
            · exact hsends hp
          exact ⟨SendOutcome.eintr :: pre1, rest, hgo2, fun _ => hsd, hwire,
            Or.inl ⟨h0, by rw [hs]; rfl, hk, h2, h3, h4, fun hp => by cases hp⟩⟩
        · exact ⟨SendOutcome.eintr :: pre1, rest, hgo2, fun _ => h4, hwire,
            Or.inr (Or.inl ⟨h0, hb, by rw [hs]; rfl, hk, h2, h3, h4⟩)⟩
        · exact ⟨SendOutcome.eintr :: pre1, rest, hgo2, fun _ => h5, hwire,
            Or.inr (Or.inr ⟨h0, by rw [hs]; rfl, hk, h2, h3, h4, h5⟩)⟩
      | again =>
        cases block with
        | true =>
          simp only [internal_flush_buffer, hlt, if_true] at h
          obtain ⟨pre1, rest, hgo, hsends, hwire, hcase⟩ :=
            ih { s with p := { s.p with sends := rest0 } } r s' h
          have hgo2 : ∀ o ∈ SendOutcome.again :: pre1, SendOutcome.goes_on true o = true := by
            intro o ho
            rcases List.mem_cons.1 ho with e | e
            · subst e; rfl
            · exact hgo o e
          rcases hcase with ⟨h0, hs, hk, h2, h3, h4, h5⟩ | ⟨h0, hb, hs, hk, h2, h3, h4⟩ |
            ⟨h0, hs, hk, h2, h3, h4, h5⟩
          · have hsd : s'.p.sends = rest := by
              by_cases hp : pre1 = []
              · rw [h5 hp]
                subst hp
                simpa using hs
              · exact hsends hp
            exact ⟨SendOutcome.again :: pre1, rest, hgo2, fun _ => hsd, hwire,
              Or.inl ⟨h0, by rw [hs]; rfl, hk, h2, h3, h4, fun hp => by cases hp⟩⟩
          · exact absurd hb (by decide)
          · exact ⟨SendOutcome.again :: pre1, rest, hgo2, fun _ => h5, hwire,
              Or.inr (Or.inr ⟨h0, by rw [hs]; rfl, hk, h2, h3, h4, h5⟩)⟩
        | false =>
          simp only [internal_flush_buffer, hlt, if_true, Bool.false_eq_true, if_false,
            Res.ret.injEq] at h
          obtain ⟨h0, h⟩ := h
          subst h
          refine ⟨[], rest0, by simp, by simp, by simp [accepted_bytes], Or.inr (Or.inl ?_)⟩
          exact ⟨h0.symm, rfl, rfl, by simp only [accepted_bytes]; omega, rfl, rfl, rfl⟩
      | fail =>
        simp only [internal_flush_buffer, hlt, if_true, Res.ret.injEq] at h
        obtain ⟨h0, h⟩ := h
        subst h
        refine ⟨[], rest0, by simp, by simp, by simp [accepted_bytes], Or.inr (Or.inr ?_)⟩
        exact ⟨h0.symm, rfl, by simp only [accepted_bytes]; omega, rfl, rfl, rfl, rfl⟩
    · simp only [internal_flush_buffer, hlt, if_false, Res.ret.injEq] at h
      obtain ⟨h0, h⟩ := h
      subst h
      have hd : s.p.out_buf.unread = [] := (unread_nil_iff _).2 (by omega)
      refine ⟨[], o :: rest0, by simp, by simp, by simp [accepted_bytes], Or.inl ?_⟩
      exact ⟨h0.symm, rfl, by simp [accepted_bytes, hd], rfl, rfl, rfl, fun _ => rfl⟩

theorem accepted_bytes_eintrs (avail k : Nat) :
    accepted_bytes avail (List.replicate k SendOutcome.eintr) = 0 := by
  induction k with
  | zero => rfl
  | succ k ih => exact ih

/-- A send that is made and fails ends the flush with EOF: after calls `pre`
that let the loop go on and have not taken all the pending bytes, the
failure gives EOF, the buffer reset, both process-wide flags set, and the
outcomes behind it left for later calls. -/
theorem flush_fail_reached (block : Bool) (pre : List SendOutcome) :
    ∀ (s : PSt) (rest : List SendOutcome),
      (∀ o ∈ pre, SendOutcome.goes_on block o = true) →
      accepted_bytes s.p.out_buf.unread.length pre < s.p.out_buf.unread.length →
      ∃ s', internal_flush_buffer block s (pre ++ SendOutcome.fail :: rest) = .ret EOF s' ∧
        s'.p.out_buf.cursor = 0 ∧ s'.p.out_buf.len = 0 ∧
        s'.g.ClientConnectionLost = true ∧ s'.g.InterruptPending = true ∧
        s'.p.sends = rest := by
  induction pre with
  | nil =>
    intro s rest _ hk
    have hul := unread_length s.p.out_buf
    have hlt : s.p.out_buf.cursor < s.p.out_buf.len := by omega
    simp only [List.nil_append, internal_flush_buffer, hlt, if_true]
    exact ⟨_, rfl, rfl, rfl, rfl, rfl, rfl⟩
  | cons o pre1 ih =>
    intro s rest hgo hk
    have hul := unread_length s.p.out_buf
    have hlt : s.p.out_buf.cursor < s.p.out_buf.len := by omega
    have hgo1 : ∀ o ∈ pre1, SendOutcome.goes_on block o = true :=
      fun x hx => hgo x (List.mem_cons_of_mem _ hx)
    cases o with
    | accepted n =>
      simp only [List.cons_append, internal_flush_buffer, hlt, if_true]
      rw [accepted_bytes_accepted, hul] at hk
      have hn : max 1 (min n (s.p.out_buf.len - s.p.out_buf.cursor)) ≤
          s.p.out_buf.len - s.p.out_buf.cursor := by omega
      generalize max 1 (min n (s.p.out_buf.len - s.p.out_buf.cursor)) = m at hk hn
      refine ih _ rest hgo1 ?_
      have hu1 : (StringInfo.unread { s.p.out_buf with cursor := s.p.out_buf.cursor + m }) =
          s.p.out_buf.unread.drop m := unread_advance _ _
      show accepted_bytes
          (StringInfo.unread { s.p.out_buf with cursor := s.p.out_buf.cursor + m }).length pre1 <
        (StringInfo.unread { s.p.out_buf with cursor := s.p.out_buf.cursor + m }).length
      rw [hu1, List.length_drop, hul]
      omega
    | eintr =>
      simp only [List.cons_append, internal_flush_buffer, hlt, if_true]
      exact ih _ rest hgo1 hk
    | again =>
      have hb : block = true := hgo _ (List.mem_cons_self _ _)
      subst hb
      simp only [List.cons_append, internal_flush_buffer, hlt, if_true]
      exact ih _ rest hgo1 hk
    | fail =>
      have := hgo _ (List.mem_cons_self _ _)
      cases this

/-- C22: for any out-buffer (with `cursor ≤ len` or not) and any outcomes of
the `send` calls, `rdc_try_flush` reports no error and, when it returns, has
made the calls of an initial part of the outcomes and left the rest for
later calls: calls `pre` that accepted bytes or were interrupted, followed
for the result 1 by the call that would block and for the result EOF by the
call that failed.  The socket has taken the bytes accepted by `pre`, an
initial part of the unsent bytes in order.  With 0 these are all the unsent
bytes and `cursor = len = 0`; with 1 they are fewer, the cursor has moved on
by that many bytes and the buffer is otherwise unchanged; the only other
result is EOF.  The call fails to return only when the outcomes run out with
neither a failure nor a would-block among them. -/
theorem try_flush_contract (s : PSt) :
    (∀ r s', rdc_try_flush s = .ret r s' →
      ∃ pre rest,
        (∀ o ∈ pre, o = SendOutcome.eintr ∨ ∃ n, o = SendOutcome.accepted n) ∧
        s'.p.sends = rest ∧
        s'.p.wire = s.p.wire ++
          s.p.out_buf.unread.take (accepted_bytes s.p.out_buf.unread.length pre) ∧
        ((r = 0 ∧ s.p.sends = pre ++ rest ∧
            accepted_bytes s.p.out_buf.unread.length pre = s.p.out_buf.unread.length ∧
            s'.p.wire = s.p.wire ++ s.p.out_buf.unread ∧
            s'.p.out_buf.cursor = 0 ∧ s'.p.out_buf.len = 0) ∨
         (r = 1 ∧ s.p.sends = pre ++ SendOutcome.again :: rest ∧
            accepted_bytes s.p.out_buf.unread.length pre < s.p.out_buf.unread.length ∧
            s'.p.out_buf.cursor =
              s.p.out_buf.cursor + accepted_bytes s.p.out_buf.unread.length pre ∧
            s'.p.out_buf.data = s.p.out_buf.data ∧
            s'.p.out_buf.unread =
              s.p.out_buf.unread.drop (accepted_bytes s.p.out_buf.unread.length pre)) ∨
         (r = EOF ∧ s.p.sends = pre ++ SendOutcome.fail :: rest ∧
            accepted_bytes s.p.out_buf.unread.length pre < s.p.out_buf.unread.length))) ∧
    (∀ s', rdc_try_flush s ≠ .raised s') ∧
    (rdc_try_flush s = .stuck →
      ∀ o ∈ s.p.sends, o = SendOutcome.eintr ∨ ∃ n, o = SendOutcome.accepted n) := by
  unfold rdc_try_flush
  refine ⟨fun r s' h => ?_, (flush_ends false s.p.sends s).1, fun h o ho => ?_⟩
  · obtain ⟨pre, rest, hgo, hsends, hwire, hcase⟩ := flush_trace false s.p.sends s r s' h
    have hpre : ∀ o ∈ pre, o = SendOutcome.eintr ∨ ∃ n, o = SendOutcome.accepted n := by
      intro o ho
      have := hgo o ho
      cases o with
      | accepted n => exact Or.inr ⟨n, rfl⟩
      | eintr => exact Or.inl rfl
      | again => cases this
      | fail => cases this
    rcases hcase with ⟨h0, hs, hk, h2, h3, -, h5⟩ | ⟨h0, -, hs, hk, h2, -, h4⟩ |
      ⟨h0, hs, hk, -, -, -, h5⟩
    · have hsd : s'.p.sends = rest := by
        by_cases hp : pre = []
        · rw [h5 hp, hs, hp]
          rfl
        · exact hsends hp
      refine ⟨pre, rest, hpre, hsd, hwire, Or.inl ⟨h0, hs, hk, ?_, h3, ?_⟩⟩
      · rw [hwire, hk, List.take_length]
      · simp [StringInfo.len, h2]
    · refine ⟨pre, rest, hpre, h4, hwire, Or.inr (Or.inl ⟨h0, hs, hk, ?_, ?_, ?_⟩)⟩
      · rw [h2]
      · rw [h2]
      · rw [h2]
        exact unread_advance _ _
    · exact ⟨pre, rest, hpre, h5, hwire, Or.inr (Or.inr ⟨h0, hs, hk⟩)⟩
  · obtain ⟨h1, h2⟩ := (flush_ends false s.p.sends s).2 h o ho
    cases o with
    | accepted n => exact Or.inr ⟨n, rfl⟩
    | eintr => exact Or.inl rfl
    | again => exact absurd rfl (h2 rfl)
    | fail => exact absurd rfl h1

/-- C23: in `internal_flush_buffer`, blocking or not, whenever a send is made
and fails with an error other than EINTR, EAGAIN and EWOULDBLOCK, that is,
after any calls `pre` that let the loop go on (bytes accepted, EINTR, and in
blocking mode a call that would block) and have not taken all the pending
bytes, the function returns EOF with the buffered output discarded
(`cursor = len = 0`), `ClientConnectionLost` and `InterruptPending` both set,
and the outcomes behind the failure left for later calls.  Whenever the
function returns, the result is 0, 1 or EOF; EOF is returned only on such a
failure and with these effects, and with the result 0 or 1 both flags are as
they were. -/
theorem lost_client (block : Bool) (s : PSt) :
    (∀ (pre rest : List SendOutcome),
      (∀ o ∈ pre, SendOutcome.goes_on block o = true) →
      accepted_bytes s.p.out_buf.unread.length pre < s.p.out_buf.unread.length →
      ∃ s', internal_flush_buffer block s (pre ++ SendOutcome.fail :: rest) = .ret EOF s' ∧
        s'.p.out_buf.cursor = 0 ∧ s'.p.out_buf.len = 0 ∧
        s'.g.ClientConnectionLost = true ∧ s'.g.InterruptPending = true ∧
        s'.p.sends = rest) ∧
    (∀ (k : Nat) (rest : List SendOutcome), s.p.out_buf.cursor < s.p.out_buf.len →
      ∃ s', internal_flush_buffer block s
          (List.replicate k SendOutcome.eintr ++ SendOutcome.fail :: rest) = .ret EOF s' ∧
        s'.p.out_buf.cursor = 0 ∧ s'.p.out_buf.len = 0 ∧
        s'.g.ClientConnectionLost = true ∧ s'.g.InterruptPending = true) ∧
    (∀ (script : List SendOutcome) (r : Int) (s' : PSt),
      internal_flush_buffer block s script = .ret r s' →
      (r = 0 ∨ r = 1 ∨ r = EOF) ∧
      (r = EOF →
        (∃ pre rest, script = pre ++ SendOutcome.fail :: rest ∧
          (∀ o ∈ pre, SendOutcome.goes_on block o = true) ∧
          accepted_bytes s.p.out_buf.unread.length pre < s.p.out_buf.unread.length ∧
          s'.p.sends = rest) ∧
        SendOutcome.fail ∈ script ∧ s'.p.out_buf.cursor = 0 ∧ s'.p.out_buf.len = 0 ∧
        s'.g.ClientConnectionLost = true ∧ s'.g.InterruptPending = true) ∧
      (r = 0 ∨ r = 1 → s'.g = s.g)) := by
  refine ⟨fun pre rest hgo hk => flush_fail_reached block pre s rest hgo hk,
    fun k rest hlt => ?_, fun script r s' h => ?_⟩
  · obtain ⟨s', h1, h2⟩ := flush_fails block k rest s hlt
    exact ⟨s', h1, h2⟩
  · obtain ⟨pre, rest, hgo, -, -, hcase⟩ := flush_trace block script s r s' h
    rcases hcase with ⟨h0, -, -, -, -, h4, -⟩ | ⟨h0, -, -, -, -, h3, -⟩ |
      ⟨h0, hs, hk, h2, h3, h4, h5⟩
    · subst h0
      exact ⟨Or.inl rfl, fun h => absurd h (by decide), fun _ => h4⟩
    · subst h0
      exact ⟨Or.inr (Or.inl rfl), fun h => absurd h (by decide), fun _ => h3⟩
    · subst h0
      refine ⟨Or.inr (Or.inr rfl), fun _ => ⟨⟨pre, rest, hs, hgo, hk, h5⟩, ?_, h3,
        by simp [StringInfo.len, h2], ?_, ?_⟩, fun h => ?_⟩
      · rw [hs]
        simp
      · rw [h4]
      · rw [h4]
      · rcases h with h | h <;> exact absurd h (by decide)

/-- The text of an error message is not empty when its format is not. -/
theorem err_data (s : PSt) (fmt : String) : (s.err fmt).p.err_buf.data = cstr fmt := rfl

/-- Calls of `recv` interrupted by EINTR are made again. -/
theorem recv_loop_eintr (s : PSt) (k : Nat) (script : List RecvOutcome)
    (hint : s.g.InterruptPending = false) :
    rdc_recv_loop s (List.replicate k RecvOutcome.eintr ++ script) = rdc_recv_loop s script := by
  induction k with
  | zero => rfl
  | succ k ih =>
    simp only [List.replicate, List.cons_append, rdc_recv_loop, CHECK_FOR_INTERRUPTS, hint,
      Bool.not_false, Bool.not_true, if_false]
    exact ih

/-- What the loop of `rdc_recv` does to the in-buffer when it returns: with 1
the bytes of one `recv` are behind the old contents, otherwise the buffer is
as it was. -/
theorem recv_loop_in_buf (script : List RecvOutcome) :
    ∀ (s : PSt) (r : Int) (s' : PSt), rdc_recv_loop s script = .ret r s' →
      (r = 1 ∧ ∃ bs, RecvOutcome.bytes bs ∈ script ∧
        bs.take (min bs.length (s.p.in_buf.maxlen - s.p.in_buf.len)) ≠ [] ∧
        s'.p.in_buf = { s.p.in_buf with
          data := s.p.in_buf.data ++
            bs.take (min bs.length (s.p.in_buf.maxlen - s.p.in_buf.len)) }) ∨
      ((r = 0 ∨ r = EOF) ∧ s'.p.in_buf = s.p.in_buf) := by
  induction script with
  | nil => intro s r s' h; cases h
  | cons o rest ih =>
    intro s r s' h
    have hmem : ∀ {r : Int} {s' : PSt},
        ((r = 1 ∧ ∃ bs, RecvOutcome.bytes bs ∈ rest ∧
          bs.take (min bs.length (s.p.in_buf.maxlen - s.p.in_buf.len)) ≠ [] ∧
          s'.p.in_buf = { s.p.in_buf with
            data := s.p.in_buf.data ++
              bs.take (min bs.length (s.p.in_buf.maxlen - s.p.in_buf.len)) }) ∨
        ((r = 0 ∨ r = EOF) ∧ s'.p.in_buf = s.p.in_buf)) →
        ((r = 1 ∧ ∃ bs, RecvOutcome.bytes bs ∈ o :: rest ∧
          bs.take (min bs.length (s.p.in_buf.maxlen - s.p.in_buf.len)) ≠ [] ∧
          s'.p.in_buf = { s.p.in_buf with
            data := s.p.in_buf.data ++
              bs.take (min bs.length (s.p.in_buf.maxlen - s.p.in_buf.len)) }) ∨
        ((r = 0 ∨ r = EOF) ∧ s'.p.in_buf = s.p.in_buf)) := by
      intro r s' hh
      rcases hh with ⟨h1, bs, hb, h2, h3⟩ | hh
      · exact Or.inl ⟨h1, bs, List.mem_cons_of_mem _ hb, h2, h3⟩
      · exact Or.inr hh
    cases o with
    | again =>
      simp only [rdc_recv_loop] at h
      split at h
      · exact hmem (ih s r s' h)
      · split at h
        · cases h
        · simp only [Res.ret.injEq] at h
          rw [← h.2, ← h.1]
          exact Or.inr ⟨Or.inl rfl, rfl⟩
    | eintr =>
      simp only [rdc_recv_loop] at h
      split at h
      · cases h
      · exact hmem (ih s r s' h)
    | fail =>
      simp only [rdc_recv_loop] at h
      split at h
      · cases h
      · simp only [Res.ret.injEq] at h
        rw [← h.2, ← h.1]
        exact Or.inr ⟨Or.inr rfl, rfl⟩
    | shutdown =>
      simp only [rdc_recv_loop] at h
      split at h
      · cases h
      · simp only [Res.ret.injEq] at h
        rw [← h.2, ← h.1]
        exact Or.inr ⟨Or.inr rfl, rfl⟩
    | bytes bs =>
      simp only [rdc_recv_loop] at h
      split at h
      · cases h
      · split at h
        · simp only [Res.ret.injEq] at h
          rw [← h.2, ← h.1]
          exact Or.inr ⟨Or.inr rfl, rfl⟩
        · rename_i hr0
          simp only [Res.ret.injEq] at h
          rw [← h.2, ← h.1]
          refine Or.inl ⟨rfl, bs, List.mem_cons_self _ _, ?_, rfl⟩
          intro hnil
          apply hr0
          have := congrArg List.length hnil
          simp only [List.length_take, List.length_nil] at this
          omega

/-- The calls the loop of `rdc_recv` has made when it returns: calls `pre`
that were interrupted by EINTR or, in blocking mode, would block, then the
call with the outcome `o` that ends it; the outcomes `rest` are left for
later calls.  Bytes are added to the buffer only by a last call that
delivers some, and they are the bytes of that call, as many as fit. -/
theorem recv_loop_trace (script : List RecvOutcome) :
    ∀ (s : PSt) (r : Int) (s' : PSt), rdc_recv_loop s script = .ret r s' →
      ∃ pre o rest,
        script = pre ++ o :: rest ∧
        (∀ x ∈ pre, x = RecvOutcome.eintr ∨ (x = RecvOutcome.again ∧ s.p.noblock = false)) ∧
        ((∃ bs, o = RecvOutcome.bytes bs ∧
            s'.p.recvs =
              (if bs.drop (min bs.length (s.p.in_buf.maxlen - s.p.in_buf.len)) = [] then rest
               else RecvOutcome.bytes
                 (bs.drop (min bs.length (s.p.in_buf.maxlen - s.p.in_buf.len))) :: rest) ∧
            ((r = 1 ∧ bs.take (min bs.length (s.p.in_buf.maxlen - s.p.in_buf.len)) ≠ [] ∧
                s'.p.in_buf = { s.p.in_buf with
                  data := s.p.in_buf.data ++
                    bs.take (min bs.length (s.p.in_buf.maxlen - s.p.in_buf.len)) }) ∨
             (r = EOF ∧ bs.take (min bs.length (s.p.in_buf.maxlen - s.p.in_buf.len)) = [] ∧
                s'.p.in_buf = s.p.in_buf))) ∨
         (o = RecvOutcome.again ∧ s.p.noblock = true ∧ r = 0 ∧ s'.p.recvs = rest ∧
            s'.p.in_buf = s.p.in_buf) ∨
         ((o = RecvOutcome.fail ∨ o = RecvOutcome.shutdown) ∧ r = EOF ∧ s'.p.recvs = rest ∧
            s'.p.in_buf = s.p.in_buf)) := by
  induction script with
  | nil => intro s r s' h; cases h
  | cons o rest0 ih =>
    intro s r s' h
    cases o with
    | again =>
      simp only [rdc_recv_loop] at h
      split at h
      · rename_i hb
        have hnb : s.p.noblock = false := by simpa using hb
        obtain ⟨pre, o, rest, hs, hpre, hcase⟩ := ih s r s' h
        refine ⟨RecvOutcome.again :: pre, o, rest, by rw [hs]; rfl, ?_, hcase⟩
        intro x hx
        rcases List.mem_cons.1 hx with e | e
        · exact Or.inr ⟨e, hnb⟩
        · exact hpre x e
      · rename_i hb
        have hnb : s.p.noblock = true := by simpa using hb
        split at h
        · cases h
        · simp only [Res.ret.injEq] at h
          obtain ⟨h0, h⟩ := h
          subst h
          exact ⟨[], RecvOutcome.again, rest0, rfl, by simp,
            Or.inr (Or.inl ⟨rfl, hnb, h0.symm, rfl, rfl⟩)⟩
    | eintr =>
      simp only [rdc_recv_loop] at h
      split at h
      · cases h
      · obtain ⟨pre, o, rest, hs, hpre, hcase⟩ := ih s r s' h
        refine ⟨RecvOutcome.eintr :: pre, o, rest, by rw [hs]; rfl, ?_, hcase⟩
        intro x hx
        rcases List.mem_cons.1 hx with e | e
        · exact Or.inl e
        · exact hpre x e
    | fail =>
      simp only [rdc_recv_loop] at h
      split at h
      · cases h
      · simp only [Res.ret.injEq] at h
        obtain ⟨h0, h⟩ := h
        subst h
        exact ⟨[], RecvOutcome.fail, rest0, rfl, by simp,
          Or.inr (Or.inr ⟨Or.inl rfl, h0.symm, rfl, rfl⟩)⟩
    | shutdown =>
      simp only [rdc_recv_loop] at h
      split at h
      · cases h
      · simp only [Res.ret.injEq] at h
        obtain ⟨h0, h⟩ := h
        subst h
        exact ⟨[], RecvOutcome.shutdown, rest0, rfl, by simp,
          Or.inr (Or.inr ⟨Or.inr rfl, h0.symm, rfl, rfl⟩)⟩
    | bytes bs =>
      simp only [rdc_recv_loop] at h
      split at h
      · cases h
      · split at h
        · rename_i hr0
          simp only [Res.ret.injEq] at h
          obtain ⟨h0, h⟩ := h
          subst h
          refine ⟨[], RecvOutcome.bytes bs, rest0, rfl, by simp,
            Or.inl ⟨bs, rfl, rfl, Or.inr ⟨h0.symm, ?_, rfl⟩⟩⟩
          rw [hr0]
          rfl
        · rename_i hr0
          simp only [Res.ret.injEq] at h
          obtain ⟨h0, h⟩ := h
          subst h
          refine ⟨[], RecvOutcome.bytes bs, rest0, rfl, by simp,
            Or.inl ⟨bs, rfl, rfl, Or.inl ⟨h0.symm, ?_, rfl⟩⟩⟩
          intro hnil
          apply hr0
          have := congrArg List.length hnil
          simp only [List.length_take, List.length_nil] at this
          omega

/-- C25: whenever `rdc_recv` returns, the cursor of the in-buffer is 0 and the
buffer holds the bytes that were unread before the call followed by exactly
the bytes `got` that the call made delivered.  The call made is the one with
the outcome `o` that comes after the calls `pre` interrupted by EINTR (or, in
blocking mode, waited for), and the outcomes `rest` behind it are left for
later calls: if `o` delivers bytes, `got` is these bytes, as many as fit,
what does not fit stays with the socket, and the result is 1, or EOF if
`got` is empty; if `o` is a call that would block the result is 0, and if it
is a failure or a shutdown the result is EOF, with `got` empty.  In
particular, if the cursor equalled `len` before the call, the buffer holds
just the delivered bytes. -/
theorem recv_keeps_unread (s : PSt) (r : Int) (s' : PSt) (h : rdc_recv s = .ret r s') :
    s'.p.in_buf.cursor = 0 ∧
    ∃ pre o rest got,
      s.p.recvs = pre ++ o :: rest ∧
      (∀ x ∈ pre, x = RecvOutcome.eintr ∨ (x = RecvOutcome.again ∧ s.p.noblock = false)) ∧
      s'.p.in_buf.data = s.p.in_buf.unread ++ got ∧
      s'.p.in_buf.unread = s.p.in_buf.unread ++ got ∧
      (s.p.in_buf.cursor = s.p.in_buf.len → s'.p.in_buf.data = got) ∧
      ((∃ bs, o = RecvOutcome.bytes bs ∧ got = delivered s.p.in_buf bs ∧
          s'.p.recvs =
            (if bs.drop got.length = [] then rest
             else RecvOutcome.bytes (bs.drop got.length) :: rest) ∧
          ((r = 1 ∧ got ≠ []) ∨ (r = EOF ∧ got = []))) ∨
       (o = RecvOutcome.again ∧ s.p.noblock = true ∧ r = 0 ∧ got = [] ∧ s'.p.recvs = rest) ∨
       ((o = RecvOutcome.fail ∨ o = RecvOutcome.shutdown) ∧ r = EOF ∧ got = [] ∧
          s'.p.recvs = rest)) := by
  rw [rdc_recv_eq] at h
  have hnil : s.p.in_buf.cursor = s.p.in_buf.len → s.p.in_buf.unread = [] :=
    fun e => (unread_nil_iff _).2 (by omega)
  obtain ⟨pre, o, rest, hs, hpre, hcase⟩ := recv_loop_trace _ _ r s' h
  simp only [StringInfo.len] at hcase
  have hsame : s'.p.in_buf =
      { data := s.p.in_buf.unread, cursor := 0, maxlen := s.p.in_buf.maxlen } →
      s'.p.in_buf.cursor = 0 ∧ s'.p.in_buf.data = s.p.in_buf.unread ++ [] ∧
        s'.p.in_buf.unread = s.p.in_buf.unread ++ [] ∧
        (s.p.in_buf.cursor = s.p.in_buf.len → s'.p.in_buf.data = []) := by
    intro e
    rw [e]
    refine ⟨rfl, by simp, by simp [StringInfo.unread], fun e2 => hnil e2⟩
  rcases hcase with ⟨bs, ho, hrecvs, hres⟩ | ⟨ho, hnb, h0, hrecvs, hbuf⟩ |
    ⟨ho, h0, hrecvs, hbuf⟩
  · have hlen : (delivered s.p.in_buf bs).length =
        min bs.length (s.p.in_buf.maxlen - s.p.in_buf.unread.length) := by
      unfold delivered
      rw [List.length_take]
      omega
    rcases hres with ⟨h1, h2, h3⟩ | ⟨h1, h2, h3⟩
    · refine ⟨by rw [h3], pre, o, rest, delivered s.p.in_buf bs, hs, hpre, by rw [h3]; rfl, ?_,
        ?_, Or.inl ⟨bs, ho, rfl, ?_, Or.inl ⟨h1, h2⟩⟩⟩
      · rw [h3]; simp [StringInfo.unread, delivered]
      · intro e
        rw [h3]
        simp [hnil e, delivered]
      · rw [hlen]
        exact hrecvs
    · obtain ⟨c1, c2, c3, c4⟩ := hsame h3
      have hd : delivered s.p.in_buf bs = [] := h2
      refine ⟨c1, pre, o, rest, delivered s.p.in_buf bs, hs, hpre, ?_, ?_, ?_,
        Or.inl ⟨bs, ho, rfl, ?_, Or.inr ⟨h1, hd⟩⟩⟩
      · rw [hd]; exact c2
      · rw [hd]; exact c3
      · rw [hd]; exact c4
      · rw [hlen]
        exact hrecvs
  · obtain ⟨c1, c2, c3, c4⟩ := hsame hbuf
    exact ⟨c1, pre, o, rest, [], hs, hpre, c2, c3, c4,
      Or.inr (Or.inl ⟨ho, hnb, h0, rfl, hrecvs⟩)⟩
  · obtain ⟨c1, c2, c3, c4⟩ := hsame hbuf
    exact ⟨c1, pre, o, rest, [], hs, hpre, c2, c3, c4,
      Or.inr (Or.inr ⟨ho, h0, rfl, hrecvs⟩)⟩

/-- C24: on a nonblocking port with no interrupt pending, when the `recv`
calls are interrupted by EINTR any number of times and then have the
outcome `o`, `rdc_recv` returns; it returns 1 iff `o` delivers at least one
byte, 0 iff `o` is EAGAIN or EWOULDBLOCK, and EOF iff `recv` returned 0
(orderly shutdown, or no room for a byte) or failed with another error, and
then the error buffer of the port holds a message. -/
theorem recv_result (s : PSt) (k : Nat) (o : RecvOutcome) (rest : List RecvOutcome)
    (hnb : s.p.noblock = true) (hint : s.g.InterruptPending = false)
    (hrecv : s.p.recvs = List.replicate k RecvOutcome.eintr ++ o :: rest)
    (ho : o ≠ RecvOutcome.eintr) :
    ∃ r s', rdc_recv s = .ret r s' ∧
      (r = 1 ↔ ∃ bs, o = RecvOutcome.bytes bs ∧ delivered s.p.in_buf bs ≠ []) ∧
      (r = 0 ↔ o = RecvOutcome.again) ∧
      (r = EOF ↔ o = RecvOutcome.shutdown ∨ o = RecvOutcome.fail ∨
        ∃ bs, o = RecvOutcome.bytes bs ∧ delivered s.p.in_buf bs = []) ∧
      (r = EOF → s'.p.err_buf.data ≠ []) := by
  have hloop : rdc_recv s = rdc_recv_loop
      { s with p := { s.p with
          in_buf := { data := s.p.in_buf.unread, cursor := 0, maxlen := s.p.in_buf.maxlen } } }
      (o :: rest) := by
    rw [rdc_recv_eq, congrArg (rdc_recv_loop _) hrecv]
    exact recv_loop_eintr
      { s with p := { s.p with
          in_buf := { data := s.p.in_buf.unread, cursor := 0, maxlen := s.p.in_buf.maxlen } } }
      k _ hint
  rw [hloop]
  cases o with
  | eintr => exact absurd rfl ho
  | again =>
    simp only [rdc_recv_loop, CHECK_FOR_INTERRUPTS, hint, hnb, Bool.not_false, Bool.not_true,
      Bool.false_eq_true, if_false]
    refine ⟨_, _, rfl, ?_, ?_, ?_, ?_⟩
    · constructor
      · intro h; exact absurd h (by decide)
      · rintro ⟨bs, h, -⟩; cases h
    · simp
    · constructor
      · intro h; exact absurd h (by decide)
      · rintro (h | h | ⟨bs, h, -⟩) <;> cases h
    · intro h; exact absurd h (by decide)
  | fail =>
    simp only [rdc_recv_loop, CHECK_FOR_INTERRUPTS, hint, Bool.not_false, Bool.not_true,
      Bool.false_eq_true, if_false]
    refine ⟨_, _, rfl, ?_, ?_, ?_, ?_⟩
    · constructor
      · intro h; exact absurd h (by decide)
      · rintro ⟨bs, h, -⟩; cases h
    · constructor
      · intro h; exact absurd h (by decide)
      · intro h; cases h
    · simp
    · intro _
      rw [err_data]
      decide
  | shutdown =>
    simp only [rdc_recv_loop, CHECK_FOR_INTERRUPTS, hint, Bool.not_false, Bool.not_true,
      Bool.false_eq_true, if_false]
    refine ⟨_, _, rfl, ?_, ?_, ?_, ?_⟩
    · constructor
      · intro h; exact absurd h (by decide)
      · rintro ⟨bs, h, -⟩; cases h
    · constructor
      · intro h; exact absurd h (by decide)
      · intro h; cases h
    · simp
    · intro _
      rw [err_data]
      decide
  | bytes bs =>
    have hdl : (delivered s.p.in_buf bs).length =
        min bs.length (s.p.in_buf.maxlen - s.p.in_buf.unread.length) := by
      unfold delivered
      rw [List.length_take]
      omega
    simp only [rdc_recv_loop, CHECK_FOR_INTERRUPTS, hint, Bool.not_false, Bool.not_true,
      Bool.false_eq_true, if_false, StringInfo.len]
    by_cases hr0 : min bs.length (s.p.in_buf.maxlen - s.p.in_buf.unread.length) = 0
    · have hd : delivered s.p.in_buf bs = [] := List.eq_nil_of_length_eq_zero (by rw [hdl, hr0])
      rw [if_pos hr0]
      refine ⟨_, _, rfl, ?_, ?_, ?_, ?_⟩
      · constructor
        · intro h; exact absurd h (by decide)
        · rintro ⟨bs', h, h'⟩
          cases h
          exact absurd hd h'
      · constructor
        · intro h; exact absurd h (by decide)
        · intro h; cases h
      · constructor
        · intro _; exact Or.inr (Or.inr ⟨bs, rfl, hd⟩)
        · intro _; rfl
      · intro _
        rw [err_data]
        decide
    · have hd : delivered s.p.in_buf bs ≠ [] := by
        intro e
        rw [e] at hdl
        exact hr0 hdl.symm
      rw [if_neg hr0]
      refine ⟨_, _, rfl, ?_, ?_, ?_, ?_⟩
      · constructor
        · intro _; exact ⟨bs, rfl, hd⟩
        · intro _; rfl
      · constructor
        · intro h; exact absurd h (by decide)
        · intro h; cases h
      · constructor
        · intro h; exact absurd h (by decide)
        · rintro (h | h | ⟨bs', h, h'⟩)
          · cases h
          · cases h
          · cases h
            exact absurd h' hd
      · intro h; exact absurd h (by decide)

/-- A flush leaves the wait events of the port as they were. -/
theorem flush_wait_events (block : Bool) (script : List SendOutcome) :
    ∀ (s : PSt) (r : Int) (s' : PSt), internal_flush_buffer block s script = .ret r s' →
      s'.p.wait_events = s.p.wait_events := by
  induction script with
  | nil =>
    intro s r s' h
    simp only [internal_flush_buffer] at h
    split at h
    · cases h
    · simp only [Res.ret.injEq] at h
      rw [← h.2]
  | cons o rest ih =>
    intro s r s' h
    by_cases hlt : s.p.out_buf.cursor < s.p.out_buf.len
    · cases o with
      | accepted n =>
        simp only [internal_flush_buffer, hlt, if_true] at h
        have h1 := ih _ r s' h
        exact h1
      | eintr =>
        simp only [internal_flush_buffer, hlt, if_true] at h
        have h1 := ih _ r s' h
        exact h1
      | again =>
        cases block with
        | true =>
          simp only [internal_flush_buffer, hlt, if_true] at h
          have h1 := ih _ r s' h
          exact h1
        | false =>
          simp only [internal_flush_buffer, hlt, if_true, Bool.false_eq_true, if_false,
            Res.ret.injEq] at h
          rw [← h.2]
      | fail =>
        simp only [internal_flush_buffer, hlt, if_true, Res.ret.injEq] at h
        rw [← h.2]
    · simp only [internal_flush_buffer, hlt, if_false, Res.ret.injEq] at h
      rw [← h.2]

/-- C29: on a valid reducer port, whenever `HandleWriteToReduce` returns
normally, WRITABLE is set in `wait_events` iff unsent bytes remain in the
out-buffer of the port, and READABLE is as it was; and it returns normally
when no interrupt is pending and the outcomes of the `send` calls let the
nonblocking flush end without a hard failure. -/
theorem write_reduce_events (s : PSt) (hv : PortIsValid s.p = true) :
    (∀ s', HandleWriteToReduce s = .ret () s' →
      (s'.p.wait_events.writable = true ↔ s'.p.out_buf.unread ≠ []) ∧
      s'.p.wait_events.readable = s.p.wait_events.readable) ∧
    (s.g.InterruptPending = false → s.p.out_buf.cursor ≤ s.p.out_buf.len →
      SendsFlush (s.p.out_buf.len - s.p.out_buf.cursor) s.p.sends →
      ∃ s', HandleWriteToReduce s = .ret () s') := by
  refine ⟨fun s' h => ?_, fun hint hc hs => ?_⟩
  · simp only [HandleWriteToReduce, hv, Bool.not_true, Bool.false_eq_true, if_false] at h
    cases hf : rdc_try_flush s with
    | stuck => rw [hf] at h; cases h
    | raised s1 => rw [hf] at h; cases h
    | ret r s1 =>
      rw [hf] at h
      simp only at h
      have hw := flush_wait_events false s.p.sends s r s1 hf
      rcases flush_contract false s.p.sends s r s1 hf with
        ⟨h0, -, h2, -, -⟩ | ⟨h0, -, -, k, hk, -, h2, -⟩ | ⟨h0, -, -, -, h3⟩
      · subst h0
        split at h
        · cases h
        · simp only [ne_eq, not_true_eq_false, if_false, Res.ret.injEq, true_and] at h
          rw [← h]
          refine ⟨?_, by rw [← hw]⟩
          simp [StringInfo.unread, h2]
      · subst h0
        split at h
        · cases h
        · simp only [ne_eq, one_ne_zero, not_false_eq_true, if_true, Res.ret.injEq,
            true_and] at h
          rw [← h]
          refine ⟨?_, by rw [← hw]⟩
          have hu : s1.p.out_buf.unread = s.p.out_buf.unread.drop k := by
            rw [h2]; exact unread_advance _ _
          have hne : s1.p.out_buf.unread ≠ [] := by
            intro e
            have := congrArg List.length e
            rw [hu, List.length_drop, List.length_nil] at this
            omega
          exact ⟨fun _ => hne, fun _ => rfl⟩
      · simp only [CHECK_FOR_INTERRUPTS, h3, Bool.not_true, if_true] at h
        cases h
  · obtain ⟨r, s1, hf, hr⟩ := try_flush_returns s.p.sends s hc hs
    have hf' : rdc_try_flush s = .ret r s1 := hf
    have hr' : r ≠ EOF := by
      rcases hr with h | h <;> rw [h] <;> decide
    obtain ⟨hg, -⟩ := flush_stream false s.p.sends s r s1 hc hf hr'
    simp only [HandleWriteToReduce, hv, Bool.not_true, Bool.false_eq_true, if_false, hf',
      CHECK_FOR_INTERRUPTS, hg, hint, Bool.not_false]
    split
    · exact ⟨_, rfl⟩
    · exact ⟨_, rfl⟩

/-- What setting the socket options does to the port. -/
theorem connect_options_spec (a : AddrInfo) (port : RdcPort)
    (hok : port.pg_set_noblock_ok = a.noblock_ok) :
    (connect_options_fail a port).1 =
      !((port.noblock || a.noblock_ok) && a.nodelay_ok && a.keepalive_ok && a.cloexec_ok) ∧
    (connect_options_fail a port).2.noblock = (port.noblock || a.noblock_ok) ∧
    (connect_options_fail a port).2.sock = port.sock ∧
    (connect_options_fail a port).2.addr_cur = port.addr_cur ∧
    (connect_options_fail a port).2.status = port.status := by
  unfold connect_options_fail rdc_set_noblock
  rw [hok]
  cases h1 : port.noblock <;> cases h2 : a.noblock_ok <;> cases h3 : a.nodelay_ok <;>
    cases h4 : a.keepalive_ok <;> cases h5 : a.cloexec_ok <;>
    simp [rdc_puterror, h1]

/-- The walk of state NEEDED over the address list: it ends at the first
address on which the port does not fail hard, and with BAD and an invalid
socket if there is none. -/
theorem needed_walk (l : List AddrInfo) :
    ∀ s : PSt, s.p.sock = PGINVALID_SOCKET →
      (first_ok s.p.noblock l = none →
        ∃ s', needed_loop s l = .inl (.ret RDC_POLLING_FAILED s') ∧
          s'.p.status = RDC_CONNECTION_BAD ∧ s'.p.sock = PGINVALID_SOCKET) ∧
      (∀ a next, first_ok s.p.noblock l = some (a :: next) →
        ∃ s', s'.p.addr_cur = a :: next ∧ s'.p.status = RDC_CONNECTION_STARTED ∧
          s'.p.sock = a.socket_fd ∧ a.socket_fd ≠ PGINVALID_SOCKET ∧
          ((a.connect = ConnectOutcome.inprogress ∧
              needed_loop s l = .inl (.ret RDC_POLLING_WRITING s') ∧
              s'.p.wait_events = WAIT_SOCKET_WRITEABLE) ∨
           (a.connect = ConnectOutcome.connected ∧ needed_loop s l = .inr s'))) := by
  induction l with
  | nil =>
    intro s hs
    refine ⟨fun _ => ⟨_, rfl, rfl, hs⟩, fun a next h => ?_⟩
    simp [first_ok] at h
  | cons a rest ih =>
    intro s hs
    by_cases hinet : a.is_inet = true
    · by_cases hsock : a.socket_fd = PGINVALID_SOCKET
      · -- socket() fails
        have hok : addr_ok s.p.noblock a = false := by simp [addr_ok, hsock]
        have hnb : nb_next s.p.noblock a = s.p.noblock := by simp [nb_next, hsock]
        simp only [first_ok, hok, Bool.false_eq_true, if_false, hnb]
        by_cases hrest : rest = []
        · subst hrest
          refine ⟨fun _ => ?_, fun b next h => by simp [first_ok] at h⟩
          simp only [needed_loop, hinet, Bool.not_true, Bool.false_eq_true, if_false, hsock,
            if_true, ne_eq, not_true_eq_false]
          exact ⟨_, rfl, rfl, rfl⟩
        · have hstep : needed_loop s (a :: rest) =
              needed_loop
                { s with p := { s.p with addr_cur := a :: rest, sock := a.socket_fd,
                                         pg_set_noblock_ok := a.noblock_ok } } rest := by
            simp only [needed_loop, hinet, Bool.not_true, Bool.false_eq_true, if_false, hsock,
              if_true, ne_eq, hrest, not_false_eq_true]
          rw [hstep]
          exact ih
            { s with p := { s.p with addr_cur := a :: rest, sock := a.socket_fd,
                                     pg_set_noblock_ok := a.noblock_ok } } hsock
      · -- the socket is created
        obtain ⟨o1, o2, o3, o4, o5⟩ := connect_options_spec a
          { s.p with addr_cur := a :: rest, sock := a.socket_fd,
                     pg_set_noblock_ok := a.noblock_ok } rfl
        by_cases hopt : ((s.p.noblock || a.noblock_ok) && a.nodelay_ok && a.keepalive_ok &&
            a.cloexec_ok) = true
        · have ho1 : (connect_options_fail a
              { s.p with addr_cur := a :: rest, sock := a.socket_fd,
                         pg_set_noblock_ok := a.noblock_ok }).1 = false := by
            rw [o1]; simp only at hopt ⊢; rw [hopt]; rfl
          cases hconn : a.connect with
          | fail =>
            have hok : addr_ok s.p.noblock a = false := by simp [addr_ok, hconn]
            have hstep : needed_loop s (a :: rest) =
                needed_loop
                  ((PSt.err { s with p := (connect_options_fail a
                    { s.p with addr_cur := a :: rest, sock := a.socket_fd,
                               pg_set_noblock_ok := a.noblock_ok }).2 }
                    "fail to connect [%s:%ld] \x7b%s:%s\x7d: %m").dropConn true) rest := by
              simp only [needed_loop, hinet, Bool.not_true, Bool.false_eq_true, if_false, hsock,
                ho1, hconn]
            have hnb : nb_next s.p.noblock a = (s.p.noblock || a.noblock_ok) := by
              simp [nb_next, hinet, hsock]
            have hnb2 : ((PSt.err { s with p := (connect_options_fail a
                    { s.p with addr_cur := a :: rest, sock := a.socket_fd,
                               pg_set_noblock_ok := a.noblock_ok }).2 }
                    "fail to connect [%s:%ld] \x7b%s:%s\x7d: %m").dropConn true).p.noblock =
                (s.p.noblock || a.noblock_ok) := o2
            simp only [first_ok, hok, Bool.false_eq_true, if_false, hnb]
            rw [hstep, ← hnb2]
            exact ih
              ((PSt.err { s with p := (connect_options_fail a
                    { s.p with addr_cur := a :: rest, sock := a.socket_fd,
                               pg_set_noblock_ok := a.noblock_ok }).2 }
                    "fail to connect [%s:%ld] \x7b%s:%s\x7d: %m").dropConn true) rfl
          | inprogress =>
            have hok : addr_ok s.p.noblock a = true := by
              have h1 : decide (a.socket_fd ≠ PGINVALID_SOCKET) = true := by simpa using hsock
              simp only [addr_ok, hinet, hconn, h1]
              revert hopt
              cases s.p.noblock <;> cases a.noblock_ok <;> cases a.nodelay_ok <;>
                cases a.keepalive_ok <;> cases a.cloexec_ok <;> simp
            simp only [first_ok, hok, if_true]
            refine ⟨(fun h => by cases h), fun b next h => ?_⟩
            simp only [Option.some.injEq, List.cons.injEq] at h
            obtain ⟨hb, hn⟩ := h
            subst hb
            subst hn
            have hcall : needed_loop s (a :: rest) = .inl (.ret RDC_POLLING_WRITING
                { p := { (connect_options_fail a
                          { s.p with addr_cur := a :: rest, sock := a.socket_fd,
                                     pg_set_noblock_ok := a.noblock_ok }).2 with
                         status := RDC_CONNECTION_STARTED,
                         wait_events := WAIT_SOCKET_WRITEABLE },
                  g := s.g }) := by
              simp only [needed_loop, hinet, Bool.not_true, Bool.false_eq_true, if_false,
                hsock, ho1, hconn]
            exact ⟨
                { p := { (connect_options_fail a
                          { s.p with addr_cur := a :: rest, sock := a.socket_fd,
                                     pg_set_noblock_ok := a.noblock_ok }).2 with
                         status := RDC_CONNECTION_STARTED,
                         wait_events := WAIT_SOCKET_WRITEABLE },
                  g := s.g }, o4, rfl, o3, hsock, Or.inl ⟨hconn, hcall, rfl⟩⟩
          | connected =>
            have hok : addr_ok s.p.noblock a = true := by
              have h1 : decide (a.socket_fd ≠ PGINVALID_SOCKET) = true := by simpa using hsock
              simp only [addr_ok, hinet, hconn, h1]
              revert hopt
              cases s.p.noblock <;> cases a.noblock_ok <;> cases a.nodelay_ok <;>
                cases a.keepalive_ok <;> cases a.cloexec_ok <;> simp
            simp only [first_ok, hok, if_true]
            refine ⟨(fun h => by cases h), fun b next h => ?_⟩
            simp only [Option.some.injEq, List.cons.injEq] at h
            obtain ⟨hb, hn⟩ := h
            subst hb
            subst hn
            have hcall : needed_loop s (a :: rest) = .inr
                { p := { (connect_options_fail a
                          { s.p with addr_cur := a :: rest, sock := a.socket_fd,
                                     pg_set_noblock_ok := a.noblock_ok }).2 with
                         status := RDC_CONNECTION_STARTED },
                  g := s.g } := by
              simp only [needed_loop, hinet, Bool.not_true, Bool.false_eq_true, if_false,
                hsock, ho1, hconn]
            exact ⟨
                { p := { (connect_options_fail a
                          { s.p with addr_cur := a :: rest, sock := a.socket_fd,
                                     pg_set_noblock_ok := a.noblock_ok }).2 with
                         status := RDC_CONNECTION_STARTED },
                  g := s.g }, o4, rfl, o3, hsock, Or.inr ⟨hconn, hcall⟩⟩
        · have ho1 : (connect_options_fail a
              { s.p with addr_cur := a :: rest, sock := a.socket_fd,
                         pg_set_noblock_ok := a.noblock_ok }).1 = true := by
            rw [o1]
            revert hopt
            cases s.p.noblock <;> cases a.noblock_ok <;> cases a.nodelay_ok <;>
              cases a.keepalive_ok <;> cases a.cloexec_ok <;> simp
          have hok : addr_ok s.p.noblock a = false := by
            simp only [addr_ok]
            revert hopt
            cases s.p.noblock <;> cases a.noblock_ok <;> cases a.nodelay_ok <;>
              cases a.keepalive_ok <;> cases a.cloexec_ok <;> simp
          have hstep : needed_loop s (a :: rest) =
              needed_loop
                (PSt.dropConn { s with p := (connect_options_fail a
                  { s.p with addr_cur := a :: rest, sock := a.socket_fd,
                             pg_set_noblock_ok := a.noblock_ok }).2 } true) rest := by
            simp only [needed_loop, hinet, Bool.not_true, Bool.false_eq_true, if_false, hsock,
              ho1, if_true]
          have hnb : nb_next s.p.noblock a = (s.p.noblock || a.noblock_ok) := by
            simp [nb_next, hinet, hsock]
          have hnb2 : (PSt.dropConn { s with p := (connect_options_fail a
                  { s.p with addr_cur := a :: rest, sock := a.socket_fd,
                             pg_set_noblock_ok := a.noblock_ok }).2 } true).p.noblock =
              (s.p.noblock || a.noblock_ok) := o2
          simp only [first_ok, hok, Bool.false_eq_true, if_false, hnb]
          rw [hstep, ← hnb2]
          exact ih
            (PSt.dropConn { s with p := (connect_options_fail a
                  { s.p with addr_cur := a :: rest, sock := a.socket_fd,
                             pg_set_noblock_ok := a.noblock_ok }).2 } true) rfl
    · -- not an IPv4 address
      have hinet' : a.is_inet = false := by simpa using hinet
      have hok : addr_ok s.p.noblock a = false := by simp [addr_ok, hinet']
      have hnb : nb_next s.p.noblock a = s.p.noblock := by simp [nb_next, hinet']
      have hstep : needed_loop s (a :: rest) =
          needed_loop { s with p := { s.p with addr_cur := a :: rest } } rest := by
        simp only [needed_loop, hinet', Bool.not_false, if_true]
      simp only [first_ok, hok, Bool.false_eq_true, if_false, hnb]
      rw [hstep]
      exact ih { s with p := { s.p with addr_cur := a :: rest } } hs

/-- Where `first_ok` finds its address: after a prefix of addresses each of
which fails hard. -/
theorem first_ok_split (l : List AddrInfo) :
    ∀ (nb : Bool) (a : AddrInfo) (next : List AddrInfo), first_ok nb l = some (a :: next) →
      ∃ pre, l = pre ++ a :: next ∧ (∀ b ∈ pre, addr_ok false b = false) ∧
        (a.connect ≠ ConnectOutcome.fail) := by
  induction l with
  | nil => intro nb a next h; simp [first_ok] at h
  | cons b rest ih =>
    intro nb a next h
    simp only [first_ok] at h
    by_cases hb : addr_ok nb b = true
    · rw [if_pos hb] at h
      simp only [Option.some.injEq, List.cons.injEq] at h
      obtain ⟨h1, h2⟩ := h
      subst h1
      subst h2
      refine ⟨[], rfl, (fun c hc => by cases hc), ?_⟩
      simp only [addr_ok, Bool.and_eq_true, decide_eq_true_eq] at hb
      exact hb.2
    · rw [if_neg hb] at h
      obtain ⟨pre, h1, h2, h3⟩ := ih _ a next h
      refine ⟨b :: pre, by rw [h1]; rfl, ?_, h3⟩
      intro c hc
      rcases List.mem_cons.mp hc with hc | hc
      · subst hc
        revert hb
        simp only [addr_ok]
        cases nb <;> simp
        tauto
      · exact h2 c hc

/-- C30: the address walk of `rdc_connect_poll` in state NEEDED, entered
(as everywhere in the sources) with no socket.  A non-IPv4 address is skipped
with only the cursor moved.  If some address of the list from the cursor does
not fail hard, the walk stops at the first one, with the cursor on it, its
socket in the port and status STARTED: the call returns WRITING when its
`connect` is in progress and goes on at `keep_going` when it is connected.
If there is none, the call returns FAILED with status BAD and no socket. -/
theorem address_walk (E : Env) (fuel : Nat) (s : PSt)
    (hst : s.p.status = RDC_CONNECTION_NEEDED) (hsock : s.p.sock = PGINVALID_SOCKET) :
    (∀ (a : AddrInfo) (next : List AddrInfo), a.is_inet = false →
      needed_loop s (a :: next) =
        needed_loop { s with p := { s.p with addr_cur := a :: next } } next) ∧
    (first_ok s.p.noblock s.p.addr_cur = none →
      ∃ s', rdc_connect_poll E (fuel + 1) s = .ret RDC_POLLING_FAILED s' ∧
        s'.p.status = RDC_CONNECTION_BAD ∧ s'.p.sock = PGINVALID_SOCKET) ∧
    (∀ (a : AddrInfo) (next : List AddrInfo),
      first_ok s.p.noblock s.p.addr_cur = some (a :: next) →
      ∃ s', s'.p.addr_cur = a :: next ∧ s'.p.status = RDC_CONNECTION_STARTED ∧
        s'.p.sock = a.socket_fd ∧ a.socket_fd ≠ PGINVALID_SOCKET ∧
        ((a.connect = ConnectOutcome.inprogress ∧
            rdc_connect_poll E (fuel + 1) s = .ret RDC_POLLING_WRITING s' ∧
            s'.p.wait_events = WAIT_SOCKET_WRITEABLE) ∨
         (a.connect = ConnectOutcome.connected ∧
            rdc_connect_poll E (fuel + 1) s = keep_going E (fuel + 1) fuel s'))) := by
  have hl : ∀ r, needed_loop s s.p.addr_cur = .inl r → rdc_connect_poll E (fuel + 1) s = r := by
    intro r h
    simp only [rdc_connect_poll, hst, keep_going, h]
  have hr : ∀ s1, needed_loop s s.p.addr_cur = .inr s1 →
      rdc_connect_poll E (fuel + 1) s = keep_going E (fuel + 1) fuel s1 := by
    intro s1 h
    simp only [rdc_connect_poll, hst, keep_going, h]
  obtain ⟨hnone, hsome⟩ := needed_walk s.p.addr_cur s hsock
  refine ⟨?_, ?_, ?_⟩
  · intro a next ha
    rw [needed_loop]
    simp [ha]
  · intro h
    obtain ⟨s', h1, h2, h3⟩ := hnone h
    exact ⟨s', hl _ h1, h2, h3⟩
  · intro a next h
    obtain ⟨s', h1, h2, h3, h4, h5⟩ := hsome a next h
    refine ⟨s', h1, h2, h3, h4, ?_⟩
    rcases h5 with ⟨c1, c2, c3⟩ | ⟨c1, c2⟩
    · exact Or.inl ⟨c1, hl _ c2, c3⟩
    · exact Or.inr ⟨c1, hr _ c2⟩

/-- The port of `rdc_getmessage` after it has been set blocking. -/
theorem getmessage_entry (s : PSt) :
    ∃ s0 : PSt, (if s.p.noblock = true then { s with p := (rdc_set_block s.p).2 } else s) = s0 ∧
      s0.p.in_buf = s.p.in_buf ∧ s0.p.noblock = false ∧
      s0.p.pg_set_noblock_ok = s.p.pg_set_noblock_ok := by
  cases hb : s.p.noblock
  · exact ⟨s, by simp, rfl, hb, rfl⟩
  · exact ⟨{ s with p := (rdc_set_block s.p).2 }, by simp, rfl, rfl, rfl⟩

/-- What the restore at `eof_end` keeps when setting the port nonblocking
again does not fail. -/
theorem getmessage_restore_ok (sv : Bool) (s : PSt) (hnb : s.p.noblock = false)
    (hok : sv = true → s.p.pg_set_noblock_ok = true) :
    (getmessage_restore sv s).p.err_buf = s.p.err_buf ∧
    (getmessage_restore sv s).p.in_buf = s.p.in_buf ∧
    (getmessage_restore sv s).p.noblock = sv := by
  cases sv
  · simp [getmessage_restore, hnb]
  · simp [getmessage_restore, rdc_set_noblock, hnb, hok rfl]

/-- The length validation of `rdc_getmessage` on a buffered header whose tag
byte is not 0xFF: a length word below 4 or above a positive `maxlen` gives
EOF and the error "invalid message length"; a valid length word whose
payload is buffered gives the tag, with the cursor at the payload. -/
theorem getmessage_length (E : Env) (fuel : Nat) (s : PSt) (maxlen tagb L : Nat)
    (rest : List Nat)
    (hun : s.p.in_buf.unread = tagb :: (beEncode 4 L ++ rest))
    (hL : L < 2 ^ 32) (htag : toChar ((tagb % 256 : Nat) : Int) ≠ EOF)
    (hlen : s.p.in_buf.len < 2 ^ 64)
    (hok : s.p.noblock = true → s.p.pg_set_noblock_ok = true) :
    ((L < 4 ∨ (maxlen > 0 ∧ L > maxlen)) →
      ∃ s', rdc_getmessage E (fuel + 1) s maxlen = .ret EOF s' ∧
        s'.p.err_buf.data = cstr "invalid message length" ∧
        s'.p.noblock = s.p.noblock) ∧
    (4 ≤ L → (maxlen = 0 ∨ L ≤ maxlen) → L - 4 ≤ rest.length →
      ∃ s', rdc_getmessage E (fuel + 1) s maxlen = .ret (toChar ((tagb % 256 : Nat) : Int)) s' ∧
        s'.p.in_buf = s.p.in_buf.adv 5 ∧ s'.p.noblock = false) := by
  obtain ⟨s0, hs0, hin, hnb0, hpg⟩ := getmessage_entry s
  have hun0 : s0.p.in_buf.unread = tagb :: (beEncode 4 L ++ rest) := by rw [hin]; exact hun
  have hul := unread_length s.p.in_buf
  rw [hun] at hul
  simp only [List.length_cons, List.length_append, beEncode_length] at hul
  have h1 : rdc_getbyte s0 = .ret ((tagb % 256 : Nat) : Int) (s0.adv 1) := getbyte_adv s0 tagb _ hun0
  have h2 : rdc_getbytes E (fuel + 1) (s0.adv 1) 4 = .ret 0 (s0.adv 1) := by
    apply rdc_getbytes_enough
    · simp only [padv_in_buf, adv_cursor, adv_len, hin]; omega
    · simp only [padv_in_buf, adv_len, hin]; exact hlen
  have h3 : rdc_getmsgint (s0.adv 1).p.in_buf 4 = some (L, (s0.adv 1).p.in_buf.adv 4) := by
    have := getmsgint_adv (s0.adv 1).p.in_buf 4 (beEncode 4 L) rest
      (by simp [hun0]) (beEncode_length 4 L)
      (by simp only [padv_in_buf, adv_cursor, adv_len, hin]; omega)
    rw [this, beDecode_beEncode_of_lt 4 L (by simpa using hL)]
  have hmod : L % 2 ^ 32 = L := Nat.mod_eq_of_lt hL
  refine ⟨fun hbad => ?_, fun h4 hmax hpay => ?_⟩
  · have hcall : rdc_getmessage E (fuel + 1) s maxlen = .ret EOF
        (getmessage_restore s.p.noblock
          (((s0.adv 1).setIn ((s0.adv 1).p.in_buf.adv 4)).err "invalid message length")) := by
      unfold rdc_getmessage
      simp only [hs0, h1, h2, h3, hmod, if_neg htag, if_neg EOF_ne_zero, if_pos hbad]
    have hr := getmessage_restore_ok s.p.noblock
      (((s0.adv 1).setIn ((s0.adv 1).p.in_buf.adv 4)).err "invalid message length")
      (by simpa [PSt.err, rdc_puterror] using hnb0)
      (fun h => by have h1 := hok h; rw [← hpg] at h1; exact h1)
    exact ⟨_, hcall, by rw [hr.1]; rfl, hr.2.2⟩
  · have hgood : ¬ (L < 4 ∨ (maxlen > 0 ∧ L > maxlen)) := by omega
    by_cases hp : L - 4 > 0
    · have h4b : rdc_getbytes E (fuel + 1) ((s0.adv 1).setIn ((s0.adv 1).p.in_buf.adv 4)) (L - 4) =
          .ret 0 ((s0.adv 1).setIn ((s0.adv 1).p.in_buf.adv 4)) := by
        apply rdc_getbytes_enough
        · simp only [setIn_in_buf, padv_in_buf, adv_cursor, adv_len, hin]; omega
        · simp only [setIn_in_buf, padv_in_buf, adv_len, hin]; exact hlen
      have hcall : rdc_getmessage E (fuel + 1) s maxlen = .ret (toChar ((tagb % 256 : Nat) : Int))
          ((s0.adv 1).setIn ((s0.adv 1).p.in_buf.adv 4)) := by
        unfold rdc_getmessage
        simp only [hs0, h1, h2, h3, hmod, if_neg htag, if_neg EOF_ne_zero, if_neg hgood,
          if_pos hp, h4b]
      exact ⟨_, hcall, by simp [hin], by simpa using hnb0⟩
    · have hcall : rdc_getmessage E (fuel + 1) s maxlen = .ret (toChar ((tagb % 256 : Nat) : Int))
          ((s0.adv 1).setIn ((s0.adv 1).p.in_buf.adv 4)) := by
        unfold rdc_getmessage
        simp only [hs0, h1, h2, h3, hmod, if_neg htag, if_neg EOF_ne_zero, if_neg hgood,
          if_neg hp]
      exact ⟨_, hcall, by simp [hin], by simpa using hnb0⟩

/-- C21, failing input: the tag byte 0xFF.  Kept in a `char` it compares equal
to `EOF`, so `rdc_getmessage` never looks at the length word: with the
length word 0 it reports "unexpected EOF on client connection" and not
"invalid message length", and with the valid length word 4 it returns EOF
and not the tag.  The same headers with the tag byte 80 give "invalid
message length" and the tag. -/
theorem getmessage_tag_ff :
    (∃ s', rdc_getmessage exEnv 1 (exBuffered [255, 0, 0, 0, 0]) 0 = .ret EOF s' ∧
      s'.p.err_buf.data = cstr "unexpected EOF on client connection: %m" ∧
      s'.p.in_buf.unread = [0, 0, 0, 0]) ∧
    (∃ s', rdc_getmessage exEnv 1 (exBuffered [255, 0, 0, 0, 4]) 0 = .ret EOF s' ∧
      s'.p.err_buf.data = cstr "unexpected EOF on client connection: %m" ∧
      s'.p.in_buf.unread = [0, 0, 0, 4]) ∧
    (∃ s', rdc_getmessage exEnv 1 (exBuffered [80, 0, 0, 0, 0]) 0 = .ret EOF s' ∧
      s'.p.err_buf.data = cstr "invalid message length") ∧
    (∃ s', rdc_getmessage exEnv 1 (exBuffered [80, 0, 0, 0, 4]) 0 = .ret 80 s' ∧
      s'.p.in_buf.unread = []) :=
  ⟨⟨_, rfl, rfl, rfl⟩, ⟨_, rfl, rfl, rfl⟩, ⟨_, rfl, rfl⟩, ⟨_, rfl, rfl⟩⟩

/-- A payload that arrives after the header: the header of a message of two
payload bytes is buffered and the next `recv` delivers the two bytes; the
port, set blocking, waits for them and the tag is returned. -/
theorem getmessage_payload_arrives :
    ∃ s', rdc_getmessage exEnv 2
        { (exBuffered [82, 0, 0, 0, 6]) with
          p := { (exBuffered [82, 0, 0, 0, 6]).p with recvs := [RecvOutcome.bytes [1, 2]] } } 0 =
        .ret 82 s' ∧
      s'.p.in_buf.unread = [1, 2] ∧ s'.p.noblock = false :=
  ⟨_, rfl, rfl, rfl⟩

/-- One round of the loop of `HandleWriteToPlan` in which the out-buffer is
sent whole: the overflow buffer is adopted and the store is asked for more. -/
theorem write_plan_step (E : Env)
    (gm : List (List Nat) → StringInfo → StringInfo → Fetched) (fuel : Nat) (st : WSt)
    (s1 : PSt) (buf : StringInfo)
    (hsend : plan_send_loop { p := st.work, g := st.g } st.work.sends = .ret () s1)
    (hdr : ¬ s1.p.out_buf.cursor < s1.p.out_buf.len)
    (happ : appendBinaryStringInfo E (resetStringInfo s1.p.out_buf) st.out_buf2.data = some buf) :
    write_plan_loop E gm (fuel + 1) st =
      if (gm st.pp.rdcstore buf (resetStringInfo st.out_buf2)).count = 0 then
        .ret ()
          { work := { s1.p with
                      out_buf := (gm st.pp.rdcstore buf (resetStringInfo st.out_buf2)).buf,
                      wait_events := { s1.p.wait_events with writable := false } },
            out_buf2 := (gm st.pp.rdcstore buf (resetStringInfo st.out_buf2)).buf2,
            pp := { st.pp with
                    rdcstore := (gm st.pp.rdcstore buf (resetStringInfo st.out_buf2)).rdcstore },
            g := s1.g }
      else
        write_plan_loop E gm fuel
          { work := { s1.p with
                      out_buf := (gm st.pp.rdcstore buf (resetStringInfo st.out_buf2)).buf },
            out_buf2 := (gm st.pp.rdcstore buf (resetStringInfo st.out_buf2)).buf2,
            pp := { st.pp with
                    rdcstore := (gm st.pp.rdcstore buf (resetStringInfo st.out_buf2)).rdcstore,
                    send_to_pln := st.pp.send_to_pln +
                      (gm st.pp.rdcstore buf (resetStringInfo st.out_buf2)).count },
            g := s1.g } := by
  rw [write_plan_loop]
  simp only [hsend, if_neg hdr, happ]

/-- When the loop of `HandleWriteToPlan` returns with WRITABLE cleared, the
out-buffer is what the last fetch, which returned 0, left of the adopted
overflow buffer. -/
theorem write_plan_cleared (E : Env)
    (gm : List (List Nat) → StringInfo → StringInfo → Fetched) :
    ∀ (fuel : Nat) (st st' : WSt), write_plan_loop E gm fuel st = .ret () st' →
      st'.work.wait_events.writable = false →
      ∃ (drained b2 buf : StringInfo) (store : List (List Nat)),
        ¬ drained.cursor < drained.len ∧
        appendBinaryStringInfo E (resetStringInfo drained) b2.data = some buf ∧
        (gm store buf (resetStringInfo b2)).count = 0 ∧
        st'.work.out_buf = (gm store buf (resetStringInfo b2)).buf ∧
        st'.out_buf2 = (gm store buf (resetStringInfo b2)).buf2 ∧
        st'.pp.rdcstore = (gm store buf (resetStringInfo b2)).rdcstore := by
  intro fuel
  induction fuel with
  | zero => intro st st' h; simp [write_plan_loop] at h
  | succ k ih =>
    intro st st' h hw
    rw [write_plan_loop] at h
    cases hs : plan_send_loop { p := st.work, g := st.g } st.work.sends with
    | stuck => simp [hs] at h
    | raised s1 => simp [hs] at h
    | ret u s1 =>
      simp only [hs] at h
      by_cases hdr : s1.p.out_buf.cursor < s1.p.out_buf.len
      · rw [if_pos hdr] at h
        simp only [Res.ret.injEq, true_and] at h
        subst h
        simp at hw
      · rw [if_neg hdr] at h
        cases happ : appendBinaryStringInfo E (resetStringInfo s1.p.out_buf) st.out_buf2.data with
        | none => simp [happ] at h
        | some buf =>
          simp only [happ] at h
          by_cases hc : (gm st.pp.rdcstore buf (resetStringInfo st.out_buf2)).count = 0
          · rw [if_pos hc] at h
            simp only [Res.ret.injEq, true_and] at h
            subst h
            exact ⟨s1.p.out_buf, st.out_buf2, buf, st.pp.rdcstore, hdr, happ, hc, rfl, rfl, rfl⟩
          · rw [if_neg hc] at h
            exact ih _ st' h hw

/-- The modelled store returns 0 only when it holds no frame, and then leaves
the two buffers as they are. -/
theorem gettuple_multi_zero (store : List (List Nat)) (buf buf2 : StringInfo)
    (h : (rdcstore_gettuple_multi store buf buf2).count = 0) :
    store = [] ∧ (rdcstore_gettuple_multi store buf buf2).buf = buf ∧
      (rdcstore_gettuple_multi store buf buf2).buf2 = buf2 := by
  cases store with
  | nil => exact ⟨rfl, rfl, rfl⟩
  | cons f rest =>
    simp only [rdcstore_gettuple_multi] at h
    split at h <;> simp at h

/-- Appending to a buffer that has just been reset leaves the appended bytes,
unread. -/
theorem append_after_reset (E : Env) (b : StringInfo) (bs : List Nat) (buf : StringInfo)
    (h : appendBinaryStringInfo E (resetStringInfo b) bs = some buf) :
    buf.data = bs ∧ buf.cursor = 0 := by
  unfold appendBinaryStringInfo at h
  cases he : enlargeStringInfo E (resetStringInfo b) bs.length with
  | none => simp [he] at h
  | some str1 =>
    simp only [he, Option.some.injEq] at h
    obtain ⟨hd, hc, _⟩ := enlarge_some E _ _ _ he
    subst h
    exact ⟨by simp [hd, resetStringInfo], by simp [hc, resetStringInfo]⟩

/-- What is left when WRITABLE is cleared: the store and the overflow buffer
are empty, and of the out-buffer, which holds what was adopted from the
overflow buffer, nothing has been sent.  So the out-buffer has no unsent
bytes only if it is empty. -/
theorem cleared_holds_overflow (E : Env) (fuel : Nat) (st st' : WSt)
    (h : write_plan_loop E rdcstore_gettuple_multi fuel st = .ret () st')
    (hw : st'.work.wait_events.writable = false) :
    st'.work.out_buf.cursor = 0 ∧ st'.out_buf2.data = [] ∧ st'.pp.rdcstore = [] ∧
      (st'.work.out_buf.cursor = st'.work.out_buf.len ↔ st'.work.out_buf.data = []) := by
  obtain ⟨drained, b2, buf, store, _, happ, hc, hout, hout2, hstore⟩ :=
    write_plan_cleared E rdcstore_gettuple_multi fuel st st' h hw
  have hz := gettuple_multi_zero store buf (resetStringInfo b2) hc
  rw [hz.2.1] at hout
  rw [hz.2.2] at hout2
  have ha := append_after_reset E drained b2.data buf happ
  have hcur : st'.work.out_buf.cursor = 0 := by rw [hout, ha.2]
  refine ⟨hcur, by rw [hout2]; rfl, ?_, ?_⟩
  · rw [hstore, hz.1]
    rfl
  · rw [hcur, StringInfo.len]
    constructor
    · intro e
      exact List.length_eq_zero.mp e.symm
    · intro e
      rw [e]
      rfl

/-- With nothing left to send the send loop of `HandleWriteToPlan` calls
`send` not at all. -/
theorem plan_send_drained (s : PSt) (l : List SendOutcome)
    (h : ¬ s.p.out_buf.cursor < s.p.out_buf.len) : plan_send_loop s l = .ret () s := by
  cases l with
  | nil => simp [plan_send_loop, h]
  | cons o rest => simp [plan_send_loop, h]

/-- A socket that takes the whole out-buffer at once. -/
theorem plan_send_all (s : PSt) (r : Nat) (rest : List SendOutcome)
    (hc : s.p.out_buf.cursor = 0) (hne : 0 < s.p.out_buf.len) (hr : s.p.out_buf.len ≤ r) :
    plan_send_loop s (SendOutcome.accepted r :: rest) =
      .ret () { s with p := { s.p with
                  out_buf := { s.p.out_buf with cursor := s.p.out_buf.len },
                  wire := s.p.wire ++ s.p.out_buf.data,
                  sends := rest } } := by
  have hlt : s.p.out_buf.cursor < s.p.out_buf.len := by omega
  have hn : max 1 (min r (s.p.out_buf.len - s.p.out_buf.cursor)) = s.p.out_buf.len := by
    rw [hc]; omega
  rw [plan_send_loop]
  simp only [if_pos hlt, hn]
  rw [plan_send_drained _ _ (by simp [hc, StringInfo.len])]
  simp [hc, StringInfo.len]

/-- Appending to an empty buffer with room for the bytes. -/
theorem append_reset_room (E : Env) (henl : ∀ b n, E.enlarge_fails b n = false)
    (b : StringInfo) (bs : List Nat) (h : bs.length < b.maxlen) :
    appendBinaryStringInfo E (resetStringInfo b) bs =
      some { data := bs, cursor := 0, maxlen := b.maxlen } := by
  have h2 : (bs.length : Int).toNat + (resetStringInfo b).len + 1 ≤ (resetStringInfo b).maxlen := by
    simp [resetStringInfo, StringInfo.len]; omega
  unfold appendBinaryStringInfo enlargeStringInfo
  rw [henl]
  simp only [Bool.false_eq_true, if_false, if_pos h2]
  simp [resetStringInfo]

/-- Two frames in the store of which the second does not fit into the
out-buffer with the first: the first is sent, the second is adopted from the
overflow buffer, the store returns 0 and WRITABLE is cleared with the second
frame unsent; both frames are counted in `send_to_pln`. -/
theorem overflow_unsent (E : Env) (fuel : Nat) (st : WSt) (f1 f2 : List Nat) (r : Nat)
    (rest : List SendOutcome)
    (henl : ∀ b n, E.enlarge_fails b n = false)
    (hvalid : PortIsValid st.work = true) (hw : st.work.wait_events.writable = true)
    (hnb : st.work.noblock = true)
    (hbuf : st.work.out_buf.data = []) (hb2 : st.out_buf2.data = [])
    (hstore : st.pp.rdcstore = [f1, f2])
    (hs : st.work.sends = SendOutcome.accepted r :: rest) (hr : f1.length ≤ r)
    (hf1 : f1 ≠ [])
    (hfit : f1.length < st.work.out_buf.maxlen)
    (hover : st.work.out_buf.maxlen ≤ f1.length + f2.length)
    (hroom : f2.length < st.work.out_buf.maxlen) :
    ∃ st', HandleWriteToPlan_worker E rdcstore_gettuple_multi (fuel + 2) st = .ret () st' ∧
      st'.work.wait_events.writable = false ∧
      st'.work.out_buf.unread = f2 ∧
      st'.work.wire = st.work.wire ++ f1 ∧ st'.work.sends = rest ∧
      st'.pp.send_to_pln = st.pp.send_to_pln + 2 ∧ st'.pp.rdcstore = [] := by
  have hM : 0 < st.work.out_buf.maxlen := by omega
  have hf1l : 0 < f1.length := List.length_pos.mpr hf1
  have hd0 : ¬ st.work.out_buf.cursor < st.work.out_buf.len := by
    simp [StringInfo.len, hbuf]
  have e1 := write_plan_step E rdcstore_gettuple_multi (fuel + 1) st
    { p := st.work, g := st.g } { data := [], cursor := 0, maxlen := st.work.out_buf.maxlen }
    (plan_send_drained _ _ hd0) hd0
    (by rw [hb2]; exact append_reset_room E henl _ [] (by simpa using hM))
  have g1 : rdcstore_gettuple_multi st.pp.rdcstore
      { data := [], cursor := 0, maxlen := st.work.out_buf.maxlen }
      (resetStringInfo st.out_buf2) =
      { count := 2, rdcstore := [],
        buf := { data := f1, cursor := 0, maxlen := st.work.out_buf.maxlen },
        buf2 := { data := f2, cursor := 0, maxlen := st.out_buf2.maxlen } } := by
    rw [hstore]
    have c1 : (0 : Nat) + f1.length < st.work.out_buf.maxlen := by omega
    have c2 : ¬ f1.length + f2.length < st.work.out_buf.maxlen := by omega
    simp [rdcstore_gettuple_multi, StringInfo.len, c1, c2, hfit, resetStringInfo]
  rw [g1] at e1
  simp only [Nat.succ_ne_zero, if_false, OfNat.ofNat_ne_zero] at e1
  have e2 := write_plan_step E rdcstore_gettuple_multi fuel
    { work := { st.work with
                out_buf := { data := f1, cursor := 0, maxlen := st.work.out_buf.maxlen } },
      out_buf2 := { data := f2, cursor := 0, maxlen := st.out_buf2.maxlen },
      pp := { st.pp with rdcstore := [], send_to_pln := st.pp.send_to_pln + 2 },
      g := st.g }
    _ { data := f2, cursor := 0, maxlen := st.work.out_buf.maxlen }
    (by
      simp only [hs]
      exact plan_send_all _ r rest rfl (by simpa [StringInfo.len] using hf1l)
        (by simpa [StringInfo.len] using hr))
    (by simp [StringInfo.len])
    (append_reset_room E henl _ f2 (by simpa using hroom))
  have g2 : rdcstore_gettuple_multi []
      { data := f2, cursor := 0, maxlen := st.work.out_buf.maxlen }
      (resetStringInfo { data := f2, cursor := 0, maxlen := st.out_buf2.maxlen }) =
      { count := 0, rdcstore := [],
        buf := { data := f2, cursor := 0, maxlen := st.work.out_buf.maxlen },
        buf2 := resetStringInfo { data := f2, cursor := 0, maxlen := st.out_buf2.maxlen } } := rfl
  simp only [g2, if_true] at e2
  have hcall : HandleWriteToPlan_worker E rdcstore_gettuple_multi (fuel + 2) st =
      write_plan_loop E rdcstore_gettuple_multi (fuel + 2) st := by
    have hst : ({ st with work := st.work } : WSt) = st := rfl
    simp [HandleWriteToPlan_worker, hvalid, RdcWaitWrite, hw, rdc_set_noblock, hnb]
  rw [hcall, e1, e2]
  exact ⟨_, rfl, rfl, rfl, rfl, rfl, rfl, rfl⟩

/-- C28, failing input: a worker of plan 11 with empty out-buffers of 8192
bytes, armed for writing, whose socket takes whatever is sent, and a store
of two frames of 5005 bytes.  The first fetch puts the first frame into the
out-buffer and the second into the overflow buffer; the first is sent, the
second is adopted, the store then returns 0 and `HandleWriteToPlan` clears
WRITABLE with the whole second frame unsent in the out-buffer. -/
theorem overflow_left_unsent :
    ∃ st', HandleWriteToPlan_worker exEnv rdcstore_gettuple_multi 2
        (exWriter [frame 84 (List.replicate 5000 1), frame 84 (List.replicate 5000 2)]) =
        .ret () st' ∧
      st'.work.wait_events.writable = false ∧
      st'.work.out_buf.unread = frame 84 (List.replicate 5000 2) ∧
      st'.work.out_buf.cursor < st'.work.out_buf.len ∧
      st'.work.wire = frame 84 (List.replicate 5000 1) ∧
      st'.work.sends = [SendOutcome.accepted 10000] ∧
      st'.pp.send_to_pln = 2 ∧ st'.pp.rdcstore = [] := by
  have hl1 : (frame 84 (List.replicate 5000 1)).length = 5005 := by
    rw [frame, List.length_cons, List.length_append, beEncode_length, List.length_replicate]
  have hl2 : (frame 84 (List.replicate 5000 2)).length = 5005 := by
    rw [frame, List.length_cons, List.length_append, beEncode_length, List.length_replicate]
  have hne : frame 84 (List.replicate 5000 1) ≠ [] := by
    rw [frame]
    exact List.cons_ne_nil _ _
  obtain ⟨st', h1, h2, h3, h4, h5, h6, h7⟩ :=
    overflow_unsent exEnv 0
      (exWriter [frame 84 (List.replicate 5000 1), frame 84 (List.replicate 5000 2)])
      (frame 84 (List.replicate 5000 1)) (frame 84 (List.replicate 5000 2)) 10000
      [SendOutcome.accepted 10000] (fun _ _ => rfl) rfl rfl rfl rfl rfl rfl rfl
      (by rw [hl1]; omega) hne
      (by rw [hl1]; decide) (by rw [hl1, hl2]; decide) (by rw [hl2]; decide)
  have hlen : st'.work.out_buf.cursor < st'.work.out_buf.len := by
    have hu := unread_length st'.work.out_buf
    rw [h3, hl2] at hu
    omega
  have h4b : st'.work.wire = [] ++ frame 84 (List.replicate 5000 1) := h4
  rw [List.nil_append] at h4b
  exact ⟨st', h1, h2, h3, hlen, h4b, h5, h6, h7⟩

theorem recv_loop_addrs (A C : List AddrInfo) (script : List RecvOutcome) :
    ∀ s : PSt, AddrsAre A C s → (rdc_recv_loop s script).after (AddrsAre A C) := by
  induction script with
  | nil => intro s _; exact trivial
  | cons o rest ih =>
    intro s h
    cases o <;> simp only [rdc_recv_loop] <;>
      repeat' first
        | exact h
        | exact ih s h
        | split

theorem recv_addrs (A C : List AddrInfo) (s : PSt) (h : AddrsAre A C s) :
    (rdc_recv s).after (AddrsAre A C) := by
  unfold rdc_recv
  exact recv_loop_addrs A C _ _ h

theorem getbyte_addrs (A C : List AddrInfo) (s : PSt) (h : AddrsAre A C s) :
    (rdc_getbyte s).after (AddrsAre A C) := by
  have hb : ∀ t : PSt, AddrsAre A C t → (getbyte_buffered t).after (AddrsAre A C) := by
    intro t ht
    unfold getbyte_buffered
    split
    · exact ht
    · exact ht
  unfold rdc_getbyte
  split
  · split
    · exact h
    · apply after_bind _ _ _ (recv_addrs A C s h)
      intro r s1 h1
      split
      · exact h1
      · exact hb s1 h1
  · exact hb s h

theorem discard_addrs (A C : List AddrInfo) (fuel : Nat) :
    ∀ (s : PSt) (len : Nat), AddrsAre A C s →
      (rdc_discardbytes fuel s len).after (AddrsAre A C) := by
  induction fuel with
  | zero => intro s len _; exact trivial
  | succ n ih =>
    intro s len h
    unfold rdc_discardbytes
    split
    · exact h
    · split
      · apply after_bind _ _ _ (recv_addrs A C s h)
        intro r s1 h1
        split
        · exact h1
        · exact ih s1 len h1
      · exact ih _ _ h

theorem getbytes_loop_addrs (E : Env) (A C : List AddrInfo) (fuel : Nat) :
    ∀ (s : PSt) (len : Nat), AddrsAre A C s →
      (rdc_getbytes_loop E fuel s len).after (AddrsAre A C) := by
  induction fuel with
  | zero => intro s len _; exact trivial
  | succ n ih =>
    intro s len h
    unfold rdc_getbytes_loop
    simp only []
    split
    · exact h
    · split
      · split
        · exact h
        · split
          · apply after_bind _ _ _ (discard_addrs A C (n + 1) s len h)
            intro _ s1 h1
            exact h1
          · refine after_bind _ _ _ (recv_addrs A C _ ?_) ?_
            · exact h
            · intro r s1 h1
              split
              · exact h1
              · exact ih s1 len h1
      · split
        · exact h
        · exact ih s _ h

theorem getbytes_addrs (E : Env) (A C : List AddrInfo) (fuel : Nat) (s : PSt) (len : Nat)
    (h : AddrsAre A C s) : (rdc_getbytes E fuel s len).after (AddrsAre A C) := by
  unfold rdc_getbytes
  split
  · exact h
  · exact getbytes_loop_addrs E A C fuel s len h

theorem flush_buffer_addrs (A C : List AddrInfo) (block : Bool) (script : List SendOutcome) :
    ∀ s : PSt, AddrsAre A C s → (internal_flush_buffer block s script).after (AddrsAre A C) := by
  induction script with
  | nil =>
    intro s h
    simp only [internal_flush_buffer]
    split
    · exact trivial
    · exact h
  | cons o rest ih =>
    intro s h
    simp only [internal_flush_buffer]
    split
    · cases o with
      | accepted r => exact ih _ h
      | eintr => exact ih _ h
      | again =>
        simp only []
        split
        · exact ih _ h
        · exact h
      | fail => exact h
    · exact h

theorem flush_addrs (A C : List AddrInfo) (s : PSt) (h : AddrsAre A C s) :
    (rdc_flush s).after (AddrsAre A C) := by
  unfold rdc_flush
  apply after_bind _ _ _ (flush_buffer_addrs A C true _ s h)
  intro r s1 h1
  split
  · exact h1
  · exact h1

theorem put_loop_addrs (E : Env) (A C : List AddrInfo) (fuel : Nat) :
    ∀ (s : PSt) (bs : List Nat), AddrsAre A C s →
      (put_buffer_loop E fuel s bs).after (AddrsAre A C) := by
  induction fuel with
  | zero => intro s bs _; exact trivial
  | succ n ih =>
    intro s bs h
    unfold put_buffer_loop
    split
    · exact h
    · apply after_bind
      · split
        · exact flush_addrs A C s h
        · exact h
      · intro r s1 h1
        split
        · exact h1
        · simp only []
          split
          · exact h1
          · exact ih _ _ h1

theorem putmessage_addrs (E : Env) (A C : List AddrInfo) (fuel : Nat) (s : PSt) (bs : List Nat)
    (h : AddrsAre A C s) : (rdc_putmessage E fuel s bs).after (AddrsAre A C) := by
  unfold rdc_putmessage internal_put_buffer
  simp only [Bool.false_eq_true, if_false]
  exact put_loop_addrs E A C fuel s bs h

theorem send_rqt_addrs (E : Env) (A C : List AddrInfo) (fuel : Nat) (s : PSt) (t i : Nat)
    (h : AddrsAre A C s) : (rdc_send_startup_rqt E fuel s t i).after (AddrsAre A C) := by
  unfold rdc_send_startup_rqt
  apply after_bind _ _ _ (putmessage_addrs E A C fuel s _ h)
  intro r s1 h1
  split
  · exact h1
  · exact flush_addrs A C s1 h1

theorem send_rsp_addrs (E : Env) (A C : List AddrInfo) (fuel : Nat) (s : PSt) (t i : Nat)
    (h : AddrsAre A C s) : (rdc_send_startup_rsp E fuel s t i).after (AddrsAre A C) := by
  unfold rdc_send_startup_rsp
  apply after_bind _ _ _ (putmessage_addrs E A C fuel s _ h)
  intro r s1 h1
  split
  · exact h1
  · exact flush_addrs A C s1 h1

/-- A property of the end state passes through a conditional. -/
theorem after_ite {σ α : Type} (P : σ → Prop) (c : Prop) [Decidable c] (x y : Res σ α)
    (hx : c → x.after P) (hy : ¬ c → y.after P) : (if c then x else y).after P := by
  by_cases h : c
  · rw [if_pos h]; exact hx h
  · rw [if_neg h]; exact hy h

theorem addrs_err (A C : List AddrInfo) (s : PSt) (m : String) (h : AddrsAre A C s) :
    AddrsAre A C (s.err m) := h

theorem addrs_puterror (A C : List AddrInfo) (s : PSt) (m : List Nat) (h : AddrsAre A C s) :
    AddrsAre A C { p := rdc_puterror s.p m, g := s.g } := h

theorem addrs_setIn (A C : List AddrInfo) (s : PSt) (b : StringInfo) (h : AddrsAre A C s) :
    AddrsAre A C (s.setIn b) := h

theorem addrs_setCursor (A C : List AddrInfo) (s : PSt) (n : Nat) (h : AddrsAre A C s) :
    AddrsAre A C (s.setCursor n) := h

theorem addrs_dropConn (A C : List AddrInfo) (s : PSt) (b : Bool) (h : AddrsAre A C s) :
    AddrsAre A C (s.dropConn b) := by
  cases b <;> exact h

theorem addrs_status (A C : List AddrInfo) (s : PSt) (st : RdcConnStatusType)
    (h : AddrsAre A C s) : AddrsAre A C { s with p := { s.p with status := st } } := h

theorem addrs_version (A C : List AddrInfo) (s : PSt) (b : StringInfo) (v : Nat)
    (h : AddrsAre A C s) :
    AddrsAre A C { s with p := { s.p with in_buf := b, version := v } } := h

theorem addrs_peer_type (A C : List AddrInfo) (s : PSt) (b : StringInfo) (v : Nat)
    (h : AddrsAre A C s) :
    AddrsAre A C { s with p := { s.p with in_buf := b, peer_type := v } } := h

theorem addrs_peer_id (A C : List AddrInfo) (s : PSt) (b : StringInfo) (v : Nat)
    (h : AddrsAre A C s) :
    AddrsAre A C { s with p := { s.p with in_buf := b, peer_id := v } } := h

theorem recv_rsp_addrs (E : Env) (A C : List AddrInfo) (fuel : Nat) (s : PSt) (t i : Nat)
    (h : AddrsAre A C s) : (internal_recv_startup_rsp E fuel s t i).after (AddrsAre A C) := by
  unfold internal_recv_startup_rsp
  refine after_bind _ _ _ (getbyte_addrs A C _ h) ?_
  intro b s1 h1
  refine after_ite _ _ _ _ (fun _ => addrs_setCursor _ _ _ _ h1) (fun _ => ?_)
  refine after_ite _ _ _ _ (fun _ => addrs_err _ _ _ _ h1) (fun _ => ?_)
  refine after_bind _ _ _ (getbytes_addrs E A C fuel _ _ h1) ?_
  intro r s2 h2
  refine after_ite _ _ _ _ (fun _ => addrs_setCursor _ _ _ _ h2) (fun _ => ?_)
  cases hm : rdc_getmsgint s2.p.in_buf 4 with
  | none => exact h2
  | some x =>
    obtain ⟨length, buf3⟩ := x
    have h3 := addrs_setIn A C s2 buf3 h2
    refine after_ite _ _ _ _ (fun _ => addrs_err _ _ _ _ h3) (fun _ => ?_)
    refine after_bind _ _ _ (getbytes_addrs E A C fuel _ _ h3) ?_
    intro r4 s4 h4
    refine after_ite _ _ _ _ (fun _ => addrs_setCursor _ _ _ _ h4) (fun _ => ?_)
    refine after_ite _ _ _ _ (fun _ => ?_) (fun _ => ?_)
    · refine after_ite _ _ _ _ (fun _ => ?_) (fun _ => ?_)
      · cases hs : rdc_getmsgstring s4.p.in_buf with
        | none => exact h4
        | some y =>
          obtain ⟨errmsg, buf5⟩ := y
          have h5 := addrs_setIn A C s4 buf5 h4
          exact after_ite _ _ _ _ (fun _ => h5) (fun _ => addrs_puterror _ _ _ _ h5)
      · exact after_ite _ _ _ _ (fun _ => h4) (fun _ => addrs_err _ _ _ _ h4)
    · cases hm5 : rdc_getmsgint s4.p.in_buf 4 with
      | none => exact h4
      | some y =>
        obtain ⟨rsp_ver, buf5⟩ := y
        have h5 := addrs_setIn A C s4 buf5 h4
        refine after_ite _ _ _ _ (fun _ => addrs_err _ _ _ _ h5) (fun _ => ?_)
        cases hm6 : rdc_getmsgint (s4.setIn buf5).p.in_buf 4 with
        | none => exact h5
        | some z =>
          obtain ⟨rsp_type, buf6⟩ := z
          have h6 := addrs_setIn A C _ buf6 h5
          refine after_ite _ _ _ _ (fun _ => addrs_err _ _ _ _ h6) (fun _ => ?_)
          cases hm7 : rdc_getmsgRdcPortID ((s4.setIn buf5).setIn buf6).p.in_buf with
          | none => exact h6
          | some w =>
            obtain ⟨rsp_id, buf7⟩ := w
            have h7 := addrs_setIn A C _ buf7 h6
            refine after_ite _ _ _ _ (fun _ => addrs_err _ _ _ _ h7) (fun _ => ?_)
            exact after_ite _ _ _ _ (fun _ => h7) (fun _ => addrs_status _ _ _ _ h7)

theorem addrs_set_noblock (A C : List AddrInfo) (s : PSt) (h : AddrsAre A C s) :
    AddrsAre A C { s with p := (rdc_set_noblock s.p).2 } := by
  unfold rdc_set_noblock
  split
  · exact h
  · split
    · exact h
    · exact h

theorem recv_rqt_addrs (E : Env) (A C : List AddrInfo) (fuel : Nat) (s : PSt) (v : Nat)
    (h : AddrsAre A C s) : (internal_recv_startup_rqt E fuel s v).after (AddrsAre A C) := by
  have h0 := addrs_set_noblock A C s h
  unfold internal_recv_startup_rqt
  refine after_ite _ _ _ _ (fun _ => addrs_dropConn _ _ _ _ h0) (fun _ => ?_)
  refine after_bind _ _ _ (getbyte_addrs A C _ h0) ?_
  intro b s1 h1
  refine after_ite _ _ _ _ (fun _ => addrs_setCursor _ _ _ _ h1) (fun _ => ?_)
  refine after_ite _ _ _ _ (fun _ => addrs_err _ _ _ _ h1) (fun _ => ?_)
  refine after_bind _ _ _ (getbytes_addrs E A C fuel _ _ h1) ?_
  intro r s2 h2
  refine after_ite _ _ _ _ (fun _ => addrs_setCursor _ _ _ _ h2) (fun _ => ?_)
  cases hm : rdc_getmsgint s2.p.in_buf 4 with
  | none => exact h2
  | some x =>
    obtain ⟨length, buf3⟩ := x
    have h3 := addrs_setIn A C s2 buf3 h2
    refine after_ite _ _ _ _ (fun _ => addrs_err _ _ _ _ h3) (fun _ => ?_)
    refine after_bind _ _ _ (getbytes_addrs E A C fuel _ _ h3) ?_
    intro r4 s4 h4
    refine after_ite _ _ _ _ (fun _ => addrs_setCursor _ _ _ _ h4) (fun _ => ?_)
    cases hm5 : rdc_getmsgint s4.p.in_buf 4 with
    | none => exact h4
    | some y =>
      obtain ⟨rqt_ver, buf5⟩ := y
      dsimp only
      cases hm6 : rdc_getmsgint buf5 4 with
      | none => exact h4
      | some z =>
        obtain ⟨rqt_type, buf6⟩ := z
        dsimp only
        cases hm7 : rdc_getmsgRdcPortID buf6 with
        | none => exact h4
        | some w =>
          obtain ⟨rqt_id, buf7⟩ := w
          dsimp only
          refine after_ite _ _ _ _ (fun _ => h4) (fun _ => ?_)
          exact after_ite _ _ _ _ (fun _ => addrs_err _ _ _ _ h4) (fun _ => h4)

theorem connect_options_addrs (a : AddrInfo) (port : RdcPort) :
    (connect_options_fail a port).2.addrs = port.addrs := by
  unfold connect_options_fail rdc_set_noblock
  cases port.noblock <;> cases port.pg_set_noblock_ok <;> cases a.nodelay_ok <;>
    cases a.keepalive_ok <;> cases a.cloexec_ok <;> simp [rdc_puterror]

/-- The walk of state NEEDED never returns OK. -/
theorem needed_loop_inl (l : List AddrInfo) :
    ∀ (s : PSt) (r : Res PSt RdcPollingStatusType), needed_loop s l = .inl r →
      ∀ s', r ≠ .ret RDC_POLLING_OK s' := by
  induction l with
  | nil =>
    intro s r h s' hr
    subst hr
    simp [needed_loop, error_return] at h
  | cons a next ih =>
    intro s r h s' hr
    subst hr
    rw [needed_loop] at h
    dsimp only at h
    by_cases hinet : a.is_inet = true
    · simp only [hinet, Bool.not_true, Bool.false_eq_true, if_false] at h
      by_cases hsock : a.socket_fd = PGINVALID_SOCKET
      · rw [if_pos hsock] at h
        by_cases hn : next ≠ []
        · rw [if_pos hn] at h
          exact ih _ _ h _ rfl
        · rw [if_neg hn] at h
          simp [error_return] at h
      · rw [if_neg hsock] at h
        by_cases ho : (connect_options_fail a
            { s.p with addr_cur := a :: next, sock := a.socket_fd,
                       pg_set_noblock_ok := a.noblock_ok }).1 = true
        · rw [if_pos ho] at h
          exact ih _ _ h _ rfl
        · rw [if_neg ho] at h
          cases hc : a.connect with
          | inprogress => simp [hc] at h
          | connected => simp [hc] at h
          | fail =>
            simp only [hc] at h
            exact ih _ _ h _ rfl
    · have hinet2 : a.is_inet = false := by simpa using hinet
      simp only [hinet2, Bool.not_false, if_true] at h
      exact ih _ _ h _ rfl

/-- The walk of state NEEDED leaves the address list of the port alone. -/
theorem needed_loop_inr (l : List AddrInfo) :
    ∀ (s s1 : PSt), needed_loop s l = .inr s1 → s1.p.addrs = s.p.addrs := by
  induction l with
  | nil =>
    intro s s1 h
    simp [needed_loop, error_return] at h
  | cons a next ih =>
    intro s s1 h
    rw [needed_loop] at h
    dsimp only at h
    by_cases hinet : a.is_inet = true
    · simp only [hinet, Bool.not_true, Bool.false_eq_true, if_false] at h
      by_cases hsock : a.socket_fd = PGINVALID_SOCKET
      · rw [if_pos hsock] at h
        by_cases hn : next ≠ []
        · rw [if_pos hn] at h
          have h1 := ih _ _ h
          exact h1
        · rw [if_neg hn] at h
          simp [error_return] at h
      · rw [if_neg hsock] at h
        by_cases ho : (connect_options_fail a
            { s.p with addr_cur := a :: next, sock := a.socket_fd,
                       pg_set_noblock_ok := a.noblock_ok }).1 = true
        · rw [if_pos ho] at h
          have h1 := ih _ _ h
          rw [h1]
          simp [PSt.dropConn, drop_connection, connect_options_addrs]
        · rw [if_neg ho] at h
          cases hc : a.connect with
          | inprogress => simp [hc] at h
          | connected =>
            simp only [hc, Sum.inr.injEq] at h
            subst h
            simp [connect_options_addrs]
          | fail =>
            simp only [hc] at h
            have h1 := ih _ _ h
            rw [h1]
            simp [PSt.dropConn, drop_connection, PSt.err, rdc_puterror, connect_options_addrs]
    · have hinet2 : a.is_inet = false := by simpa using hinet
      simp only [hinet2, Bool.not_false, if_true] at h
      have h1 := ih _ _ h
      exact h1

/-- An OK from the code at `keep_going` is the completion of state AUTH_OK. -/
theorem keep_going_ok (E : Env) (fuel : Nat) :
    ∀ (k : Nat) (s s' : PSt), keep_going E fuel k s = .ret RDC_POLLING_OK s' →
      (s.p.addrs = [] → s.p.addr_cur = []) →
      s'.p.status = RDC_CONNECTION_OK ∧
      s'.p.out_buf.data = [] ∧ s'.p.out_buf.cursor = 0 ∧
      s'.p.err_buf.data = [] ∧ s'.p.err_buf.cursor = 0 ∧
      s'.p.wait_events = WAIT_SOCKET_READABLE ∧
      s'.p.addrs = [] ∧ s'.p.addr_cur = [] := by
  intro k
  induction k with
  | zero => intro s s' h; simp [keep_going] at h
  | succ k ih =>
    intro s s' h hJ
    unfold keep_going at h
    cases hst : s.p.status with
    | RDC_CONNECTION_NEEDED =>
      rw [hst] at h
      simp only [] at h
      cases hn : needed_loop s s.p.addr_cur with
      | inl r =>
        simp only [hn] at h
        exact absurd h (needed_loop_inl _ _ _ hn s')
      | inr s1 =>
        simp only [hn] at h
        refine ih s1 s' h ?_
        intro ha
        rw [needed_loop_inr _ _ _ hn] at ha
        rw [hJ ha] at hn
        simp [needed_loop] at hn
    | RDC_CONNECTION_STARTED =>
      rw [hst] at h
      simp only [] at h
      cases hc : s.p.addr_cur with
      | nil => simp [hc] at h
      | cons a next =>
        simp only [hc] at h
        by_cases c1 : (!a.getsockopt_ok) = true
        · rw [if_pos c1] at h
          simp [error_return] at h
        · rw [if_neg c1] at h
          by_cases c2 : a.so_error ≠ 0
          · rw [if_pos c2] at h
            by_cases c3 : next ≠ []
            · rw [if_pos c3] at h
              refine ih _ s' h ?_
              intro ha
              have ha2 : s.p.addrs = [] := ha
              rw [hJ ha2] at hc
              cases hc
            · rw [if_neg c3] at h
              simp [error_return] at h
          · rw [if_neg c2] at h
            by_cases c4 : (!a.getsockname_ok) = true
            · rw [if_pos c4] at h
              simp [error_return] at h
            · rw [if_neg c4] at h
              simp at h
    | RDC_CONNECTION_MADE =>
      rw [hst] at h
      simp only [] at h
      cases hx : rdc_send_startup_rqt E fuel s s.p.self_type s.p.self_id with
      | stuck => simp [hx, Res.bind] at h
      | raised s1 => simp [hx, Res.bind] at h
      | ret r s1 =>
        simp only [hx, Res.bind] at h
        by_cases c1 : r ≠ 0
        · rw [if_pos c1] at h
          simp [error_return] at h
        · rw [if_neg c1] at h
          simp at h
    | RDC_CONNECTION_AWAITING_RESPONSE =>
      rw [hst] at h
      simp only [] at h
      have hf := recv_rsp_addrs E s.p.addrs s.p.addr_cur fuel s s.p.self_type s.p.self_id
        ⟨rfl, rfl⟩
      cases hx : internal_recv_startup_rsp E fuel s s.p.self_type s.p.self_id with
      | stuck => simp [hx, Res.bind] at h
      | raised s1 => simp [hx, Res.bind] at h
      | ret status s1 =>
        rw [hx] at hf
        simp only [hx, Res.bind] at h
        cases status with
        | RDC_POLLING_FAILED => simp [error_return] at h
        | RDC_POLLING_READING => simp at h
        | RDC_POLLING_WRITING => simp [error_return] at h
        | RDC_POLLING_OK =>
          simp only [] at h
          refine ih s1 s' h ?_
          intro ha
          rw [hf.1] at ha
          rw [hf.2]
          exact hJ ha
    | RDC_CONNECTION_ACCEPT_NEED =>
      rw [hst] at h
      simp [error_return] at h
    | RDC_CONNECTION_ACCEPT =>
      rw [hst] at h
      simp only [] at h
      have hf := recv_rqt_addrs E s.p.addrs s.p.addr_cur fuel s E.RDC_VERSION_NUM ⟨rfl, rfl⟩
      cases hx : internal_recv_startup_rqt E fuel s E.RDC_VERSION_NUM with
      | stuck => simp [hx, Res.bind] at h
      | raised s1 => simp [hx, Res.bind] at h
      | ret status s1 =>
        rw [hx] at hf
        simp only [hx, Res.bind] at h
        cases status with
        | RDC_POLLING_FAILED => simp [error_return] at h
        | RDC_POLLING_READING => simp at h
        | RDC_POLLING_WRITING => simp at h
        | RDC_POLLING_OK =>
          simp only [] at h
          have hg := send_rsp_addrs E s.p.addrs s.p.addr_cur fuel s1 s1.p.peer_type
            s1.p.peer_id hf
          cases hy : rdc_send_startup_rsp E fuel s1 s1.p.peer_type s1.p.peer_id with
          | stuck => simp [hy] at h
          | raised s2 => simp [hy] at h
          | ret r s2 =>
            rw [hy] at hg
            simp only [hy] at h
            by_cases c1 : r ≠ 0
            · rw [if_pos c1] at h
              simp [error_return] at h
            · rw [if_neg c1] at h
              refine ih _ s' h ?_
              intro ha
              have ha2 : s2.p.addrs = [] := ha
              rw [hg.1] at ha2
              show s2.p.addr_cur = []
              rw [hg.2]
              exact hJ ha2
    | RDC_CONNECTION_SENDING_RESPONSE =>
      rw [hst] at h
      simp only [] at h
      have hg := send_rsp_addrs E s.p.addrs s.p.addr_cur fuel s s.p.peer_type
        s.p.peer_id ⟨rfl, rfl⟩
      cases hy : rdc_send_startup_rsp E fuel s s.p.peer_type s.p.peer_id with
      | stuck => simp [hy, Res.bind] at h
      | raised s2 => simp [hy, Res.bind] at h
      | ret r s2 =>
        rw [hy] at hg
        simp only [hy, Res.bind] at h
        by_cases c1 : r ≠ 0
        · rw [if_pos c1] at h
          simp [error_return] at h
        · rw [if_neg c1] at h
          refine ih _ s' h ?_
          intro ha
          have ha2 : s2.p.addrs = [] := ha
          rw [hg.1] at ha2
          show s2.p.addr_cur = []
          rw [hg.2]
          exact hJ ha2
    | RDC_CONNECTION_AUTH_OK =>
      rw [hst] at h
      simp only [Res.ret.injEq, true_and] at h
      subst h
      by_cases ha : s.p.addrs ≠ []
      · simp [ha, resetStringInfo, WAIT_SOCKET_READABLE]
      · have ha2 : s.p.addrs = [] := by simpa using ha
        simp [ha2, hJ ha2, resetStringInfo, WAIT_SOCKET_READABLE]
    | RDC_CONNECTION_OK =>
      rw [hst] at h
      simp [error_return] at h
    | RDC_CONNECTION_BAD =>
      rw [hst] at h
      simp [error_return] at h
    | corrupt n =>
      rw [hst] at h
      simp [error_return] at h

/-- C27: whenever `rdc_connect_poll` returns OK for a port whose status before
the call was not OK (and whose address cursor is null when its address list
is), the port afterwards has status OK, an empty out-buffer and an empty
err-buffer (`len = cursor = 0`), `wait_events` exactly READABLE, and no
address list: `addrs` and `addr_cur` are null. -/
theorem completion_effects (E : Env) (fuel : Nat) (s s' : PSt)
    (h : rdc_connect_poll E fuel s = .ret RDC_POLLING_OK s')
    (hst : s.p.status ≠ RDC_CONNECTION_OK)
    (hJ : s.p.addrs = [] → s.p.addr_cur = []) :
    s'.p.status = RDC_CONNECTION_OK ∧
    s'.p.out_buf.len = 0 ∧ s'.p.out_buf.cursor = 0 ∧
    s'.p.err_buf.len = 0 ∧ s'.p.err_buf.cursor = 0 ∧
    s'.p.wait_events = WAIT_SOCKET_READABLE ∧
    s'.p.addrs = [] ∧ s'.p.addr_cur = [] := by
  have key : ∀ s0 : PSt, keep_going E fuel fuel s0 = .ret RDC_POLLING_OK s' →
      (s0.p.addrs = [] → s0.p.addr_cur = []) →
      s'.p.status = RDC_CONNECTION_OK ∧
      s'.p.out_buf.len = 0 ∧ s'.p.out_buf.cursor = 0 ∧
      s'.p.err_buf.len = 0 ∧ s'.p.err_buf.cursor = 0 ∧
      s'.p.wait_events = WAIT_SOCKET_READABLE ∧
      s'.p.addrs = [] ∧ s'.p.addr_cur = [] := by
    intro s0 h0 hJ0
    obtain ⟨h1, h2, h3, h4, h5, h6, h7, h8⟩ := keep_going_ok E fuel fuel s0 s' h0 hJ0
    exact ⟨h1, by simp [StringInfo.len, h2], h3, by simp [StringInfo.len, h4], h5, h6, h7, h8⟩
  have viaRecv : ((rdc_recv s).bind fun n s1 =>
        if n = EOF then error_return s1
        else if n = 0 then .ret RDC_POLLING_READING s1
        else keep_going E fuel fuel s1) = .ret RDC_POLLING_OK s' →
      s'.p.status = RDC_CONNECTION_OK ∧
      s'.p.out_buf.len = 0 ∧ s'.p.out_buf.cursor = 0 ∧
      s'.p.err_buf.len = 0 ∧ s'.p.err_buf.cursor = 0 ∧
      s'.p.wait_events = WAIT_SOCKET_READABLE ∧
      s'.p.addrs = [] ∧ s'.p.addr_cur = [] := by
    intro h0
    have hf := recv_addrs s.p.addrs s.p.addr_cur s ⟨rfl, rfl⟩
    cases hx : rdc_recv s with
    | stuck => simp [hx, Res.bind] at h0
    | raised s1 => simp [hx, Res.bind] at h0
    | ret n s1 =>
      rw [hx] at hf
      simp only [hx, Res.bind] at h0
      by_cases c1 : n = EOF
      · rw [if_pos c1] at h0
        simp [error_return] at h0
      · rw [if_neg c1] at h0
        by_cases c2 : n = 0
        · rw [if_pos c2] at h0
          simp at h0
        · rw [if_neg c2] at h0
          refine key s1 h0 ?_
          intro ha
          rw [hf.1] at ha
          rw [hf.2]
          exact hJ ha
  unfold rdc_connect_poll at h
  cases hs : s.p.status with
  | RDC_CONNECTION_OK => exact absurd hs hst
  | RDC_CONNECTION_BAD => rw [hs] at h; simp at h
  | RDC_CONNECTION_AWAITING_RESPONSE => rw [hs] at h; exact viaRecv h
  | RDC_CONNECTION_ACCEPT => rw [hs] at h; exact viaRecv h
  | RDC_CONNECTION_AUTH_OK => rw [hs] at h; exact viaRecv h
  | RDC_CONNECTION_STARTED => rw [hs] at h; exact key s h hJ
  | RDC_CONNECTION_MADE => rw [hs] at h; exact key s h hJ
  | RDC_CONNECTION_SENDING_RESPONSE => rw [hs] at h; exact key s h hJ
  | RDC_CONNECTION_ACCEPT_NEED => rw [hs] at h; exact key s h hJ
  | RDC_CONNECTION_NEEDED => rw [hs] at h; exact key s h hJ
  | corrupt n => rw [hs] at h; simp [error_return] at h

theorem connect_options_ends (a : AddrInfo) (port : RdcPort) :
    (connect_options_fail a port).2.peer_type = port.peer_type ∧
    (connect_options_fail a port).2.peer_id = port.peer_id ∧
    (connect_options_fail a port).2.self_type = port.self_type ∧
    (connect_options_fail a port).2.self_id = port.self_id ∧
    (connect_options_fail a port).2.active = port.active := by
  unfold connect_options_fail rdc_set_noblock
  cases port.noblock <;> cases port.pg_set_noblock_ok <;> cases a.nodelay_ok <;>
    cases a.keepalive_ok <;> cases a.cloexec_ok <;> simp [rdc_puterror]

theorem ends_options (pt pi st si : Nat) (act : Bool) (g : Globals) (a : AddrInfo) (s : PSt)
    (h : EndsAre pt pi st si act g s) :
    EndsAre pt pi st si act g { s with p := (connect_options_fail a s.p).2 } := by
  obtain ⟨h1, h2, h3, h4, h5, h6⟩ := h
  obtain ⟨c1, c2, c3, c4, c5⟩ := connect_options_ends a s.p
  exact ⟨c1.trans h1, c2.trans h2, c3.trans h3, c4.trans h4, c5.trans h5, h6⟩

theorem ends_err (pt pi st si : Nat) (act : Bool) (g : Globals) (s : PSt) (m : String)
    (h : EndsAre pt pi st si act g s) : EndsAre pt pi st si act g (s.err m) := h

theorem ends_dropConn (pt pi st si : Nat) (act : Bool) (g : Globals) (s : PSt) (b : Bool)
    (h : EndsAre pt pi st si act g s) : EndsAre pt pi st si act g (s.dropConn b) := by
  cases b <;> exact h

/-- The walk of state NEEDED returns, or goes on at `keep_going` in state
STARTED with the cursor on an address of the list; the ends of the port and
the process-wide flags are as before. -/
theorem needed_loop_ends (pt pi st si : Nat) (act : Bool) (g : Globals) (l : List AddrInfo) :
    ∀ s : PSt, EndsAre pt pi st si act g s →
      (∃ r s', needed_loop s l = .inl (.ret r s') ∧ EndsAre pt pi st si act g s') ∨
      (∃ s1 a next, needed_loop s l = .inr s1 ∧ EndsAre pt pi st si act g s1 ∧
        s1.p.status = RDC_CONNECTION_STARTED ∧ s1.p.addr_cur = a :: next ∧
        next.length < l.length) := by
  induction l with
  | nil =>
    intro s h
    exact Or.inl ⟨_, _, rfl, h⟩
  | cons a next ih =>
    intro s h
    have step : ∀ t : PSt, EndsAre pt pi st si act g t →
        (∃ r s', needed_loop t next = .inl (.ret r s') ∧ EndsAre pt pi st si act g s') ∨
        (∃ s1 b nx, needed_loop t next = .inr s1 ∧ EndsAre pt pi st si act g s1 ∧
          s1.p.status = RDC_CONNECTION_STARTED ∧ s1.p.addr_cur = b :: nx ∧
          nx.length < (a :: next).length) := by
      intro t ht
      rcases ih t ht with h1 | ⟨s1, b, nx, e1, e2, e3, e4, e5⟩
      · exact Or.inl h1
      · exact Or.inr ⟨s1, b, nx, e1, e2, e3, e4, by simp only [List.length_cons]; omega⟩
    rw [needed_loop]
    dsimp only
    by_cases hinet : a.is_inet = true
    · simp only [hinet, Bool.not_true, Bool.false_eq_true, if_false]
      by_cases hsock : a.socket_fd = PGINVALID_SOCKET
      · rw [if_pos hsock]
        by_cases hn : next ≠ []
        · rw [if_pos hn]
          exact step _ h
        · rw [if_neg hn]
          exact Or.inl ⟨_, _, rfl, h⟩
      · rw [if_neg hsock]
        have ho := ends_options pt pi st si act g a
          { s with p := { s.p with addr_cur := a :: next, sock := a.socket_fd,
                                   pg_set_noblock_ok := a.noblock_ok } } h
        by_cases hof : (connect_options_fail a
            { s.p with addr_cur := a :: next, sock := a.socket_fd,
                       pg_set_noblock_ok := a.noblock_ok }).1 = true
        · rw [if_pos hof]
          exact step _ (ends_dropConn _ _ _ _ _ _ _ true ho)
        · rw [if_neg hof]
          cases hc : a.connect with
          | inprogress => exact Or.inl ⟨_, _, rfl, ho⟩
          | connected =>
            exact Or.inr ⟨_, a, next, rfl, ho, rfl, (connect_options_spec a _ rfl).2.2.2.1,
              by simp⟩
          | fail =>
            exact step _ (ends_dropConn _ _ _ _ _ _ _ true (ends_err _ _ _ _ _ _ _ _ ho))
    · have hinet2 : a.is_inet = false := by simpa using hinet
      simp only [hinet2, Bool.not_false, if_true]
      exact step _ h

/-- From state NEEDED the code at `keep_going` returns once it has fuel for two
rounds for each address and one more, with the ends of the port and the
process-wide flags as before. -/
theorem keep_going_dial (E : Env) (fuel : Nat) (pt pi st si : Nat) (act : Bool) (g : Globals) :
    ∀ (n k : Nat) (s : PSt), EndsAre pt pi st si act g s →
      s.p.status = RDC_CONNECTION_NEEDED → s.p.addr_cur.length ≤ n → 2 * n + 1 ≤ k →
      ∃ r s', keep_going E fuel k s = .ret r s' ∧ EndsAre pt pi st si act g s' := by
  intro n
  induction n with
  | zero =>
    intro k s h hst hl hk
    obtain ⟨k1, rfl⟩ : ∃ k1, k = k1 + 1 := ⟨k - 1, by omega⟩
    have hnil : s.p.addr_cur = [] := List.length_eq_zero.mp (by omega)
    unfold keep_going
    rw [hst]
    simp only [hnil, needed_loop]
    exact ⟨_, _, rfl, h⟩
  | succ n ih =>
    intro k s h hst hl hk
    obtain ⟨k2, rfl⟩ : ∃ k2, k = k2 + 2 := ⟨k - 2, by omega⟩
    unfold keep_going
    rw [hst]
    simp only []
    rcases needed_loop_ends pt pi st si act g s.p.addr_cur s h with
      ⟨r, s', e1, e2⟩ | ⟨s1, a, next, e1, e2, e3, e4, e5⟩
    · rw [e1]
      exact ⟨r, s', rfl, e2⟩
    · rw [e1]
      simp only []
      unfold keep_going
      rw [e3]
      simp only [e4]
      by_cases c1 : (!a.getsockopt_ok) = true
      · rw [if_pos c1]
        exact ⟨_, _, rfl, e2⟩
      · rw [if_neg c1]
        by_cases c2 : a.so_error ≠ 0
        · rw [if_pos c2]
          by_cases c3 : next ≠ []
          · rw [if_pos c3]
            exact ih k2 _ (ends_dropConn _ _ _ _ _ _ _ true (ends_err _ _ _ _ _ _ _ _ e2)) rfl
              (by show next.length ≤ n; omega) (by omega)
          · rw [if_neg c3]
            exact ⟨_, _, rfl, ends_dropConn _ _ _ _ _ _ _ true (ends_err _ _ _ _ _ _ _ _ e2)⟩
        · rw [if_neg c2]
          by_cases c4 : (!a.getsockname_ok) = true
          · rw [if_pos c4]
            exact ⟨_, _, rfl, e2⟩
          · rw [if_neg c4]
            exact ⟨_, _, rfl, e2⟩

/-- The first poll of a port in state NEEDED returns, with the ends of the
port and the process-wide flags as before. -/
theorem poll_dial (E : Env) (fuel : Nat) (s : PSt)
    (hst : s.p.status = RDC_CONNECTION_NEEDED) (hk : 2 * s.p.addr_cur.length + 1 ≤ fuel) :
    ∃ r s', rdc_connect_poll E fuel s = .ret r s' ∧
      s'.p.peer_type = s.p.peer_type ∧ s'.p.peer_id = s.p.peer_id ∧
      s'.p.self_type = s.p.self_type ∧ s'.p.self_id = s.p.self_id ∧
      s'.p.active = s.p.active ∧ s'.g = s.g := by
  have h := keep_going_dial E fuel s.p.peer_type s.p.peer_id s.p.self_type s.p.self_id
    s.p.active s.g s.p.addr_cur.length fuel s ⟨rfl, rfl, rfl, rfl, rfl, rfl⟩ hst
    (Nat.le_refl _) hk
  unfold rdc_connect_poll
  rw [hst]
  exact h

theorem takeWhile_host (host tail : List Nat) (h : ∀ b ∈ host, b % 256 ≠ 0) :
    (host ++ 0 :: tail).takeWhile (fun b => b % 256 != 0) = host := by
  induction host with
  | nil => simp [List.takeWhile]
  | cons b bs ih =>
    have hb : b % 256 ≠ 0 := h b (List.mem_cons_self _ _)
    have := ih (fun c hc => h c (List.mem_cons_of_mem _ hc))
    have hb2 : (b % 256 != 0) = true := by simpa using hb
    rw [List.cons_append, List.takeWhile_cons, hb2]
    simp only [if_true, this]

/-- Reading a null-terminated string whose bytes are not null. -/
theorem getmsgstring_of_unread (msg : StringInfo) (host tail : List Nat)
    (h : msg.unread = host ++ 0 :: tail) (hz : ∀ b ∈ host, b % 256 ≠ 0) :
    rdc_getmsgstring msg = some (host, msg.adv (host.length + 1)) := by
  unfold rdc_getmsgstring
  simp only [h, takeWhile_host host tail hz]
  rw [if_pos (by simp)]
  rfl

/-- The bytes of one entry of the group message. -/
theorem parse_masks_group (masks : List RdcMask) :
    ∀ (msg : StringInfo) (rest : List Nat),
      msg.unread = (masks.flatMap fun m =>
        m.rdc_host ++ [0] ++ beEncode 4 m.rdc_port ++ beEncode 8 m.rdc_rpid) ++ rest →
      msg.cursor ≤ msg.len →
      (∀ m ∈ masks, (∀ b ∈ m.rdc_host, b % 256 ≠ 0) ∧ m.rdc_port < 256 ^ 4 ∧
        m.rdc_rpid < 256 ^ 8) →
      ∃ m', parse_masks masks.length msg = .ret masks m' ∧ m'.unread = rest ∧
        m'.data = msg.data ∧ m'.maxlen = msg.maxlen := by
  induction masks with
  | nil =>
    intro msg rest h _ _
    exact ⟨msg, rfl, by simpa using h, rfl, rfl⟩
  | cons m ms ih =>
    intro msg rest h hc hwf
    obtain ⟨hz, hp, hi⟩ := hwf m (List.mem_cons_self _ _)
    have h1 : msg.unread = m.rdc_host ++ 0 :: (beEncode 4 m.rdc_port ++ (beEncode 8 m.rdc_rpid ++
        ((ms.flatMap fun m =>
          m.rdc_host ++ [0] ++ beEncode 4 m.rdc_port ++ beEncode 8 m.rdc_rpid) ++ rest))) := by
      rw [h]; simp [List.flatMap_cons, List.append_assoc]
    have hlen := unread_length msg
    rw [h1] at hlen
    simp only [List.length_append, List.length_cons, beEncode_length] at hlen
    have e1 := getmsgstring_of_unread msg _ _ h1 hz
    have u2 : (msg.adv (m.rdc_host.length + 1)).unread = beEncode 4 m.rdc_port ++
        (beEncode 8 m.rdc_rpid ++ ((ms.flatMap fun m =>
          m.rdc_host ++ [0] ++ beEncode 4 m.rdc_port ++ beEncode 8 m.rdc_rpid) ++ rest)) := by
      rw [adv_unread, h1]
      simp
    have e2 := getmsgint_adv (msg.adv (m.rdc_host.length + 1)) 4 _ _ u2 (beEncode_length 4 _)
      (by simp only [adv_cursor, adv_len]; omega)
    rw [beDecode_beEncode_of_lt 4 _ hp] at e2
    have u3 : ((msg.adv (m.rdc_host.length + 1)).adv 4).unread = beEncode 8 m.rdc_rpid ++
        ((ms.flatMap fun m =>
          m.rdc_host ++ [0] ++ beEncode 4 m.rdc_port ++ beEncode 8 m.rdc_rpid) ++ rest) := by
      rw [adv_unread, u2]
      simp [beEncode_length]
    have e3 := getmsgint_adv ((msg.adv (m.rdc_host.length + 1)).adv 4) 8 _ _ u3
      (beEncode_length 8 _) (by simp only [adv_cursor, adv_len]; omega)
    rw [beDecode_beEncode_of_lt 8 _ hi] at e3
    have u4 : (((msg.adv (m.rdc_host.length + 1)).adv 4).adv 8).unread =
        (ms.flatMap fun m =>
          m.rdc_host ++ [0] ++ beEncode 4 m.rdc_port ++ beEncode 8 m.rdc_rpid) ++ rest := by
      rw [adv_unread, u3]
      simp [beEncode_length]
    obtain ⟨m', p1, p2, p3, p4⟩ := ih _ rest u4
      (by simp only [adv_cursor, adv_len]; omega)
      (fun x hx => hwf x (List.mem_cons_of_mem _ hx))
    refine ⟨m', ?_, p2, p3, p4⟩
    simp only [List.length_cons, parse_masks, e1, e2, rdc_getmsgRdcPortID, e3, p1]

/-- The index of an entry of a group with pairwise distinct ids. -/
theorem portidx_of_get (masks : List RdcMask) :
    ∀ (i : Nat) (m : RdcMask), (masks.map fun m => m.rdc_rpid).Nodup → masks[i]? = some m →
      rdc_portidx masks m.rdc_rpid = (i : Int) := by
  have key : ∀ (l : List RdcMask) (i : Nat) (m : RdcMask),
      (l.map fun m => m.rdc_rpid).Nodup → l[i]? = some m →
      l.findIdx (fun x => x.rdc_rpid == m.rdc_rpid) = i := by
    intro l
    induction l with
    | nil => intro i m _ h; simp at h
    | cons x xs ih =>
      intro i m hnd h
      simp only [List.map_cons, List.nodup_cons] at hnd
      cases i with
      | zero =>
        simp only [List.getElem?_cons_zero, Option.some.injEq] at h
        subst h
        simp [List.findIdx_cons]
      | succ j =>
        simp only [List.getElem?_cons_succ] at h
        have hmem : m.rdc_rpid ∈ xs.map fun m => m.rdc_rpid :=
          List.mem_map.mpr ⟨m, (List.mem_iff_getElem?.mpr ⟨j, h⟩), rfl⟩
        have hne : x.rdc_rpid ≠ m.rdc_rpid := fun e => hnd.1 (e ▸ hmem)
        have := ih j m hnd.2 h
        have hne2 : (x.rdc_rpid == m.rdc_rpid) = false := by simpa using hne
        simp [List.findIdx_cons, hne2, this]
  intro i m hnd h
  have hi : i < masks.length := by
    rcases List.getElem?_eq_some_iff.mp h with ⟨hl, _⟩
    exact hl
  unfold rdc_portidx
  simp only [key masks i m hnd h, hi, if_true]

theorem dial_self (x : Int) : dial x x = false := by
  simp [dial]

/-- The port of a dial that is kept is the one built for the entry. -/
theorem dial_port_ends (E : Env) (fuel : Nat) (zero_status : RdcConnStatusType)
    (zero_flags : RdcFlag) (TYPE_REDUCE : Nat) (getaddrinfo : RdcMask → Option (List AddrInfo))
    (g : Globals) (m : RdcMask) (port : RdcPort)
    (hfuel : ∀ m l, getaddrinfo m = some l → 2 * l.length + 1 ≤ fuel)
    (h : dial_port E fuel zero_status zero_flags TYPE_REDUCE getaddrinfo g m = some port) :
    port.peer_type = TYPE_REDUCE ∧ port.peer_id = m.rdc_rpid ∧ port.self_type = TYPE_REDUCE ∧
      port.self_id = E.MyReduceId ∧ port.active = true := by
  unfold dial_port at h
  cases hg : getaddrinfo m with
  | none => simp [hg] at h
  | some l =>
    cases l with
    | nil => simp [hg] at h
    | cons a as =>
      simp only [hg] at h
      obtain ⟨r, s', e, p1, p2, p3, p4, p5, _⟩ := poll_dial E fuel
        { p := group_port E zero_status zero_flags TYPE_REDUCE m.rdc_rpid (a :: as), g := g }
        rfl (hfuel m _ hg)
      rw [e] at h
      cases r <;> simp at h
      subst h
      exact ⟨p1, p2, p3, p4, p5⟩

/-- The second loop of `rdc_parse_group` over what is left of the group, from
index `i`: it keeps the port of every entry the rule makes it dial; if a
dial fails it ends at the first one that does, with `STATUS_ERROR` when the
address resolution failed and with no defined result when the first poll
did not return WRITING. -/
theorem group_loop (E : Env) (fuel : Nat) (zero_status : RdcConnStatusType)
    (zero_flags : RdcFlag) (TYPE_REDUCE : Nat) (getaddrinfo : RdcMask → Option (List AddrInfo))
    (masks : List RdcMask) (sidx : Nat) (g : Globals)
    (hself : rdc_portidx masks E.MyReduceId = (sidx : Int))
    (hfuel : ∀ m l, getaddrinfo m = some l → 2 * l.length + 1 ≤ fuel) :
    ∀ (rest : List RdcMask) (i : Nat) (st : PSt) (clist : List RdcPort), st.g = g →
      (∀ (j : Nat) (m : RdcMask), rest[j]? = some m →
        rdc_portidx masks m.rdc_rpid = ((i + j : Nat) : Int)) →
      ((∀ m ∈ ((rest.enumFrom i).filter fun im => dial (sidx : Int) (im.1 : Int)).map
            fun im => im.2,
          (dial_port E fuel zero_status zero_flags TYPE_REDUCE getaddrinfo g m).isSome = true) →
        parse_group_loop E fuel zero_status zero_flags TYPE_REDUCE getaddrinfo masks rest st
            clist =
          .ret (some (clist ++
            (((rest.enumFrom i).filter fun im => dial (sidx : Int) (im.1 : Int)).map
              fun im => im.2).filterMap
              (dial_port E fuel zero_status zero_flags TYPE_REDUCE getaddrinfo g))) st) ∧
      ((∃ m ∈ ((rest.enumFrom i).filter fun im => dial (sidx : Int) (im.1 : Int)).map
            fun im => im.2,
          dial_port E fuel zero_status zero_flags TYPE_REDUCE getaddrinfo g m = none) →
        ((∃ st', parse_group_loop E fuel zero_status zero_flags TYPE_REDUCE getaddrinfo masks
          rest st clist = .ret none st') ∨
         parse_group_loop E fuel zero_status zero_flags TYPE_REDUCE getaddrinfo masks
          rest st clist = .stuck) ∧
        ((∀ m ∈ ((rest.enumFrom i).filter fun im => dial (sidx : Int) (im.1 : Int)).map
              fun im => im.2, ∃ a as, getaddrinfo m = some (a :: as)) →
          parse_group_loop E fuel zero_status zero_flags TYPE_REDUCE getaddrinfo masks
            rest st clist = .stuck) ∧
        ((∀ m ∈ ((rest.enumFrom i).filter fun im => dial (sidx : Int) (im.1 : Int)).map
              fun im => im.2,
            dial_port E fuel zero_status zero_flags TYPE_REDUCE getaddrinfo g m = none →
              getaddrinfo m = none ∨ getaddrinfo m = some []) →
          ∃ st', parse_group_loop E fuel zero_status zero_flags TYPE_REDUCE getaddrinfo masks
            rest st clist = .ret none st')) := by
  intro rest
  induction rest with
  | nil =>
    intro i st clist _ _
    refine ⟨fun _ => by simp [parse_group_loop], fun h => ?_⟩
    obtain ⟨m, hm, _⟩ := h
    simp at hm
  | cons m rest ih =>
    intro i st clist hg hidx
    have hidx0 : rdc_portidx masks m.rdc_rpid = ((i : Nat) : Int) := by
      have := hidx 0 m (by simp)
      simpa using this
    have hidx1 : ∀ (j : Nat) (x : RdcMask), rest[j]? = some x →
        rdc_portidx masks x.rdc_rpid = ((i + 1 + j : Nat) : Int) := by
      intro j x hx
      have := hidx (j + 1) x (by simpa using hx)
      rw [this]
      congr 1
      omega
    have ihn := ih (i + 1)
    rw [parse_group_loop]
    by_cases hme : m.rdc_rpid = E.MyReduceId
    · -- the local reducer is skipped, and the rule does not hold of it
      rw [if_pos hme]
      have hi : ((i : Nat) : Int) = (sidx : Int) := by rw [← hidx0, hme, hself]
      have hd : dial (sidx : Int) ((i : Nat) : Int) = false := by rw [hi]; exact dial_self _
      simp only [List.enumFrom_cons, List.filter_cons, hd, Bool.false_eq_true, if_false]
      exact ihn st clist hg hidx1
    · rw [if_neg hme, hself, hidx0]
      by_cases hd : dial (sidx : Int) ((i : Nat) : Int) = true
      · rw [if_pos hd]
        simp only [List.enumFrom_cons, List.filter_cons, hd, if_true, List.map_cons,
          List.mem_cons, forall_eq_or_imp, exists_eq_or_imp, List.filterMap_cons]
        cases hga : getaddrinfo m with
        | none =>
          have hdp : dial_port E fuel zero_status zero_flags TYPE_REDUCE getaddrinfo g m = none := by
            simp [dial_port, hga]
          refine ⟨fun h => ?_, fun _ => ⟨Or.inl ⟨_, rfl⟩, fun hall => ?_, fun _ => ⟨_, rfl⟩⟩⟩
          · rw [hdp] at h
            simp at h
          · obtain ⟨a, as, ha⟩ := hall.1
            cases ha
        | some l =>
          cases l with
          | nil =>
            have hdp : dial_port E fuel zero_status zero_flags TYPE_REDUCE getaddrinfo g m =
                none := by
              simp [dial_port, hga]
            refine ⟨fun h => ?_, fun _ => ⟨Or.inl ⟨_, rfl⟩, fun hall => ?_, fun _ => ⟨_, rfl⟩⟩⟩
            · rw [hdp] at h
              simp at h
            · obtain ⟨a, as, ha⟩ := hall.1
              cases ha
          | cons a as =>
            obtain ⟨r, s1, e, _, _, _, _, _, eg⟩ := poll_dial E fuel
              { p := group_port E zero_status zero_flags TYPE_REDUCE m.rdc_rpid (a :: as),
                g := g } rfl (hfuel m _ hga)
            have eg1 : s1.g = st.g := by rw [eg, hg]
            have hst : ({ st with g := s1.g } : PSt) = st := by rw [eg1]
            simp only [hg, e]
            by_cases hr : r = RDC_POLLING_WRITING
            · subst hr
              have hdp : dial_port E fuel zero_status zero_flags TYPE_REDUCE getaddrinfo g m =
                  some s1.p := by
                simp [dial_port, hga, e]
              simp only [ne_eq, not_true_eq_false, if_false, hst, hdp, Option.isSome_some,
                true_and, false_or, reduceCtorEq]
              obtain ⟨ih1, ih2⟩ := ihn st (clist ++ [s1.p]) hg hidx1
              refine ⟨fun h => ?_, fun h =>
                ⟨(ih2 h).1, fun hall => (ih2 h).2.1 hall.2, fun hres => (ih2 h).2.2 hres.2⟩⟩
              rw [ih1 h]
              simp
            · have hdp : dial_port E fuel zero_status zero_flags TYPE_REDUCE getaddrinfo g m =
                  none := by
                simp only [dial_port, hga, e]
                cases r <;> simp at hr ⊢
              rw [if_pos hr]
              refine ⟨fun h => ?_, fun _ => ⟨Or.inr rfl, fun _ => rfl, fun hres => ?_⟩⟩
              · rw [hdp] at h
                simp at h
              · rcases hres.1 hdp with hx | hx <;> cases hx
      · have hd2 : dial (sidx : Int) ((i : Nat) : Int) = false := by simpa using hd
        rw [if_neg hd]
        simp only [List.enumFrom_cons, List.filter_cons, hd2, Bool.false_eq_true, if_false]
        exact ihn st clist hg hidx1

theorem forall2_filterMap {α β : Type} (f : α → Option β) (P : α → β → Prop)
    (hP : ∀ a b, f a = some b → P a b) :
    ∀ D : List α, (∀ a ∈ D, (f a).isSome = true) → List.Forall₂ P D (D.filterMap f) := by
  intro D
  induction D with
  | nil => intro _; exact List.Forall₂.nil
  | cons a D ih =>
    intro h
    have ha := h a (List.mem_cons_self _ _)
    obtain ⟨b, hb⟩ := Option.isSome_iff_exists.mp ha
    rw [List.filterMap_cons, hb]
    exact List.Forall₂.cons (hP a b hb) (ih fun x hx => h x (List.mem_cons_of_mem _ hx))

/-- For a group message of `N` reducers with pairwise distinct ids of which
the one at index `sidx` is the local reducer, `rdc_parse_group` returns
`STATUS_OK` if for every entry that the rule makes it dial the address
resolution succeeds and the first `rdc_connect_poll` returns WRITING
(`dial_port` is `some`); then `*rdc_num = N`, the masks are the entries and
the connect list holds one port for each such entry, in group order, with
peer (REDUCE, id of the entry), self (REDUCE, local id) and `active = true`.
If one of these dials fails, the call does not return `STATUS_OK`: it returns
`STATUS_ERROR` when the dials that fail are those whose address does not
resolve, and it has no defined result when every address resolves, the dial
that fails being then one whose first poll did not return WRITING. -/
theorem parse_group_result (E : Env) (fuel : Nat) (zero_status : RdcConnStatusType)
    (zero_flags : RdcFlag) (TYPE_REDUCE : Nat) (getaddrinfo : RdcMask → Option (List AddrInfo))
    (s : PSt) (masks : List RdcMask) (sidx : Nat) (me : RdcMask) (rest : List Nat)
    (hun : s.p.in_buf.unread = group_msg masks ++ rest)
    (hN : masks.length < 2 ^ 31)
    (hwf : ∀ m ∈ masks, (∀ b ∈ m.rdc_host, b % 256 ≠ 0) ∧ m.rdc_port < 256 ^ 4 ∧
      m.rdc_rpid < 256 ^ 8)
    (hnd : (masks.map fun m => m.rdc_rpid).Nodup)
    (hme : masks[sidx]? = some me) (hid : me.rdc_rpid = E.MyReduceId)
    (hfuel : ∀ m l, getaddrinfo m = some l → 2 * l.length + 1 ≤ fuel) :
    ((∀ m ∈ dialed sidx masks,
        (dial_port E fuel zero_status zero_flags TYPE_REDUCE getaddrinfo s.g m).isSome = true) →
      ∃ s' clist,
        rdc_parse_group E fuel zero_status zero_flags TYPE_REDUCE getaddrinfo s =
          .ret (GroupResult.STATUS_OK (masks.length : Int) masks clist) s' ∧
        List.Forall₂
          (fun m port =>
            dial_port E fuel zero_status zero_flags TYPE_REDUCE getaddrinfo s.g m = some port ∧
            port.peer_type = TYPE_REDUCE ∧ port.peer_id = m.rdc_rpid ∧
            port.self_type = TYPE_REDUCE ∧ port.self_id = E.MyReduceId ∧ port.active = true)
          (dialed sidx masks) clist) ∧
    ((∃ m ∈ dialed sidx masks,
        dial_port E fuel zero_status zero_flags TYPE_REDUCE getaddrinfo s.g m = none) →
      ((∃ s', rdc_parse_group E fuel zero_status zero_flags TYPE_REDUCE getaddrinfo s =
          .ret GroupResult.STATUS_ERROR s') ∨
        rdc_parse_group E fuel zero_status zero_flags TYPE_REDUCE getaddrinfo s = .stuck) ∧
      ((∀ m ∈ dialed sidx masks, ∃ a as, getaddrinfo m = some (a :: as)) →
        rdc_parse_group E fuel zero_status zero_flags TYPE_REDUCE getaddrinfo s = .stuck) ∧
      ((∀ m ∈ dialed sidx masks,
          dial_port E fuel zero_status zero_flags TYPE_REDUCE getaddrinfo s.g m = none →
            getaddrinfo m = none ∨ getaddrinfo m = some []) →
        ∃ s', rdc_parse_group E fuel zero_status zero_flags TYPE_REDUCE getaddrinfo s =
          .ret GroupResult.STATUS_ERROR s')) := by
  have hlen := unread_length s.p.in_buf
  rw [hun] at hlen
  simp only [group_msg, List.length_append, beEncode_length] at hlen
  have hc : s.p.in_buf.cursor ≤ s.p.in_buf.len := by omega
  have hun1 : s.p.in_buf.unread = beEncode 4 masks.length ++
      ((masks.flatMap fun m =>
        m.rdc_host ++ [0] ++ beEncode 4 m.rdc_port ++ beEncode 8 m.rdc_rpid) ++ rest) := by
    rw [hun, group_msg, List.append_assoc]
  have e1 := getmsgint_adv s.p.in_buf 4 _ _ hun1 (beEncode_length 4 _) hc
  rw [beDecode_beEncode_of_lt 4 _ (by omega)] at e1
  have u2 : (s.p.in_buf.adv 4).unread = (masks.flatMap fun m =>
      m.rdc_host ++ [0] ++ beEncode 4 m.rdc_port ++ beEncode 8 m.rdc_rpid) ++ rest := by
    rw [adv_unread, hun1]
    simp [beEncode_length]
  obtain ⟨m2, p1, _, _, _⟩ := parse_masks_group masks (s.p.in_buf.adv 4) rest u2
    (by simp only [adv_cursor, adv_len]; omega) hwf
  have hself : rdc_portidx masks E.MyReduceId = (sidx : Int) := by
    rw [← hid]
    exact portidx_of_get masks sidx me hnd hme
  obtain ⟨l1, l2⟩ := group_loop E fuel zero_status zero_flags TYPE_REDUCE getaddrinfo masks sidx
    s.g hself hfuel masks 0 (s.setIn m2) [] rfl
    (fun j m hm => by
      rw [portidx_of_get masks j m hnd hm]
      simp)
  have hD : ((masks.enumFrom 0).filter fun im => dial (sidx : Int) (im.1 : Int)).map
      (fun im => im.2) = dialed sidx masks := rfl
  rw [hD] at l1 l2
  refine ⟨fun h => ?_, fun h => ?_⟩
  · refine ⟨s.setIn m2, _, ?_, forall2_filterMap _ _ ?_ _ h⟩
    · unfold rdc_parse_group
      simp only [e1, p1, l1 h, List.nil_append, toInt32_small _ hN, Int.toNat_ofNat]
    · intro m port hp
      exact ⟨hp, dial_port_ends E fuel zero_status zero_flags TYPE_REDUCE getaddrinfo s.g m
        port hfuel hp⟩
  · obtain ⟨la, lb, lc⟩ := l2 h
    refine ⟨?_, fun hall => ?_, fun hres => ?_⟩
    · rcases la with ⟨st', hst⟩ | hst
      · refine Or.inl ⟨st', ?_⟩
        unfold rdc_parse_group
        simp only [e1, p1, hst, toInt32_small _ hN, Int.toNat_ofNat]
      · refine Or.inr ?_
        unfold rdc_parse_group
        simp only [e1, p1, hst, toInt32_small _ hN, Int.toNat_ofNat]
    · unfold rdc_parse_group
      simp only [e1, p1, lb hall, toInt32_small _ hN, Int.toNat_ofNat]
    · obtain ⟨st', hst⟩ := lc hres
      refine ⟨st', ?_⟩
      unfold rdc_parse_group
      simp only [e1, p1, hst, toInt32_small _ hN, Int.toNat_ofNat]

/-- C26, failing input: the group of three reducers at reducer 1, which the
rule makes dial reducer 3 only, with an address of reducer 3 that resolves
but refuses the connection.  The first poll of the dial returns FAILED;
`rdc_parse_group` then frees the port and reads its peer id and its error
text for the message, so that no result is defined: the call does not return
`STATUS_ERROR`.  When the address of reducer 3 does not resolve, it does. -/
theorem failed_dial_reads_freed_port :
    dialed 0 exGroup = [{ rdc_host := [104, 51], rdc_port := 7003, rdc_rpid := 3 }] ∧
    (∃ s', rdc_connect_poll exEnv 3
        { p := group_port exEnv RDC_CONNECTION_OK RdcFlag.RDC_FLAG_VALID 3 3 [exAddrDown],
          g := exGlobals } = .ret RDC_POLLING_FAILED s' ∧
      s'.p.status = RDC_CONNECTION_BAD) ∧
    dial_port exEnv 3 RDC_CONNECTION_OK RdcFlag.RDC_FLAG_VALID 3 (fun _ => some [exAddrDown])
      exGlobals { rdc_host := [104, 51], rdc_port := 7003, rdc_rpid := 3 } = none ∧
    rdc_parse_group exEnv 3 RDC_CONNECTION_OK RdcFlag.RDC_FLAG_VALID 3
      (fun _ => some [exAddrDown]) (exBuffered (group_msg exGroup)) = .stuck ∧
    (∃ s', rdc_parse_group exEnv 3 RDC_CONNECTION_OK RdcFlag.RDC_FLAG_VALID 3
        (fun _ => none) (exBuffered (group_msg exGroup)) =
      .ret GroupResult.STATUS_ERROR s') :=
  ⟨by decide, ⟨_, rfl, rfl⟩, rfl, rfl, ⟨_, rfl⟩⟩

theorem completion_effects_witness :
    ∃ s', rdc_connect_poll exEnv 2
        (exAwaiting (frame 83 (beEncode 4 90600 ++ beEncode 4 3 ++ beEncode 8 1))) =
        .ret RDC_POLLING_OK s' ∧
      s'.p.status = RDC_CONNECTION_OK ∧
      s'.p.out_buf.len = 0 ∧ s'.p.out_buf.cursor = 0 ∧
      s'.p.err_buf.len = 0 ∧ s'.p.err_buf.cursor = 0 ∧
      s'.p.wait_events = WAIT_SOCKET_READABLE ∧
      s'.p.addrs = [] ∧ s'.p.addr_cur = [] :=
  ⟨_, rfl, completion_effects exEnv 2
    (exAwaiting (frame 83 (beEncode 4 90600 ++ beEncode 4 3 ++ beEncode 8 1))) _ rfl
    (by decide) (fun h => by cases h)⟩

theorem recv_result_witness :
    ∃ r s', rdc_recv (exRecv [RecvOutcome.eintr, RecvOutcome.eintr, RecvOutcome.again]) =
        .ret r s' ∧
      (r = 1 ↔ ∃ bs, RecvOutcome.again = RecvOutcome.bytes bs ∧
        delivered (exRecv [RecvOutcome.eintr, RecvOutcome.eintr, RecvOutcome.again]).p.in_buf
          bs ≠ []) ∧
      (r = 0 ↔ RecvOutcome.again = RecvOutcome.again) ∧
      (r = EOF ↔ RecvOutcome.again = RecvOutcome.shutdown ∨
        RecvOutcome.again = RecvOutcome.fail ∨
        ∃ bs, RecvOutcome.again = RecvOutcome.bytes bs ∧
          delivered (exRecv [RecvOutcome.eintr, RecvOutcome.eintr, RecvOutcome.again]).p.in_buf
            bs = []) ∧
      (r = EOF → s'.p.err_buf.data ≠ []) :=
  recv_result (exRecv [RecvOutcome.eintr, RecvOutcome.eintr, RecvOutcome.again]) 2
    RecvOutcome.again [] rfl rfl rfl (by decide)

/-- The outcomes of `rdc_recv` on a nonblocking port: bytes give 1, a call
that would block gives 0 after the interrupted calls, an orderly shutdown
and a failure give EOF with a message in the error buffer. -/
theorem recv_outcome_samples :
    (∃ s', rdc_recv (exRecv [RecvOutcome.eintr, RecvOutcome.bytes [1, 2, 3]]) = .ret 1 s' ∧
      s'.p.in_buf.unread = [1, 2, 3]) ∧
    (∃ s', rdc_recv (exRecv [RecvOutcome.eintr, RecvOutcome.eintr, RecvOutcome.again]) =
      .ret 0 s' ∧ s'.p.in_buf.unread = []) ∧
    (∃ s', rdc_recv (exRecv [RecvOutcome.shutdown]) = .ret EOF s' ∧ s'.p.err_buf.data ≠ []) ∧
    (∃ s', rdc_recv (exRecv [RecvOutcome.eintr, RecvOutcome.fail]) = .ret EOF s' ∧
      s'.p.err_buf.data ≠ []) :=
  ⟨⟨_, rfl, rfl⟩, ⟨_, rfl, rfl⟩, ⟨_, rfl, by decide⟩, ⟨_, rfl, by decide⟩⟩

theorem recv_keeps_unread_witness :
    ∃ s', rdc_recv exUnread = .ret 1 s' ∧
      s'.p.in_buf.cursor = 0 ∧
      ∃ pre o rest got,
        exUnread.p.recvs = pre ++ o :: rest ∧
        (∀ x ∈ pre, x = RecvOutcome.eintr ∨
          (x = RecvOutcome.again ∧ exUnread.p.noblock = false)) ∧
        s'.p.in_buf.data = exUnread.p.in_buf.unread ++ got ∧
        s'.p.in_buf.unread = exUnread.p.in_buf.unread ++ got ∧
        (exUnread.p.in_buf.cursor = exUnread.p.in_buf.len → s'.p.in_buf.data = got) ∧
        ((∃ bs, o = RecvOutcome.bytes bs ∧ got = delivered exUnread.p.in_buf bs ∧
            s'.p.recvs =
              (if bs.drop got.length = [] then rest
               else RecvOutcome.bytes (bs.drop got.length) :: rest) ∧
            (((1 : Int) = 1 ∧ got ≠ []) ∨ ((1 : Int) = EOF ∧ got = []))) ∨
         (o = RecvOutcome.again ∧ exUnread.p.noblock = true ∧ (1 : Int) = 0 ∧ got = [] ∧
            s'.p.recvs = rest) ∨
         ((o = RecvOutcome.fail ∨ o = RecvOutcome.shutdown) ∧ (1 : Int) = EOF ∧ got = [] ∧
            s'.p.recvs = rest)) :=
  ⟨_, rfl, recv_keeps_unread exUnread 1 _ rfl⟩

/-- The sample of the left-justification: of the buffer 9, 8, 7 with the cursor
behind the 9, the unread 8 and 7 are moved to the front and 1, 2, 3 follow. -/
theorem left_justify_sample :
    ∃ s', rdc_recv exUnread = .ret 1 s' ∧ s'.p.in_buf.data = [8, 7, 1, 2, 3] ∧
      s'.p.in_buf.cursor = 0 :=
  ⟨_, rfl, rfl, rfl⟩

theorem write_reduce_events_witness :
    ∃ s', HandleWriteToReduce exSending = .ret () s' ∧
      (s'.p.wait_events.writable = true ↔ s'.p.out_buf.unread ≠ []) ∧
      s'.p.wait_events.readable = exSending.p.wait_events.readable ∧
      s'.p.out_buf.unread = [3, 4] :=
  ⟨_, rfl, ((write_reduce_events exSending rfl).1 _ rfl).1,
    ((write_reduce_events exSending rfl).1 _ rfl).2, rfl⟩

theorem address_walk_witness :
    (∀ (a : AddrInfo) (next : List AddrInfo), a.is_inet = false →
      needed_loop exNeeded (a :: next) =
        needed_loop { exNeeded with p := { exNeeded.p with addr_cur := a :: next } } next) ∧
    (first_ok exNeeded.p.noblock exNeeded.p.addr_cur = none →
      ∃ s', rdc_connect_poll exEnv (0 + 1) exNeeded = .ret RDC_POLLING_FAILED s' ∧
        s'.p.status = RDC_CONNECTION_BAD ∧ s'.p.sock = PGINVALID_SOCKET) ∧
    (∀ (a : AddrInfo) (next : List AddrInfo),
      first_ok exNeeded.p.noblock exNeeded.p.addr_cur = some (a :: next) →
      ∃ s', s'.p.addr_cur = a :: next ∧ s'.p.status = RDC_CONNECTION_STARTED ∧
        s'.p.sock = a.socket_fd ∧ a.socket_fd ≠ PGINVALID_SOCKET ∧
        ((a.connect = ConnectOutcome.inprogress ∧
            rdc_connect_poll exEnv (0 + 1) exNeeded = .ret RDC_POLLING_WRITING s' ∧
            s'.p.wait_events = WAIT_SOCKET_WRITEABLE) ∨
         (a.connect = ConnectOutcome.connected ∧
            rdc_connect_poll exEnv (0 + 1) exNeeded = keep_going exEnv (0 + 1) 0 s'))) :=
  address_walk exEnv 0 exNeeded rfl rfl

/-- The sample of the address walk: the address that is not IPv4 is skipped, the
one whose `connect` fails is dropped, and the poll returns WRITING with the
cursor on the third and its socket in the port; with only the first two
addresses it returns FAILED with status BAD and no socket. -/
theorem walk_sample :
    first_ok exNeeded.p.noblock exNeeded.p.addr_cur = some [exAddr] ∧
    (∃ s', rdc_connect_poll exEnv 1 exNeeded = .ret RDC_POLLING_WRITING s' ∧
      s'.p.addr_cur = [exAddr] ∧ s'.p.status = RDC_CONNECTION_STARTED ∧ s'.p.sock = 5) ∧
    (∃ s', rdc_connect_poll exEnv 1
        { exNeeded with p := { exNeeded.p with addr_cur := [exAddr6, exAddrDown] } } =
        .ret RDC_POLLING_FAILED s' ∧
      s'.p.addr_cur = [] ∧ s'.p.status = RDC_CONNECTION_BAD ∧ s'.p.sock = PGINVALID_SOCKET) :=
  ⟨by decide, ⟨_, rfl, rfl, rfl, rfl⟩, ⟨_, rfl, rfl, rfl, rfl⟩⟩

/-- Samples of `rdc_try_flush` on four pending bytes: a socket that
takes them all gives 0 and an empty buffer; one that takes two and would
block then gives 1 with the cursor moved on by two; one that fails gives EOF
with the buffer discarded and both flags set. -/
theorem try_flush_samples :
    (∃ s', rdc_try_flush { exSending with
          p := { exSending.p with sends := [SendOutcome.accepted 9] } } = .ret 0 s' ∧
      s'.p.wire = [1, 2, 3, 4] ∧ s'.p.out_buf.cursor = 0 ∧ s'.p.out_buf.len = 0) ∧
    (∃ s', rdc_try_flush exSending = .ret 1 s' ∧
      s'.p.wire = [1, 2] ∧ s'.p.out_buf.cursor = 2 ∧ s'.p.out_buf.unread = [3, 4] ∧
      s'.g = exSending.g) ∧
    (∃ s', rdc_try_flush { exSending with
          p := { exSending.p with sends := [SendOutcome.accepted 2, SendOutcome.fail] } } =
        .ret EOF s' ∧
      s'.p.wire = [1, 2] ∧ s'.p.out_buf.cursor = 0 ∧ s'.p.out_buf.len = 0 ∧
      s'.g.ClientConnectionLost = true ∧ s'.g.InterruptPending = true) :=
  ⟨⟨_, rfl, rfl, rfl, rfl⟩, ⟨_, rfl, rfl, rfl, rfl, rfl⟩, ⟨_, rfl, rfl, rfl, rfl, rfl, rfl⟩⟩

theorem parse_group_result_witness :
    ∃ s' clist,
      rdc_parse_group exEnv 3 RDC_CONNECTION_OK RdcFlag.RDC_FLAG_VALID 3 exResolve
          (exBuffered (group_msg exGroup)) =
        .ret (GroupResult.STATUS_OK (exGroup.length : Int) exGroup clist) s' ∧
      List.Forall₂
        (fun m port =>
          dial_port exEnv 3 RDC_CONNECTION_OK RdcFlag.RDC_FLAG_VALID 3 exResolve
            (exBuffered (group_msg exGroup)).g m = some port ∧
          port.peer_type = 3 ∧ port.peer_id = m.rdc_rpid ∧
          port.self_type = 3 ∧ port.self_id = exEnv.MyReduceId ∧ port.active = true)
        (dialed 0 exGroup) clist :=
  (parse_group_result exEnv 3 RDC_CONNECTION_OK RdcFlag.RDC_FLAG_VALID 3 exResolve
    (exBuffered (group_msg exGroup)) exGroup 0
    { rdc_host := [104, 49], rdc_port := 7001, rdc_rpid := 1 } []
    (by decide) (by decide) (by decide) (by decide) rfl rfl
    (fun m l h => by cases h; decide)).1 (by decide)

/-- The sample group at reducer 1: the rule makes it dial the reducer 3 only,
and the port for it is the one entry of the connect list. -/
theorem group_sample :
    dialed 0 exGroup = [{ rdc_host := [104, 51], rdc_port := 7003, rdc_rpid := 3 }] ∧
    ∃ s' port,
      rdc_parse_group exEnv 3 RDC_CONNECTION_OK RdcFlag.RDC_FLAG_VALID 3 exResolve
          (exBuffered (group_msg exGroup)) =
        .ret (GroupResult.STATUS_OK 3 exGroup [port]) s' ∧
      port.peer_id = 3 ∧ port.status = RDC_CONNECTION_STARTED ∧ port.sock = 5 ∧
      s'.p.in_buf.unread = [] :=
  ⟨by decide, _, _, rfl, rfl, rfl, rfl, rfl⟩

/-- The samples of a failing send that is not the first call: in nonblocking
mode after a call that took two of the four pending bytes, and in blocking
mode after a call that would block.  Both give EOF with the buffer reset and
both process-wide flags set, and leave the outcomes behind the failure. -/
theorem flush_failure_samples :
    (∃ s', internal_flush_buffer false exSending
        [SendOutcome.accepted 2, SendOutcome.fail, SendOutcome.eintr] = .ret EOF s' ∧
      s'.p.wire = exSending.p.wire ++ [1, 2] ∧ s'.p.out_buf.cursor = 0 ∧
      s'.p.out_buf.len = 0 ∧ s'.g.ClientConnectionLost = true ∧
      s'.g.InterruptPending = true ∧ s'.p.sends = [SendOutcome.eintr]) ∧
    (∃ s', internal_flush_buffer true exSending
        [SendOutcome.again, SendOutcome.fail, SendOutcome.eintr] = .ret EOF s' ∧
      s'.p.wire = exSending.p.wire ∧ s'.p.out_buf.cursor = 0 ∧
      s'.p.out_buf.len = 0 ∧ s'.g.ClientConnectionLost = true ∧
      s'.g.InterruptPending = true ∧ s'.p.sends = [SendOutcome.eintr]) :=
  ⟨⟨_, rfl, rfl, rfl, rfl, rfl, rfl, rfl⟩, ⟨_, rfl, rfl, rfl, rfl, rfl, rfl, rfl⟩⟩

/-- The dial rule on indices that are natural numbers. -/
theorem dial_nat (s o : Nat) :
    dial (s : Int) (o : Int) = true ↔ (o % 2 = s % 2 ∧ s < o) ∨ (o % 2 ≠ s % 2 ∧ o < s) := by
  rw [dial_iff (s : Int) (o : Int) (by omega) (by omega)]
  omega

/-- The number of indices below `M` that the reducer at index `s` dials. -/
theorem dial_load_below (s : Nat) :
    ∀ M : Nat, ((List.range M).filter fun (o : Nat) => dial (s : Int) (o : Int)).length =
      if M ≤ s then (if s % 2 = 0 then M / 2 else (M + 1) / 2)
      else (s + 1) / 2 + (M - s - 1) / 2 := by
  intro M
  induction M with
  | zero => simp
  | succ M ih =>
    rw [List.range_succ, List.filter_append, List.length_append, ih]
    by_cases hd : dial (s : Int) (M : Int) = true
    · have h := (dial_nat s M).mp hd
      simp only [List.filter_cons, hd, if_true, List.filter_nil, List.length_singleton]
      split_ifs <;> omega
    · have h : ¬ ((M % 2 = s % 2 ∧ s < M) ∨ (M % 2 ≠ s % 2 ∧ M < s)) :=
        fun e => hd ((dial_nat s M).mpr e)
      have hd2 : dial (s : Int) (M : Int) = false := by simpa using hd
      simp only [List.filter_cons, hd2, Bool.false_eq_true, if_false, List.filter_nil,
        List.length_nil]
      split_ifs <;> omega

/-- C33: in a group of even size `N`, the reducer at index `s < N` dials
`N / 2 - 1` of the indices below `N` when `s` is even and `N / 2` when `s` is
odd.  For `N = 10` the dialed sets are those of the table in the comment of
`rdc_parse_group`, the counts per node are 4, 5, 4, 5, 4, 5, 4, 5, 4, 5 and the
total is 45. -/
theorem dial_load (N s : Nat) (hN : N % 2 = 0) (hs : s < N) :
    ((List.range N).filter fun (o : Nat) => dial (s : Int) (o : Int)).length =
      (if s % 2 = 0 then N / 2 - 1 else N / 2) ∧
    ((List.range 10).map fun (n : Nat) =>
        (List.range 10).filter fun (o : Nat) => dial (n : Int) (o : Int)) =
      [[2, 4, 6, 8], [0, 3, 5, 7, 9], [1, 4, 6, 8], [0, 2, 5, 7, 9], [1, 3, 6, 8],
       [0, 2, 4, 7, 9], [1, 3, 5, 8], [0, 2, 4, 6, 9], [1, 3, 5, 7], [0, 2, 4, 6, 8]] ∧
    ((List.range 10).map fun (n : Nat) =>
        ((List.range 10).filter fun (o : Nat) => dial (n : Int) (o : Int)).length) =
      [4, 5, 4, 5, 4, 5, 4, 5, 4, 5] ∧
    (((List.range 10).map fun (n : Nat) =>
        ((List.range 10).filter fun (o : Nat) => dial (n : Int) (o : Int)).length).sum = 45) := by
  refine ⟨?_, by decide, by decide, by decide⟩
  rw [dial_load_below s N]
  split_ifs <;> omega

theorem dial_load_witness :
    ((List.range 6).filter fun (o : Nat) => dial ((3 : Nat) : Int) (o : Int)).length =
      (if 3 % 2 = 0 then 6 / 2 - 1 else 6 / 2) ∧
    ((List.range 10).map fun (n : Nat) =>
        (List.range 10).filter fun (o : Nat) => dial (n : Int) (o : Int)) =
      [[2, 4, 6, 8], [0, 3, 5, 7, 9], [1, 4, 6, 8], [0, 2, 5, 7, 9], [1, 3, 6, 8],
       [0, 2, 4, 7, 9], [1, 3, 5, 8], [0, 2, 4, 6, 9], [1, 3, 5, 7], [0, 2, 4, 6, 8]] ∧
    ((List.range 10).map fun (n : Nat) =>
        ((List.range 10).filter fun (o : Nat) => dial (n : Int) (o : Int)).length) =
      [4, 5, 4, 5, 4, 5, 4, 5, 4, 5] ∧
    (((List.range 10).map fun (n : Nat) =>
        ((List.range 10).filter fun (o : Nat) => dial (n : Int) (o : Int)).length).sum = 45) :=
  dial_load 6 3 (by decide) (by decide)

/-- On a nonblocking port `rdc_getbytes` is an availability check as long as
`cursor + n` does not wrap around in `size_t`: it returns 0 if `n = 0` or `n`
unread bytes are buffered and EOF otherwise, and leaves the port as it is. -/
theorem getbytes_check (E : Env) (fuel : Nat) (s : PSt) (n : Nat)
    (hnb : s.p.noblock = true) (hc : s.p.in_buf.cursor ≤ s.p.in_buf.len)
    (hlen : s.p.in_buf.len < 2 ^ 31) (hw : s.p.in_buf.cursor + n < 2 ^ 64) :
    rdc_getbytes E (fuel + 1) s n =
      .ret (if n = 0 ∨ s.p.in_buf.cursor + n ≤ s.p.in_buf.len then 0 else EOF) s := by
  by_cases h0 : n = 0
  · subst h0
    simp [rdc_getbytes]
  · by_cases h1 : s.p.in_buf.cursor + n ≤ s.p.in_buf.len
    · rw [rdc_getbytes_enough E fuel s n h1 (by omega), if_pos (Or.inr h1)]
    · rw [rdc_getbytes_short E fuel s n hnb hc (by omega) hw, if_neg (by tauto)]

/-- C34, failing input: a nonblocking port whose in-buffer has been read to
its end (`cursor = len = 5`) and the request `n = 2^64 - 1`, which is what the
dispatchers pass for a length word of 3.  `cursor + n` wraps around to 4, the
test `cursor + n > len` fails, no byte is available, and the loop of
`rdc_getbytes` goes round without change: for no fuel does the call return.
The same request with one byte unread returns EOF, after six rounds. -/
theorem getbytes_wraps :
    toSizeT (toInt32 ((toInt32 (3 : Int) : Int) - 4)) = 2 ^ 64 - 1 ∧
    (∀ fuel, rdc_getbytes exEnv fuel ((exBuffered [80, 0, 0, 0, 3]).adv 5) (2 ^ 64 - 1) =
      .stuck) ∧
    rdc_getbytes exEnv 8 ((exBuffered [80, 0, 0, 0, 3, 9]).adv 5) (2 ^ 64 - 1) =
      .ret EOF ((exBuffered [80, 0, 0, 0, 3, 9]).adv 5) := by
  refine ⟨by decide, fun fuel => ?_, by decide⟩
  unfold rdc_getbytes
  rw [if_neg (by decide)]
  exact getbytes_spin exEnv _ fuel _ (by decide) (by decide) (by decide)

theorem recv_loop_mode (X : RdcConnStatusType) (W : WaitEvents)
    (B K : Bool) (script : List RecvOutcome) :
    ∀ s : PSt, ModeIs X W B K s → (rdc_recv_loop s script).after (ModeIs X W B K) := by
  induction script with
  | nil => intro s _; exact trivial
  | cons o rest ih =>
    intro s h
    cases o <;> simp only [rdc_recv_loop] <;>
      repeat' first
        | exact h
        | exact ih s h
        | split

theorem recv_mode (X : RdcConnStatusType) (W : WaitEvents)
    (B K : Bool) (s : PSt) (h : ModeIs X W B K s) :
    (rdc_recv s).after (ModeIs X W B K) := by
  unfold rdc_recv
  exact recv_loop_mode X W B K _ _ h

theorem getbyte_mode (X : RdcConnStatusType) (W : WaitEvents)
    (B K : Bool) (s : PSt) (h : ModeIs X W B K s) :
    (rdc_getbyte s).after (ModeIs X W B K) := by
  have hb : ∀ t : PSt, ModeIs X W B K t → (getbyte_buffered t).after (ModeIs X W B K) := by
    intro t ht
    unfold getbyte_buffered
    split
    · exact ht
    · exact ht
  unfold rdc_getbyte
  split
  · split
    · exact h
    · apply after_bind _ _ _ (recv_mode X W B K s h)
      intro r s1 h1
      split
      · exact h1
      · exact hb s1 h1
  · exact hb s h

theorem discard_mode (X : RdcConnStatusType) (W : WaitEvents)
    (B K : Bool) (fuel : Nat) :
    ∀ (s : PSt) (len : Nat), ModeIs X W B K s →
      (rdc_discardbytes fuel s len).after (ModeIs X W B K) := by
  induction fuel with
  | zero => intro s len _; exact trivial
  | succ n ih =>
    intro s len h
    unfold rdc_discardbytes
    split
    · exact h
    · split
      · apply after_bind _ _ _ (recv_mode X W B K s h)
        intro r s1 h1
        split
        · exact h1
        · exact ih s1 len h1
      · exact ih _ _ h

theorem getbytes_loop_mode (E : Env) (X : RdcConnStatusType) (W : WaitEvents)
    (B K : Bool) (fuel : Nat) :
    ∀ (s : PSt) (len : Nat), ModeIs X W B K s →
      (rdc_getbytes_loop E fuel s len).after (ModeIs X W B K) := by
  induction fuel with
  | zero => intro s len _; exact trivial
  | succ n ih =>
    intro s len h
    unfold rdc_getbytes_loop
    simp only []
    split
    · exact h
    · split
      · split
        · exact h
        · split
          · apply after_bind _ _ _ (discard_mode X W B K (n + 1) s len h)
            intro _ s1 h1
            exact h1
          · refine after_bind _ _ _ (recv_mode X W B K _ ?_) ?_
            · exact h
            · intro r s1 h1
              split
              · exact h1
              · exact ih s1 len h1
      · split
        · exact h
        · exact ih s _ h

theorem getbytes_mode (E : Env) (X : RdcConnStatusType) (W : WaitEvents)
    (B K : Bool) (fuel : Nat) (s : PSt) (len : Nat)
    (h : ModeIs X W B K s) : (rdc_getbytes E fuel s len).after (ModeIs X W B K) := by
  unfold rdc_getbytes
  split
  · exact h
  · exact getbytes_loop_mode E X W B K fuel s len h

theorem flush_buffer_mode (X : RdcConnStatusType) (W : WaitEvents)
    (B K : Bool) (block : Bool) (script : List SendOutcome) :
    ∀ s : PSt, ModeIs X W B K s →
      (internal_flush_buffer block s script).after (ModeIs X W B K) := by
  induction script with
  | nil =>
    intro s h
    simp only [internal_flush_buffer]
    split
    · exact trivial
    · exact h
  | cons o rest ih =>
    intro s h
    simp only [internal_flush_buffer]
    split
    · cases o with
      | accepted r => exact ih _ h
      | eintr => exact ih _ h
      | again =>
        simp only []
        split
        · exact ih _ h
        · exact h
      | fail => exact h
    · exact h

theorem flush_mode (X : RdcConnStatusType) (W : WaitEvents)
    (B K : Bool) (s : PSt) (h : ModeIs X W B K s) :
    (rdc_flush s).after (ModeIs X W B K) := by
  unfold rdc_flush
  apply after_bind _ _ _ (flush_buffer_mode X W B K true _ s h)
  intro r s1 h1
  split
  · exact h1
  · exact h1

theorem put_loop_mode (E : Env) (X : RdcConnStatusType) (W : WaitEvents)
    (B K : Bool) (fuel : Nat) :
    ∀ (s : PSt) (bs : List Nat), ModeIs X W B K s →
      (put_buffer_loop E fuel s bs).after (ModeIs X W B K) := by
  induction fuel with
  | zero => intro s bs _; exact trivial
  | succ n ih =>
    intro s bs h
    unfold put_buffer_loop
    split
    · exact h
    · apply after_bind
      · split
        · exact flush_mode X W B K s h
        · exact h
      · intro r s1 h1
        split
        · exact h1
        · simp only []
          split
          · exact h1
          · exact ih _ _ h1

theorem putmessage_mode (E : Env) (X : RdcConnStatusType) (W : WaitEvents)
    (B K : Bool) (fuel : Nat) (s : PSt) (bs : List Nat)
    (h : ModeIs X W B K s) : (rdc_putmessage E fuel s bs).after (ModeIs X W B K) := by
  unfold rdc_putmessage internal_put_buffer
  simp only [Bool.false_eq_true, if_false]
  exact put_loop_mode E X W B K fuel s bs h

theorem send_rqt_mode (E : Env) (X : RdcConnStatusType) (W : WaitEvents)
    (B K : Bool) (fuel : Nat) (s : PSt) (t i : Nat)
    (h : ModeIs X W B K s) : (rdc_send_startup_rqt E fuel s t i).after (ModeIs X W B K) := by
  unfold rdc_send_startup_rqt
  apply after_bind _ _ _ (putmessage_mode E X W B K fuel s _ h)
  intro r s1 h1
  split
  · exact h1
  · exact flush_mode X W B K s1 h1

theorem send_rsp_mode (E : Env) (X : RdcConnStatusType) (W : WaitEvents)
    (B K : Bool) (fuel : Nat) (s : PSt) (t i : Nat)
    (h : ModeIs X W B K s) : (rdc_send_startup_rsp E fuel s t i).after (ModeIs X W B K) := by
  unfold rdc_send_startup_rsp
  apply after_bind _ _ _ (putmessage_mode E X W B K fuel s _ h)
  intro r s1 h1
  split
  · exact h1
  · exact flush_mode X W B K s1 h1

theorem mode_err (X : RdcConnStatusType) (W : WaitEvents) (B K : Bool) (s : PSt) (m : String)
    (h : ModeIs X W B K s) : ModeIs X W B K (s.err m) := h

theorem mode_setIn (X : RdcConnStatusType) (W : WaitEvents) (B K : Bool) (s : PSt)
    (b : StringInfo) (h : ModeIs X W B K s) : ModeIs X W B K (s.setIn b) := h

theorem mode_setCursor (X : RdcConnStatusType) (W : WaitEvents) (B K : Bool) (s : PSt)
    (n : Nat) (h : ModeIs X W B K s) : ModeIs X W B K (s.setCursor n) := h

/-- The restore at `eof_end` of a port that was nonblocking on entry and on
which setting nonblocking mode succeeds. -/
theorem restore_noblock (X : RdcConnStatusType) (W : WaitEvents) (s : PSt)
    (h : ModeIs X W false true s) : (getmessage_restore true s).p.noblock = true := by
  obtain ⟨_, _, h3, h4⟩ := h
  simp [getmessage_restore, rdc_set_noblock, h3, h4]

/-- The blocking mode after `rdc_getmessage` on a port that was nonblocking
on entry (and on which setting nonblocking mode succeeds): with the result
EOF the port is nonblocking again; with a message type as the result it is
left flagged blocking. -/
theorem getmessage_mode (E : Env) (fuel : Nat) (s : PSt) (maxlen : Nat) (r : Int) (s' : PSt)
    (hnb : s.p.noblock = true) (hok : s.p.pg_set_noblock_ok = true)
    (h : rdc_getmessage E fuel s maxlen = .ret r s') :
    (r = EOF ∧ s'.p.noblock = true) ∨ (r ≠ EOF ∧ s'.p.noblock = false) := by
  unfold rdc_getmessage at h
  simp only [hnb, if_true] at h
  have h0 : ModeIs s.p.status s.p.wait_events false true
      ({ s with p := (rdc_set_block s.p).2 } : PSt) := ⟨rfl, rfl, rfl, hok⟩
  have g1 := getbyte_mode _ _ _ _ _ h0
  cases hb : rdc_getbyte ({ s with p := (rdc_set_block s.p).2 } : PSt) with
  | stuck => simp [hb] at h
  | raised s1 => simp [hb] at h
  | ret b s1 =>
    rw [hb] at g1
    simp only [hb] at h
    by_cases c1 : toChar b = EOF
    · rw [if_pos c1] at h
      simp only [Res.ret.injEq] at h
      obtain ⟨e1, e2⟩ := h
      subst e1 e2
      exact Or.inl ⟨rfl, restore_noblock _ _ _ (mode_err _ _ _ _ _ _ g1)⟩
    · rw [if_neg c1] at h
      have g2 := getbytes_mode E _ _ _ _ fuel s1 4 g1
      cases hg : rdc_getbytes E fuel s1 4 with
      | stuck => simp [hg] at h
      | raised s2 => simp [hg] at h
      | ret r2 s2 =>
        rw [hg] at g2
        simp only [hg] at h
        by_cases c2 : r2 = EOF
        · rw [if_pos c2] at h
          simp only [Res.ret.injEq] at h
          obtain ⟨e1, e2⟩ := h
          subst e1 e2
          exact Or.inl ⟨rfl, restore_noblock _ _ _ (mode_err _ _ _ _ _ _ g2)⟩
        · rw [if_neg c2] at h
          cases hm : rdc_getmsgint s2.p.in_buf 4 with
          | none => simp [hm] at h
          | some x =>
            obtain ⟨word, buf3⟩ := x
            simp only [hm] at h
            have g3 := mode_setIn _ _ _ _ s2 buf3 g2
            by_cases c3 : word % 2 ^ 32 < 4 ∨ (maxlen > 0 ∧ word % 2 ^ 32 > maxlen)
            · rw [if_pos c3] at h
              simp only [Res.ret.injEq] at h
              obtain ⟨e1, e2⟩ := h
              subst e1 e2
              exact Or.inl ⟨rfl, restore_noblock _ _ _ (mode_err _ _ _ _ _ _ g3)⟩
            · rw [if_neg c3] at h
              by_cases c4 : word % 2 ^ 32 - 4 > 0
              · rw [if_pos c4] at h
                have g4 := getbytes_mode E _ _ _ _ fuel (s2.setIn buf3) (word % 2 ^ 32 - 4) g3
                cases hp : rdc_getbytes E fuel (s2.setIn buf3) (word % 2 ^ 32 - 4) with
                | stuck => rw [hp] at h; simp at h
                | raised s4 => rw [hp] at h; simp at h
                | ret r4 s4 =>
                  rw [hp] at g4
                  rw [hp] at h
                  simp only [] at h
                  by_cases c5 : r4 = EOF
                  · rw [if_pos c5] at h
                    simp only [Res.ret.injEq] at h
                    obtain ⟨e1, e2⟩ := h
                    subst e1 e2
                    exact Or.inl ⟨rfl, restore_noblock _ _ _ (mode_err _ _ _ _ _ _ g4)⟩
                  · rw [if_neg c5] at h
                    simp only [Res.ret.injEq] at h
                    obtain ⟨e1, e2⟩ := h
                    subst e1 e2
                    exact Or.inr ⟨c1, g4.2.2.1⟩
              · rw [if_neg c4] at h
                simp only [Res.ret.injEq] at h
                obtain ⟨e1, e2⟩ := h
                subst e1 e2
                exact Or.inr ⟨c1, g3.2.2.1⟩

/-- C40, failing input: a nonblocking port whose in-buffer holds a whole
message, here the header of a message without payload.  `rdc_getmessage`
flags the port blocking, returns the message type and never flags it
nonblocking again; only on the way out with EOF (here for the length
word 0) is the flag restored. -/
theorem getmessage_leaves_blocking :
    (exBuffered [80, 0, 0, 0, 4]).p.noblock = true ∧
    (∃ s', rdc_getmessage exEnv 1 (exBuffered [80, 0, 0, 0, 4]) 0 = .ret 80 s' ∧
      s'.p.noblock = false) ∧
    (∃ s', rdc_getmessage exEnv 1 (exBuffered [80, 0, 0, 0, 0]) 0 = .ret EOF s' ∧
      s'.p.noblock = true) :=
  ⟨rfl, ⟨_, rfl, rfl⟩, ⟨_, rfl, rfl⟩⟩

/-- `SendPlanCloseToPlan` on a valid PlanPort is the push of the PLAN_CLOSE
frame, counted in `recv_from_rdc`, followed by `SendRdcEofToPlan` with
`error_if_exists = false`. -/
theorem close_unfold (E : Env) (pp : PlanPort) (X : Nat) (hv : PlanPortIsValid pp = true) :
    SendPlanCloseToPlan E pp X =
      SendRdcEofToPlan E
        { pp with recv_from_rdc := pp.recv_from_rdc + 1,
                  msg_buf := frame E.MSG_PLAN_CLOSE (beEncode 8 X),
                  rdcstore := pp.rdcstore ++ [frame E.MSG_PLAN_CLOSE (beEncode 8 X)] } X false := by
  simp only [SendPlanCloseToPlan, hv, Bool.not_true, Bool.false_eq_true, if_false,
    rdcstore_puttuple]

/-- C35 (amended): on a valid PlanPort with room in `rdc_eofs`, handling a
PLAN_CLOSE from the peer `X` returns normally in both cases.  If `X` is not
in the EOF set, the PLAN_CLOSE frame carrying `X` and after it an EOF frame
carrying `X` are pushed into the rdcstore, `X` is inserted into the EOF set
and `eof_num` grows by 1.  If `X` is already in the EOF set, only the
PLAN_CLOSE frame is pushed, `rdc_eofs` and `eof_num` stay as they are, and
nothing is raised. -/
theorem plan_close_from_peer (E : Env) (pp : PlanPort) (X : Nat)
    (hv : PlanPortIsValid pp = true) (hroom : pp.eof_num < pp.rdc_eofs.length) :
    (X ∉ pp.eofs →
      ∃ pp', SendPlanCloseToPlan E pp X = .done pp' ∧
        pp'.rdcstore = pp.rdcstore ++
          [frame E.MSG_PLAN_CLOSE (beEncode 8 X), frame E.MSG_EOF (beEncode 8 X)] ∧
        pp'.eofs = pp.eofs ++ [X] ∧ pp'.eof_num = pp.eof_num + 1 ∧
        pp'.rdc_eofs = pp.rdc_eofs.set pp.eof_num X) ∧
    (X ∈ pp.eofs →
      ∃ pp', SendPlanCloseToPlan E pp X = .done pp' ∧
        pp'.rdcstore = pp.rdcstore ++ [frame E.MSG_PLAN_CLOSE (beEncode 8 X)] ∧
        pp'.rdc_eofs = pp.rdc_eofs ∧ pp'.eof_num = pp.eof_num) := by
  constructor
  · intro hnew
    obtain ⟨pp', h, -, hn, hr, he, hs, -, -⟩ :=
      eof_fresh E
        { pp with recv_from_rdc := pp.recv_from_rdc + 1,
                  msg_buf := frame E.MSG_PLAN_CLOSE (beEncode 8 X),
                  rdcstore := pp.rdcstore ++ [frame E.MSG_PLAN_CLOSE (beEncode 8 X)] }
        X false hv hnew hroom
    refine ⟨pp', ?_, ?_, he, hn, hr⟩
    · rw [close_unfold E pp X hv]
      exact h
    · rw [hs, List.append_assoc]
      rfl
  · intro hold
    have h := eof_again E
        { pp with recv_from_rdc := pp.recv_from_rdc + 1,
                  msg_buf := frame E.MSG_PLAN_CLOSE (beEncode 8 X),
                  rdcstore := pp.rdcstore ++ [frame E.MSG_PLAN_CLOSE (beEncode 8 X)] }
        X false hv hold
    rw [close_unfold E pp X hv, h]
    exact ⟨_, rfl, rfl, rfl, rfl⟩

theorem plan_close_from_peer_witness :
    (3 ∉ exPlanSeen.eofs →
      ∃ pp', SendPlanCloseToPlan exEnv exPlanSeen 3 = .done pp' ∧
        pp'.rdcstore = exPlanSeen.rdcstore ++
          [frame exEnv.MSG_PLAN_CLOSE (beEncode 8 3), frame exEnv.MSG_EOF (beEncode 8 3)] ∧
        pp'.eofs = exPlanSeen.eofs ++ [3] ∧ pp'.eof_num = exPlanSeen.eof_num + 1 ∧
        pp'.rdc_eofs = exPlanSeen.rdc_eofs.set exPlanSeen.eof_num 3) ∧
    (3 ∈ exPlanSeen.eofs →
      ∃ pp', SendPlanCloseToPlan exEnv exPlanSeen 3 = .done pp' ∧
        pp'.rdcstore = exPlanSeen.rdcstore ++ [frame exEnv.MSG_PLAN_CLOSE (beEncode 8 3)] ∧
        pp'.rdc_eofs = exPlanSeen.rdc_eofs ∧ pp'.eof_num = exPlanSeen.eof_num) :=
  plan_close_from_peer exEnv exPlanSeen 3 (by decide) (by decide)

/-- C35, counterexample: the PlanPort of plan 11 is valid and has had the EOF
of reducer 2.  An EOF message from reducer 2 is raised as a duplicate, but a
PLAN_CLOSE from reducer 2 returns normally: the PLAN_CLOSE frame is pushed and
the EOF set stays as it is. -/
theorem plan_close_duplicate_silent :
    PlanPortIsValid exPlanSeen = true ∧ 2 ∈ exPlanSeen.eofs ∧
    (∃ pp', SendRdcEofToPlan exEnv exPlanSeen 2 true = .raised pp') ∧
    (∃ pp', SendPlanCloseToPlan exEnv exPlanSeen 2 = .done pp' ∧
      pp'.rdcstore = [frame 67 (beEncode 8 2)] ∧ pp'.rdc_eofs = [2, 0, 0] ∧ pp'.eof_num = 1) := by
  refine ⟨by decide, by decide, ⟨_, rfl⟩, ⟨_, rfl, rfl, rfl, rfl⟩⟩

/-- One call of `SendRdcDataToPlan` adds 1 to `recv_from_rdc` on a valid
PlanPort and 1 to `dscd_from_rdc` on a tombstoned one. -/
theorem data_counted (E : Env) (pp : PlanPort) (X : Nat) (d : List Nat) :
    (PlanPortIsValid pp = true →
      (SendRdcDataToPlan E pp X d).recv_from_rdc = pp.recv_from_rdc + 1 ∧
      (SendRdcDataToPlan E pp X d).dscd_from_rdc = pp.dscd_from_rdc) ∧
    (PlanPortIsValid pp = false →
      (SendRdcDataToPlan E pp X d).recv_from_rdc = pp.recv_from_rdc ∧
      (SendRdcDataToPlan E pp X d).dscd_from_rdc = pp.dscd_from_rdc + 1) := by
  constructor
  · intro hv
    simp [SendRdcDataToPlan, hv, PlanPortAddEvents]
  · intro hv
    simp [SendRdcDataToPlan, hv]

/-- One call of `SendRdcEofToPlan` that returns adds 1 to `recv_from_rdc` on a
valid PlanPort and 1 to `dscd_from_rdc` on a tombstoned one. -/
theorem eof_counted (E : Env) (pp pp' : PlanPort) (X : Nat) (b : Bool)
    (h : SendRdcEofToPlan E pp X b = .done pp') :
    (PlanPortIsValid pp = true →
      pp'.recv_from_rdc = pp.recv_from_rdc + 1 ∧ pp'.dscd_from_rdc = pp.dscd_from_rdc) ∧
    (PlanPortIsValid pp = false →
      pp'.recv_from_rdc = pp.recv_from_rdc ∧ pp'.dscd_from_rdc = pp.dscd_from_rdc + 1) := by
  constructor
  · intro hv
    simp only [SendRdcEofToPlan, hv, Bool.not_true, Bool.false_eq_true, if_false] at h
    split at h
    · split at h
      · simp at h
      · simp only [PlanRes.done.injEq] at h
        subst h
        exact ⟨rfl, rfl⟩
    · split at h
      · simp only [PlanRes.done.injEq] at h
        subst h
        simp [PlanPortAddEvents]
      · simp at h
  · intro hv
    simp only [SendRdcEofToPlan, hv, Bool.not_false, if_true, PlanRes.done.injEq] at h
    subst h
    exact ⟨rfl, rfl⟩

/-- One call of `SendPlanCloseToPlan` that returns adds 2 to `recv_from_rdc`
on a valid PlanPort and 1 to `dscd_from_rdc` on a tombstoned one. -/
theorem close_counted (E : Env) (pp pp' : PlanPort) (X : Nat)
    (h : SendPlanCloseToPlan E pp X = .done pp') :
    (PlanPortIsValid pp = true →
      pp'.recv_from_rdc = pp.recv_from_rdc + 2 ∧ pp'.dscd_from_rdc = pp.dscd_from_rdc) ∧
    (PlanPortIsValid pp = false →
      pp'.recv_from_rdc = pp.recv_from_rdc ∧ pp'.dscd_from_rdc = pp.dscd_from_rdc + 1) := by
  constructor
  · intro hv
    rw [close_unfold E pp X hv] at h
    have h2 := (eof_counted E _ pp' X false h).1 hv
    exact ⟨h2.1, h2.2⟩
  · intro hv
    simp only [SendPlanCloseToPlan, hv, Bool.not_false, if_true, PlanRes.done.injEq] at h
    subst h
    exact ⟨rfl, rfl⟩

/-- C39, counterexample: the valid PlanPort of plan 11 with a free EOF array
and counters at 0.  One PLAN_CLOSE from reducer 2 is handled without error and
leaves `recv_from_rdc = 2`, so the sum `recv_from_rdc + dscd_from_rdc` grows
by 2; a data tuple or an EOF from reducer 2 on the same PlanPort leaves
`recv_from_rdc = 1`.  The same holds for the frames read by `HandleRdcMsg`
from the port to reducer 2. -/
theorem plan_close_counted_twice :
    PlanPortIsValid exPlanRoom = true ∧
    exPlanRoom.recv_from_rdc + exPlanRoom.dscd_from_rdc = 0 ∧
    (∃ pp', SendPlanCloseToPlan exEnv exPlanRoom 2 = .done pp' ∧
      pp'.recv_from_rdc = 2 ∧ pp'.dscd_from_rdc = 0) ∧
    (∃ pp', SendRdcEofToPlan exEnv exPlanRoom 2 true = .done pp' ∧
      pp'.recv_from_rdc = 1 ∧ pp'.dscd_from_rdc = 0) ∧
    (SendRdcDataToPlan exEnv exPlanRoom 2 [7]).recv_from_rdc = 1 ∧
    (SendRdcDataToPlan exEnv exPlanRoom 2 [7]).dscd_from_rdc = 0 ∧
    (∃ st', HandleRdcMsg exEnv (fun _ => exPlanPort) 2
        { exRdcIn (frame 67 (beEncode 8 11)) with pln_nodes := [exPlanRoom] } = .ret () st' ∧
      st'.pln_nodes.map (fun pp => (pp.recv_from_rdc, pp.dscd_from_rdc)) = [(2, 0)]) ∧
    (∃ st', HandleRdcMsg exEnv (fun _ => exPlanPort) 2
        { exRdcIn (frame 70 (beEncode 8 11)) with pln_nodes := [exPlanRoom] } = .ret () st' ∧
      st'.pln_nodes.map (fun pp => (pp.recv_from_rdc, pp.dscd_from_rdc)) = [(1, 0)]) := by
  refine ⟨by decide, rfl, ⟨_, rfl, rfl, rfl⟩, ⟨_, rfl, rfl, rfl⟩, rfl, rfl, ?_, ?_⟩
  · exact ⟨_, rfl, rfl⟩
  · exact ⟨_, rfl, rfl⟩

/-- C39 (amended): for every PlanPort, peer id and payload, one R2R_DATA, EOF
or PLAN_CLOSE frame from a peer reducer that is handled without error adds,
on a tombstoned PlanPort, exactly 1 to `dscd_from_rdc` and nothing to
`recv_from_rdc`, whatever its type; on a valid PlanPort it leaves
`dscd_from_rdc` as it is and adds to `recv_from_rdc` exactly 1 for an
R2R_DATA or EOF frame and exactly 2 for a PLAN_CLOSE frame, which is counted
once as PLAN_CLOSE and once more by the EOF handling it goes on to.  A data
frame is always handled; a first EOF or PLAN_CLOSE of a peer on a valid
PlanPort with a free slot in `rdc_eofs` is handled, and so is every frame on
a tombstoned PlanPort. -/
theorem rdc_frame_accounting (E : Env) (pp : PlanPort) (X : Nat) (d : List Nat) (b : Bool) :
    (PlanPortIsValid pp = false →
      ((SendRdcDataToPlan E pp X d).dscd_from_rdc = pp.dscd_from_rdc + 1 ∧
        (SendRdcDataToPlan E pp X d).recv_from_rdc = pp.recv_from_rdc) ∧
      (∃ pp', SendRdcEofToPlan E pp X b = .done pp' ∧
        pp'.dscd_from_rdc = pp.dscd_from_rdc + 1 ∧ pp'.recv_from_rdc = pp.recv_from_rdc) ∧
      (∃ pp', SendPlanCloseToPlan E pp X = .done pp' ∧
        pp'.dscd_from_rdc = pp.dscd_from_rdc + 1 ∧ pp'.recv_from_rdc = pp.recv_from_rdc)) ∧
    (PlanPortIsValid pp = true →
      ((SendRdcDataToPlan E pp X d).recv_from_rdc = pp.recv_from_rdc + 1 ∧
        (SendRdcDataToPlan E pp X d).dscd_from_rdc = pp.dscd_from_rdc) ∧
      (∀ pp', SendRdcEofToPlan E pp X b = .done pp' →
        pp'.recv_from_rdc = pp.recv_from_rdc + 1 ∧ pp'.dscd_from_rdc = pp.dscd_from_rdc) ∧
      (∀ pp', SendPlanCloseToPlan E pp X = .done pp' →
        pp'.recv_from_rdc = pp.recv_from_rdc + 2 ∧ pp'.dscd_from_rdc = pp.dscd_from_rdc) ∧
      (X ∉ pp.eofs → pp.eof_num < pp.rdc_eofs.length →
        (∃ pp', SendRdcEofToPlan E pp X b = .done pp') ∧
        (∃ pp', SendPlanCloseToPlan E pp X = .done pp'))) := by
  refine ⟨fun hv => ⟨?_, ?_, ?_⟩, fun hv => ⟨?_, ?_, ?_, ?_⟩⟩
  · have h := (data_counted E pp X d).2 hv
    exact ⟨h.2, h.1⟩
  · have hd : SendRdcEofToPlan E pp X b =
        .done { pp with dscd_from_rdc := pp.dscd_from_rdc + 1 } := by
      simp [SendRdcEofToPlan, hv]
    exact ⟨_, hd, rfl, rfl⟩
  · have hd : SendPlanCloseToPlan E pp X =
        .done { pp with dscd_from_rdc := pp.dscd_from_rdc + 1 } := by
      simp [SendPlanCloseToPlan, hv]
    exact ⟨_, hd, rfl, rfl⟩
  · exact (data_counted E pp X d).1 hv
  · intro pp' h
    exact (eof_counted E pp pp' X b h).1 hv
  · intro pp' h
    exact (close_counted E pp pp' X h).1 hv
  · intro hnew hroom
    obtain ⟨pp1, h1, -⟩ := eof_fresh E pp X b hv hnew hroom
    obtain ⟨pp2, h2, -⟩ :=
      eof_fresh E
        { pp with recv_from_rdc := pp.recv_from_rdc + 1,
                  msg_buf := frame E.MSG_PLAN_CLOSE (beEncode 8 X),
                  rdcstore := pp.rdcstore ++ [frame E.MSG_PLAN_CLOSE (beEncode 8 X)] }
        X false hv hnew hroom
    refine ⟨⟨pp1, h1⟩, ⟨pp2, ?_⟩⟩
    rw [close_unfold E pp X hv]
    exact h2

/-- C38, failing input: the ERROR frame with the message "oop" as a C string,
a whole frame of `1 + L = 9` bytes with `L = 8`, at the start of the in-buffer
of the port to reducer 2 and of a worker of plan 11.  One iteration of
`HandleRdcMsg` and of `HandlePlanMsg` goes on with the next iteration with the
cursor at 5: tag and length word are read, the four payload bytes are left
unread.  The next iteration takes the first byte of the message for a tag and
the following four for a length word, so `HandleRdcMsg` returns to wait for
more input with the cursor at 5 and never dispatches the EOF frame that
follows in the buffer; without the ERROR frame in front that EOF frame is
read to its end and recorded.  An R2R_DATA frame with `L = 13` moves the
cursor on by 14. -/
theorem error_frame_left_unread :
    (frame 69 [111, 111, 112, 0]).length = 1 + 8 ∧
    (∃ st', HandleRdcMsg_body exEnv (fun _ => exPlanPort) 2
        (exRdcIn (frame 69 [111, 111, 112, 0])) = .ret true st' ∧
      st'.s.p.in_buf.cursor = 5 ∧ st'.s.p.in_buf.unread = [111, 111, 112, 0]) ∧
    (∃ st', HandlePlanMsg_body exEnv 2 (exPlanIn (frame 69 [111, 111, 112, 0])) = .ret none st' ∧
      st'.work.in_buf.cursor = 5 ∧ st'.work.in_buf.unread = [111, 111, 112, 0]) ∧
    (∃ st', HandleRdcMsg exEnv (fun _ => exPlanPort) 3
        { exRdcIn (frame 69 [111, 111, 112, 0] ++ frame 70 (beEncode 8 11)) with
          pln_nodes := [exPlanRoom] } = .ret () st' ∧
      st'.s.p.in_buf.cursor = 5 ∧ st'.pln_nodes = [exPlanRoom]) ∧
    (∃ st', HandleRdcMsg exEnv (fun _ => exPlanPort) 3
        { exRdcIn (frame 70 (beEncode 8 11)) with pln_nodes := [exPlanRoom] } = .ret () st' ∧
      st'.s.p.in_buf.cursor = 13 ∧ st'.pln_nodes.map PlanPort.eofs = [[2]]) ∧
    (∃ st', HandleRdcMsg_body exEnv (fun _ => exPlanPort) 2
        (exRdcIn (frame 82 (beEncode 8 11 ++ [7]))) = .ret true st' ∧
      (frame 82 (beEncode 8 11 ++ [7])).length = 1 + 13 ∧ st'.s.p.in_buf.cursor = 14) :=
  ⟨rfl, ⟨_, rfl, rfl, rfl⟩, ⟨_, rfl, rfl, rfl⟩, ⟨_, rfl, rfl, rfl⟩, ⟨_, rfl, rfl, rfl⟩,
    ⟨_, rfl, rfl, rfl⟩⟩

/-- The calls `rdc_accept` makes on the socket never include
`connect_close_on_exec`, whatever their outcomes. -/
theorem accept_calls_no_cloexec (sk : AcceptedSock) :
    SockOptCall.close_on_exec ∉ rdc_accept_calls sk := by
  unfold rdc_accept_calls
  cases sk.noblock_ok <;> cases sk.nodelay_ok <;> simp

/-- A port returned by `rdc_accept` has had the three calls of its condition
made on its socket, all with success. -/
theorem accept_calls_made (zs : RdcConnStatusType) (zf : RdcFlag) (ipt ipi : Nat)
    (sk : AcceptedSock) (script : List AcceptOutcome) (port : RdcPort)
    (h : rdc_accept zs zf ipt ipi sk script = .ret (some port) ()) :
    rdc_accept_calls sk =
      [SockOptCall.set_noblock, SockOptCall.nodelay, SockOptCall.keepalive] := by
  induction script with
  | nil => simp [rdc_accept] at h
  | cons o rest ih =>
    cases o with
    | eintr => exact ih (by simpa [rdc_accept] using h)
    | again => simp [rdc_accept] at h
    | fail => simp [rdc_accept] at h
    | fd sock =>
      simp only [rdc_accept] at h
      by_cases hs : sock < 0
      · simp [hs] at h
      · simp only [hs, if_false, rdc_set_noblock, rdc_newport] at h
        by_cases hnb : sk.noblock_ok = true
        · by_cases hnd : sk.nodelay_ok = true
          · simp [rdc_accept_calls, hnb, hnd]
          · simp [hnb, hnd] at h
        · simp [hnb] at h

/-- The option calls of state NEEDED have all succeeded exactly if all four
were made. -/
theorem connect_calls_made (a : AddrInfo) (port : RdcPort) :
    (connect_options_fail a port).1 = false →
    connect_options_calls a port =
      [SockOptCall.set_noblock, SockOptCall.nodelay, SockOptCall.keepalive,
        SockOptCall.close_on_exec] := by
  unfold connect_options_fail connect_options_calls
  by_cases h0 : (rdc_set_noblock port).1 = 0
  · simp [h0]
  · cases h3 : a.nodelay_ok <;> cases h4 : a.keepalive_ok <;> cases h5 : a.cloexec_ok <;>
      simp [h0]

/-- C36, failing input: the listening socket yields the socket 9, on which
every call succeeds.  `rdc_accept` returns the port `exAcceptor`, nonblocking,
in status ACCEPT with `wait_events = {READABLE}`, after the calls
`rdc_set_noblock`, `connect_nodelay` and `connect_keepalive`:
`connect_close_on_exec` is not among them, although the dialing path makes
all four on the socket of an address on which every call succeeds, for the
dialing port `exNeeded` in state NEEDED. -/
theorem accept_skips_close_on_exec :
    rdc_accept RDC_CONNECTION_OK RdcFlag.RDC_FLAG_VALID 0 0 exSock [AcceptOutcome.fd 9] =
      .ret (some exAcceptor) () ∧
    exAcceptor.status = RDC_CONNECTION_ACCEPT ∧
    exAcceptor.wait_events = WAIT_SOCKET_READABLE ∧ exAcceptor.noblock = true ∧
    rdc_accept_calls exSock =
      [SockOptCall.set_noblock, SockOptCall.nodelay, SockOptCall.keepalive] ∧
    SockOptCall.close_on_exec ∉ rdc_accept_calls exSock ∧
    (connect_options_fail exAddr exNeeded.p).1 = false ∧
    connect_options_calls exAddr exNeeded.p =
      [SockOptCall.set_noblock, SockOptCall.nodelay, SockOptCall.keepalive,
        SockOptCall.close_on_exec] := by
  refine ⟨by decide, rfl, rfl, rfl, rfl, by decide, ?_, ?_⟩
  · decide
  · decide

theorem post_ret {σ α : Type} (Q : α → σ → Prop) (R : σ → Prop) (a : α) (s : σ) (h : Q a s) :
    (Res.ret a s : Res σ α).post Q R := h

theorem post_bind {σ α β : Type} (P : σ → Prop) (Q : β → σ → Prop) (R : σ → Prop)
    (x : Res σ α) (f : α → σ → Res σ β) (hx : x.after P) (hR : ∀ s, P s → R s)
    (hf : ∀ a s, P s → (f a s).post Q R) : (x.bind f).post Q R := by
  cases x with
  | ret a s => exact hf a s hx
  | raised s => exact hR s hx
  | stuck => exact trivial

theorem post_chain {σ α β : Type} (Q1 : α → σ → Prop) (Q : β → σ → Prop) (R : σ → Prop)
    (x : Res σ α) (f : α → σ → Res σ β) (hx : x.post Q1 R)
    (hf : ∀ a s, Q1 a s → (f a s).post Q R) : (x.bind f).post Q R := by
  cases x with
  | ret a s => exact hf a s hx
  | raised s => exact hx
  | stuck => exact trivial

theorem post_ite {σ α : Type} (Q : α → σ → Prop) (R : σ → Prop) (c : Prop) [Decidable c]
    (x y : Res σ α) (hx : c → x.post Q R) (hy : ¬ c → y.post Q R) :
    (if c then x else y).post Q R := by
  by_cases h : c
  · rw [if_pos h]; exact hx h
  · rw [if_neg h]; exact hy h

theorem post_mono {σ α : Type} (Q Q2 : α → σ → Prop) (R R2 : σ → Prop) (x : Res σ α)
    (hx : x.post Q R) (hQ : ∀ a s, Q a s → Q2 a s) (hR : ∀ s, R s → R2 s) : x.post Q2 R2 := by
  cases x with
  | ret a s => exact hQ a s hx
  | raised s => exact hR s hx
  | stuck => exact trivial

/-- What `internal_recv_startup_rsp` does to the status of a port in status
`X`: it returns OK with status AUTH_OK, or FAILED or READING with the status
unchanged; it never returns WRITING. -/
theorem recv_rsp_post (E : Env) (X : RdcConnStatusType) (W : WaitEvents) (B K : Bool)
    (fuel : Nat) (s : PSt) (t i : Nat) (h : ModeIs X W B K s) :
    (internal_recv_startup_rsp E fuel s t i).post
      (fun r s' => (r = RDC_POLLING_OK ∧ s'.p.status = RDC_CONNECTION_AUTH_OK) ∨
        (r ≠ RDC_POLLING_OK ∧ r ≠ RDC_POLLING_WRITING ∧ s'.p.status = X))
      (fun s' => s'.p.status = X) := by
  have keep : ∀ (r : RdcPollingStatusType) (s1 : PSt), ModeIs X W B K s1 →
      r ≠ RDC_POLLING_OK → r ≠ RDC_POLLING_WRITING →
      (Res.ret r s1 : Res PSt RdcPollingStatusType).post
        (fun r s' => (r = RDC_POLLING_OK ∧ s'.p.status = RDC_CONNECTION_AUTH_OK) ∨
          (r ≠ RDC_POLLING_OK ∧ r ≠ RDC_POLLING_WRITING ∧ s'.p.status = X))
        (fun s' => s'.p.status = X) :=
    fun r s1 h1 n1 n2 => Or.inr ⟨n1, n2, h1.1⟩
  have rd : RDC_POLLING_READING ≠ RDC_POLLING_OK ∧ RDC_POLLING_READING ≠ RDC_POLLING_WRITING :=
    ⟨by decide, by decide⟩
  have fl : RDC_POLLING_FAILED ≠ RDC_POLLING_OK ∧ RDC_POLLING_FAILED ≠ RDC_POLLING_WRITING :=
    ⟨by decide, by decide⟩
  unfold internal_recv_startup_rsp
  refine post_bind _ _ _ _ _ (getbyte_mode X W B K _ h) (fun _ hs => hs.1) ?_
  intro b s1 h1
  refine post_ite _ _ _ _ _
    (fun _ => keep _ _ (mode_setCursor _ _ _ _ _ _ h1) rd.1 rd.2) (fun _ => ?_)
  refine post_ite _ _ _ _ _ (fun _ => keep _ _ (mode_err _ _ _ _ _ _ h1) fl.1 fl.2) (fun _ => ?_)
  refine post_bind _ _ _ _ _ (getbytes_mode E X W B K fuel _ _ h1) (fun _ hs => hs.1) ?_
  intro r s2 h2
  refine post_ite _ _ _ _ _
    (fun _ => keep _ _ (mode_setCursor _ _ _ _ _ _ h2) rd.1 rd.2) (fun _ => ?_)
  cases hm : rdc_getmsgint s2.p.in_buf 4 with
  | none => exact h2.1
  | some x =>
    obtain ⟨length, buf3⟩ := x
    have h3 := mode_setIn X W B K s2 buf3 h2
    refine post_ite _ _ _ _ _ (fun _ => keep _ _ (mode_err _ _ _ _ _ _ h3) fl.1 fl.2) (fun _ => ?_)
    refine post_bind _ _ _ _ _ (getbytes_mode E X W B K fuel _ _ h3) (fun _ hs => hs.1) ?_
    intro r4 s4 h4
    refine post_ite _ _ _ _ _
      (fun _ => keep _ _ (mode_setCursor _ _ _ _ _ _ h4) rd.1 rd.2) (fun _ => ?_)
    refine post_ite _ _ _ _ _ (fun _ => ?_) (fun _ => ?_)
    · refine post_ite _ _ _ _ _ (fun _ => ?_) (fun _ => ?_)
      · cases hs : rdc_getmsgstring s4.p.in_buf with
        | none => exact h4.1
        | some y =>
          obtain ⟨errmsg, buf5⟩ := y
          have h5 := mode_setIn X W B K s4 buf5 h4
          exact post_ite _ _ _ _ _ (fun _ => h5.1) (fun _ => keep _ _ h5 fl.1 fl.2)
      · exact post_ite _ _ _ _ _ (fun _ => h4.1)
          (fun _ => keep _ _ (mode_err _ _ _ _ _ _ h4) fl.1 fl.2)
    · cases hm5 : rdc_getmsgint s4.p.in_buf 4 with
      | none => exact h4.1
      | some y =>
        obtain ⟨rsp_ver, buf5⟩ := y
        have h5 := mode_setIn X W B K s4 buf5 h4
        refine post_ite _ _ _ _ _
          (fun _ => keep _ _ (mode_err _ _ _ _ _ _ h5) fl.1 fl.2) (fun _ => ?_)
        cases hm6 : rdc_getmsgint (s4.setIn buf5).p.in_buf 4 with
        | none => exact h5.1
        | some z =>
          obtain ⟨rsp_type, buf6⟩ := z
          have h6 := mode_setIn X W B K _ buf6 h5
          refine post_ite _ _ _ _ _
            (fun _ => keep _ _ (mode_err _ _ _ _ _ _ h6) fl.1 fl.2) (fun _ => ?_)
          cases hm7 : rdc_getmsgRdcPortID ((s4.setIn buf5).setIn buf6).p.in_buf with
          | none => exact h6.1
          | some w =>
            obtain ⟨rsp_id, buf7⟩ := w
            have h7 := mode_setIn X W B K _ buf7 h6
            refine post_ite _ _ _ _ _
              (fun _ => keep _ _ (mode_err _ _ _ _ _ _ h7) fl.1 fl.2) (fun _ => ?_)
            exact post_ite _ _ _ _ _ (fun _ => h7.1) (fun _ => Or.inl ⟨rfl, rfl⟩)

theorem mode_dropConn (X : RdcConnStatusType) (W : WaitEvents) (B K : Bool) (s : PSt) (b : Bool)
    (h : ModeIs X W B K s) : ModeIs X W B K (s.dropConn b) := by
  cases b <;> exact h

theorem mode_set_noblock (X : RdcConnStatusType) (W : WaitEvents) (B K : Bool) (s : PSt)
    (h : ModeIs X W B K s) :
    ∃ B2, ModeIs X W B2 K { s with p := (rdc_set_noblock s.p).2 } := by
  unfold rdc_set_noblock
  split
  · exact ⟨B, h⟩
  · split
    · exact ⟨B, h⟩
    · exact ⟨true, h.1, h.2.1, rfl, h.2.2.2⟩

/-- What `internal_recv_startup_rqt` does to the status of a port in status
`X`: it returns WRITING with status SENDING_RESPONSE, or FAILED or READING
with the status unchanged; it never returns OK. -/
theorem recv_rqt_post (E : Env) (X : RdcConnStatusType) (W : WaitEvents) (B K : Bool)
    (fuel : Nat) (s : PSt) (v : Nat) (h : ModeIs X W B K s) :
    (internal_recv_startup_rqt E fuel s v).post
      (fun r s' => (r = RDC_POLLING_WRITING ∧ s'.p.status = RDC_CONNECTION_SENDING_RESPONSE) ∨
        (r ≠ RDC_POLLING_OK ∧ r ≠ RDC_POLLING_WRITING ∧ s'.p.status = X))
      (fun s' => s'.p.status = X) := by
  obtain ⟨B2, h0⟩ := mode_set_noblock X W B K s h
  have keep : ∀ (r : RdcPollingStatusType) (s1 : PSt), ModeIs X W B2 K s1 →
      r ≠ RDC_POLLING_OK → r ≠ RDC_POLLING_WRITING →
      (Res.ret r s1 : Res PSt RdcPollingStatusType).post
        (fun r s' => (r = RDC_POLLING_WRITING ∧ s'.p.status = RDC_CONNECTION_SENDING_RESPONSE) ∨
          (r ≠ RDC_POLLING_OK ∧ r ≠ RDC_POLLING_WRITING ∧ s'.p.status = X))
        (fun s' => s'.p.status = X) :=
    fun r s1 h1 n1 n2 => Or.inr ⟨n1, n2, h1.1⟩
  have rd : RDC_POLLING_READING ≠ RDC_POLLING_OK ∧ RDC_POLLING_READING ≠ RDC_POLLING_WRITING :=
    ⟨by decide, by decide⟩
  have fl : RDC_POLLING_FAILED ≠ RDC_POLLING_OK ∧ RDC_POLLING_FAILED ≠ RDC_POLLING_WRITING :=
    ⟨by decide, by decide⟩
  unfold internal_recv_startup_rqt
  refine post_ite _ _ _ _ _
    (fun _ => keep _ _ (mode_dropConn _ _ _ _ _ _ h0) fl.1 fl.2) (fun _ => ?_)
  refine post_bind _ _ _ _ _ (getbyte_mode X W B2 K _ h0) (fun _ hs => hs.1) ?_
  intro b s1 h1
  refine post_ite _ _ _ _ _
    (fun _ => keep _ _ (mode_setCursor _ _ _ _ _ _ h1) rd.1 rd.2) (fun _ => ?_)
  refine post_ite _ _ _ _ _ (fun _ => keep _ _ (mode_err _ _ _ _ _ _ h1) fl.1 fl.2) (fun _ => ?_)
  refine post_bind _ _ _ _ _ (getbytes_mode E X W B2 K fuel _ _ h1) (fun _ hs => hs.1) ?_
  intro r s2 h2
  refine post_ite _ _ _ _ _
    (fun _ => keep _ _ (mode_setCursor _ _ _ _ _ _ h2) rd.1 rd.2) (fun _ => ?_)
  cases hm : rdc_getmsgint s2.p.in_buf 4 with
  | none => exact h2.1
  | some x =>
    obtain ⟨length, buf3⟩ := x
    have h3 := mode_setIn X W B2 K s2 buf3 h2
    refine post_ite _ _ _ _ _ (fun _ => keep _ _ (mode_err _ _ _ _ _ _ h3) fl.1 fl.2) (fun _ => ?_)
    refine post_bind _ _ _ _ _ (getbytes_mode E X W B2 K fuel _ _ h3) (fun _ hs => hs.1) ?_
    intro r4 s4 h4
    refine post_ite _ _ _ _ _
      (fun _ => keep _ _ (mode_setCursor _ _ _ _ _ _ h4) rd.1 rd.2) (fun _ => ?_)
    cases hm5 : rdc_getmsgint s4.p.in_buf 4 with
    | none => exact h4.1
    | some y =>
      obtain ⟨rqt_ver, buf5⟩ := y
      dsimp only
      cases hm6 : rdc_getmsgint buf5 4 with
      | none => exact h4.1
      | some z =>
        obtain ⟨rqt_type, buf6⟩ := z
        dsimp only
        cases hm7 : rdc_getmsgRdcPortID buf6 with
        | none => exact h4.1
        | some w =>
          obtain ⟨rqt_id, buf7⟩ := w
          dsimp only
          refine post_ite _ _ _ _ _ (fun _ => h4.1) (fun _ => ?_)
          refine post_ite _ _ _ _ _ (fun _ => ?_) (fun _ => Or.inl ⟨rfl, rfl⟩)
          have h7 : ModeIs X W B2 K
              { s4 with p := { s4.p with in_buf := buf7, version := rqt_ver,
                                         peer_type := rqt_type, peer_id := rqt_id } } := h4
          exact keep _ _ (mode_err _ _ _ _ _ _ h7) fl.1 fl.2

theorem reach_refl (a : RdcConnStatusType) : Reach a a := Relation.ReflTransGen.refl

theorem reach_step (a b : RdcConnStatusType) (h : permitted a b = true) : Reach a b :=
  Relation.ReflTransGen.single h

theorem reach_trans (a b c : RdcConnStatusType) (h1 : Reach a b) (h2 : Reach b c) : Reach a c :=
  Relation.ReflTransGen.trans h1 h2

theorem reach_bad (a : RdcConnStatusType) : Reach a RDC_CONNECTION_BAD := by
  apply reach_step
  cases a <;> rfl

theorem reach_eq (a b : RdcConnStatusType) (h : b = a) : Reach a b := by
  rw [h]
  exact reach_refl a

/-- The label `error_return` ends a step with FAILED and status BAD. -/
theorem post_error (X : RdcConnStatusType) (s1 : PSt) :
    (error_return s1).post (fun r s' => StepOut r s' ∧ Reach X s'.p.status)
      (fun s' => Reach X s'.p.status) :=
  ⟨rfl, reach_bad X⟩

/-- A step that starts in a status reachable from `X` ends in one. -/
theorem post_reach (X Y : RdcConnStatusType) (x : Res PSt RdcPollingStatusType)
    (hXY : Reach X Y)
    (hx : x.post (fun r s' => StepOut r s' ∧ Reach Y s'.p.status)
      (fun s' => Reach Y s'.p.status)) :
    x.post (fun r s' => StepOut r s' ∧ Reach X s'.p.status) (fun s' => Reach X s'.p.status) :=
  post_mono _ _ _ _ x hx (fun _ _ h => ⟨h.1, reach_trans _ _ _ hXY h.2⟩)
    (fun _ h => reach_trans _ _ _ hXY h)

theorem post_link {σ α β : Type} (Q1 : α → σ → Prop) (R1 : σ → Prop) (Q : β → σ → Prop)
    (R : σ → Prop) (x : Res σ α) (f : α → σ → Res σ β) (hx : x.post Q1 R1)
    (hR : ∀ s, R1 s → R s) (hf : ∀ a s, Q1 a s → (f a s).post Q R) : (x.bind f).post Q R := by
  cases x with
  | ret a s => exact hf a s hx
  | raised s => exact hR s hx
  | stuck => exact trivial

/-- The walk of state NEEDED over the address list ends with FAILED and
status BAD, with WRITING, status STARTED and `wait_events = WRITEABLE`, or
goes on at `keep_going` with status STARTED; it does not raise. -/
theorem needed_loop_out (l : List AddrInfo) :
    ∀ s : PSt,
      Sum.elim
        (fun r : Res PSt RdcPollingStatusType =>
          r.post (fun r s' => StepOut r s' ∧
            (s'.p.status = RDC_CONNECTION_BAD ∨ s'.p.status = RDC_CONNECTION_STARTED))
            (fun _ => False))
        (fun s1 : PSt => s1.p.status = RDC_CONNECTION_STARTED)
        (needed_loop s l) := by
  induction l with
  | nil =>
    intro s
    exact ⟨rfl, Or.inl rfl⟩
  | cons a next ih =>
    intro s
    rw [needed_loop]
    dsimp only
    by_cases hinet : a.is_inet = true
    · simp only [hinet, Bool.not_true, Bool.false_eq_true, if_false]
      by_cases hsock : a.socket_fd = PGINVALID_SOCKET
      · rw [if_pos hsock]
        by_cases hn : next ≠ []
        · rw [if_pos hn]
          exact ih _
        · rw [if_neg hn]
          exact ⟨rfl, Or.inl rfl⟩
      · rw [if_neg hsock]
        by_cases ho : (connect_options_fail a
            { s.p with addr_cur := a :: next, sock := a.socket_fd,
                       pg_set_noblock_ok := a.noblock_ok }).1 = true
        · rw [if_pos ho]
          exact ih _
        · rw [if_neg ho]
          cases hc : a.connect with
          | inprogress => exact ⟨⟨rfl, Or.inl rfl⟩, Or.inr rfl⟩
          | connected => rfl
          | fail => exact ih _
    · have hinet2 : a.is_inet = false := by simpa using hinet
      simp only [hinet2, Bool.not_false, if_true]
      exact ih _

/-- The code at `keep_going`: the result agrees with the status and the wait
events of the port it leaves, and that status is reachable from the one it
started in along permitted transitions. -/
theorem keep_going_post (E : Env) (fuel : Nat) :
    ∀ (k : Nat) (s : PSt),
      (keep_going E fuel k s).post (fun r s' => StepOut r s' ∧ Reach s.p.status s'.p.status)
        (fun s' => Reach s.p.status s'.p.status) := by
  intro k
  induction k with
  | zero => intro s; exact trivial
  | succ k ih =>
    intro s
    unfold keep_going
    cases hst : s.p.status with
    | RDC_CONNECTION_NEEDED =>
      dsimp only
      have hw := needed_loop_out s.p.addr_cur s
      cases hn : needed_loop s s.p.addr_cur with
      | inl r =>
        rw [hn] at hw
        dsimp only
        refine post_mono _ _ _ _ r hw ?_ (fun _ hf => hf.elim)
        intro r1 s1 h1
        refine ⟨h1.1, ?_⟩
        rcases h1.2 with hb | hs
        · rw [hb]; exact reach_bad _
        · rw [hs]; exact reach_step _ _ rfl
      | inr s1 =>
        rw [hn] at hw
        dsimp only
        have hs1 : s1.p.status = RDC_CONNECTION_STARTED := hw
        refine post_reach _ s1.p.status _ ?_ (ih s1)
        rw [hs1]
        exact reach_step _ _ rfl
    | RDC_CONNECTION_STARTED =>
      dsimp only
      cases hc : s.p.addr_cur with
      | nil => exact trivial
      | cons a next =>
        dsimp only
        refine post_ite _ _ _ _ _ (fun _ => post_error _ _) (fun _ => ?_)
        refine post_ite _ _ _ _ _ (fun _ => ?_) (fun _ => ?_)
        · refine post_ite _ _ _ _ _ (fun _ => ?_) (fun _ => post_error _ _)
          refine post_reach _ RDC_CONNECTION_NEEDED _ (reach_step _ _ rfl) ?_
          exact ih _
        · refine post_ite _ _ _ _ _ (fun _ => post_error _ _) (fun _ => ?_)
          exact ⟨⟨rfl, Or.inr (Or.inl rfl)⟩, reach_step _ _ rfl⟩
    | RDC_CONNECTION_MADE =>
      dsimp only
      refine post_bind _ _ _ _ _
        (send_rqt_mode E RDC_CONNECTION_MADE s.p.wait_events s.p.noblock s.p.pg_set_noblock_ok
          fuel s _ _ ⟨hst, rfl, rfl, rfl⟩)
        (fun _ hs => reach_eq _ _ hs.1) ?_
      intro r s1 h1
      refine post_ite _ _ _ _ _ (fun _ => post_error _ _) (fun _ => ?_)
      exact ⟨⟨rfl, Or.inl rfl⟩, reach_step _ _ rfl⟩
    | RDC_CONNECTION_AWAITING_RESPONSE =>
      dsimp only
      refine post_link _ _ _ _ _ _
        (recv_rsp_post E RDC_CONNECTION_AWAITING_RESPONSE s.p.wait_events s.p.noblock
          s.p.pg_set_noblock_ok fuel s _ _ ⟨hst, rfl, rfl, rfl⟩)
        (fun _ hs => reach_eq _ _ hs) ?_
      intro r s1 h1
      cases r with
      | RDC_POLLING_FAILED => exact post_error _ _
      | RDC_POLLING_WRITING => exact post_error _ _
      | RDC_POLLING_READING =>
        rcases h1 with ⟨h0, _⟩ | ⟨_, _, hs⟩
        · exact absurd h0 (by decide)
        · exact ⟨⟨rfl, Or.inl hs⟩, reach_eq _ _ hs⟩
      | RDC_POLLING_OK =>
        rcases h1 with ⟨_, hs⟩ | ⟨h0, _, _⟩
        · dsimp only
          refine post_reach _ s1.p.status _ ?_ (ih s1)
          rw [hs]
          exact reach_step _ _ rfl
        · exact absurd rfl h0
    | RDC_CONNECTION_ACCEPT_NEED => exact post_error _ _
    | RDC_CONNECTION_ACCEPT =>
      dsimp only
      refine post_link _ _ _ _ _ _
        (recv_rqt_post E RDC_CONNECTION_ACCEPT s.p.wait_events s.p.noblock
          s.p.pg_set_noblock_ok fuel s _ ⟨hst, rfl, rfl, rfl⟩)
        (fun _ hs => reach_eq _ _ hs) ?_
      intro r s1 h1
      cases r with
      | RDC_POLLING_FAILED => exact post_error _ _
      | RDC_POLLING_OK =>
        rcases h1 with ⟨h0, _⟩ | ⟨h0, _, _⟩
        · exact absurd h0 (by decide)
        · exact absurd rfl h0
      | RDC_POLLING_READING =>
        rcases h1 with ⟨h0, _⟩ | ⟨_, _, hs⟩
        · exact absurd h0 (by decide)
        · exact ⟨⟨rfl, Or.inr hs⟩, reach_eq _ _ hs⟩
      | RDC_POLLING_WRITING =>
        rcases h1 with ⟨_, hs⟩ | ⟨_, h0, _⟩
        · exact ⟨⟨rfl, Or.inr (Or.inr hs)⟩, by
            show Reach RDC_CONNECTION_ACCEPT s1.p.status
            rw [hs]
            exact reach_step _ _ rfl⟩
        · exact absurd rfl h0
    | RDC_CONNECTION_SENDING_RESPONSE =>
      dsimp only
      refine post_bind _ _ _ _ _
        (send_rsp_mode E RDC_CONNECTION_SENDING_RESPONSE s.p.wait_events s.p.noblock
          s.p.pg_set_noblock_ok fuel s _ _ ⟨hst, rfl, rfl, rfl⟩)
        (fun _ hs => reach_eq _ _ hs.1) ?_
      intro r s1 h1
      refine post_ite _ _ _ _ _ (fun _ => post_error _ _) (fun _ => ?_)
      refine post_reach _ RDC_CONNECTION_AUTH_OK _ (reach_step _ _ rfl) ?_
      exact ih _
    | RDC_CONNECTION_AUTH_OK =>
      exact ⟨rfl, reach_step _ _ rfl⟩
    | RDC_CONNECTION_OK => exact post_error _ _
    | RDC_CONNECTION_BAD => exact post_error _ _
    | corrupt n => exact post_error _ _

/-- One call of `rdc_connect_poll`: the result agrees with the port it leaves
as at `keep_going`, or it is the READING of the entry switch on a reading
status when no input has arrived, which leaves status and wait events as
they were; the status it leaves is reachable from the one it started in. -/
theorem poll_post (E : Env) (fuel : Nat) (s : PSt) :
    (rdc_connect_poll E fuel s).post
      (fun r s' =>
        (StepOut r s' ∨
          (r = RDC_POLLING_READING ∧ s'.p.status = s.p.status ∧
            s'.p.wait_events = s.p.wait_events ∧
            (s.p.status = RDC_CONNECTION_AWAITING_RESPONSE ∨
              s.p.status = RDC_CONNECTION_ACCEPT ∨ s.p.status = RDC_CONNECTION_AUTH_OK))) ∧
        Reach s.p.status s'.p.status)
      (fun s' => Reach s.p.status s'.p.status) := by
  have lift : ∀ x : Res PSt RdcPollingStatusType,
      x.post (fun r s' => StepOut r s' ∧ Reach s.p.status s'.p.status)
        (fun s' => Reach s.p.status s'.p.status) →
      x.post
        (fun r s' =>
          (StepOut r s' ∨
            (r = RDC_POLLING_READING ∧ s'.p.status = s.p.status ∧
              s'.p.wait_events = s.p.wait_events ∧
              (s.p.status = RDC_CONNECTION_AWAITING_RESPONSE ∨
                s.p.status = RDC_CONNECTION_ACCEPT ∨ s.p.status = RDC_CONNECTION_AUTH_OK))) ∧
          Reach s.p.status s'.p.status)
        (fun s' => Reach s.p.status s'.p.status) :=
    fun x hx => post_mono _ _ _ _ x hx (fun _ _ h => ⟨Or.inl h.1, h.2⟩) (fun _ h => h)
  have reading : (s.p.status = RDC_CONNECTION_AWAITING_RESPONSE ∨
        s.p.status = RDC_CONNECTION_ACCEPT ∨ s.p.status = RDC_CONNECTION_AUTH_OK) →
      ((rdc_recv s).bind fun n s1 =>
        if n = EOF then error_return s1
        else if n = 0 then .ret RDC_POLLING_READING s1
        else keep_going E fuel fuel s1).post
        (fun r s' =>
          (StepOut r s' ∨
            (r = RDC_POLLING_READING ∧ s'.p.status = s.p.status ∧
              s'.p.wait_events = s.p.wait_events ∧
              (s.p.status = RDC_CONNECTION_AWAITING_RESPONSE ∨
                s.p.status = RDC_CONNECTION_ACCEPT ∨ s.p.status = RDC_CONNECTION_AUTH_OK))) ∧
          Reach s.p.status s'.p.status)
        (fun s' => Reach s.p.status s'.p.status) := by
    intro hX
    refine post_bind _ _ _ _ _
      (recv_mode s.p.status s.p.wait_events s.p.noblock s.p.pg_set_noblock_ok s
        ⟨rfl, rfl, rfl, rfl⟩)
      (fun _ hs => reach_eq _ _ hs.1) ?_
    intro n s1 h1
    refine post_ite _ _ _ _ _ (fun _ => lift _ (post_error _ _)) (fun _ => ?_)
    refine post_ite _ _ _ _ _ (fun _ => ?_) (fun _ => ?_)
    · exact ⟨Or.inr ⟨rfl, h1.1, h1.2.1, hX⟩, reach_eq _ _ h1.1⟩
    · exact lift _ (post_reach _ _ _ (reach_eq _ _ h1.1) (keep_going_post E fuel fuel s1))
  have going : (keep_going E fuel fuel s).post
      (fun r s' =>
        (StepOut r s' ∨
          (r = RDC_POLLING_READING ∧ s'.p.status = s.p.status ∧
            s'.p.wait_events = s.p.wait_events ∧
            (s.p.status = RDC_CONNECTION_AWAITING_RESPONSE ∨
              s.p.status = RDC_CONNECTION_ACCEPT ∨ s.p.status = RDC_CONNECTION_AUTH_OK))) ∧
        Reach s.p.status s'.p.status)
      (fun s' => Reach s.p.status s'.p.status) :=
    lift _ (keep_going_post E fuel fuel s)
  have failing : ∀ s1 : PSt, (error_return s1).post
      (fun r s' =>
        (StepOut r s' ∨
          (r = RDC_POLLING_READING ∧ s'.p.status = s.p.status ∧
            s'.p.wait_events = s.p.wait_events ∧
            (s.p.status = RDC_CONNECTION_AWAITING_RESPONSE ∨
              s.p.status = RDC_CONNECTION_ACCEPT ∨ s.p.status = RDC_CONNECTION_AUTH_OK))) ∧
        Reach s.p.status s'.p.status)
      (fun s' => Reach s.p.status s'.p.status) :=
    fun s1 => lift _ (post_error _ _)
  unfold rdc_connect_poll
  cases hst : s.p.status with
  | RDC_CONNECTION_BAD => exact ⟨Or.inl hst, reach_eq _ _ hst⟩
  | RDC_CONNECTION_OK => exact ⟨Or.inl hst, reach_eq _ _ hst⟩
  | RDC_CONNECTION_AWAITING_RESPONSE => rw [hst] at reading; exact reading (Or.inl rfl)
  | RDC_CONNECTION_ACCEPT => rw [hst] at reading; exact reading (Or.inr (Or.inl rfl))
  | RDC_CONNECTION_AUTH_OK => rw [hst] at reading; exact reading (Or.inr (Or.inr rfl))
  | RDC_CONNECTION_STARTED => rw [hst] at going; exact going
  | RDC_CONNECTION_MADE => rw [hst] at going; exact going
  | RDC_CONNECTION_SENDING_RESPONSE => rw [hst] at going; exact going
  | RDC_CONNECTION_ACCEPT_NEED => rw [hst] at going; exact going
  | RDC_CONNECTION_NEEDED => rw [hst] at going; exact going
  | corrupt n => rw [hst] at failing; exact failing _

theorem dialSide_closed (b c : RdcConnStatusType) (hb : b ∈ dialSide)
    (h : permitted b c = true) : c ∈ dialSide := by
  cases b <;> cases c <;> simp_all [permitted, dialSide]

theorem acceptSide_closed (b c : RdcConnStatusType) (hb : b ∈ acceptSide)
    (h : permitted b c = true) : c ∈ acceptSide := by
  cases b <;> cases c <;> simp_all [permitted, acceptSide]

/-- From NEEDED only the statuses of the dialing side are reachable. -/
theorem reach_dialSide (X : RdcConnStatusType) (h : Reach RDC_CONNECTION_NEEDED X) :
    X ∈ dialSide := by
  induction h with
  | refl => decide
  | tail _ hbc ih => exact dialSide_closed _ _ ih hbc

/-- From ACCEPT only the statuses of the accepting side are reachable. -/
theorem reach_acceptSide (X : RdcConnStatusType) (h : Reach RDC_CONNECTION_ACCEPT X) :
    X ∈ acceptSide := by
  induction h with
  | refl => decide
  | tail _ hbc ih => exact acceptSide_closed _ _ ih hbc

/-- Successive poll steps leave the port in a status reachable from the one
it started in. -/
theorem poll_run_reach (E : Env) (fuel : Nat) (os : List Offer) :
    ∀ s s' : PSt, poll_run E fuel os s = some s' → Reach s.p.status s'.p.status := by
  induction os with
  | nil =>
    intro s s' h
    simp only [poll_run, Option.some.injEq] at h
    rw [h]
    exact reach_refl _
  | cons o os ih =>
    intro s s' h
    rw [poll_run] at h
    have hp := poll_post E fuel (s.offer o)
    cases hx : rdc_connect_poll E fuel (s.offer o) with
    | stuck => rw [hx] at h; cases h
    | raised s1 => rw [hx] at h; cases h
    | ret r s1 =>
      rw [hx] at h hp
      have h1 : Reach s.p.status s1.p.status := hp.2
      exact reach_trans _ _ _ h1 (ih s1 s' h)

/-- C31: one call of `rdc_connect_poll`, for every starting status, every
script of socket outcomes and every fuel, leaves the port (whether the call
returns or raises) in a status reachable from the starting status along the
permitted transitions, and so does every sequence of calls that return.
From NEEDED neither ACCEPT nor SENDING_RESPONSE is reachable, and from ACCEPT
none of NEEDED, STARTED, MADE and AWAITING_RESPONSE. -/
theorem transition_legal (E : Env) (fuel : Nat) (s : PSt) :
    (rdc_connect_poll E fuel s).after (fun s' => Reach s.p.status s'.p.status) ∧
    (∀ os s', poll_run E fuel os s = some s' → Reach s.p.status s'.p.status) ∧
    (∀ X, Reach RDC_CONNECTION_NEEDED X →
      X ≠ RDC_CONNECTION_ACCEPT ∧ X ≠ RDC_CONNECTION_SENDING_RESPONSE) ∧
    (∀ X, Reach RDC_CONNECTION_ACCEPT X →
      X ≠ RDC_CONNECTION_NEEDED ∧ X ≠ RDC_CONNECTION_STARTED ∧ X ≠ RDC_CONNECTION_MADE ∧
        X ≠ RDC_CONNECTION_AWAITING_RESPONSE) := by
  refine ⟨?_, fun os s' h => poll_run_reach E fuel os s s' h, ?_, ?_⟩
  · have hp := poll_post E fuel s
    cases hx : rdc_connect_poll E fuel s with
    | stuck => exact trivial
    | raised s1 => rw [hx] at hp; exact hp
    | ret r s1 => rw [hx] at hp; exact hp.2
  · intro X h
    have hm := reach_dialSide X h
    constructor <;> (intro hX; rw [hX] at hm; revert hm; decide)
  · intro X h
    have hm := reach_acceptSide X h
    refine ⟨?_, ?_, ?_, ?_⟩ <;> (intro hX; rw [hX] at hm; revert hm; decide)

/-- C37: whenever `rdc_connect_poll` returns, for every starting status,
every script of socket outcomes and every fuel, the result is FAILED if and
only if the status of the port after the call is BAD, and OK if and only if
it is OK. -/
theorem result_status_agree (E : Env) (fuel : Nat) (s s' : PSt) (r : RdcPollingStatusType)
    (h : rdc_connect_poll E fuel s = .ret r s') :
    (r = RDC_POLLING_FAILED ↔ s'.p.status = RDC_CONNECTION_BAD) ∧
    (r = RDC_POLLING_OK ↔ s'.p.status = RDC_CONNECTION_OK) := by
  have hp := poll_post E fuel s
  rw [h] at hp
  have ho : StepOut r s' ∨
      (r = RDC_POLLING_READING ∧ s'.p.status = s.p.status ∧
        s'.p.wait_events = s.p.wait_events ∧
        (s.p.status = RDC_CONNECTION_AWAITING_RESPONSE ∨
          s.p.status = RDC_CONNECTION_ACCEPT ∨ s.p.status = RDC_CONNECTION_AUTH_OK)) := hp.1
  rcases ho with ho | ⟨hr, hs, -, hX⟩
  · cases r with
    | RDC_POLLING_FAILED =>
      have hs : s'.p.status = RDC_CONNECTION_BAD := ho
      simp [hs]
    | RDC_POLLING_OK =>
      have hs : s'.p.status = RDC_CONNECTION_OK := ho
      simp [hs]
    | RDC_POLLING_READING =>
      have hs : s'.p.status = RDC_CONNECTION_AWAITING_RESPONSE ∨
          s'.p.status = RDC_CONNECTION_ACCEPT := ho.2
      rcases hs with hs | hs <;> simp [hs]
    | RDC_POLLING_WRITING =>
      have hs : s'.p.status = RDC_CONNECTION_STARTED ∨ s'.p.status = RDC_CONNECTION_MADE ∨
          s'.p.status = RDC_CONNECTION_SENDING_RESPONSE := ho.2
      rcases hs with hs | hs | hs <;> simp [hs]
  · rw [hs, hr]
    rcases hX with hX | hX | hX <;> simp [hX]

/-- One poll step on an armed port, if it returns, leaves an armed port, and
its result READING or WRITING goes with exactly that wait event. -/
theorem armed_step (E : Env) (fuel : Nat) (s s' : PSt) (r : RdcPollingStatusType)
    (ha : Armed s) (h : rdc_connect_poll E fuel s = .ret r s') :
    Armed s' ∧
    (r = RDC_POLLING_READING → s'.p.wait_events = WAIT_SOCKET_READABLE) ∧
    (r = RDC_POLLING_WRITING → s'.p.wait_events = WAIT_SOCKET_WRITEABLE) := by
  have hp := poll_post E fuel s
  rw [h] at hp
  have ho : StepOut r s' ∨
      (r = RDC_POLLING_READING ∧ s'.p.status = s.p.status ∧
        s'.p.wait_events = s.p.wait_events ∧
        (s.p.status = RDC_CONNECTION_AWAITING_RESPONSE ∨
          s.p.status = RDC_CONNECTION_ACCEPT ∨ s.p.status = RDC_CONNECTION_AUTH_OK)) := hp.1
  obtain ⟨ha1, ha2⟩ := ha
  rcases ho with ho | ⟨hr, hs, hw, hX⟩
  · cases r with
    | RDC_POLLING_FAILED =>
      have hs : s'.p.status = RDC_CONNECTION_BAD := ho
      refine ⟨⟨?_, ?_⟩, ?_, ?_⟩ <;> simp [hs]
    | RDC_POLLING_OK =>
      have hs : s'.p.status = RDC_CONNECTION_OK := ho
      refine ⟨⟨?_, ?_⟩, ?_, ?_⟩ <;> simp [hs]
    | RDC_POLLING_READING =>
      have hw : s'.p.wait_events = WAIT_SOCKET_READABLE := ho.1
      have hs : s'.p.status = RDC_CONNECTION_AWAITING_RESPONSE ∨
          s'.p.status = RDC_CONNECTION_ACCEPT := ho.2
      refine ⟨⟨fun _ => hw, ?_⟩, fun _ => hw, ?_⟩
      · rcases hs with hs | hs <;> simp [hs]
      · intro hh; cases hh
    | RDC_POLLING_WRITING =>
      have hw : s'.p.wait_events = WAIT_SOCKET_WRITEABLE := ho.1
      have hs : s'.p.status = RDC_CONNECTION_STARTED ∨ s'.p.status = RDC_CONNECTION_MADE ∨
          s'.p.status = RDC_CONNECTION_SENDING_RESPONSE := ho.2
      refine ⟨⟨?_, ?_⟩, ?_, fun _ => hw⟩
      · rcases hs with hs | hs | hs <;> simp [hs]
      · rcases hs with hs | hs | hs <;> simp [hs]
      · intro hh; cases hh
  · have hX2 : s.p.status = RDC_CONNECTION_AWAITING_RESPONSE ∨
        s.p.status = RDC_CONNECTION_ACCEPT := by
      rcases hX with hX | hX | hX
      · exact Or.inl hX
      · exact Or.inr hX
      · exact absurd hX ha2
    have hw2 : s'.p.wait_events = WAIT_SOCKET_READABLE := by rw [hw]; exact ha1 hX2
    refine ⟨⟨fun _ => hw2, ?_⟩, fun _ => hw2, ?_⟩
    · rw [hs]; exact ha2
    · intro hh; rw [hr] at hh; cases hh

/-- Successive poll steps that return keep a port armed. -/
theorem armed_run (E : Env) (fuel : Nat) (os : List Offer) :
    ∀ s s' : PSt, Armed s → poll_run E fuel os s = some s' → Armed s' := by
  induction os with
  | nil =>
    intro s s' ha h
    simp only [poll_run, Option.some.injEq] at h
    rw [← h]
    exact ha
  | cons o os ih =>
    intro s s' ha h
    rw [poll_run] at h
    cases hx : rdc_connect_poll E fuel (s.offer o) with
    | stuck => rw [hx] at h; cases h
    | raised s1 => rw [hx] at h; cases h
    | ret r s1 =>
      rw [hx] at h
      have hao : Armed (s.offer o) := ha
      exact ih s1 s' (armed_step E fuel (s.offer o) s1 r hao hx).1 h

/-- C32: for a port created for a dial in status NEEDED or returned by
`rdc_accept`, after any sequence of `rdc_connect_poll` steps that return,
under any outcomes of the socket calls, a further step that returns READING
leaves `wait_events` exactly READABLE, and one that returns WRITING leaves
`wait_events` exactly WRITEABLE. -/
theorem wait_mask_coupled (E : Env) (fuel : Nat) (zs : RdcConnStatusType) (zf : RdcFlag)
    (ipt ipi : Nat) (sk : AcceptedSock) (script : List AcceptOutcome) (os : List Offer)
    (o : Offer) (s0 s s' : PSt) (r : RdcPollingStatusType)
    (hstart : s0.p.status = RDC_CONNECTION_NEEDED ∨
      rdc_accept zs zf ipt ipi sk script = .ret (some s0.p) ())
    (hrun : poll_run E fuel os s0 = some s)
    (hstep : rdc_connect_poll E fuel (s.offer o) = .ret r s') :
    (r = RDC_POLLING_READING → s'.p.wait_events = WAIT_SOCKET_READABLE) ∧
    (r = RDC_POLLING_WRITING → s'.p.wait_events = WAIT_SOCKET_WRITEABLE) := by
  have h0 : Armed s0 := by
    rcases hstart with hn | hacc
    · constructor
      · intro hh
        rw [hn] at hh
        rcases hh with hh | hh <;> cases hh
      · rw [hn]; decide
    · obtain ⟨hst, -, -, -, hw⟩ := rdc_accept_port zs zf ipt ipi sk script s0.p hacc
      constructor
      · intro _; exact hw
      · rw [hst]; decide
  have h1 : Armed (s.offer o) := armed_run E fuel os s0 s h0 hrun
  exact (armed_step E fuel (s.offer o) s' r h1 hstep).2

theorem result_status_agree_witness :
    ∃ s', rdc_connect_poll exEnv 2 (exAccept [0]) = .ret RDC_POLLING_FAILED s' ∧
      (RDC_POLLING_FAILED = RDC_POLLING_FAILED ↔ s'.p.status = RDC_CONNECTION_BAD) ∧
      (RDC_POLLING_FAILED = RDC_POLLING_OK ↔ s'.p.status = RDC_CONNECTION_OK) :=
  ⟨_, rfl, result_status_agree exEnv 2 (exAccept [0]) _ _ rfl⟩

theorem wait_mask_coupled_witness :
    rdc_accept RDC_CONNECTION_OK RdcFlag.RDC_FLAG_VALID 0 0 exSock [AcceptOutcome.fd 9] =
      .ret (some exAcceptor) () ∧
    ∃ s s',
      poll_run exEnv 2 [{ recvs := [RecvOutcome.again], sends := [] }]
        { p := exAcceptor, g := exGlobals } = some s ∧
      rdc_connect_poll exEnv 2
        (s.offer
          { recvs := [RecvOutcome.bytes
              (frame 81 (beEncode 4 90600 ++ beEncode 4 3 ++ beEncode 8 1))],
            sends := [] }) = .ret RDC_POLLING_WRITING s' ∧
      (RDC_POLLING_WRITING = RDC_POLLING_READING →
        s'.p.wait_events = WAIT_SOCKET_READABLE) ∧
      (RDC_POLLING_WRITING = RDC_POLLING_WRITING →
        s'.p.wait_events = WAIT_SOCKET_WRITEABLE) :=
  ⟨by decide, _, _, rfl, rfl,
    wait_mask_coupled exEnv 2 RDC_CONNECTION_OK RdcFlag.RDC_FLAG_VALID 0 0 exSock
      [AcceptOutcome.fd 9] [{ recvs := [RecvOutcome.again], sends := [] }]
      { recvs := [RecvOutcome.bytes
          (frame 81 (beEncode 4 90600 ++ beEncode 4 3 ++ beEncode 8 1))],
        sends := [] }
      { p := exAcceptor, g := exGlobals } _ _ _ (Or.inr (by decide)) rfl rfl⟩

/-- The poll steps of an accepting port and of a dialing port: the step
without input returns READING with READABLE armed, the step that has read the
startup request returns WRITING with WRITEABLE armed, the first step of a
dial returns WRITING with WRITEABLE armed, and a step on a wrong first byte
returns FAILED with status BAD. -/
theorem poll_step_samples :
    (∃ s', rdc_connect_poll exEnv 2
        (({ p := exAcceptor, g := exGlobals } : PSt).offer
          { recvs := [RecvOutcome.again], sends := [] }) = .ret RDC_POLLING_READING s' ∧
      s'.p.status = RDC_CONNECTION_ACCEPT ∧ s'.p.wait_events = WAIT_SOCKET_READABLE) ∧
    (∃ s', rdc_connect_poll exEnv 2
        (({ p := exAcceptor, g := exGlobals } : PSt).offer
          { recvs := [RecvOutcome.bytes
              (frame 81 (beEncode 4 90600 ++ beEncode 4 3 ++ beEncode 8 1))],
            sends := [] }) = .ret RDC_POLLING_WRITING s' ∧
      s'.p.status = RDC_CONNECTION_SENDING_RESPONSE ∧
      s'.p.wait_events = WAIT_SOCKET_WRITEABLE) ∧
    (∃ s', rdc_connect_poll exEnv 2 exNeeded = .ret RDC_POLLING_WRITING s' ∧
      s'.p.status = RDC_CONNECTION_STARTED ∧ s'.p.wait_events = WAIT_SOCKET_WRITEABLE) ∧
    (∃ s', rdc_connect_poll exEnv 2 (exAccept [0]) = .ret RDC_POLLING_FAILED s' ∧
      s'.p.status = RDC_CONNECTION_BAD) :=
  ⟨⟨_, rfl, rfl, rfl⟩, ⟨_, rfl, rfl, rfl⟩, ⟨_, rfl, rfl, rfl⟩, ⟨_, rfl, rfl⟩⟩

theorem closed_kept_refl (pp : PlanPort) : ClosedKept pp pp := ⟨rfl, fun _ _ h _ => h⟩

theorem closed_kept_trans (a b c : PlanPort) (h1 : ClosedKept a b) (h2 : ClosedKept b c) :
    ClosedKept a c :=
  ⟨h2.1.trans h1.1, fun i w hi hf => h2.2 i w (h1.2 i w hi hf) hf⟩

/-- `ClosedKept` looks at the workers only. -/
theorem closed_kept_of_eq (pp a b : PlanPort) (h : a.work_port = b.work_port)
    (hk : ClosedKept pp a) : ClosedKept pp b := by
  unfold ClosedKept at hk ⊢
  rw [← h]
  exact hk

theorem closed_kept_from (a b pp' : PlanPort) (h : a.work_port = b.work_port)
    (hk : ClosedKept a pp') : ClosedKept b pp' := by
  unfold ClosedKept at hk ⊢
  rw [← h]
  exact hk

/-- `PlanPortAddEvents` arms the event on live workers only. -/
theorem add_events_kept (pp : PlanPort) (ev : WaitEvents) :
    ClosedKept pp (PlanPortAddEvents pp ev) := by
  unfold ClosedKept PlanPortAddEvents
  refine ⟨by simp, fun i w hi hf => ?_⟩
  simp only [List.get?_eq_getElem?, List.getElem?_map] at hi ⊢
  rw [hi]
  simp [PortIsValid, hf]

theorem send_data_kept (E : Env) (pp : PlanPort) (X : Nat) (d : List Nat) :
    ClosedKept pp (SendRdcDataToPlan E pp X d) := by
  unfold SendRdcDataToPlan
  split
  · exact closed_kept_refl pp
  · have hk := add_events_kept
      { pp with recv_from_rdc := pp.recv_from_rdc + 1,
                msg_buf := frame E.MSG_R2P_DATA (beEncode 8 X ++ d),
                rdcstore := rdcstore_puttuple pp.rdcstore
                  (frame E.MSG_R2P_DATA (beEncode 8 X ++ d)) } WAIT_SOCKET_WRITEABLE
    exact closed_kept_from _ pp _ rfl hk

theorem send_eof_kept (E : Env) (pp pp' : PlanPort) (X : Nat) (b : Bool)
    (h : SendRdcEofToPlan E pp X b = .done pp' ∨ SendRdcEofToPlan E pp X b = .raised pp') :
    ClosedKept pp pp' := by
  unfold SendRdcEofToPlan at h
  split at h
  · rcases h with h | h
    · simp only [PlanRes.done.injEq] at h
      subst h
      exact closed_kept_refl pp
    · cases h
  · dsimp only at h
    split at h
    · split at h
      · rcases h with h | h
        · cases h
        · simp only [PlanRes.raised.injEq] at h
          subst h
          exact closed_kept_refl pp
      · rcases h with h | h
        · simp only [PlanRes.done.injEq] at h
          subst h
          exact closed_kept_refl pp
        · cases h
    · split at h
      · rcases h with h | h
        · simp only [PlanRes.done.injEq] at h
          subst h
          have hk := add_events_kept
            { pp with recv_from_rdc := pp.recv_from_rdc + 1,
                      rdc_eofs := pp.rdc_eofs.set pp.eof_num X,
                      eof_num := pp.eof_num + 1,
                      msg_buf := frame E.MSG_EOF (beEncode 8 X),
                      rdcstore := rdcstore_puttuple pp.rdcstore (frame E.MSG_EOF (beEncode 8 X)) }
            WAIT_SOCKET_WRITEABLE
          exact closed_kept_from _ pp _ rfl hk
        · cases h
      · rcases h with h | h <;> cases h

theorem send_close_kept (E : Env) (pp pp' : PlanPort) (X : Nat)
    (h : SendPlanCloseToPlan E pp X = .done pp' ∨ SendPlanCloseToPlan E pp X = .raised pp') :
    ClosedKept pp pp' := by
  unfold SendPlanCloseToPlan at h
  split at h
  · rcases h with h | h
    · simp only [PlanRes.done.injEq] at h
      subst h
      exact closed_kept_refl pp
    · cases h
  · dsimp only at h
    have hk := send_eof_kept E _ pp' X false h
    exact closed_kept_from _ pp _ rfl hk

/-- `HandleWriteToPlan` skips a CLOSED worker. -/
theorem write_worker_closed (E : Env)
    (gettuple_multi : List (List Nat) → StringInfo → StringInfo → Fetched) (fuel : Nat)
    (st : WSt) (hf : st.work.flags = RdcFlag.RDC_FLAG_CLOSED) :
    HandleWriteToPlan_worker E gettuple_multi fuel st = .ret () st := by
  simp [HandleWriteToPlan_worker, PortIsValid, hf]

/-- The loop of `HandleWriteToPlan` leaves the workers it finds CLOSED as
they are. -/
theorem write_workers_closed (E : Env)
    (gettuple_multi : List (List Nat) → StringInfo → StringInfo → Fetched) (fuel : Nat)
    (ws : List RdcPort) :
    ∀ (bufs2 : List StringInfo) (pp : PlanPort) (g : Globals),
      (write_workers E gettuple_multi fuel ws bufs2 pp g).after fun x =>
        x.1.length = ws.length ∧
        ∀ i w, ws.get? i = some w → w.flags = RdcFlag.RDC_FLAG_CLOSED → x.1.get? i = some w := by
  induction ws with
  | nil =>
    intro bufs2 pp g
    simp [write_workers, Res.after]
  | cons w ws ih =>
    intro bufs2 pp g
    have hcons : ∀ (w' : RdcPort) (l : List RdcPort),
        (w.flags = RdcFlag.RDC_FLAG_CLOSED → w' = w) →
        (l.length = ws.length ∧
          ∀ i v, ws.get? i = some v → v.flags = RdcFlag.RDC_FLAG_CLOSED → l.get? i = some v) →
        (w' :: l).length = (w :: ws).length ∧
          ∀ i v, (w :: ws).get? i = some v → v.flags = RdcFlag.RDC_FLAG_CLOSED →
            (w' :: l).get? i = some v := by
      intro w' l h0 h1
      refine ⟨by simp [h1.1], fun i v hi hv => ?_⟩
      cases i with
      | zero =>
        simp only [List.get?_cons_zero, Option.some.injEq] at hi ⊢
        subst hi
        exact h0 hv
      | succ j =>
        simp only [List.get?_cons_succ] at hi ⊢
        exact h1.2 j v hi hv
    have hsame : ws.length = ws.length ∧
        ∀ i v, ws.get? i = some v → v.flags = RdcFlag.RDC_FLAG_CLOSED → ws.get? i = some v :=
      ⟨rfl, fun _ _ h _ => h⟩
    have hwork : ∀ (u : Unit) (st1 : WSt),
        (HandleWriteToPlan_worker E gettuple_multi fuel
            { work := w, out_buf2 := bufs2.headD (initStringInfoExtend RDC_BUFFER_SIZE),
              pp := pp, g := g } = .ret u st1 ∨
          HandleWriteToPlan_worker E gettuple_multi fuel
            { work := w, out_buf2 := bufs2.headD (initStringInfoExtend RDC_BUFFER_SIZE),
              pp := pp, g := g } = .raised st1) →
        w.flags = RdcFlag.RDC_FLAG_CLOSED → st1.work = w := by
      intro u st1 h hf
      rw [write_worker_closed E gettuple_multi fuel _ hf] at h
      rcases h with h | h
      · simp only [Res.ret.injEq] at h
        rw [← h.2]
      · cases h
    simp only [write_workers]
    cases hl : HandleWriteToPlan_worker E gettuple_multi fuel
        { work := w, out_buf2 := bufs2.headD (initStringInfoExtend RDC_BUFFER_SIZE),
          pp := pp, g := g } with
    | stuck => trivial
    | raised st1 => exact hcons st1.work ws (hwork () st1 (Or.inr hl)) hsame
    | ret u st1 =>
      dsimp only
      have := ih bufs2.tail st1.pp st1.g
      cases hr : write_workers E gettuple_multi fuel ws bufs2.tail st1.pp st1.g with
      | stuck => trivial
      | raised x =>
        rw [hr] at this
        exact hcons st1.work x.1 (hwork u st1 (Or.inl hl)) this
      | ret u2 x =>
        rw [hr] at this
        exact hcons st1.work x.1 (hwork u st1 (Or.inl hl)) this

/-- A pass of `HandleWriteToPlan` leaves every CLOSED worker of the PlanPort
as it is. -/
theorem write_plan_closed (E : Env)
    (gettuple_multi : List (List Nat) → StringInfo → StringInfo → Fetched)
    (rdcstore_ateof : List (List Nat) → Bool) (fuel : Nat)
    (pp : PlanPort) (bufs2 : List StringInfo) (g : Globals) :
    (HandleWriteToPlan E gettuple_multi rdcstore_ateof fuel pp bufs2 g).after fun x =>
      ClosedKept pp x.1 := by
  unfold HandleWriteToPlan
  by_cases hv : (!PlanPortIsValid pp) = true
  · rw [if_pos hv]
    exact closed_kept_refl pp
  · rw [if_neg hv]
    dsimp only
    have hpp1 : ClosedKept pp
        (if (!rdcstore_ateof pp.rdcstore) = true then PlanPortAddEvents pp WAIT_SOCKET_WRITEABLE
         else pp) := by
      split
      · exact add_events_kept _ _
      · exact closed_kept_refl pp
    generalize (if (!rdcstore_ateof pp.rdcstore) = true then
      PlanPortAddEvents pp WAIT_SOCKET_WRITEABLE else pp) = pp1 at hpp1
    have := write_workers_closed E gettuple_multi fuel pp1.work_port bufs2 pp1 g
    cases hr : write_workers E gettuple_multi fuel pp1.work_port bufs2 pp1 g with
    | stuck => trivial
    | raised x =>
      rw [hr] at this
      exact closed_kept_trans pp pp1 _ hpp1 ⟨this.1, this.2⟩
    | ret u x =>
      rw [hr] at this
      exact closed_kept_trans pp pp1 _ hpp1 ⟨this.1, this.2⟩

theorem nodes_kept_refl (l : List PlanPort) : NodesKept l l :=
  fun _ pp h => ⟨pp, h, closed_kept_refl pp⟩

theorem nodes_kept_trans (a b c : List PlanPort) (h1 : NodesKept a b) (h2 : NodesKept b c) :
    NodesKept a c := by
  intro j pp h
  obtain ⟨pp1, e1, k1⟩ := h1 j pp h
  obtain ⟨pp2, e2, k2⟩ := h2 j pp1 e1
  exact ⟨pp2, e2, closed_kept_trans _ _ _ k1 k2⟩

theorem nodes_kept_append (l : List PlanPort) (x : PlanPort) : NodesKept l (l ++ [x]) := by
  intro j pp h
  refine ⟨pp, ?_, closed_kept_refl pp⟩
  simp only [List.get?_eq_getElem?] at h ⊢
  obtain ⟨hj, _⟩ := List.getElem?_eq_some_iff.1 h
  rw [List.getElem?_append_left hj]
  exact h

theorem nodes_kept_set (l : List PlanPort) (idx : Nat) (pp pp' : PlanPort)
    (h : l.get? idx = some pp) (hk : ClosedKept pp pp') : NodesKept l (l.set idx pp') := by
  intro j q hq
  simp only [List.get?_eq_getElem?] at h hq ⊢
  by_cases e : idx = j
  · subst e
    rw [h] at hq
    simp only [Option.some.injEq] at hq
    subst hq
    obtain ⟨hj, _⟩ := List.getElem?_eq_some_iff.1 h
    exact ⟨pp', by simp [hj], hk⟩
  · exact ⟨q, by rw [List.getElem?_set_ne e]; exact hq, closed_kept_refl q⟩

/-- The PlanPorts as `HandleRdcMsg` looks one up: the list itself, or the
list with a new PlanPort behind it. -/
theorem nodes_kept_found (l : List PlanPort) (c : Prop) [Decidable c] (x : PlanPort) :
    NodesKept l (if c then l else l ++ [x]) := by
  split
  · exact nodes_kept_refl l
  · exact nodes_kept_append l x

/-- One message handled by `HandleRdcMsg` keeps the CLOSED workers of every
PlanPort. -/
theorem rdc_body_kept (E : Env) (plan_newport : Nat → PlanPort) (fuel : Nat) (st : RSt) :
    (HandleRdcMsg_body E plan_newport fuel st).after fun st' =>
      NodesKept st.pln_nodes st'.pln_nodes := by
  unfold HandleRdcMsg_body
  dsimp only
  cases rdc_getbyte st.s with
  | stuck => trivial
  | raised s1 => exact nodes_kept_refl _
  | ret b s1 =>
    dsimp only
    split
    · exact nodes_kept_refl _
    · cases rdc_getbytes E fuel s1 4 with
      | stuck => trivial
      | raised s2 => exact nodes_kept_refl _
      | ret r s2 =>
        dsimp only
        split
        · exact nodes_kept_refl _
        · cases rdc_getmsgint s2.p.in_buf 4 with
          | none => exact nodes_kept_refl _
          | some x =>
            obtain ⟨len, buf3⟩ := x
            dsimp only
            cases rdc_getbytes E fuel (s2.setIn buf3)
                (toSizeT (toInt32 ((toInt32 len : Int) - 4))) with
            | stuck => trivial
            | raised s4 => exact nodes_kept_refl _
            | ret r4 s4 =>
              dsimp only
              split
              · exact nodes_kept_refl _
              · split
                · cases rdc_getmsgRdcPortID s4.p.in_buf with
                  | none => exact nodes_kept_refl _
                  | some y =>
                    obtain ⟨planid, buf5⟩ := y
                    dsimp only
                    have hn := nodes_kept_found st.pln_nodes
                      ((LookUpPlanPort st.pln_nodes planid).isSome = true)
                      (plan_newport planid)
                    generalize (if (LookUpPlanPort st.pln_nodes planid).isSome = true then
                        st.pln_nodes else st.pln_nodes ++ [plan_newport planid]) = nodes1 at hn
                    generalize (LookUpPlanPort st.pln_nodes planid).getD st.pln_nodes.length =
                      idx
                    cases hg : nodes1.get? idx with
                    | none => trivial
                    | some pln_port =>
                      dsimp only
                      split
                      · cases rdc_getmsgbytes (s4.setIn buf5).p.in_buf
                            (toInt32 (toInt32 ((toInt32 len : Int) - 4) - 8)) with
                        | none => exact hn
                        | some z =>
                          obtain ⟨data, buf6⟩ := z
                          dsimp only
                          split
                          · exact hn
                          · exact nodes_kept_trans _ _ _ hn
                              (nodes_kept_set _ _ _ _ hg (send_data_kept E _ _ _))
                      · split
                        · exact hn
                        · split
                          · rename_i hres
                            trivial
                          · rename_i pp hres
                            refine nodes_kept_trans _ _ _ hn (nodes_kept_set _ _ _ _ hg ?_)
                            split at hres
                            · exact send_eof_kept E _ _ _ _ (Or.inr hres)
                            · exact send_close_kept E _ _ _ (Or.inr hres)
                          · rename_i pp hres
                            refine nodes_kept_trans _ _ _ hn (nodes_kept_set _ _ _ _ hg ?_)
                            split at hres
                            · exact send_eof_kept E _ _ _ _ (Or.inl hres)
                            · exact send_close_kept E _ _ _ (Or.inl hres)
                · split
                  · exact nodes_kept_refl _
                  · exact nodes_kept_refl _

/-- `HandleRdcMsg` keeps the CLOSED workers of every PlanPort. -/
theorem rdc_msg_kept (E : Env) (plan_newport : Nat → PlanPort) (fuel : Nat) :
    ∀ st : RSt, (HandleRdcMsg E plan_newport fuel st).after fun st' =>
      NodesKept st.pln_nodes st'.pln_nodes := by
  induction fuel with
  | zero => intro st; trivial
  | succ fuel ih =>
    intro st
    rw [HandleRdcMsg]
    have hb := rdc_body_kept E plan_newport (fuel + 1) st
    cases hr : HandleRdcMsg_body E plan_newport (fuel + 1) st with
    | stuck => trivial
    | raised st1 => rw [hr] at hb; exact hb
    | ret go st1 =>
      rw [hr] at hb
      cases go with
      | false => exact hb
      | true =>
        dsimp only
        have h2 := ih st1
        cases hx : HandleRdcMsg E plan_newport fuel st1 with
        | stuck => trivial
        | raised st2 => rw [hx] at h2; exact nodes_kept_trans _ _ _ hb h2
        | ret u st2 => rw [hx] at h2; exact nodes_kept_trans _ _ _ hb h2

/-- C15 (amended): when `HandlePlanMsg` marks a worker port CLOSED on a
PLAN_CLOSE frame, the port has `flags = CLOSED` and no wait events, and its
socket is left as it was.  Every later operation of the dispatcher leaves
every CLOSED worker of a PlanPort as it is: a pass of `HandleReadFromPlan`, a
pass of `HandleWriteToPlan`, the messages that `HandleRdcMsg` reads from a
peer reducer, and `SendRdcDataToPlan`, `SendRdcEofToPlan` and
`SendPlanCloseToPlan`, whether they return or report an error.  So a CLOSED
worker without wait events goes on having `flags = CLOSED`, no wait events
and the socket it had. -/
theorem closed_worker_events (E : Env) (fuel : Nat) (st : HSt) (T rest : List Nat)
    (hun : st.work.in_buf.unread = frame E.MSG_PLAN_CLOSE (targets_payload T) ++ rest)
    (hlen : st.work.in_buf.len < 2 ^ 31) (htag : IsTag E.MSG_PLAN_CLOSE)
    (hne : E.MSG_PLAN_CLOSE ≠ E.MSG_P2R_DATA ∧ E.MSG_PLAN_CLOSE ≠ E.MSG_EOF)
    (hlt : ∀ t ∈ T, t < 2 ^ 64) (hnd : T.Nodup) (hids : (st.R.nodes.map fun m => m.id).Nodup)
    (hint : st.R.g.InterruptPending = false)
    (hready : ∀ t ∈ T, t ≠ E.MyReduceId → ∃ n ∈ st.R.nodes, n.id = t ∧ ∃ port,
      n.port = some port ∧
        port.ready E (fuel + 2) st.R.g (frame E.MSG_PLAN_CLOSE (beEncode 8 st.work.peer_id)))
    (hend : E.rdc_getmsgend
      (st.work.in_buf.adv (frame E.MSG_PLAN_CLOSE (targets_payload T)).length) = true) :
    (∃ st', HandlePlanMsg E (fuel + 2) st = .ret EOF st' ∧
      st'.work.flags = RdcFlag.RDC_FLAG_CLOSED ∧ st'.work.wait_events = WAIT_NONE ∧
      st'.work.sock = st.work.sock) ∧
    (∀ (rdc_try_read_some : PSt → Res PSt Int) (fuel' : Nat) (pp : PlanPort) (R : Reducer),
      (HandleReadFromPlan E rdc_try_read_some fuel' pp R).after fun x => ClosedKept pp x.1) ∧
    (∀ (gettuple_multi : List (List Nat) → StringInfo → StringInfo → Fetched)
        (rdcstore_ateof : List (List Nat) → Bool) (fuel' : Nat) (pp : PlanPort)
        (bufs2 : List StringInfo) (g : Globals),
      (HandleWriteToPlan E gettuple_multi rdcstore_ateof fuel' pp bufs2 g).after fun x =>
        ClosedKept pp x.1) ∧
    (∀ (plan_newport : Nat → PlanPort) (fuel' : Nat) (rs : RSt),
      (HandleRdcMsg E plan_newport fuel' rs).after fun rs' =>
        NodesKept rs.pln_nodes rs'.pln_nodes) ∧
    (∀ (pp : PlanPort) (X : Nat) (d : List Nat), ClosedKept pp (SendRdcDataToPlan E pp X d)) ∧
    (∀ (pp pp' : PlanPort) (X : Nat) (b : Bool),
      SendRdcEofToPlan E pp X b = .done pp' ∨ SendRdcEofToPlan E pp X b = .raised pp' →
      ClosedKept pp pp') ∧
    (∀ (pp pp' : PlanPort) (X : Nat),
      SendPlanCloseToPlan E pp X = .done pp' ∨ SendPlanCloseToPlan E pp X = .raised pp' →
      ClosedKept pp pp') ∧
    (∀ (pp pp' : PlanPort), ClosedKept pp pp' →
      pp'.work_port.length = pp.work_port.length ∧
      ∀ i w, pp.work_port.get? i = some w → w.flags = RdcFlag.RDC_FLAG_CLOSED →
        w.wait_events = WAIT_NONE →
        ∃ w', pp'.work_port.get? i = some w' ∧ w'.flags = RdcFlag.RDC_FLAG_CLOSED ∧
          w'.wait_events = WAIT_NONE ∧ w'.sock = w.sock) := by
  obtain ⟨R', hcall⟩ := plan_close_step E fuel st T rest hun hlen htag hne hlt hnd hids hint
    hready hend
  refine ⟨⟨_, hcall, rfl, rfl, rfl⟩, fun rdc_try_read_some fuel' pp R => ?_,
    fun gm ateof fuel' pp bufs2 g => write_plan_closed E gm ateof fuel' pp bufs2 g,
    fun pn fuel' rs => rdc_msg_kept E pn fuel' rs,
    fun pp X d => send_data_kept E pp X d,
    fun pp pp' X b h => send_eof_kept E pp pp' X b h,
    fun pp pp' X h => send_close_kept E pp pp' X h,
    fun pp pp' hk => ⟨hk.1, fun i w hi hf he => ⟨w, hk.2 i w hi hf, hf, he, rfl⟩⟩⟩
  have := read_plan_closed E rdc_try_read_some fuel' pp R
  cases hr : HandleReadFromPlan E rdc_try_read_some fuel' pp R with
  | stuck => trivial
  | raised x =>
    rw [hr] at this
    exact ⟨this.1, this.2⟩
  | ret u x =>
    rw [hr] at this
    exact ⟨this.1, this.2⟩

theorem closed_worker_events_witness :
    ∃ st', HandlePlanMsg exEnv (0 + 2) (exPlanIn (frame 67 (targets_payload [2, 3]))) =
        .ret EOF st' ∧
      st'.work.flags = RdcFlag.RDC_FLAG_CLOSED ∧ st'.work.wait_events = WAIT_NONE ∧
      st'.work.sock = (exPlanIn (frame 67 (targets_payload [2, 3]))).work.sock :=
  (closed_worker_events exEnv 0 (exPlanIn (frame 67 (targets_payload [2, 3]))) [2, 3] []
    (by decide) (by decide) (by decide) (by decide) (by decide) (by decide) (by decide) rfl
    (by
      intro t ht hself
      simp only [List.mem_cons, List.mem_singleton, List.not_mem_nil, or_false] at ht
      rcases ht with h | h
      · subst h
        exact ⟨{ id := 2, port := some (exPeer 2) }, by decide, rfl, exPeer 2, rfl,
          rfl, by decide, _, rfl, trivial⟩
      · subst h
        exact ⟨{ id := 3, port := some (exPeer 3) }, by decide, rfl, exPeer 3, rfl,
          rfl, by decide, _, rfl, trivial⟩)
    rfl).1

/-- A PlanPort with a CLOSED worker and an open one armed for writing: a pass
of `HandleWriteToPlan` with frames in the store, which arms WRITABLE on the
live workers first, sends on the open worker and leaves the CLOSED one as it
is, without wait events. -/
theorem write_pass_sample :
    ∃ x, HandleWriteToPlan exEnv rdcstore_gettuple_multi (fun l => l.isEmpty) 3
        { exPlanPort with
          work_port := [exClosedWorker, (exWriter []).work],
          rdcstore := [frame 84 (beEncode 8 2 ++ [7])] }
        [] exGlobals = .ret () x ∧
      x.1.work_port.map (fun w => (w.flags, w.wait_events.writable, w.wire)) =
        [(RdcFlag.RDC_FLAG_CLOSED, false, []),
         (RdcFlag.RDC_FLAG_VALID, false, frame 84 (beEncode 8 2 ++ [7]))] :=
  ⟨_, rfl, rfl⟩

end Rdc
